import Mathlib

/-!
# Tachograph D8 serial decoder (tacho.c): shallow embedding and verified properties

Conventions of the embedding.

* A `uint8_t` / `uint16_t` value is a natural number; every store that can
  leave the range of its C type is reduced `% 256` / `% 65536` explicitly.
  Increments and decrements that the source guards (`count++` under
  `128 > count`, `count--` under `0 < count`) are written without reduction.
* A C array is a `List Nat`; `a[i] = v` is `List.set`, a read is `List.getD`.
* The pointers `head` and `tail` of the reception queue are represented by
  their offset from `buffer_start = &data[0]`; `buffer_end = &data[127]` is
  offset `TACHO_RX_QUEUE_SIZE - 1` (both are fixed once by `Tacho_Init`).
* Module-level statics are fields of `Tacho_State`; calls that leave the
  module (FMI, FRAM, USART2) and the two cache-publishing routines append an
  entry to `Tacho_State.trace`, so that "was executed" is observable.
-/

namespace Tacho

/-! ## Constants (tacho.c, tacho.h, tacho_countries.h) -/

def TACHO_MAX_FRAMING_ERRORS : Nat := 5
def TACHO_MAX_FAILED_ATTEMPTS : Nat := 2
def TACHO_RX_QUEUE_SIZE : Nat := 128
def TACHO_MAX_DRIVERS : Nat := 2
def TACHO_MAX_CARD_NR : Nat := 16
def TACHO_MAX_COUNTRY_CODE : Nat := 3
def TACHO_MAX_DRIVER_ID : Nat := 20
def TACHO_MAX_DI_MSG : Nat := 2 * TACHO_MAX_DRIVER_ID + 1
def TACHO_TCO1_SIZE : Nat := 8

def TACHO_VDO_SEQSZ : Nat := 5
def TACHO_VDO_CRC_INIT : Nat := 0x49
def TACHO_VDO_CC_POS : Nat := 1

def TACHO_SR_SEQSZ : Nat := 3
def TACHO_SR_MSG_LEN_MIN : Nat := 45
def TACHO_SR_MSG_LEN_MAX : Nat := 48

/-! ## Reception queue -/

/-- Circular buffer used for reception (`Tacho_RxQueue_t`); `head` and `tail`
are offsets from `buffer_start`. -/
structure Tacho_RxQueue_t where
  data : List Nat
  head : Nat
  tail : Nat
  count : Nat
  error_counter : Nat
  failed_attempts : Nat
deriving DecidableEq, Repr

/-- Offset of `buffer_start` (set to `&data[0]` by `Tacho_Init`). -/
def buffer_start : Nat := 0

/-- Offset of `buffer_end` (set to `&data[TACHO_RX_QUEUE_SIZE - 1]` by `Tacho_Init`). -/
def buffer_end : Nat := TACHO_RX_QUEUE_SIZE - 1

/-- Clears the reception buffer (`Tacho_ClearRxQueue`). -/
def Tacho_ClearRxQueue (q : Tacho_RxQueue_t) : Tacho_RxQueue_t :=
  { q with count := 0, error_counter := 0, failed_attempts := 0,
           head := buffer_start, tail := buffer_start }

/-- Add byte to reception buffer (`Tacho_QueueAddByte`); the Boolean is `opSuccess`. -/
def Tacho_QueueAddByte (q : Tacho_RxQueue_t) (rx_byte : Nat) : Tacho_RxQueue_t × Bool :=
  if TACHO_RX_QUEUE_SIZE > q.count then
    ({ q with count := q.count + 1,
              data := q.data.set q.tail rx_byte,
              tail := if buffer_end = q.tail then buffer_start else q.tail + 1 }, true)
  else
    (q, false)

/-- Read and remove byte from reception buffer (`Tacho_FetchByte`); `some b`
stands for return value `TRUE` with `*byte_val = b`, `none` for `FALSE`
(`*byte_val` untouched). -/
def Tacho_FetchByte (q : Tacho_RxQueue_t) : Tacho_RxQueue_t × Option Nat :=
  if 0 < q.count then
    ({ q with count := q.count - 1,
              head := if buffer_end = q.head then buffer_start else q.head + 1 },
     some (q.data.getD q.head 0))
  else
    (q, none)

/-- One operation on the reception queue. -/
inductive QueueOp where
  | push (rx_byte : Nat)
  | pop
deriving DecidableEq, Repr

/-- Observable result of one queue operation. -/
inductive QueueRes where
  | pushed (opSuccess : Bool)
  | popped (byte_val : Option Nat)
deriving DecidableEq, Repr

/-- Applies a sequence of queue operations to the code's queue, collecting the results. -/
def runQueue : Tacho_RxQueue_t → List QueueOp → Tacho_RxQueue_t × List QueueRes
  | q, [] => (q, [])
  | q, QueueOp.push b :: ops =>
      let r := Tacho_QueueAddByte q b
      let rest := runQueue r.1 ops
      (rest.1, QueueRes.pushed r.2 :: rest.2)
  | q, QueueOp.pop :: ops =>
      let r := Tacho_FetchByte q
      let rest := runQueue r.1 ops
      (rest.1, QueueRes.popped r.2 :: rest.2)

/-- Abstract bounded FIFO of the specification: push appends when fewer than
128 bytes are held. -/
def specPush (l : List Nat) (b : Nat) : List Nat × Bool :=
  if l.length < 128 then (l ++ [b], true) else (l, false)

/-- Abstract bounded FIFO of the specification: pop removes and returns the
oldest byte, or fails when empty. -/
def specPop : List Nat → List Nat × Option Nat
  | [] => ([], none)
  | x :: xs => (xs, some x)

/-- Applies a sequence of queue operations to the abstract FIFO. -/
def runSpecFifo : List Nat → List QueueOp → List Nat × List QueueRes
  | l, [] => (l, [])
  | l, QueueOp.push b :: ops =>
      let r := specPush l b
      let rest := runSpecFifo r.1 ops
      (rest.1, QueueRes.pushed r.2 :: rest.2)
  | l, QueueOp.pop :: ops =>
      let r := specPop l
      let rest := runSpecFifo r.1 ops
      (rest.1, QueueRes.popped r.2 :: rest.2)

/-- The bytes held by the queue, oldest first: `count` bytes read from `head`
with wrap-around. -/
def queueContents (q : Tacho_RxQueue_t) : List Nat :=
  (List.range q.count).map (fun i => q.data.getD ((q.head + i) % TACHO_RX_QUEUE_SIZE) 0)

/-- Representation invariant of an initialised queue. -/
def QueueInv (q : Tacho_RxQueue_t) : Prop :=
  q.data.length = TACHO_RX_QUEUE_SIZE ∧ q.head < TACHO_RX_QUEUE_SIZE ∧
  q.count ≤ TACHO_RX_QUEUE_SIZE ∧ q.tail = (q.head + q.count) % TACHO_RX_QUEUE_SIZE

/-- Pops `n` times, collecting the results. -/
def popN : Tacho_RxQueue_t → Nat → List (Option Nat)
  | _, 0 => []
  | q, n + 1 => (Tacho_FetchByte q).2 :: popN (Tacho_FetchByte q).1 n

/-! ## Country look-up table (tacho_countries.c) -/

def TACHO_COUNTRY_ENTRIES : Nat := 60

/-- The table `Tacho_Countries`: code and 3-character country string (as byte values). -/
def Tacho_Countries : List (Nat × List Nat) :=
  [
    (0x00, [32, 32, 32]),  -- "   " No information available
    (0x01, [65, 32, 32]),  -- "A  " Austria
    (0x02, [65, 76, 32]),  -- "AL " Albania
    (0x03, [65, 78, 68]),  -- "AND" Andorra
    (0x04, [65, 82, 77]),  -- "ARM" Armenia
    (0x05, [65, 90, 32]),  -- "AZ " Azerbaijan
    (0x06, [66, 32, 32]),  -- "B  " Belgium
    (0x07, [66, 71, 32]),  -- "BG " Bulgaria
    (0x08, [66, 73, 72]),  -- "BIH" Bosnia Herzegovina
    (0x09, [66, 89, 32]),  -- "BY " Belarus
    (0x0A, [67, 72, 32]),  -- "CH " Switzerland
    (0x0B, [67, 89, 32]),  -- "CY " Cyprus
    (0x0C, [67, 90, 32]),  -- "CZ " Czech Republic
    (0x0D, [68, 32, 32]),  -- "D  " Germany
    (0x0E, [68, 75, 32]),  -- "DK " Denmark
    (0x0F, [69, 32, 32]),  -- "E  " Spain
    (0x10, [69, 83, 84]),  -- "EST" Estonia
    (0x11, [70, 32, 32]),  -- "F  " France
    (0x12, [70, 73, 78]),  -- "FIN" Finland
    (0x13, [70, 76, 32]),  -- "FL " Liechtenstein
    (0x14, [70, 79, 32]),  -- "FO " Faroe Islands
    (0x15, [85, 75, 32]),  -- "UK " United Kingdom
    (0x16, [71, 69, 32]),  -- "GE " Georgia
    (0x17, [71, 82, 32]),  -- "GR " Greece
    (0x18, [72, 32, 32]),  -- "H  " Hungary
    (0x19, [72, 82, 32]),  -- "HR " Croatia
    (0x1A, [73, 32, 32]),  -- "I  " Italy
    (0x1B, [73, 82, 76]),  -- "IRL" Ireland
    (0x1C, [73, 83, 32]),  -- "IS " Iceland
    (0x1D, [75, 90, 32]),  -- "KZ " Kazakhstan
    (0x1E, [76, 32, 32]),  -- "L  " Luxembourg
    (0x1F, [76, 84, 32]),  -- "LT " Lithuania
    (0x20, [76, 86, 32]),  -- "LV " Latvia
    (0x21, [77, 32, 32]),  -- "M  " Malta
    (0x22, [77, 67, 32]),  -- "MC " Monaco
    (0x23, [77, 68, 32]),  -- "MD " Moldova
    (0x24, [77, 75, 32]),  -- "MK " Macedonia (FYROM)
    (0x25, [78, 32, 32]),  -- "N  " Norway
    (0x26, [78, 76, 32]),  -- "NL " Netherlands
    (0x27, [80, 32, 32]),  -- "P  " Portugal
    (0x28, [80, 76, 32]),  -- "PL " Poland
    (0x29, [82, 79, 32]),  -- "RO " Romania
    (0x2A, [82, 83, 77]),  -- "RSM" San Marino
    (0x2B, [82, 85, 83]),  -- "RUS" Russia
    (0x2C, [83, 32, 32]),  -- "S  " Sweden
    (0x2D, [83, 75, 32]),  -- "SK " Slovakia
    (0x2E, [83, 76, 79]),  -- "SLO" Slovenia
    (0x2F, [84, 77, 32]),  -- "TM " Turkmenistan
    (0x30, [84, 82, 32]),  -- "TR " Turkey
    (0x31, [85, 65, 32]),  -- "UA " Ukraine
    (0x32, [86, 32, 32]),  -- "V  " Vatican City
    (0x33, [89, 85, 32]),  -- "YU " Yugoslavia (Code no longer in use since 2003)
    (0x34, [77, 78, 69]),  -- "MNE" Montenegro
    (0x35, [83, 82, 66]),  -- "SRB" Serbia
    (0x36, [85, 90, 32]),  -- "UZ " Uzbekistan
    (0x37, [84, 74, 32]),  -- "TJ " Tajikistan
    (0xFD, [69, 67, 32]),  -- "EC " European Community
    (0xFE, [69, 85, 82]),  -- "EUR" Rest of Europe
    (0xFF, [87, 76, 68]),  -- "WLD" Rest of the World
    (0x38, [82, 70, 85])  -- "RFU" Reserved for Future Use (also used for default return value)
  ]

/-- Linear search of `Tacho_GetCountryCode` over the table entries from index `i` on. -/
def Tacho_GetCountryCode_loop (code : Nat) : List (Nat × List Nat) → Option (List Nat)
  | [] => none
  | e :: rest => if e.1 = code then some e.2 else Tacho_GetCountryCode_loop code rest

/-- Country string for a code (`Tacho_GetCountryCode`); the last table entry is
the default return value. -/
def Tacho_GetCountryCode (code : Nat) : List Nat :=
  match Tacho_GetCountryCode_loop code Tacho_Countries with
  | some country => country
  | none => (Tacho_Countries.getD (TACHO_COUNTRY_ENTRIES - 1) (0, [])).2

/-! ## Decoder data model (tacho.c, tacho.h) -/

/-- Known types of Tachograph D8 serial output protocols (`Tacho_Standard_t`). -/
inductive Tacho_Standard_t where
  | TACHO_STANDARD_VDO
  | TACHO_STANDARD_STONERIDGE
  | TACHO_STANDARD_MAX
deriving DecidableEq, Repr

/-- Driver index (`Tacho_DriverIdx_t`). -/
inductive Tacho_DriverIdx_t where
  | TACHO_DRIVER1
  | TACHO_DRIVER2
deriving DecidableEq, Repr

/-- Driver ID (`Tacho_DriverID_t`): `country[3]` and `cardnr[16]`. -/
structure Tacho_DriverID_t where
  country : List Nat
  cardnr : List Nat
deriving DecidableEq, Repr

/-- Real-time data received from the tachograph (`Tacho_Frame_t`);
`driver_DRIVER1` is `driver[TACHO_DRIVER1]`, `driver_DRIVER2` is `driver[TACHO_DRIVER2]`. -/
structure Tacho_Frame_t where
  working_state : Nat
  driver1_state : Nat
  driver2_state : Nat
  tacho_status : Nat
  speed_msb : Nat
  speed_lsb : Nat
  driver_DRIVER1 : Tacho_DriverID_t
  driver_DRIVER2 : Tacho_DriverID_t
deriving DecidableEq, Repr

/-- Cached data (`Tacho_CachedData_t`): `tco1[8]`, `tco1_cmn[8]`, `di[41]`. -/
structure Tacho_CachedData_t where
  tco1 : List Nat
  tco1_cmn : List Nat
  di : List Nat
deriving DecidableEq, Repr

/-- VDO-specific internal data (`Tacho_VdoData_t`). -/
structure Tacho_VdoData_t where
  index : Nat
  cstr_pos : Nat
  drv1_pos : Nat
  drv2_pos : Nat
  crc8_pos : Nat
  crc8_value : Nat
deriving DecidableEq, Repr

/-- Stoneridge-specific internal data (`Tacho_SrData_t`). -/
structure Tacho_SrData_t where
  index : Nat
  drv1_pos : Nat
  drv2_pos : Nat
  crc8_pos : Nat
  crc8_value : Nat
deriving DecidableEq, Repr

/-- Observable calls, in program order: the two cache-publishing routines of
the module and the calls that leave it; `start_seq_read_past_end` marks a read
of `start_seq[index]` with `index` not below the sequence size. -/
inductive Tacho_Event where
  | CopyToCache
  | NotifyFrameReceived
  | FMI_process_j1939_event_TCO1_AVAILABLE
  | USART2_init
  | USART2_close
  | USART2_set_baudrate (baudRate : Nat)
  | FRAM_WriteByte_TACHO_PROTO (data : Nat)
  | start_seq_read_past_end (index : Nat)
deriving DecidableEq, Repr

/-- Protocol configuration (`Tacho_Protocol_t`). -/
structure Tacho_Protocol_t where
  start_seq : List Nat
  start_sz : Nat
  baudRate : Nat
deriving DecidableEq, Repr

/-- The function a non-NULL `Tacho_Handler` points to. -/
inductive Tacho_Handler_t where
  | Tacho_VdoHandler
  | Tacho_StoneridgeHandler
deriving DecidableEq, Repr

/-- All module-level state of tacho.c, the two function-local statics of
`Tacho_Task` (`perform_sync`, `index`) and the log of observable calls.
`Tacho_Proto` points into the constant table `Tacho_Protocol`, so it is
represented by the entry it points to (`none` is NULL). -/
structure Tacho_State where
  Tacho_RxQueue : Tacho_RxQueue_t
  Tacho_Frame : Tacho_Frame_t
  Tacho_CachedData : Tacho_CachedData_t
  vdo : Tacho_VdoData_t
  sr : Tacho_SrData_t
  Tacho_SelectedStandard : Tacho_Standard_t
  Tacho_Proto : Option Tacho_Protocol_t
  Tacho_Handler : Option Tacho_Handler_t
  perform_sync : Bool
  index : Nat
  trace : List Tacho_Event
deriving DecidableEq, Repr

/-- Reads `driver[idx]` of the frame. -/
def Tacho_Frame_t.driver (f : Tacho_Frame_t) : Tacho_DriverIdx_t → Tacho_DriverID_t
  | Tacho_DriverIdx_t.TACHO_DRIVER1 => f.driver_DRIVER1
  | Tacho_DriverIdx_t.TACHO_DRIVER2 => f.driver_DRIVER2

/-- Replaces `driver[idx]` of the frame. -/
def Tacho_Frame_t.setDriver (f : Tacho_Frame_t) (idx : Tacho_DriverIdx_t)
    (d : Tacho_DriverID_t) : Tacho_Frame_t :=
  match idx with
  | Tacho_DriverIdx_t.TACHO_DRIVER1 => { f with driver_DRIVER1 := d }
  | Tacho_DriverIdx_t.TACHO_DRIVER2 => { f with driver_DRIVER2 := d }

/-! ## Frame cache and notification -/

/-- The statement sequence `di[dindex++] = b` for each `b` of `bs`, in order. -/
def writeDi : List Nat × Nat → List Nat → List Nat × Nat
  | acc, [] => acc
  | acc, b :: bs => writeDi (acc.1.set acc.2 b, (acc.2 + 1) % 256) bs

/-- Body of the driver loop of `Tacho_CopyToCache` for one driver. -/
def Tacho_CopyToCache_driver (acc : List Nat × Nat) (d : Tacho_DriverID_t) : List Nat × Nat :=
  let acc1 :=
    if d.cardnr.getD 0 0 ≠ 0 then
      let a := writeDi acc ((List.range TACHO_MAX_COUNTRY_CODE).map (fun j => d.country.getD j 0))
      writeDi a ((List.range TACHO_MAX_CARD_NR).map (fun j => d.cardnr.getD j 0))
    else acc
  writeDi acc1 [42]

/-- Copies the data received from D8 to the cache (`Tacho_CopyToCache`);
42 is the delimiter character `*`. -/
def Tacho_CopyToCache (s : Tacho_State) : Tacho_State :=
  let f := s.Tacho_Frame
  let tco1 := [f.working_state, f.driver1_state, f.driver2_state, f.tacho_status,
               0xFF, 0xFF, f.speed_lsb, f.speed_msb]
  let a0 : List Nat × Nat := (s.Tacho_CachedData.di, 0)
  let a1 := Tacho_CopyToCache_driver a0 (f.driver Tacho_DriverIdx_t.TACHO_DRIVER1)
  let a2 := Tacho_CopyToCache_driver a1 (f.driver Tacho_DriverIdx_t.TACHO_DRIVER2)
  let a3 := writeDi a2 [0]
  { s with Tacho_CachedData := { s.Tacho_CachedData with tco1 := tco1, di := a3.1 },
           trace := s.trace ++ [Tacho_Event.CopyToCache] }

/-- Common notification function (`Tacho_NotifyFrameReceived`); `none` is a
NULL `tco1_data`. Only the first 4 bytes are compared (`TACHO_TCO1_RB4 = 4`). -/
def Tacho_NotifyFrameReceived (s : Tacho_State) (tco1_data : Option (List Nat)) : Tacho_State :=
  let s0 := { s with trace := s.trace ++ [Tacho_Event.NotifyFrameReceived] }
  match tco1_data with
  | none => s0
  | some d =>
    let dataChanged :=
      (List.range 4).any (fun i => s0.Tacho_CachedData.tco1_cmn.getD i 0 != d.getD i 0)
    if dataChanged then
      let cmn := (List.range TACHO_TCO1_SIZE).foldl (fun c i => c.set i (d.getD i 0))
                   s0.Tacho_CachedData.tco1_cmn
      { s0 with Tacho_CachedData := { s0.Tacho_CachedData with tco1_cmn := cmn },
                trace := s0.trace ++ [Tacho_Event.FMI_process_j1939_event_TCO1_AVAILABLE] }
    else s0

/-! ## VDO state machine -/

/-- Copies the DIN fields from the D8 VDO frame to the corresponding buffers
(`Tacho_VdoCopyDIN`), acting on the driver whose buffers are passed. -/
def Tacho_VdoCopyDIN (pos rx_byte : Nat) (d : Tacho_DriverID_t) : Tacho_DriverID_t :=
  if pos = TACHO_VDO_CC_POS then
    let readCode := Tacho_GetCountryCode rx_byte
    { d with country := (List.range TACHO_MAX_COUNTRY_CODE).foldl
                          (fun c i => c.set i (readCode.getD i 0)) d.country }
  else if pos > TACHO_VDO_CC_POS then
    let pos1 := pos - (TACHO_VDO_CC_POS + 1)
    if pos1 < TACHO_MAX_CARD_NR then { d with cardnr := d.cardnr.set pos1 rx_byte } else d
  else d

/-- Checks if received byte contains data from a VDO DIN field (`Tacho_VdoCheckDIN`).
The subtractions computing `pos` are guarded by `drvN_pos < index`. -/
def Tacho_VdoCheckDIN (s : Tacho_State) (rx_byte : Nat) : Tacho_State :=
  let f := s.Tacho_Frame
  let d1 := f.driver Tacho_DriverIdx_t.TACHO_DRIVER1
  let d2 := f.driver Tacho_DriverIdx_t.TACHO_DRIVER2
  if s.vdo.drv1_pos = s.vdo.index then
    if rx_byte = 0 then
      { s with Tacho_Frame := f.setDriver Tacho_DriverIdx_t.TACHO_DRIVER1
                                { d1 with cardnr := d1.cardnr.set 0 0 } }
    else s
  else if s.vdo.drv1_pos < s.vdo.index ∧ s.vdo.index < s.vdo.drv2_pos then
    let pos := s.vdo.index - s.vdo.drv1_pos - 1
    { s with Tacho_Frame := f.setDriver Tacho_DriverIdx_t.TACHO_DRIVER1
                              (Tacho_VdoCopyDIN pos rx_byte d1) }
  else if s.vdo.drv2_pos = s.vdo.index then
    if rx_byte = 0 then
      { s with Tacho_Frame := f.setDriver Tacho_DriverIdx_t.TACHO_DRIVER2
                                { d2 with cardnr := d2.cardnr.set 0 0 } }
    else s
  else if s.vdo.drv2_pos < s.vdo.index ∧ s.vdo.index < s.vdo.crc8_pos then
    let pos := s.vdo.index - s.vdo.drv2_pos - 1
    { s with Tacho_Frame := f.setDriver Tacho_DriverIdx_t.TACHO_DRIVER2
                              (Tacho_VdoCopyDIN pos rx_byte d2) }
  else s

/-- The initial VDO run-state written by `Tacho_VdoInitHandler`. -/
def vdoInitial : Tacho_VdoData_t :=
  { index := TACHO_VDO_SEQSZ, crc8_value := TACHO_VDO_CRC_INIT,
    cstr_pos := 0xFF, drv1_pos := 0xFF, drv2_pos := 0xFF, crc8_pos := 0xFF }

/-- Initializes internal data for the VDO protocol (`Tacho_VdoInitHandler`). -/
def Tacho_VdoInitHandler (s : Tacho_State) : Tacho_State :=
  { s with vdo := vdoInitial }

/-- The `switch (vdo.index)` of `Tacho_VdoHandler`. -/
def Tacho_VdoHandler_switch (s : Tacho_State) (rx_byte : Nat) : Tacho_State :=
  if s.vdo.index = 14 then { s with Tacho_Frame := { s.Tacho_Frame with working_state := rx_byte } }
  else if s.vdo.index = 15 then { s with Tacho_Frame := { s.Tacho_Frame with driver1_state := rx_byte } }
  else if s.vdo.index = 16 then { s with Tacho_Frame := { s.Tacho_Frame with driver2_state := rx_byte } }
  else if s.vdo.index = 17 then { s with Tacho_Frame := { s.Tacho_Frame with tacho_status := rx_byte } }
  else if s.vdo.index = 18 then { s with Tacho_Frame := { s.Tacho_Frame with speed_lsb := rx_byte } }
  else if s.vdo.index = 19 then { s with Tacho_Frame := { s.Tacho_Frame with speed_msb := rx_byte } }
  else if s.vdo.index = 34 then { s with vdo := { s.vdo with cstr_pos := (34 + rx_byte + 1) % 256 } }
  else s

/-- The if-chain of `Tacho_VdoHandler` after `Tacho_VdoCheckDIN`: `none` is the
end-of-frame branch (`crc8_pos == index`), `some` the state with which the
function falls through to "frame is still being processed". -/
def Tacho_VdoHandler_chain (s : Tacho_State) (rx_byte : Nat) : Option Tacho_State :=
  if s.vdo.cstr_pos = s.vdo.index then
    some { s with vdo := { s.vdo with drv1_pos := (s.vdo.cstr_pos + rx_byte + 1) % 256 } }
  else if s.vdo.drv1_pos = s.vdo.index then
    some { s with vdo := { s.vdo with drv2_pos := (s.vdo.drv1_pos + rx_byte + 1) % 256 } }
  else if s.vdo.drv2_pos = s.vdo.index then
    some { s with vdo := { s.vdo with crc8_pos := (s.vdo.drv2_pos + rx_byte + 1) % 256 } }
  else if s.vdo.crc8_pos = s.vdo.index then none
  else some s

/-- Handles data coming from a VDO-type tachograph (`Tacho_VdoHandler`); the
Boolean is TRUE when end of frame is detected. -/
def Tacho_VdoHandler (s : Tacho_State) (rx_byte : Nat) : Tacho_State × Bool :=
  let s2 := Tacho_VdoCheckDIN (Tacho_VdoHandler_switch s rx_byte) rx_byte
  match Tacho_VdoHandler_chain s2 rx_byte with
  | none =>
    let s3 :=
      if rx_byte = s2.vdo.crc8_value then
        let c := Tacho_CopyToCache s2
        Tacho_NotifyFrameReceived c (some c.Tacho_CachedData.tco1)
      else s2
    (Tacho_VdoInitHandler s3, true)
  | some s3 =>
    ({ s3 with vdo := { s3.vdo with crc8_value := s3.vdo.crc8_value ^^^ rx_byte,
                                    index := (s3.vdo.index + 1) % 256 } }, false)

/-! ## Stoneridge state machine -/

/-- Copies the DIN fields from the D8 Stoneridge frame to the corresponding
buffers (`Tacho_StoneridgeCopyDIN`), for the driver `idx` whose buffers are passed. -/
def Tacho_StoneridgeCopyDIN (s : Tacho_State) (pos rx_byte : Nat) (idx : Tacho_DriverIdx_t) :
    Tacho_State :=
  let d := s.Tacho_Frame.driver idx
  if rx_byte = 0xFF ∧ pos = 0 then
    { s with Tacho_Frame := s.Tacho_Frame.setDriver idx { d with cardnr := d.cardnr.set 0 0 },
             sr := { s.sr with drv1_pos := 0xFF, drv2_pos := 0xFF } }
  else if pos < TACHO_MAX_COUNTRY_CODE then
    { s with Tacho_Frame := s.Tacho_Frame.setDriver idx
                              { d with country := d.country.set pos rx_byte } }
  else
    { s with Tacho_Frame := s.Tacho_Frame.setDriver idx
                              { d with cardnr := d.cardnr.set (pos - TACHO_MAX_COUNTRY_CODE) rx_byte } }

/-- Checks if received byte contains data from a Stoneridge DIN field
(`Tacho_StoneridgeCheckDIN`). -/
def Tacho_StoneridgeCheckDIN (s : Tacho_State) (rx_byte : Nat) : Tacho_State :=
  if s.sr.drv1_pos = 0xFF ∧ s.sr.drv2_pos = 0xFF then s
  else if s.sr.drv1_pos ≤ s.sr.index ∧ s.sr.index < s.sr.crc8_pos - 1 then
    Tacho_StoneridgeCopyDIN s (s.sr.index - s.sr.drv1_pos) rx_byte Tacho_DriverIdx_t.TACHO_DRIVER1
  else if s.sr.drv2_pos ≤ s.sr.index ∧ s.sr.index < s.sr.crc8_pos - 1 then
    Tacho_StoneridgeCopyDIN s (s.sr.index - s.sr.drv2_pos) rx_byte Tacho_DriverIdx_t.TACHO_DRIVER2
  else s

/-- The initial Stoneridge run-state written by `Tacho_StoneridgeInitHandler`. -/
def srInitial : Tacho_SrData_t :=
  { index := TACHO_SR_SEQSZ, crc8_value := 0, drv1_pos := 0xFF, drv2_pos := 0xFF, crc8_pos := 0xFF }

/-- Initializes internal data for the Stoneridge protocol (`Tacho_StoneridgeInitHandler`). -/
def Tacho_StoneridgeInitHandler (s : Tacho_State) : Tacho_State :=
  { s with sr := srInitial }

/-- Determines message type and prepares DIN1 and DIN2 to be read when needed
(`Tacho_StoneridgeMsgProcess`); the Boolean is `opSuccess`. -/
def Tacho_StoneridgeMsgProcess (s : Tacho_State) (rx_byte : Nat) : Tacho_State × Bool :=
  if rx_byte = 0x02 then ({ s with sr := { s.sr with drv1_pos := 30 } }, true)
  else if rx_byte = 0x04 then ({ s with sr := { s.sr with drv2_pos := 30 } }, true)
  else if rx_byte = 0x01 ∨ rx_byte = 0x08 then (s, true)
  else (s, false)

/-- The `switch (sr.index)` of `Tacho_StoneridgeHandler`; the Boolean is TRUE
when a case returned TRUE from the handler (frame discarded). -/
def Tacho_StoneridgeHandler_switch (s : Tacho_State) (rx_byte : Nat) : Tacho_State × Bool :=
  if s.sr.index = 3 then
    if rx_byte < TACHO_SR_MSG_LEN_MIN ∨ rx_byte > TACHO_SR_MSG_LEN_MAX then
      (Tacho_StoneridgeInitHandler s, true)
    else ({ s with sr := { s.sr with crc8_pos := (3 + rx_byte - 1) % 256 } }, false)
  else if s.sr.index = 4 then
    let r := Tacho_StoneridgeMsgProcess s rx_byte
    if r.2 = false then (Tacho_StoneridgeInitHandler r.1, true) else (r.1, false)
  else if s.sr.index = 9 then
    ({ s with Tacho_Frame := { s.Tacho_Frame with working_state := rx_byte } }, false)
  else if s.sr.index = 10 then
    ({ s with Tacho_Frame := { s.Tacho_Frame with driver1_state := rx_byte } }, false)
  else if s.sr.index = 11 then
    ({ s with Tacho_Frame := { s.Tacho_Frame with driver2_state := rx_byte } }, false)
  else if s.sr.index = 12 then
    ({ s with Tacho_Frame := { s.Tacho_Frame with tacho_status := rx_byte } }, false)
  else if s.sr.index = 14 then
    ({ s with Tacho_Frame := { s.Tacho_Frame with speed_lsb := rx_byte } }, false)
  else if s.sr.index = 13 then
    ({ s with Tacho_Frame := { s.Tacho_Frame with speed_msb := rx_byte } }, false)
  else (s, false)

/-- Handles data coming from a Stoneridge-type tachograph
(`Tacho_StoneridgeHandler`); the Boolean is TRUE when end of frame is detected.
`~crc8_value + 1` stored to a `uint8_t` is `(256 - crc8_value % 256) % 256`. -/
def Tacho_StoneridgeHandler (s : Tacho_State) (rx_byte : Nat) : Tacho_State × Bool :=
  let sw := Tacho_StoneridgeHandler_switch s rx_byte
  if sw.2 then (sw.1, true)
  else
    let s2 := Tacho_StoneridgeCheckDIN sw.1 rx_byte
    if s2.sr.crc8_pos = s2.sr.index then
      let s3 := { s2 with sr := { s2.sr with crc8_value := (256 - s2.sr.crc8_value % 256) % 256 } }
      let s4 :=
        if s3.sr.crc8_value = rx_byte then
          let c := Tacho_CopyToCache s3
          Tacho_NotifyFrameReceived c (some c.Tacho_CachedData.tco1)
        else s3
      (Tacho_StoneridgeInitHandler s4, true)
    else
      ({ s2 with sr := { s2.sr with crc8_value := (s2.sr.crc8_value + rx_byte) % 256,
                                    index := (s2.sr.index + 1) % 256 } }, false)

/-! ## Protocol selector and orchestrator -/

/-- Protocol configuration parameters (`Tacho_Protocol[TACHO_STANDARD_MAX]`):
entry 0 is VDO, entry 1 is Stoneridge. -/
def Tacho_Protocol : List Tacho_Protocol_t :=
  [ { start_seq := [0x55, 0x44, 0x54, 0x43, 0x4F], start_sz := TACHO_VDO_SEQSZ, baudRate := 10400 },
    { start_seq := [0xFF, 0xFF, 0xFF], start_sz := TACHO_SR_SEQSZ, baudRate := 1200 } ]

/-- Numeric value of a `Tacho_Standard_t` enumerator. -/
def Tacho_Standard_t.toNat : Tacho_Standard_t → Nat
  | Tacho_Standard_t.TACHO_STANDARD_VDO => 0
  | Tacho_Standard_t.TACHO_STANDARD_STONERIDGE => 1
  | Tacho_Standard_t.TACHO_STANDARD_MAX => 2

/-- Reads last known protocol from FRAM (`Tacho_ReadMemory`). `fram` is the
outcome of `FRAM_ReadByte`: `none` when it does not return `E_OK`, `some data`
otherwise. The result is `*protocol` and whether the return value is `E_OK`. -/
def Tacho_ReadMemory (fram : Option Nat) : Tacho_Standard_t × Bool :=
  match fram with
  | none => (Tacho_Standard_t.TACHO_STANDARD_MAX, false)
  | some data =>
    if data = 0 then (Tacho_Standard_t.TACHO_STANDARD_VDO, true)
    else if data = 1 then (Tacho_Standard_t.TACHO_STANDARD_STONERIDGE, true)
    else (Tacho_Standard_t.TACHO_STANDARD_MAX, false)

/-- Saves the protocol in FRAM (`Tacho_SetMemory`); the status returned by
`FRAM_WriteByte` is ignored by the only caller, so only the call is recorded. -/
def Tacho_SetMemory (s : Tacho_State) (protocol : Tacho_Standard_t) : Tacho_State :=
  if protocol.toNat < Tacho_Standard_t.TACHO_STANDARD_MAX.toNat then
    { s with trace := s.trace ++ [Tacho_Event.FRAM_WriteByte_TACHO_PROTO protocol.toNat] }
  else s

/-- Switches between tachograph standards (`Tacho_SelectStandard`). -/
def Tacho_SelectStandard (s : Tacho_State) (standard : Tacho_Standard_t) (updateMemory : Bool) :
    Tacho_State :=
  let s0 := { s with Tacho_RxQueue := Tacho_ClearRxQueue s.Tacho_RxQueue }
  let s1 :=
    match standard with
    | Tacho_Standard_t.TACHO_STANDARD_VDO =>
      Tacho_VdoInitHandler
        { s0 with Tacho_SelectedStandard := Tacho_Standard_t.TACHO_STANDARD_VDO,
                  Tacho_Proto := Tacho_Protocol[0]?,
                  Tacho_Handler := some Tacho_Handler_t.Tacho_VdoHandler }
    | Tacho_Standard_t.TACHO_STANDARD_STONERIDGE =>
      Tacho_StoneridgeInitHandler
        { s0 with Tacho_SelectedStandard := Tacho_Standard_t.TACHO_STANDARD_STONERIDGE,
                  Tacho_Proto := Tacho_Protocol[1]?,
                  Tacho_Handler := some Tacho_Handler_t.Tacho_StoneridgeHandler }
    | Tacho_Standard_t.TACHO_STANDARD_MAX => s0
  match s1.Tacho_Proto with
  | none => s1
  | some proto =>
    if standard.toNat < Tacho_Standard_t.TACHO_STANDARD_MAX.toNat then
      let s2 := { s1 with trace := s1.trace ++ [Tacho_Event.USART2_set_baudrate proto.baudRate] }
      if updateMemory then Tacho_SetMemory s2 standard else s2
    else s1

/-- Initialization (`Tacho_Init`); `fram` is the outcome of `FRAM_ReadByte`
(see `Tacho_ReadMemory`). The assignments of `buffer_start` and `buffer_end`
are the constants `buffer_start` and `buffer_end` of this development. -/
def Tacho_Init (s : Tacho_State) (fram : Option Nat) : Tacho_State :=
  let s0 := { s with trace := s.trace ++ [Tacho_Event.USART2_init] }
  let r := Tacho_ReadMemory fram
  if r.2 then Tacho_SelectStandard s0 r.1 false
  else Tacho_SelectStandard s0 Tacho_Standard_t.TACHO_STANDARD_VDO true

/-- De-initialization (`Tacho_DeInit`). -/
def Tacho_DeInit (s : Tacho_State) : Tacho_State :=
  { s with trace := s.trace ++ [Tacho_Event.USART2_close] }

/-- Currently selected D8 protocol (`Tacho_GetSelectedStandard`). -/
def Tacho_GetSelectedStandard (s : Tacho_State) : Tacho_Standard_t :=
  s.Tacho_SelectedStandard

/-- Called each time a byte is received (`Tacho_RxNotif`); the result of
`Tacho_QueueAddByte` is dropped. -/
def Tacho_RxNotif (s : Tacho_State) (rx_byte : Nat) : Tacho_State :=
  { s with Tacho_RxQueue := (Tacho_QueueAddByte s.Tacho_RxQueue rx_byte).1 }

/-- Called each time a framing error occurs (`Tacho_ErrorNotif`);
`error_counter` is a `uint16_t`. -/
def Tacho_ErrorNotif (s : Tacho_State) : Tacho_State :=
  { s with Tacho_RxQueue :=
      { s.Tacho_RxQueue with error_counter := (s.Tacho_RxQueue.error_counter + 1) % 65536 } }

/-- Calls the function `Tacho_Handler` points to. -/
def Tacho_Handler_call (h : Tacho_Handler_t) (s : Tacho_State) (rx_byte : Nat) :
    Tacho_State × Bool :=
  match h with
  | Tacho_Handler_t.Tacho_VdoHandler => Tacho_VdoHandler s rx_byte
  | Tacho_Handler_t.Tacho_StoneridgeHandler => Tacho_StoneridgeHandler s rx_byte

/-- Body of the `while` loop of `Tacho_Task` for one fetched byte. A NULL
`Tacho_Proto` (task run before `Tacho_Init`) leaves the state as it is. A read
of `start_seq[index]` past the end of the sequence is undefined in C: it is
recorded in the call log and treated as a mismatch. -/
def Tacho_Task_body (s : Tacho_State) (rx_byte : Nat) : Tacho_State :=
  if s.perform_sync then
    match s.Tacho_Proto with
    | none => s
    | some proto =>
      match proto.start_seq[s.index]? with
      | none =>
        { s with index := 0,
                 trace := s.trace ++ [Tacho_Event.start_seq_read_past_end s.index] }
      | some expected =>
        if expected = rx_byte then
          let s1 := { s with index := (s.index + 1) % 256 }
          if proto.start_sz ≤ s1.index then { s1 with perform_sync := false } else s1
        else { s with index := 0 }
  else
    match s.Tacho_Handler with
    | none => s
    | some h =>
      let r := Tacho_Handler_call h s rx_byte
      if r.2 then { r.1 with perform_sync := true, index := 0 } else r.1

/-- The loop `while (Tacho_FetchByte(&rx_byte))` of `Tacho_Task`, with fuel;
every iteration removes one byte, so `count + 1` iterations suffice. -/
def Tacho_Task_loop : Nat → Tacho_State → Tacho_State
  | 0, s => s
  | fuel + 1, s =>
    match Tacho_FetchByte s.Tacho_RxQueue with
    | (_, none) => s
    | (q, some rx_byte) =>
      Tacho_Task_loop fuel (Tacho_Task_body { s with Tacho_RxQueue := q } rx_byte)

/-- The part of `Tacho_Task` after the framing-error check: reset of
`error_counter` and the drain loop. -/
def Tacho_Task_drain (s : Tacho_State) : Tacho_State :=
  Tacho_Task_loop (s.Tacho_RxQueue.count + 1)
    { s with Tacho_RxQueue := { s.Tacho_RxQueue with error_counter := 0 } }

/-- Task called by the scheduler periodically (`Tacho_Task`). -/
def Tacho_Task (s : Tacho_State) : Tacho_State :=
  if TACHO_MAX_FRAMING_ERRORS ≤ s.Tacho_RxQueue.error_counter then
    let s1 := { s with Tacho_RxQueue :=
      { s.Tacho_RxQueue with failed_attempts := (s.Tacho_RxQueue.failed_attempts + 1) % 256 } }
    if TACHO_MAX_FAILED_ATTEMPTS ≤ s1.Tacho_RxQueue.failed_attempts then
      if s1.Tacho_SelectedStandard = Tacho_Standard_t.TACHO_STANDARD_VDO then
        Tacho_SelectStandard s1 Tacho_Standard_t.TACHO_STANDARD_STONERIDGE true
      else
        Tacho_SelectStandard s1 Tacho_Standard_t.TACHO_STANDARD_VDO true
    else Tacho_Task_drain s1
  else Tacho_Task_drain s

/-- Called by the J1939 stack when a TCO1 message has been read on CAN
(`Tacho_process_j1939_event`). The constant `J1939_EVENT_TCO1_AVAILABLE` and
the pointer returned by `j1939_get_cached_tco1_content_p` belong to the J1939
stack and are parameters. -/
def Tacho_process_j1939_event (J1939_EVENT_TCO1_AVAILABLE : Nat)
    (j1939_get_cached_tco1_content_p : Option (List Nat)) (s : Tacho_State) (event : Nat) :
    Tacho_State :=
  if event = J1939_EVENT_TCO1_AVAILABLE then
    Tacho_NotifyFrameReceived s j1939_get_cached_tco1_content_p
  else s

/-- The loop of `Tacho_process_j1939_di` from position `index` on, with fuel;
`di` is the zero-terminated text, a read at or past its end yields the
terminator 0. -/
def Tacho_process_j1939_di_loop : Nat → List Nat → Nat → List Nat → List Nat
  | 0, _, _, cached => cached
  | fuel + 1, di, index, cached =>
    if di.getD index 0 ≠ 0 ∧ index < TACHO_MAX_DI_MSG then
      Tacho_process_j1939_di_loop fuel di ((index + 1) % 256) (cached.set index (di.getD index 0))
    else cached

/-- Called whenever a DI message from J1939 is received (`Tacho_process_j1939_di`);
the loop runs at most `TACHO_MAX_DI_MSG` times, the fuel allows one more test. -/
def Tacho_process_j1939_di (s : Tacho_State) (di : List Nat) : Tacho_State :=
  { s with Tacho_CachedData :=
      { s.Tacho_CachedData with
          di := Tacho_process_j1939_di_loop (TACHO_MAX_DI_MSG + 1) di 0 s.Tacho_CachedData.di } }

/-- The state of the module at program start: statics are zero-initialised,
`Tacho_SelectedStandard` is VDO, both pointers are NULL, `perform_sync` is
TRUE and the sync `index` is 0. -/
def Tacho_State.startup : Tacho_State :=
  { Tacho_RxQueue := ⟨List.replicate TACHO_RX_QUEUE_SIZE 0, 0, 0, 0, 0, 0⟩,
    Tacho_Frame := ⟨0, 0, 0, 0, 0, 0,
                    ⟨List.replicate TACHO_MAX_COUNTRY_CODE 0, List.replicate TACHO_MAX_CARD_NR 0⟩,
                    ⟨List.replicate TACHO_MAX_COUNTRY_CODE 0, List.replicate TACHO_MAX_CARD_NR 0⟩⟩,
    Tacho_CachedData := ⟨List.replicate TACHO_TCO1_SIZE 0, List.replicate TACHO_TCO1_SIZE 0,
                         List.replicate TACHO_MAX_DI_MSG 0⟩,
    vdo := ⟨0, 0, 0, 0, 0, 0⟩,
    sr := ⟨0, 0, 0, 0, 0⟩,
    Tacho_SelectedStandard := Tacho_Standard_t.TACHO_STANDARD_VDO,
    Tacho_Proto := none,
    Tacho_Handler := none,
    perform_sync := true,
    index := 0,
    trace := [] }

/-! ## Feeding byte sequences to a state machine -/

/-- Feeds the bytes one after the other to a handler, collecting the handler's
return values (TRUE = frame complete). -/
def feed (h : Tacho_State → Nat → Tacho_State × Bool) :
    Tacho_State → List Nat → Tacho_State × List Bool
  | s, [] => (s, [])
  | s, b :: bs =>
      let r := h s b
      let rest := feed h r.1 bs
      (rest.1, r.2 :: rest.2)

/-- XOR of `acc` with every byte of the list, in order. -/
def xorAll (acc : Nat) (bs : List Nat) : Nat := bs.foldl (fun a b => a ^^^ b) acc

/-! ## VDO frames: layout described from the bytes, and proof-side views of the handler -/

/-- State of `Tacho_VdoHandler` after the `switch` and `Tacho_VdoCheckDIN`,
before the if-chain on the boundary positions. -/
def vdoMid (s : Tacho_State) (b : Nat) : Tacho_State :=
  Tacho_VdoCheckDIN (Tacho_VdoHandler_switch s b) b

/-- The if-chain of `Tacho_VdoHandler` together with the final
`crc8_value ^= rx_byte; index++`, seen on the run-state alone. -/
def vdoChain (v : Tacho_VdoData_t) (b : Nat) : Tacho_VdoData_t × Bool :=
  if v.cstr_pos = v.index then
    ({ v with drv1_pos := (v.cstr_pos + b + 1) % 256, crc8_value := v.crc8_value ^^^ b,
              index := (v.index + 1) % 256 }, false)
  else if v.drv1_pos = v.index then
    ({ v with drv2_pos := (v.drv1_pos + b + 1) % 256, crc8_value := v.crc8_value ^^^ b,
              index := (v.index + 1) % 256 }, false)
  else if v.drv2_pos = v.index then
    ({ v with crc8_pos := (v.drv2_pos + b + 1) % 256, crc8_value := v.crc8_value ^^^ b,
              index := (v.index + 1) % 256 }, false)
  else if v.crc8_pos = v.index then (vdoInitial, true)
  else ({ v with crc8_value := v.crc8_value ^^^ b, index := (v.index + 1) % 256 }, false)

/-- Run-state transition of `Tacho_VdoHandler` (proved equal to the handler's
effect on `vdo` in `Tacho_VdoHandler_vdo`). -/
def vdoStep (v : Tacho_VdoData_t) (b : Nat) : Tacho_VdoData_t × Bool :=
  vdoChain (if v.index = 34 then { v with cstr_pos := (34 + b + 1) % 256 } else v) b

/-- Byte of a VDO frame at frame offset `i` (counted from the first
start-sequence byte); `frame` lists the bytes from offset 5 on. -/
def vdoByte (frame : List Nat) (i : Nat) : Nat := frame.getD (i - TACHO_VDO_SEQSZ) 0

/-- Offset of the custom-string length byte: one past the VIN, whose length is at offset 34. -/
def vdoCstrPos (frame : List Nat) : Nat := 34 + vdoByte frame 34 + 1

/-- Offset where the driver-1 field starts. -/
def vdoDrv1Pos (frame : List Nat) : Nat := vdoCstrPos frame + vdoByte frame (vdoCstrPos frame) + 1

/-- Offset where the driver-2 field starts. -/
def vdoDrv2Pos (frame : List Nat) : Nat := vdoDrv1Pos frame + vdoByte frame (vdoDrv1Pos frame) + 1

/-- Offset of the checksum byte. -/
def vdoCrcPos (frame : List Nat) : Nat := vdoDrv2Pos frame + vdoByte frame (vdoDrv2Pos frame) + 1

/-- A complete VDO frame whose offsets do not overflow 8 bits: the checksum
offset is at most 255 and the frame ends with the byte at that offset. -/
def VdoLayout (frame : List Nat) : Prop :=
  vdoCrcPos frame ≤ 255 ∧ frame.length = vdoCrcPos frame - TACHO_VDO_SEQSZ + 1

/-- The VDO run-state after the first `k` bytes of the frame: each boundary is
known once the index has passed the byte that determines it. -/
def vdoAt (frame : List Nat) (k : Nat) : Tacho_VdoData_t :=
  { index := 5 + k,
    cstr_pos := if 34 < 5 + k then vdoCstrPos frame else 0xFF,
    drv1_pos := if vdoCstrPos frame < 5 + k then vdoDrv1Pos frame else 0xFF,
    drv2_pos := if vdoDrv1Pos frame < 5 + k then vdoDrv2Pos frame else 0xFF,
    crc8_pos := if vdoDrv2Pos frame < 5 + k then vdoCrcPos frame else 0xFF,
    crc8_value := xorAll 0x49 (frame.take k) }

/-- The six scalar frame fields hold the bytes at offsets 14..19 as soon as
the index has passed them. -/
def VdoScalars (frame : List Nat) (k : Nat) (f : Tacho_Frame_t) : Prop :=
  (14 < 5 + k → f.working_state = vdoByte frame 14) ∧
  (15 < 5 + k → f.driver1_state = vdoByte frame 15) ∧
  (16 < 5 + k → f.driver2_state = vdoByte frame 16) ∧
  (17 < 5 + k → f.tacho_status = vdoByte frame 17) ∧
  (18 < 5 + k → f.speed_lsb = vdoByte frame 18) ∧
  (19 < 5 + k → f.speed_msb = vdoByte frame 19)

/-- The frame was accepted between two points of the call log: the log grew by
a `Tacho_CopyToCache` call directly followed by a `Tacho_NotifyFrameReceived` call. -/
def Accepted (before after : List Tacho_Event) : Prop :=
  ∃ tl, after = before ++ Tacho_Event.CopyToCache :: Tacho_Event.NotifyFrameReceived :: tl

/-! ## Example inputs -/

/-- An initialised decoder state with zeroed buffers and both run-states initial. -/
def exampleState : Tacho_State :=
  { Tacho_RxQueue := ⟨List.replicate 128 0, 0, 0, 0, 0, 0⟩,
    Tacho_Frame := ⟨0, 0, 0, 0, 0, 0, ⟨[0, 0, 0], List.replicate 16 0⟩,
                    ⟨[0, 0, 0], List.replicate 16 0⟩⟩,
    Tacho_CachedData := ⟨List.replicate 8 0, List.replicate 8 0, List.replicate 41 0⟩,
    vdo := vdoInitial,
    sr := srInitial,
    Tacho_SelectedStandard := Tacho_Standard_t.TACHO_STANDARD_VDO,
    Tacho_Proto := some ⟨[0x55, 0x44, 0x54, 0x43, 0x4F], 5, 10400⟩,
    Tacho_Handler := some Tacho_Handler_t.Tacho_VdoHandler,
    perform_sync := true,
    index := 0,
    trace := [] }

/-- Body of a minimal VDO frame (offsets 5..37): VIN length 0 at offset 34,
custom-string length 0 at offset 35, both driver fields empty (0 at offsets 36
and 37); offsets 14..19 carry 1, 2, 3, 4, 5, 6. -/
def exampleVdoBody : List Nat :=
  [0, 0, 0, 0, 0, 0, 0, 0, 0, 1, 2, 3, 4, 5, 6, 0, 0, 0, 0, 0, 0, 0, 0, 0, 0, 0, 0, 0, 0,
   0, 0, 0, 0]

/-- Complete minimal VDO frame: the body followed by its checksum `0x49 ^ 1 ^ .. ^ 6 = 0x4E`. -/
def exampleVdoFrame : List Nat := exampleVdoBody ++ [0x4E]

/-- The same frame with the checksum off by one. -/
def exampleVdoBadFrame : List Nat := exampleVdoBody ++ [0x4F]

/-- Body of a VDO frame with VIN length 0 and a 1-byte custom string (length
byte 1 at offset 35, string byte at offset 36), both driver fields empty. -/
def exampleVdoCstrBody : List Nat :=
  [0, 0, 0, 0, 0, 0, 0, 0, 0, 1, 2, 3, 4, 5, 6, 0, 0, 0, 0, 0, 0, 0, 0, 0, 0, 0, 0, 0, 0,
   0, 1, 65, 0, 0]

/-- Complete frame with the 1-byte custom string: body and checksum 0x0E. -/
def exampleVdoCstrFrame : List Nat := exampleVdoCstrBody ++ [0x0E]

/-! ## Stoneridge frames: layout described from the bytes, and proof-side views of the handler -/

/-- The statement `sr.crc8_value = ~sr.crc8_value + 1` of the end-of-frame branch. -/
def srNegate (s : Tacho_State) : Tacho_State :=
  { s with sr := { s.sr with crc8_value := (256 - s.sr.crc8_value % 256) % 256 } }

/-- Byte of a Stoneridge frame at frame offset `i` (counted from the first
start-sequence byte); `frame` lists the bytes from offset 3 on. -/
def srByte (frame : List Nat) (i : Nat) : Nat := frame.getD (i - TACHO_SR_SEQSZ) 0

/-- A complete Stoneridge frame: the length byte L at offset 3 lies in
[45, 48], the message type at offset 4 is recognised, and the frame has
exactly L bytes after the start sequence (offsets 3 .. L + 2). -/
def SrLayout (frame : List Nat) : Prop :=
  45 ≤ srByte frame 3 ∧ srByte frame 3 ≤ 48 ∧
  (srByte frame 4 = 1 ∨ srByte frame 4 = 2 ∨ srByte frame 4 = 4 ∨ srByte frame 4 = 8) ∧
  frame.length = srByte frame 3

/-- Complete Stoneridge frame of length 45 and type VIN (0x01): offsets 9..14
carry 1..6, the checksum at offset 47 is 256 - (45 + 1 + 21). -/
def exampleSrFrame : List Nat :=
  [45, 1, 0, 0, 0, 0, 1, 2, 3, 4, 5, 6, 0, 0, 0, 0, 0, 0, 0, 0, 0, 0, 0, 0, 0, 0, 0, 0, 0, 0,
   0, 0, 0, 0, 0, 0, 0, 0, 0, 0, 0, 0, 0, 0, 189]

/-- State of `Tacho_StoneridgeHandler` after the `switch` (when no case
returned) and `Tacho_StoneridgeCheckDIN`. -/
def srMid (s : Tacho_State) (b : Nat) : Tacho_State :=
  Tacho_StoneridgeCheckDIN (Tacho_StoneridgeHandler_switch s b).1 b

/-! ## Orchestrator scenarios, cache text and driver identities: proof-side definitions -/

/-- The driver-ID text `Tacho_CopyToCache` builds from the frame: the buffer
after the writes and the final value of `dindex`. -/
def Tacho_CopyToCache_di (f : Tacho_Frame_t) (di : List Nat) : List Nat × Nat :=
  writeDi
    (Tacho_CopyToCache_driver
      (Tacho_CopyToCache_driver (di, 0) (f.driver Tacho_DriverIdx_t.TACHO_DRIVER1))
      (f.driver Tacho_DriverIdx_t.TACHO_DRIVER2))
    [0]

/-- Text contributed by one driver slot: country and card number if the first
card-number byte is non-zero, nothing otherwise. -/
def driverText (d : Tacho_DriverID_t) : List Nat :=
  if d.cardnr.getD 0 0 ≠ 0 then d.country ++ d.cardnr else []

/-- The whole driver-ID text: both slots, each followed by `*` (42), then a zero byte. -/
def diText (f : Tacho_Frame_t) : List Nat :=
  driverText f.driver_DRIVER1 ++ [42] ++ (driverText f.driver_DRIVER2 ++ [42]) ++ [0]

/-- Number of external change notifications in a call log. -/
def fmiCount (t : List Tacho_Event) : Nat :=
  t.count Tacho_Event.FMI_process_j1939_event_TCO1_AVAILABLE

/-- The state with its reception queue replaced. -/
def setQ (s : Tacho_State) (q : Tacho_RxQueue_t) : Tacho_State :=
  { s with Tacho_RxQueue := q }

/-- The fields no state machine writes: queue, protocol selection and the two
statics of the sync detector. -/
def ctl (s : Tacho_State) :
    Tacho_RxQueue_t × Tacho_Standard_t × Option Tacho_Protocol_t × Option Tacho_Handler_t
      × Bool × Nat :=
  (s.Tacho_RxQueue, s.Tacho_SelectedStandard, s.Tacho_Proto, s.Tacho_Handler, s.perform_sync,
   s.index)

/-- The reception queue once every held byte has been fetched. -/
def drainQ (q : Tacho_RxQueue_t) : Tacho_RxQueue_t :=
  { q with count := 0, head := (q.head + q.count) % TACHO_RX_QUEUE_SIZE }

/-- An asynchronous input between two task calls: a received byte or a framing fault. -/
inductive IsrEvent where
  | rx (rx_byte : Nat)
  | fault
deriving DecidableEq, Repr

/-- Delivers one asynchronous input: `Tacho_RxNotif` or `Tacho_ErrorNotif`. -/
def deliver (s : Tacho_State) : IsrEvent → Tacho_State
  | IsrEvent.rx b => Tacho_RxNotif s b
  | IsrEvent.fault => Tacho_ErrorNotif s

/-- Delivers a sequence of asynchronous inputs in order. -/
def arrive (s : Tacho_State) (evs : List IsrEvent) : Tacho_State := evs.foldl deliver s

/-- Effect of one asynchronous input on the reception queue. -/
def deliverQ (q : Tacho_RxQueue_t) : IsrEvent → Tacho_RxQueue_t
  | IsrEvent.rx b => (Tacho_QueueAddByte q b).1
  | IsrEvent.fault => { q with error_counter := (q.error_counter + 1) % 65536 }

/-- Effect of a sequence of asynchronous inputs on the reception queue. -/
def arriveQ (q : Tacho_RxQueue_t) (evs : List IsrEvent) : Tacho_RxQueue_t := evs.foldl deliverQ q

/-- Number of framing-fault notifications in a sequence of asynchronous inputs. -/
def faultCount (evs : List IsrEvent) : Nat := evs.count IsrEvent.fault

/-- The storage writes requested in a call log, in order. -/
def storageWrites (t : List Tacho_Event) : List Nat :=
  t.filterMap (fun e => match e with
    | Tacho_Event.FRAM_WriteByte_TACHO_PROTO d => some d
    | _ => none)

/-- The protocol `Tacho_Task` switches to: Stoneridge from VDO, VDO otherwise. -/
def otherStandard (std : Tacho_Standard_t) : Tacho_Standard_t :=
  if std = Tacho_Standard_t.TACHO_STANDARD_VDO then Tacho_Standard_t.TACHO_STANDARD_STONERIDGE
  else Tacho_Standard_t.TACHO_STANDARD_VDO

/-- The part of the state that only `Tacho_SelectStandard` writes. -/
def selection (s : Tacho_State) :
    Tacho_Standard_t × Option Tacho_Protocol_t × Option Tacho_Handler_t :=
  (s.Tacho_SelectedStandard, s.Tacho_Proto, s.Tacho_Handler)

/-- Fallback scenario, state after the first task call: a protocol is freshly
selected, asynchronous inputs `ev1` arrive, `Tacho_Task` runs. -/
def fallbackT1 (s : Tacho_State) (std : Tacho_Standard_t) (um : Bool) (ev1 : List IsrEvent) :
    Tacho_State :=
  Tacho_Task (arrive (Tacho_SelectStandard s std um) ev1)

/-- Fallback scenario, state right before the second task call: after the
first call the asynchronous inputs `ev2` arrive. -/
def fallbackA2 (s : Tacho_State) (std : Tacho_Standard_t) (um : Bool) (ev1 ev2 : List IsrEvent) :
    Tacho_State :=
  arrive (fallbackT1 s std um ev1) ev2

/-- Fallback scenario, state after the second task call. -/
def fallbackT2 (s : Tacho_State) (std : Tacho_Standard_t) (um : Bool) (ev1 ev2 : List IsrEvent) :
    Tacho_State :=
  Tacho_Task (fallbackA2 s std um ev1 ev2)

/-- A reachable state in the middle of a VDO frame with a pending switch:
start-up with failing storage read (VDO), the VDO start sequence and 15 frame
bytes are received and processed, then 5 framing faults arrive before each of
the next two task calls; this is the state right before the second of them. -/
def exampleMidFrame : Tacho_State :=
  arrive (Tacho_Task (arrive (Tacho_Task (arrive
    (Tacho_Init Tacho_State.startup none)
    ([0x55, 0x44, 0x54, 0x43, 0x4F, 0, 0, 0, 0, 0, 0, 0, 0, 0, 1, 2, 3, 4, 5, 6].map IsrEvent.rx)))
    (List.replicate 5 IsrEvent.fault)))
    (List.replicate 5 IsrEvent.fault)

/-- The state after the task call that switches protocol from `exampleMidFrame`. -/
def exampleMidFrameSwitch : Tacho_State :=
  Tacho_Task exampleMidFrame

/-- The start sequence of a protocol, as the detector of `Tacho_Task` reads it
through `Tacho_Proto`. -/
def startSeq (std : Tacho_Standard_t) : List Nat :=
  match Tacho_Protocol[std.toNat]? with
  | some proto => proto.start_seq
  | none => []

/-- The state machine `Tacho_SelectStandard` installs for a protocol. -/
def handlerOf (std : Tacho_Standard_t) : Tacho_Handler_t :=
  if std = Tacho_Standard_t.TACHO_STANDARD_STONERIDGE then Tacho_Handler_t.Tacho_StoneridgeHandler
  else Tacho_Handler_t.Tacho_VdoHandler

/-- Frame offset at which the active state machine will interpret the next
byte it is given: the `index` of that protocol's run-state. -/
def frameOffset (s : Tacho_State) : Nat :=
  match s.Tacho_Handler with
  | some Tacho_Handler_t.Tacho_VdoHandler => s.vdo.index
  | some Tacho_Handler_t.Tacho_StoneridgeHandler => s.sr.index
  | none => 0

/-- The detector of `Tacho_Task` is unsynchronised with match-index 0 under
protocol `std`, whose state machine is in its initial state. -/
def Unsynced (s : Tacho_State) (std : Tacho_Standard_t) : Prop :=
  s.Tacho_Proto = Tacho_Protocol[std.toNat]? ∧ s.Tacho_Handler = some (handlerOf std) ∧
  s.perform_sync = true ∧ s.index = 0 ∧
  (std = Tacho_Standard_t.TACHO_STANDARD_VDO → s.vdo = vdoInitial) ∧
  (std = Tacho_Standard_t.TACHO_STANDARD_STONERIDGE → s.sr = srInitial)

/-- The frame write done by the `switch (sr.index)` of `Tacho_StoneridgeHandler`
for an index other than 3 and 4. -/
def srScalar (f : Tacho_Frame_t) (i b : Nat) : Tacho_Frame_t :=
  if i = 9 then { f with working_state := b }
  else if i = 10 then { f with driver1_state := b }
  else if i = 11 then { f with driver2_state := b }
  else if i = 12 then { f with tacho_status := b }
  else if i = 14 then { f with speed_lsb := b }
  else if i = 13 then { f with speed_msb := b }
  else f

/-- The field position `sr.drv1_pos` or `sr.drv2_pos` of a driver. -/
def srPos (r : Tacho_SrData_t) : Tacho_DriverIdx_t → Nat
  | Tacho_DriverIdx_t.TACHO_DRIVER1 => r.drv1_pos
  | Tacho_DriverIdx_t.TACHO_DRIVER2 => r.drv2_pos

/-- The other driver. -/
def otherDriver : Tacho_DriverIdx_t → Tacho_DriverIdx_t
  | Tacho_DriverIdx_t.TACHO_DRIVER1 => Tacho_DriverIdx_t.TACHO_DRIVER2
  | Tacho_DriverIdx_t.TACHO_DRIVER2 => Tacho_DriverIdx_t.TACHO_DRIVER1

/-- The six scalar frame fields hold the bytes at offsets 9..14 of a Stoneridge
frame as soon as the index `n` has passed them. -/
def SrScalars (frame : List Nat) (n : Nat) (f : Tacho_Frame_t) : Prop :=
  (9 < n → f.working_state = srByte frame 9) ∧
  (10 < n → f.driver1_state = srByte frame 10) ∧
  (11 < n → f.driver2_state = srByte frame 11) ∧
  (12 < n → f.tacho_status = srByte frame 12) ∧
  (13 < n → f.speed_msb = srByte frame 13) ∧
  (14 < n → f.speed_lsb = srByte frame 14)

/-- Identity `d` of the driver a DIN frame is about, and its field position
`pos`, when the bytes at offsets below `n` have been processed; `d0` is the
identity before the frame. -/
def SrDin (frame : List Nat) (d0 : Tacho_DriverID_t) (n pos : Nat) (d : Tacho_DriverID_t) :
    Prop :=
  (n ≤ 30 → pos = 30 ∧ d = d0) ∧
  (30 < n → srByte frame 30 = 0xFF →
    pos = 0xFF ∧ d = { d0 with cardnr := d0.cardnr.set 0 0 }) ∧
  (30 < n → srByte frame 30 ≠ 0xFF →
    pos = 30 ∧ d.country.length = d0.country.length ∧ d.cardnr.length = d0.cardnr.length ∧
    (∀ j, d.country.getD j 0
      = if j < 3 ∧ 30 + j < n then srByte frame (30 + j) else d0.country.getD j 0) ∧
    (∀ j, d.cardnr.getD j 0
      = if 33 + j < n ∧ 33 + j ≤ srByte frame 3 then srByte frame (33 + j)
        else d0.cardnr.getD j 0))

/-- Invariant of a DIN frame about driver `idx`: `SrDin` for that driver, the
other driver untouched and its field position disabled. -/
def SrDinCase (frame : List Nat) (f0 : Tacho_Frame_t) (n : Nat) (idx : Tacho_DriverIdx_t)
    (r : Tacho_SrData_t) (f : Tacho_Frame_t) : Prop :=
  SrDin frame (f0.driver idx) n (srPos r idx) (f.driver idx) ∧
  srPos r (otherDriver idx) = 0xFF ∧
  f.driver (otherDriver idx) = f0.driver (otherDriver idx)

/-- Invariant of a VIN or VRN frame: both field positions disabled, both
identities untouched. -/
def SrNoDin (f0 : Tacho_Frame_t) (r : Tacho_SrData_t) (f : Tacho_Frame_t) : Prop :=
  r.drv1_pos = 0xFF ∧ r.drv2_pos = 0xFF ∧
  f.driver_DRIVER1 = f0.driver_DRIVER1 ∧ f.driver_DRIVER2 = f0.driver_DRIVER2

/-- Frame fields and field positions of a state, as the Stoneridge invariants see them. -/
def SrFrameInv (frame : List Nat) (f0 : Tacho_Frame_t) (n : Nat) (r : Tacho_SrData_t)
    (f : Tacho_Frame_t) : Prop :=
  (srByte frame 4 = 2 → SrDinCase frame f0 n Tacho_DriverIdx_t.TACHO_DRIVER1 r f) ∧
  (srByte frame 4 = 4 → SrDinCase frame f0 n Tacho_DriverIdx_t.TACHO_DRIVER2 r f) ∧
  (srByte frame 4 = 1 ∨ srByte frame 4 = 8 → SrNoDin f0 r f)

/-- A Stoneridge DIN1 frame (type 0x02, length 45) carrying country "D  " and
card number "1234567890" for driver 1 at offsets 30..42; the last byte is the
checksum. -/
def exampleSrDinFrame : List Nat :=
  [45, 2, 0, 0, 0, 0, 1, 2, 3, 4, 5, 6, 0, 0, 0, 0, 0, 0, 0, 0, 0, 0, 0, 0, 0, 0, 0,
   68, 32, 32, 49, 50, 51, 52, 53, 54, 55, 56, 57, 48, 0, 0, 0, 0, 232]

/-- Bytes reach the decoder in chunks: every byte of a chunk is delivered by
`Tacho_RxNotif`, then `Tacho_Task` runs. -/
def runChunks (s : Tacho_State) (chunks : List (List Nat)) : Tacho_State :=
  chunks.foldl (fun t c => Tacho_Task (arrive t (c.map IsrEvent.rx))) s

/-- Everything of the decoder state but the reception queue. -/
def core (s : Tacho_State) : Tacho_State :=
  setQ s ⟨[], 0, 0, 0, 0, 0⟩

/-- VDO frames of the end-to-end scenario: VIN length 17 at offset 34, an empty
driver-1 field (length byte 0), a driver-2 field of at least 18 bytes (one
unused byte, the country selector and 16 card-number bytes) whose first
card-number byte is not 0. -/
def VdoDin2Layout (frame : List Nat) : Prop :=
  VdoLayout frame ∧ vdoByte frame 34 = 17 ∧ vdoByte frame (vdoDrv1Pos frame) = 0 ∧
  18 ≤ vdoByte frame (vdoDrv2Pos frame) ∧ vdoByte frame (vdoDrv2Pos frame + 3) ≠ 0

/-- Driver identities of the frame record once the bytes at offsets below
`5 + k` of such a frame have been processed. -/
def VdoDin2 (frame : List Nat) (k : Nat) (f : Tacho_Frame_t) : Prop :=
  f.driver_DRIVER1.country.length = 3 ∧ f.driver_DRIVER1.cardnr.length = 16 ∧
  f.driver_DRIVER2.country.length = 3 ∧ f.driver_DRIVER2.cardnr.length = 16 ∧
  (vdoDrv1Pos frame < 5 + k → f.driver_DRIVER1.cardnr.getD 0 0 = 0) ∧
  (vdoDrv2Pos frame + 2 < 5 + k →
    f.driver_DRIVER2.country = Tacho_GetCountryCode (vdoByte frame (vdoDrv2Pos frame + 2))) ∧
  (∀ j, j < 16 → vdoDrv2Pos frame + 3 + j < 5 + k →
    f.driver_DRIVER2.cardnr.getD j 0 = vdoByte frame (vdoDrv2Pos frame + 3 + j))

/-- A complete VDO frame of the end-to-end scenario (offsets 5..74): VIN length
17, custom-string length 0, empty driver-1 field, driver-2 field of 18 bytes
with country selector 0x0D ("D  ") and card number "1234567890123456",
checksum 0x46. -/
def exampleVdoDinFrame : List Nat :=
  [0, 0, 0, 0, 0, 0, 0, 0, 0, 1, 2, 3, 4, 5, 6, 0, 0, 0, 0, 0, 0, 0, 0, 0, 0, 0, 0, 0, 0,
   17, 0, 0, 0, 0, 0, 0, 0, 0, 0, 0, 0, 0, 0, 0, 0, 0, 0,
   0, 0, 18, 0, 0x0D,
   49, 50, 51, 52, 53, 54, 55, 56, 57, 48, 49, 50, 51, 52, 53, 54, 0x46]

/-! ## Lookup, bus text, fault windows and identity writes: proof-side definitions -/

/-- Longest prefix of non-zero bytes of a bus text. -/
def diNonZeroPrefix (di : List Nat) : List Nat :=
  di.takeWhile (fun b => b != 0)

/-- Number of bytes `Tacho_process_j1939_di` copies: the length of the longest
prefix of non-zero bytes of the text, capped at the buffer size. -/
def diPrefixLen (di : List Nat) : Nat :=
  min (diNonZeroPrefix di).length TACHO_MAX_DI_MSG

/-- Task ticks in sequence, each preceded by the asynchronous inputs of its window. -/
def runTicks (t : Tacho_State) (evs : List (List IsrEvent)) : Tacho_State :=
  evs.foldl (fun a ev => Tacho_Task (arrive a ev)) t

/-- A reachable state with a stale match-index: start-up with failing storage
read (VDO), the bytes 55 44 54 43 are received and processed (match-index 4),
then 5 framing faults arrive before each of the next two task calls; the second
of them switches to Stoneridge. -/
def exampleStaleIndex : Tacho_State :=
  Tacho_Task (arrive (Tacho_Task (arrive (Tacho_Task (arrive
    (Tacho_Init Tacho_State.startup none)
    ([0x55, 0x44, 0x54, 0x43].map IsrEvent.rx)))
    (List.replicate 5 IsrEvent.fault)))
    (List.replicate 5 IsrEvent.fault))

/-- A Stoneridge DIN1 frame with a wrong checksum byte (0 for 232): driver 1
country "D  ", card number "1234567890". -/
def exampleSrBadDinA : List Nat := exampleSrDinFrame.take 44 ++ [0]

/-- The same frame with the first card-number byte changed ("2" for "1"); the
checksum byte 0 is wrong here too (231 would be right). -/
def exampleSrBadDinB : List Nat := (exampleSrDinFrame.take 44).set 30 50 ++ [0]

/-- Two byte streams that differ only inside their first frame, which the
decoder discards; the second frame is the valid VIN frame `exampleSrFrame`. -/
def exampleStreamA : List Nat :=
  [0xFF, 0xFF, 0xFF] ++ exampleSrBadDinA ++ ([0xFF, 0xFF, 0xFF] ++ exampleSrFrame)

/-- See `exampleStreamA`. -/
def exampleStreamB : List Nat :=
  [0xFF, 0xFF, 0xFF] ++ exampleSrBadDinB ++ ([0xFF, 0xFF, 0xFF] ++ exampleSrFrame)

/-- Number of bytes after which `Tacho_StoneridgeHandler` reports
frame-complete, read off the first two bytes: 1 on a bad length, 2 on a bad
type, otherwise the length byte. -/
def srFrameLen (bs : List Nat) : Nat :=
  if srByte bs 3 < 45 ∨ 48 < srByte bs 3 then 1
  else if ¬ (srByte bs 4 = 1 ∨ srByte bs 4 = 2 ∨ srByte bs 4 = 4 ∨ srByte bs 4 = 8) then 2
  else srByte bs 3

/-- The call of `Tacho_StoneridgeCopyDIN` made by `Tacho_StoneridgeCheckDIN` in
a state, if any: the driver whose buffers are passed and the argument `pos`. -/
def Tacho_StoneridgeCheckDIN_call (s : Tacho_State) : Option (Tacho_DriverIdx_t × Nat) :=
  if s.sr.drv1_pos = 0xFF ∧ s.sr.drv2_pos = 0xFF then none
  else if s.sr.drv1_pos ≤ s.sr.index ∧ s.sr.index < s.sr.crc8_pos - 1 then
    some (Tacho_DriverIdx_t.TACHO_DRIVER1, s.sr.index - s.sr.drv1_pos)
  else if s.sr.drv2_pos ≤ s.sr.index ∧ s.sr.index < s.sr.crc8_pos - 1 then
    some (Tacho_DriverIdx_t.TACHO_DRIVER2, s.sr.index - s.sr.drv2_pos)
  else none

/-- Index of the `country[]` element `Tacho_StoneridgeCopyDIN` writes, if it writes one. -/
def Tacho_StoneridgeCopyDIN_countryIndex (pos rx_byte : Nat) : Option Nat :=
  if rx_byte = 0xFF ∧ pos = 0 then none
  else if pos < TACHO_MAX_COUNTRY_CODE then some pos
  else none

/-- Index of the `cardnr[]` element `Tacho_StoneridgeCopyDIN` writes, if it writes one. -/
def Tacho_StoneridgeCopyDIN_cardIndex (pos rx_byte : Nat) : Option Nat :=
  if rx_byte = 0xFF ∧ pos = 0 then some 0
  else if pos < TACHO_MAX_COUNTRY_CODE then none
  else some (pos - TACHO_MAX_COUNTRY_CODE)

/-- Run-states of the Stoneridge state machine reachable from the initial one. -/
def SrReach (r : Tacho_SrData_t) : Prop :=
  (r.drv1_pos = 30 ∨ r.drv1_pos = 0xFF) ∧ (r.drv2_pos = 30 ∨ r.drv2_pos = 0xFF) ∧
  (r.index = 3 ∨ (4 ≤ r.index ∧ r.index ≤ r.crc8_pos ∧ r.crc8_pos ≤ 50))

/-- Offset at which the field of driver `idx` starts in a VDO frame (the value
the handler keeps in `vdo.drv1_pos` / `vdo.drv2_pos`). -/
def vdoFieldStart (frame : List Nat) : Tacho_DriverIdx_t → Nat
  | Tacho_DriverIdx_t.TACHO_DRIVER1 => vdoDrv1Pos frame
  | Tacho_DriverIdx_t.TACHO_DRIVER2 => vdoDrv2Pos frame

/-- Effect of one call of `Tacho_VdoCheckDIN` on the identity of the driver
whose field starts at offset `P` and ends before offset `E`, when the byte `b`
at offset `i` is processed. -/
def vdoDriverStep (P E i b : Nat) (d : Tacho_DriverID_t) : Tacho_DriverID_t :=
  if i = P then (if b = 0 then { d with cardnr := d.cardnr.set 0 0 } else d)
  else if P < i ∧ i < E then Tacho_VdoCopyDIN (i - P - 1) b d
  else d

/-- Identity `d` of a driver once the offsets below `n` of the frame have been
processed, for the field starting at offset `P` and the identity `d0` held
before the frame. -/
def VdoDrv (frame : List Nat) (P n : Nat) (d0 d : Tacho_DriverID_t) : Prop :=
  d.country.length = 3 ∧ d.cardnr.length = 16 ∧
  (n ≤ P → d = d0) ∧
  (P < n → vdoByte frame P = 0 → d = { d0 with cardnr := d0.cardnr.set 0 0 }) ∧
  (P < n → vdoByte frame P ≠ 0 →
    d.country = (if 2 ≤ vdoByte frame P ∧ P + 2 < n
                  then Tacho_GetCountryCode (vdoByte frame (P + 2)) else d0.country) ∧
    ∀ j, d.cardnr.getD j 0
          = if j < 16 ∧ j + 3 ≤ vdoByte frame P ∧ P + 3 + j < n
              then vdoByte frame (P + 3 + j) else d0.cardnr.getD j 0)

/-! ## Queue lemmas -/

theorem queueInv_clear (q : Tacho_RxQueue_t) (h : q.data.length = TACHO_RX_QUEUE_SIZE) :
    QueueInv (Tacho_ClearRxQueue q) := by
  simp [QueueInv, Tacho_ClearRxQueue, buffer_start, TACHO_RX_QUEUE_SIZE] at *
  exact h

theorem queueContents_clear (q : Tacho_RxQueue_t) :
    queueContents (Tacho_ClearRxQueue q) = [] := by
  simp [queueContents, Tacho_ClearRxQueue]

theorem push_result (q : Tacho_RxQueue_t) (b : Nat) :
    (Tacho_QueueAddByte q b).2 = (specPush (queueContents q) b).2 := by
  simp only [Tacho_QueueAddByte, specPush, queueContents, List.length_map, List.length_range,
    TACHO_RX_QUEUE_SIZE]
  by_cases hc : q.count < 128
  · simp [hc]
  · simp [hc]

theorem push_inv (q : Tacho_RxQueue_t) (b : Nat) (h : QueueInv q) :
    QueueInv (Tacho_QueueAddByte q b).1 := by
  obtain ⟨h1, h2, h3, h4⟩ := h
  simp only [TACHO_RX_QUEUE_SIZE] at h1 h2 h3 h4
  simp only [Tacho_QueueAddByte, TACHO_RX_QUEUE_SIZE, buffer_end, buffer_start]
  by_cases hc : q.count < 128
  · simp only [gt_iff_lt, hc, if_true, QueueInv, TACHO_RX_QUEUE_SIZE, List.length_set]
    refine ⟨h1, h2, by omega, ?_⟩
    split <;> omega
  · simp only [gt_iff_lt, hc, if_false, QueueInv, TACHO_RX_QUEUE_SIZE]
    exact ⟨h1, h2, h3, h4⟩

theorem push_contents (q : Tacho_RxQueue_t) (b : Nat) (h : QueueInv q) :
    queueContents (Tacho_QueueAddByte q b).1 = (specPush (queueContents q) b).1 := by
  obtain ⟨h1, h2, h3, h4⟩ := h
  simp only [TACHO_RX_QUEUE_SIZE] at h1 h2 h3 h4
  simp only [Tacho_QueueAddByte, specPush, TACHO_RX_QUEUE_SIZE, buffer_end, buffer_start]
  by_cases hc : q.count < 128
  · have hlen : (queueContents q).length < 128 := by simpa [queueContents] using hc
    simp only [gt_iff_lt, hc, if_true, hlen]
    simp only [queueContents, TACHO_RX_QUEUE_SIZE, List.range_succ, List.map_append,
      List.map_cons, List.map_nil]
    congr 1
    · apply List.map_congr_left
      intro i hi
      have hi2 : i < q.count := List.mem_range.mp hi
      have hne : q.tail ≠ (q.head + i) % 128 := by omega
      simp [List.getD_eq_getElem?_getD, List.getElem?_set, hne]
    · have ht : q.tail < q.data.length := by omega
      simp [List.getD_eq_getElem?_getD, List.getElem?_set, ← h4, ht]
  · have hlen : ¬ (queueContents q).length < 128 := by simpa [queueContents] using hc
    simp only [gt_iff_lt, hc, if_false, hlen]

theorem pop_result (q : Tacho_RxQueue_t) (h : QueueInv q) :
    (Tacho_FetchByte q).2 = (specPop (queueContents q)).2 := by
  obtain ⟨h1, h2, h3, h4⟩ := h
  simp only [TACHO_RX_QUEUE_SIZE] at h1 h2 h3 h4
  simp only [Tacho_FetchByte, queueContents, TACHO_RX_QUEUE_SIZE]
  rcases Nat.eq_zero_or_pos q.count with hc | hc
  · simp [hc, specPop]
  · obtain ⟨c, hc2⟩ : ∃ c, q.count = c + 1 := ⟨q.count - 1, by omega⟩
    simp only [hc, if_true, hc2, List.range_succ_eq_map, List.map_cons, specPop]
    simp [Nat.mod_eq_of_lt h2]

theorem pop_inv (q : Tacho_RxQueue_t) (h : QueueInv q) :
    QueueInv (Tacho_FetchByte q).1 := by
  obtain ⟨h1, h2, h3, h4⟩ := h
  simp only [TACHO_RX_QUEUE_SIZE] at h1 h2 h3 h4
  simp only [Tacho_FetchByte, TACHO_RX_QUEUE_SIZE, buffer_end, buffer_start]
  by_cases hc : 0 < q.count
  · simp only [hc, if_true, QueueInv, TACHO_RX_QUEUE_SIZE]
    refine ⟨h1, by split <;> omega, by omega, ?_⟩
    split <;> omega
  · simp only [hc, if_false, QueueInv, TACHO_RX_QUEUE_SIZE]
    exact ⟨h1, h2, h3, h4⟩

theorem pop_contents (q : Tacho_RxQueue_t) (h : QueueInv q) :
    queueContents (Tacho_FetchByte q).1 = (specPop (queueContents q)).1 := by
  obtain ⟨h1, h2, h3, h4⟩ := h
  simp only [TACHO_RX_QUEUE_SIZE] at h1 h2 h3 h4
  simp only [Tacho_FetchByte, queueContents, TACHO_RX_QUEUE_SIZE, buffer_end, buffer_start]
  rcases Nat.eq_zero_or_pos q.count with hc | hc
  · simp [hc, specPop]
  · obtain ⟨c, hc2⟩ : ∃ c, q.count = c + 1 := ⟨q.count - 1, by omega⟩
    have hpos : 0 < c + 1 := Nat.succ_pos c
    simp only [hc2, hpos, if_true, List.range_succ_eq_map, List.map_cons, specPop,
      Nat.add_sub_cancel, List.map_map]
    apply List.map_congr_left
    intro i _
    have : ((if 128 - 1 = q.head then 0 else q.head + 1) + i) % 128
        = (q.head + (i + 1)) % 128 := by
      split <;> omega
    simp [Function.comp, this]

theorem runQueue_refines (ops : List QueueOp) :
    ∀ q : Tacho_RxQueue_t, QueueInv q →
      (runQueue q ops).2 = (runSpecFifo (queueContents q) ops).2 := by
  induction ops with
  | nil => intro q _; rfl
  | cons op ops ih =>
    intro q h
    cases op with
    | push b =>
      simp only [runQueue, runSpecFifo]
      rw [ih _ (push_inv q b h), push_contents q b h, push_result q b]
    | pop =>
      simp only [runQueue, runSpecFifo]
      rw [ih _ (pop_inv q h), pop_contents q h, pop_result q h]

theorem popN_contents (n : Nat) :
    ∀ q : Tacho_RxQueue_t, QueueInv q → q.count = n →
      popN q n = (queueContents q).map some := by
  induction n with
  | zero =>
    intro q _ hc
    simp [popN, queueContents, hc]
  | succ n ih =>
    intro q h hc
    have hpop : (Tacho_FetchByte q).1.count = n := by
      simp [Tacho_FetchByte, hc]
    have hne : queueContents q ≠ [] := by
      intro he
      have := congrArg List.length he
      simp [queueContents, hc] at this
    obtain ⟨x, xs, hx⟩ := List.exists_cons_of_ne_nil hne
    have h1 := pop_result q h
    have h2 := pop_contents q h
    rw [hx] at h1 h2
    simp only [specPop] at h1 h2
    simp only [popN]
    rw [ih _ (pop_inv q h) hpop, h1, h2, hx]
    rfl

/-! ## Reception queue: verified claims -/

/-- C1: applied to a cleared queue, any sequence of `Tacho_QueueAddByte` /
`Tacho_FetchByte` calls (wrapping included) produces exactly the results of
the abstract list FIFO of capacity 128: every pop returns the oldest accepted
byte not yet popped or fails when empty, every push succeeds exactly when
fewer than 128 bytes are held. -/
theorem C1_queue_refines_bounded_fifo (q : Tacho_RxQueue_t) (ops : List QueueOp)
    (hlen : q.data.length = TACHO_RX_QUEUE_SIZE) :
    (runQueue (Tacho_ClearRxQueue q) ops).2 = (runSpecFifo [] ops).2 := by
  have h := runQueue_refines ops (Tacho_ClearRxQueue q) (queueInv_clear q hlen)
  rw [queueContents_clear] at h
  exact h

/-- C1 witness: a queue with stale head, tail and counters is cleared and then
pushed and popped past the point where it is empty. -/
theorem C1_queue_refines_bounded_fifo_witness :
    (List.replicate 128 0).length = TACHO_RX_QUEUE_SIZE ∧
    (runQueue (Tacho_ClearRxQueue ⟨List.replicate 128 0, 5, 9, 4, 1, 1⟩)
        [QueueOp.push 7, QueueOp.push 8, QueueOp.pop, QueueOp.pop, QueueOp.pop]).2
      = (runSpecFifo []
        [QueueOp.push 7, QueueOp.push 8, QueueOp.pop, QueueOp.pop, QueueOp.pop]).2 :=
  ⟨List.length_replicate 128 0,
   C1_queue_refines_bounded_fifo _ _ (List.length_replicate 128 0)⟩

/-- C2: on every queue state holding 128 bytes `Tacho_QueueAddByte` returns
FALSE and leaves the whole queue (occupancy, head, tail, both counters, all
stored bytes) unchanged, so popping gives what it gave before the call; for a
queue that satisfies the representation invariant these are the 128 queued
bytes in their original order. -/
theorem C2_push_on_full_queue_rejected (q : Tacho_RxQueue_t) (b : Nat)
    (hfull : q.count = TACHO_RX_QUEUE_SIZE) :
    Tacho_QueueAddByte q b = (q, false) ∧
    popN (Tacho_QueueAddByte q b).1 128 = popN q 128 ∧
    (QueueInv q → popN (Tacho_QueueAddByte q b).1 128 = (queueContents q).map some) := by
  have h1 : Tacho_QueueAddByte q b = (q, false) := by
    simp [Tacho_QueueAddByte, hfull]
  refine ⟨h1, by rw [h1], ?_⟩
  intro hinv
  rw [h1]
  exact popN_contents 128 q hinv hfull

/-- C2 witness: a full queue whose head sits in the middle of the buffer. -/
theorem C2_push_on_full_queue_rejected_witness :
    (⟨List.range 128, 100, 100, 128, 3, 1⟩ : Tacho_RxQueue_t).count = TACHO_RX_QUEUE_SIZE ∧
    QueueInv ⟨List.range 128, 100, 100, 128, 3, 1⟩ ∧
    Tacho_QueueAddByte ⟨List.range 128, 100, 100, 128, 3, 1⟩ 255
      = (⟨List.range 128, 100, 100, 128, 3, 1⟩, false) ∧
    popN (Tacho_QueueAddByte ⟨List.range 128, 100, 100, 128, 3, 1⟩ 255).1 128
      = (queueContents ⟨List.range 128, 100, 100, 128, 3, 1⟩).map some :=
  ⟨rfl, ⟨List.length_range 128, by decide, by decide, by decide⟩,
   (C2_push_on_full_queue_rejected _ 255 rfl).1,
   (C2_push_on_full_queue_rejected _ 255 rfl).2.2
     ⟨List.length_range 128, by decide, by decide, by decide⟩⟩

/-- C3: `Tacho_ClearRxQueue` leaves occupancy, framing-error counter and
failed-attempts counter at 0 and head = tail = buffer start; the next pop then
fails, and the next push succeeds and stores its byte at buffer position 0. -/
theorem C3_clear_resets_queue (q : Tacho_RxQueue_t) (b : Nat)
    (hlen : q.data.length = TACHO_RX_QUEUE_SIZE) :
    (Tacho_ClearRxQueue q).count = 0 ∧
    (Tacho_ClearRxQueue q).error_counter = 0 ∧
    (Tacho_ClearRxQueue q).failed_attempts = 0 ∧
    (Tacho_ClearRxQueue q).head = buffer_start ∧
    (Tacho_ClearRxQueue q).tail = buffer_start ∧
    (Tacho_ClearRxQueue q).data = q.data ∧
    Tacho_FetchByte (Tacho_ClearRxQueue q) = (Tacho_ClearRxQueue q, none) ∧
    (Tacho_QueueAddByte (Tacho_ClearRxQueue q) b).2 = true ∧
    (Tacho_QueueAddByte (Tacho_ClearRxQueue q) b).1.data = q.data.set 0 b ∧
    (Tacho_QueueAddByte (Tacho_ClearRxQueue q) b).1.data.getD 0 0 = b ∧
    (Tacho_QueueAddByte (Tacho_ClearRxQueue q) b).1.count = 1 := by
  have hpos : 0 < q.data.length := by rw [hlen]; decide
  simp [Tacho_ClearRxQueue, Tacho_FetchByte, Tacho_QueueAddByte, buffer_start,
    TACHO_RX_QUEUE_SIZE, List.getD_eq_getElem?_getD, List.getElem?_set, hpos]

/-- C3 witness: a full queue with non-zero counters is cleared. -/
theorem C3_clear_resets_queue_witness :
    (List.range 128).length = TACHO_RX_QUEUE_SIZE ∧
    (Tacho_ClearRxQueue ⟨List.range 128, 100, 100, 128, 3, 1⟩).count = 0 ∧
    Tacho_FetchByte (Tacho_ClearRxQueue ⟨List.range 128, 100, 100, 128, 3, 1⟩)
      = (Tacho_ClearRxQueue ⟨List.range 128, 100, 100, 128, 3, 1⟩, none) ∧
    (Tacho_QueueAddByte (Tacho_ClearRxQueue ⟨List.range 128, 100, 100, 128, 3, 1⟩) 77).1.data.getD 0 0
      = 77 :=
  have h := C3_clear_resets_queue ⟨List.range 128, 100, 100, 128, 3, 1⟩ 77 (List.length_range 128)
  ⟨List.length_range 128, h.1, h.2.2.2.2.2.2.1, h.2.2.2.2.2.2.2.2.2.1⟩

/-! ## VDO state machine: lemmas -/

theorem feed_length (h : Tacho_State → Nat → Tacho_State × Bool) (bs : List Nat) :
    ∀ s, (feed h s bs).2.length = bs.length := by
  induction bs with
  | nil => intro s; rfl
  | cons b bs ih => intro s; simp [feed, ih]

theorem feed_append (h : Tacho_State → Nat → Tacho_State × Bool) (xs ys : List Nat) :
    ∀ s, feed h s (xs ++ ys)
      = ((feed h (feed h s xs).1 ys).1, (feed h s xs).2 ++ (feed h (feed h s xs).1 ys).2) := by
  induction xs with
  | nil => intro s; simp [feed]
  | cons x xs ih => intro s; simp [feed, ih]

theorem feed_snoc_flags (h : Tacho_State → Nat → Tacho_State × Bool) (s : Tacho_State)
    (pre : List Nat) (b : Nat) (fl : List Bool) (r : Bool)
    (hrun : (feed h s (pre ++ [b])).2 = fl ++ [r]) :
    (feed h s pre).2 = fl ∧ (h (feed h s pre).1 b).2 = r ∧
    (feed h s (pre ++ [b])).1 = (h (feed h s pre).1 b).1 := by
  rw [feed_append] at hrun
  simp only [feed] at hrun
  have hl : (feed h s pre).2.length = fl.length := by
    have := congrArg List.length hrun
    simp at this
    exact this
  have := List.append_inj hrun hl
  refine ⟨this.1, by simpa using this.2, ?_⟩
  rw [feed_append]
  simp [feed]

theorem Tacho_VdoHandler_switch_eq (s : Tacho_State) (b : Nat) :
    Tacho_VdoHandler_switch s b =
      { s with Tacho_Frame := (Tacho_VdoHandler_switch s b).Tacho_Frame,
               vdo := { s.vdo with cstr_pos := (Tacho_VdoHandler_switch s b).vdo.cstr_pos } } := by
  unfold Tacho_VdoHandler_switch
  repeat' split
  all_goals rfl

theorem Tacho_VdoCheckDIN_eq (s : Tacho_State) (b : Nat) :
    Tacho_VdoCheckDIN s b = { s with Tacho_Frame := (Tacho_VdoCheckDIN s b).Tacho_Frame } := by
  unfold Tacho_VdoCheckDIN
  repeat' split
  all_goals rfl

theorem vdoMid_eq (s : Tacho_State) (b : Nat) :
    vdoMid s b =
      { s with Tacho_Frame := (vdoMid s b).Tacho_Frame,
               vdo := { s.vdo with cstr_pos := (Tacho_VdoHandler_switch s b).vdo.cstr_pos } } := by
  unfold vdoMid
  rw [Tacho_VdoCheckDIN_eq, Tacho_VdoHandler_switch_eq]

theorem vdoMid_fields (s : Tacho_State) (b : Nat) :
    (vdoMid s b).trace = s.trace ∧ (vdoMid s b).Tacho_CachedData = s.Tacho_CachedData ∧
    (vdoMid s b).vdo.crc8_value = s.vdo.crc8_value ∧ (vdoMid s b).vdo.index = s.vdo.index ∧
    (vdoMid s b).sr = s.sr ∧ (vdoMid s b).Tacho_RxQueue = s.Tacho_RxQueue := by
  rw [vdoMid_eq]
  exact ⟨rfl, rfl, rfl, rfl, rfl, rfl⟩

theorem Tacho_VdoHandler_chain_some (s s3 : Tacho_State) (b : Nat)
    (h : Tacho_VdoHandler_chain s b = some s3) :
    s3.trace = s.trace ∧ s3.Tacho_CachedData = s.Tacho_CachedData ∧
    s3.vdo.crc8_value = s.vdo.crc8_value ∧ s3.vdo.index = s.vdo.index ∧
    s3.Tacho_Frame = s.Tacho_Frame := by
  unfold Tacho_VdoHandler_chain at h
  split at h
  · cases h; exact ⟨rfl, rfl, rfl, rfl, rfl⟩
  split at h
  · cases h; exact ⟨rfl, rfl, rfl, rfl, rfl⟩
  split at h
  · cases h; exact ⟨rfl, rfl, rfl, rfl, rfl⟩
  split at h
  · cases h
  · cases h; exact ⟨rfl, rfl, rfl, rfl, rfl⟩

theorem Tacho_VdoHandler_false (s : Tacho_State) (b : Nat)
    (h : (Tacho_VdoHandler s b).2 = false) :
    (Tacho_VdoHandler s b).1.trace = s.trace ∧
    (Tacho_VdoHandler s b).1.Tacho_CachedData = s.Tacho_CachedData ∧
    (Tacho_VdoHandler s b).1.vdo.crc8_value = s.vdo.crc8_value ^^^ b := by
  have hm := vdoMid_fields s b
  unfold vdoMid at hm
  unfold Tacho_VdoHandler at h ⊢
  cases hc : Tacho_VdoHandler_chain (Tacho_VdoCheckDIN (Tacho_VdoHandler_switch s b) b) b with
  | none => simp [hc] at h
  | some s3 =>
    have h3 := Tacho_VdoHandler_chain_some _ _ _ hc
    simp only [hc]
    refine ⟨?_, ?_, ?_⟩
    · show s3.trace = s.trace
      rw [h3.1, hm.1]
    · show s3.Tacho_CachedData = s.Tacho_CachedData
      rw [h3.2.1, hm.2.1]
    · show s3.vdo.crc8_value ^^^ b = s.vdo.crc8_value ^^^ b
      rw [h3.2.2.1, hm.2.2.1]

theorem Tacho_VdoHandler_true (s : Tacho_State) (b : Nat)
    (h : (Tacho_VdoHandler s b).2 = true) :
    (Tacho_VdoHandler s b).1 =
      Tacho_VdoInitHandler
        (if b = s.vdo.crc8_value then
          Tacho_NotifyFrameReceived (Tacho_CopyToCache (vdoMid s b))
            (some (Tacho_CopyToCache (vdoMid s b)).Tacho_CachedData.tco1)
         else vdoMid s b) := by
  have hm := vdoMid_fields s b
  unfold vdoMid at hm ⊢
  unfold Tacho_VdoHandler at h ⊢
  cases hc : Tacho_VdoHandler_chain (Tacho_VdoCheckDIN (Tacho_VdoHandler_switch s b) b) b with
  | some s3 => simp [hc] at h
  | none =>
    simp only [hc, hm.2.2.1]

theorem feed_vdo_false (pre : List Nat) :
    ∀ s : Tacho_State, (feed Tacho_VdoHandler s pre).2 = List.replicate pre.length false →
      (feed Tacho_VdoHandler s pre).1.trace = s.trace ∧
      (feed Tacho_VdoHandler s pre).1.Tacho_CachedData = s.Tacho_CachedData ∧
      (feed Tacho_VdoHandler s pre).1.vdo.crc8_value = xorAll s.vdo.crc8_value pre := by
  induction pre with
  | nil => intro s _; exact ⟨rfl, rfl, rfl⟩
  | cons x xs ih =>
    intro s h
    simp only [feed, List.length_cons, List.replicate_succ, List.cons.injEq] at h
    have hx := Tacho_VdoHandler_false s x h.1
    have hr := ih _ h.2
    simp only [feed, xorAll, List.foldl_cons]
    refine ⟨by rw [hr.1, hx.1], by rw [hr.2.1, hx.2.1], ?_⟩
    rw [hr.2.2, hx.2.2]
    rfl

theorem Tacho_VdoCheckDIN_vdo (s : Tacho_State) (b : Nat) :
    (Tacho_VdoCheckDIN s b).vdo = s.vdo := by
  rw [Tacho_VdoCheckDIN_eq]

theorem Tacho_VdoHandler_switch_vdo (s : Tacho_State) (b : Nat) :
    (Tacho_VdoHandler_switch s b).vdo
      = if s.vdo.index = 34 then { s.vdo with cstr_pos := (34 + b + 1) % 256 } else s.vdo := by
  unfold Tacho_VdoHandler_switch
  by_cases h34 : s.vdo.index = 34
  · simp [h34]
  · simp only [h34, if_false]
    repeat' split
    all_goals rfl

theorem Tacho_VdoHandler_chain_vdo (s : Tacho_State) (b : Nat) :
    (match Tacho_VdoHandler_chain s b with
     | none => (vdoInitial, true)
     | some s3 => ({ s3.vdo with crc8_value := s3.vdo.crc8_value ^^^ b,
                                 index := (s3.vdo.index + 1) % 256 }, false))
      = vdoChain s.vdo b := by
  unfold Tacho_VdoHandler_chain vdoChain
  by_cases h1 : s.vdo.cstr_pos = s.vdo.index
  · simp only [if_pos h1]
  by_cases h2 : s.vdo.drv1_pos = s.vdo.index
  · simp only [if_neg h1, if_pos h2]
  by_cases h3 : s.vdo.drv2_pos = s.vdo.index
  · simp only [if_neg h1, if_neg h2, if_pos h3]
  by_cases h4 : s.vdo.crc8_pos = s.vdo.index
  · simp only [if_neg h1, if_neg h2, if_neg h3, if_pos h4]
  · simp only [if_neg h1, if_neg h2, if_neg h3, if_neg h4]

theorem Tacho_VdoHandler_vdo (s : Tacho_State) (b : Nat) :
    ((Tacho_VdoHandler s b).1.vdo, (Tacho_VdoHandler s b).2) = vdoStep s.vdo b := by
  have h1 := Tacho_VdoHandler_chain_vdo (Tacho_VdoCheckDIN (Tacho_VdoHandler_switch s b) b) b
  rw [Tacho_VdoCheckDIN_vdo, Tacho_VdoHandler_switch_vdo] at h1
  unfold vdoStep
  rw [← h1]
  unfold Tacho_VdoHandler
  cases hc : Tacho_VdoHandler_chain (Tacho_VdoCheckDIN (Tacho_VdoHandler_switch s b) b) b with
  | none => simp only [hc]; rfl
  | some s3 => simp only [hc]

theorem xorAll_take_succ (acc : Nat) (frame : List Nat) (k : Nat) (hk : k < frame.length) :
    xorAll acc (frame.take (k + 1)) = xorAll acc (frame.take k) ^^^ frame.getD k 0 := by
  have h1 : frame.take (k + 1) = frame.take k ++ [frame.getD k 0] := by
    rw [List.take_succ, List.getD_eq_getElem?_getD, List.getElem?_eq_getElem hk]
    rfl
  rw [h1]
  unfold xorAll
  rw [List.foldl_append]
  rfl

theorem vdoStep_at (frame : List Nat) (hl : VdoLayout frame) (k : Nat)
    (hk : 5 + k < vdoCrcPos frame) :
    vdoStep (vdoAt frame k) (frame.getD k 0) = (vdoAt frame (k + 1), false) := by
  obtain ⟨hl1, hl2⟩ := hl
  have hklen : k < frame.length := by rw [hl2]; simp only [TACHO_VDO_SEQSZ]; omega
  have hx := xorAll_take_succ 0x49 frame k hklen
  unfold vdoStep vdoChain vdoAt
  rw [hx]
  simp only [vdoCrcPos, vdoDrv2Pos, vdoDrv1Pos, vdoCstrPos, vdoByte, TACHO_VDO_SEQSZ] at hk hl1 ⊢
  generalize xorAll 73 (List.take k frame) = X at *
  generalize hN : frame.getD (34 - 5) 0 = N at *
  generalize hM : frame.getD (34 + N + 1 - 5) 0 = M at *
  generalize hL1 : frame.getD (34 + N + 1 + M + 1 - 5) 0 = L1 at *
  generalize hL2 : frame.getD (34 + N + 1 + M + 1 + L1 + 1 - 5) 0 = L2 at *
  have hbN : k = 29 → frame.getD k 0 = N := by intro h; rw [h]; exact hN
  have hbM : k = 30 + N → frame.getD k 0 = M := by
    intro h; rw [h, ← hM]; congr 1; omega
  have hbL1 : k = 31 + N + M → frame.getD k 0 = L1 := by
    intro h; rw [h, ← hL1]; congr 1; omega
  have hbL2 : k = 32 + N + M + L1 → frame.getD k 0 = L2 := by
    intro h; rw [h, ← hL2]; congr 1; omega
  generalize frame.getD k 0 = b at *
  clear hN hM hL1 hL2 hx hl2 hklen
  have ph : k < 29 ∨ k = 29 ∨ (29 < k ∧ k < 30 + N) ∨ k = 30 + N ∨ (30 + N < k ∧ k < 31 + N + M)
      ∨ k = 31 + N + M ∨ (31 + N + M < k ∧ k < 32 + N + M + L1) ∨ k = 32 + N + M + L1
      ∨ 32 + N + M + L1 < k := by omega
  rcases ph with h | h | h | h | h | h | h | h | h
  all_goals
    simp (disch := omega) only [if_pos, if_neg, Prod.mk.injEq, Tacho_VdoData_t.mk.injEq,
      and_true, true_and]
  all_goals omega

theorem vdoStep_last (frame : List Nat) (hl : VdoLayout frame) (b : Nat) :
    vdoStep (vdoAt frame (vdoCrcPos frame - 5)) b = (vdoInitial, true) := by
  obtain ⟨hl1, _⟩ := hl
  unfold vdoStep vdoChain vdoAt
  simp only [vdoCrcPos, vdoDrv2Pos, vdoDrv1Pos, vdoCstrPos, vdoByte, TACHO_VDO_SEQSZ] at hl1 ⊢
  generalize xorAll 73 _ = X at *
  generalize frame.getD (34 - 5) 0 = N at *
  generalize frame.getD (34 + N + 1 - 5) 0 = M at *
  generalize frame.getD (34 + N + 1 + M + 1 - 5) 0 = L1 at *
  generalize frame.getD (34 + N + 1 + M + 1 + L1 + 1 - 5) 0 = L2 at *
  simp (disch := omega) only [if_pos, if_neg]

theorem vdoAt_zero (frame : List Nat) : vdoAt frame 0 = vdoInitial := by
  unfold vdoAt vdoInitial
  simp only [vdoDrv2Pos, vdoDrv1Pos, vdoCstrPos, TACHO_VDO_SEQSZ, TACHO_VDO_CRC_INIT]
  simp (disch := omega) only [if_neg, List.take_zero, xorAll, List.foldl_nil]

theorem Tacho_VdoCheckDIN_scalars (s : Tacho_State) (b : Nat) :
    (Tacho_VdoCheckDIN s b).Tacho_Frame.working_state = s.Tacho_Frame.working_state ∧
    (Tacho_VdoCheckDIN s b).Tacho_Frame.driver1_state = s.Tacho_Frame.driver1_state ∧
    (Tacho_VdoCheckDIN s b).Tacho_Frame.driver2_state = s.Tacho_Frame.driver2_state ∧
    (Tacho_VdoCheckDIN s b).Tacho_Frame.tacho_status = s.Tacho_Frame.tacho_status ∧
    (Tacho_VdoCheckDIN s b).Tacho_Frame.speed_lsb = s.Tacho_Frame.speed_lsb ∧
    (Tacho_VdoCheckDIN s b).Tacho_Frame.speed_msb = s.Tacho_Frame.speed_msb := by
  unfold Tacho_VdoCheckDIN
  repeat' split
  all_goals exact ⟨rfl, rfl, rfl, rfl, rfl, rfl⟩

theorem vdoMid_scalars (s : Tacho_State) (b : Nat) :
    (vdoMid s b).Tacho_Frame.working_state
      = (if s.vdo.index = 14 then b else s.Tacho_Frame.working_state) ∧
    (vdoMid s b).Tacho_Frame.driver1_state
      = (if s.vdo.index = 15 then b else s.Tacho_Frame.driver1_state) ∧
    (vdoMid s b).Tacho_Frame.driver2_state
      = (if s.vdo.index = 16 then b else s.Tacho_Frame.driver2_state) ∧
    (vdoMid s b).Tacho_Frame.tacho_status
      = (if s.vdo.index = 17 then b else s.Tacho_Frame.tacho_status) ∧
    (vdoMid s b).Tacho_Frame.speed_lsb
      = (if s.vdo.index = 18 then b else s.Tacho_Frame.speed_lsb) ∧
    (vdoMid s b).Tacho_Frame.speed_msb
      = (if s.vdo.index = 19 then b else s.Tacho_Frame.speed_msb) := by
  have hc := Tacho_VdoCheckDIN_scalars (Tacho_VdoHandler_switch s b) b
  unfold vdoMid
  rw [hc.1, hc.2.1, hc.2.2.1, hc.2.2.2.1, hc.2.2.2.2.1, hc.2.2.2.2.2]
  unfold Tacho_VdoHandler_switch
  by_cases h14 : s.vdo.index = 14
  · simp [h14]
  by_cases h15 : s.vdo.index = 15
  · simp [h15]
  by_cases h16 : s.vdo.index = 16
  · simp [h16]
  by_cases h17 : s.vdo.index = 17
  · simp [h17]
  by_cases h18 : s.vdo.index = 18
  · simp [h18]
  by_cases h19 : s.vdo.index = 19
  · simp [h19]
  by_cases h34 : s.vdo.index = 34
  · simp [h34]
  · simp [h14, h15, h16, h17, h18, h19, h34]

theorem vdoMid_VdoScalars (frame : List Nat) (k : Nat) (s : Tacho_State)
    (hi : s.vdo.index = 5 + k) (hf : VdoScalars frame k s.Tacho_Frame) :
    VdoScalars frame (k + 1) (vdoMid s (frame.getD k 0)).Tacho_Frame := by
  obtain ⟨h1, h2, h3, h4, h5, h6⟩ := hf
  obtain ⟨m1, m2, m3, m4, m5, m6⟩ := vdoMid_scalars s (frame.getD k 0)
  rw [hi] at m1 m2 m3 m4 m5 m6
  unfold VdoScalars
  rw [m1, m2, m3, m4, m5, m6]
  simp only [vdoByte, TACHO_VDO_SEQSZ] at h1 h2 h3 h4 h5 h6 ⊢
  refine ⟨?_, ?_, ?_, ?_, ?_, ?_⟩
  all_goals
    intro hlt
    split
    · next he => congr 1; omega
    · next hne => first | exact h1 (by omega) | exact h2 (by omega) | exact h3 (by omega)
                        | exact h4 (by omega) | exact h5 (by omega) | exact h6 (by omega)

/-! ## VDO state machine: verified claims -/

set_option maxRecDepth 8000

theorem Tacho_VdoHandler_false_frame (s : Tacho_State) (b : Nat)
    (h : (Tacho_VdoHandler s b).2 = false) :
    (Tacho_VdoHandler s b).1.Tacho_Frame = (vdoMid s b).Tacho_Frame := by
  unfold vdoMid
  unfold Tacho_VdoHandler at h ⊢
  cases hc : Tacho_VdoHandler_chain (Tacho_VdoCheckDIN (Tacho_VdoHandler_switch s b) b) b with
  | none => simp [hc] at h
  | some s3 =>
    have h3 := Tacho_VdoHandler_chain_some _ _ _ hc
    simp only [hc]
    exact h3.2.2.2.2

theorem take_succ_getD (frame : List Nat) (k : Nat) (hk : k < frame.length) :
    frame.take (k + 1) = frame.take k ++ [frame.getD k 0] := by
  rw [List.take_succ, List.getD_eq_getElem?_getD, List.getElem?_eq_getElem hk]
  rfl

theorem vdo_run (frame : List Nat) (hl : VdoLayout frame) (s : Tacho_State)
    (hinit : s.vdo = vdoInitial) :
    ∀ k, 5 + k ≤ vdoCrcPos frame →
      (feed Tacho_VdoHandler s (frame.take k)).2 = List.replicate k false ∧
      (feed Tacho_VdoHandler s (frame.take k)).1.vdo = vdoAt frame k ∧
      VdoScalars frame k (feed Tacho_VdoHandler s (frame.take k)).1.Tacho_Frame := by
  intro k
  induction k with
  | zero =>
    intro _
    refine ⟨rfl, ?_, ?_⟩
    · rw [vdoAt_zero]; exact hinit
    · unfold VdoScalars
      refine ⟨?_, ?_, ?_, ?_, ?_, ?_⟩ <;> intro h <;> omega
  | succ k ih =>
    intro hk
    obtain ⟨ih1, ih2, ih3⟩ := ih (by omega)
    have hklen : k < frame.length := by
      rw [hl.2]; simp only [TACHO_VDO_SEQSZ]; omega
    have hstep := vdoStep_at frame hl k (by omega)
    rw [← ih2, ← Tacho_VdoHandler_vdo] at hstep
    have hflag : (Tacho_VdoHandler (feed Tacho_VdoHandler s (frame.take k)).1
        (frame.getD k 0)).2 = false := (Prod.mk.inj hstep).2
    have hvdo := (Prod.mk.inj hstep).1
    rw [take_succ_getD frame k hklen, feed_append]
    simp only [feed]
    refine ⟨?_, hvdo, ?_⟩
    · rw [ih1, hflag, List.replicate_succ']
    · rw [Tacho_VdoHandler_false_frame _ _ hflag]
      exact vdoMid_VdoScalars frame k _ (by rw [ih2]; rfl) ih3

theorem vdo_complete (frame : List Nat) (hl : VdoLayout frame) (s : Tacho_State)
    (hinit : s.vdo = vdoInitial) :
    (feed Tacho_VdoHandler s frame).2
      = List.replicate (vdoCrcPos frame - 5) false ++ [true] ∧
    (feed Tacho_VdoHandler s frame).1
      = Tacho_VdoInitHandler
          (if vdoByte frame (vdoCrcPos frame) = xorAll 0x49 (frame.take (vdoCrcPos frame - 5)) then
            Tacho_NotifyFrameReceived
              (Tacho_CopyToCache
                (vdoMid (feed Tacho_VdoHandler s (frame.take (vdoCrcPos frame - 5))).1
                  (vdoByte frame (vdoCrcPos frame))))
              (some (Tacho_CopyToCache
                (vdoMid (feed Tacho_VdoHandler s (frame.take (vdoCrcPos frame - 5))).1
                  (vdoByte frame (vdoCrcPos frame)))).Tacho_CachedData.tco1)
           else vdoMid (feed Tacho_VdoHandler s (frame.take (vdoCrcPos frame - 5))).1
                  (vdoByte frame (vdoCrcPos frame))) ∧
    (vdoMid (feed Tacho_VdoHandler s (frame.take (vdoCrcPos frame - 5))).1
        (vdoByte frame (vdoCrcPos frame))).trace = s.trace ∧
    (vdoMid (feed Tacho_VdoHandler s (frame.take (vdoCrcPos frame - 5))).1
        (vdoByte frame (vdoCrcPos frame))).Tacho_CachedData = s.Tacho_CachedData ∧
    VdoScalars frame (vdoCrcPos frame - 5 + 1)
      (vdoMid (feed Tacho_VdoHandler s (frame.take (vdoCrcPos frame - 5))).1
        (vdoByte frame (vdoCrcPos frame))).Tacho_Frame := by
  have hge : 38 ≤ vdoCrcPos frame := by
    simp only [vdoCrcPos, vdoDrv2Pos, vdoDrv1Pos, vdoCstrPos]; omega
  obtain ⟨r1, r2, r3⟩ := vdo_run frame hl s hinit (vdoCrcPos frame - 5) (by omega)
  have hlen : frame.length = (vdoCrcPos frame - 5) + 1 := by
    rw [hl.2]; simp only [TACHO_VDO_SEQSZ]
  have hbyte : vdoByte frame (vdoCrcPos frame) = frame.getD (vdoCrcPos frame - 5) 0 := rfl
  have hsplit : frame = frame.take (vdoCrcPos frame - 5) ++ [frame.getD (vdoCrcPos frame - 5) 0] := by
    rw [← take_succ_getD frame _ (by omega), ← hlen, List.take_length]
  have hlast := vdoStep_last frame hl (frame.getD (vdoCrcPos frame - 5) 0)
  rw [← r2, ← Tacho_VdoHandler_vdo] at hlast
  have hflag := (Prod.mk.inj hlast).2
  have htrue := Tacho_VdoHandler_true _ _ hflag
  have hcrc : (feed Tacho_VdoHandler s (frame.take (vdoCrcPos frame - 5))).1.vdo.crc8_value
      = xorAll 0x49 (frame.take (vdoCrcPos frame - 5)) := by rw [r2]; rfl
  have hpre := feed_vdo_false (frame.take (vdoCrcPos frame - 5)) s
    (by rw [r1, List.length_take, hlen]; congr 1; omega)
  have hm := vdoMid_fields (feed Tacho_VdoHandler s (frame.take (vdoCrcPos frame - 5))).1
    (frame.getD (vdoCrcPos frame - 5) 0)
  rw [hbyte]
  refine ⟨?_, ?_, by rw [hm.1, hpre.1], by rw [hm.2.1, hpre.2.1], ?_⟩
  · conv_lhs => rw [hsplit, feed_append]
    simp only [feed]
    rw [r1, hflag]
  · conv_lhs => rw [hsplit, feed_append]
    simp only [feed]
    rw [htrue, hcrc]
  · exact vdoMid_VdoScalars frame _ _ (by rw [r2]; rfl) r3


theorem Tacho_NotifyFrameReceived_trace (s : Tacho_State) (d : Option (List Nat)) :
    ∃ tl, (Tacho_NotifyFrameReceived s d).trace
      = s.trace ++ Tacho_Event.NotifyFrameReceived :: tl := by
  unfold Tacho_NotifyFrameReceived
  cases d with
  | none => exact ⟨[], rfl⟩
  | some d =>
    simp only
    split
    · exact ⟨[Tacho_Event.FMI_process_j1939_event_TCO1_AVAILABLE], by simp⟩
    · exact ⟨[], rfl⟩

theorem Tacho_NotifyFrameReceived_tco1 (s : Tacho_State) (d : Option (List Nat)) :
    (Tacho_NotifyFrameReceived s d).Tacho_CachedData.tco1 = s.Tacho_CachedData.tco1 ∧
    (Tacho_NotifyFrameReceived s d).Tacho_CachedData.di = s.Tacho_CachedData.di ∧
    (Tacho_NotifyFrameReceived s d).Tacho_Frame = s.Tacho_Frame ∧
    (Tacho_NotifyFrameReceived s d).vdo = s.vdo ∧
    (Tacho_NotifyFrameReceived s d).sr = s.sr := by
  unfold Tacho_NotifyFrameReceived
  cases d with
  | none => exact ⟨rfl, rfl, rfl, rfl, rfl⟩
  | some d =>
    simp only
    split
    · exact ⟨rfl, rfl, rfl, rfl, rfl⟩
    · exact ⟨rfl, rfl, rfl, rfl, rfl⟩

theorem accepted_of_copy_notify (s : Tacho_State) (t0 : List Tacho_Event) (h : s.trace = t0) :
    Accepted t0 (Tacho_VdoInitHandler (Tacho_NotifyFrameReceived (Tacho_CopyToCache s)
      (some (Tacho_CopyToCache s).Tacho_CachedData.tco1))).trace := by
  obtain ⟨tl, htl⟩ := Tacho_NotifyFrameReceived_trace (Tacho_CopyToCache s)
    (some (Tacho_CopyToCache s).Tacho_CachedData.tco1)
  refine ⟨tl, ?_⟩
  show (Tacho_NotifyFrameReceived (Tacho_CopyToCache s) _).trace = _
  rw [htl]
  show (s.trace ++ [Tacho_Event.CopyToCache]) ++ _ = _
  rw [h]
  simp

theorem not_accepted_self (t : List Tacho_Event) : ¬ Accepted t t := by
  rintro ⟨tl, h⟩
  have := congrArg List.length h
  simp at this

/-- C4: VDO checksum rule. For every byte sequence fed to `Tacho_VdoHandler`
from the initial run-state, at the byte `b` on which the handler reports
frame-complete the frame is accepted (`Tacho_CopyToCache` and
`Tacho_NotifyFrameReceived` are executed) if and only if `b` equals 0x49
XOR-ed with every byte fed before it; otherwise neither routine runs. -/
theorem C4_vdo_checksum_rule (s : Tacho_State) (pre : List Nat) (b : Nat)
    (hinit : s.vdo = vdoInitial)
    (hrun : (feed Tacho_VdoHandler s (pre ++ [b])).2
      = List.replicate pre.length false ++ [true]) :
    (Accepted s.trace (feed Tacho_VdoHandler s (pre ++ [b])).1.trace ↔ b = xorAll 0x49 pre) ∧
    (b ≠ xorAll 0x49 pre → (feed Tacho_VdoHandler s (pre ++ [b])).1.trace = s.trace) ∧
    (feed Tacho_VdoHandler s (pre ++ [b])).1
      = Tacho_VdoInitHandler
          (if b = xorAll 0x49 pre then
            Tacho_NotifyFrameReceived
              (Tacho_CopyToCache (vdoMid (feed Tacho_VdoHandler s pre).1 b))
              (some (Tacho_CopyToCache
                (vdoMid (feed Tacho_VdoHandler s pre).1 b)).Tacho_CachedData.tco1)
           else vdoMid (feed Tacho_VdoHandler s pre).1 b) := by
  obtain ⟨h1, h2, h3⟩ := feed_snoc_flags Tacho_VdoHandler s pre b _ _ hrun
  obtain ⟨p1, _, p3⟩ := feed_vdo_false pre s h1
  have htrue := Tacho_VdoHandler_true _ _ h2
  rw [p3, hinit] at htrue
  have hm := vdoMid_fields (feed Tacho_VdoHandler s pre).1 b
  have hfinal : (feed Tacho_VdoHandler s (pre ++ [b])).1
      = Tacho_VdoInitHandler
          (if b = xorAll 0x49 pre then
            Tacho_NotifyFrameReceived
              (Tacho_CopyToCache (vdoMid (feed Tacho_VdoHandler s pre).1 b))
              (some (Tacho_CopyToCache
                (vdoMid (feed Tacho_VdoHandler s pre).1 b)).Tacho_CachedData.tco1)
           else vdoMid (feed Tacho_VdoHandler s pre).1 b) := by
    rw [h3, htrue]; rfl
  have hbad : b ≠ xorAll 0x49 pre → (feed Tacho_VdoHandler s (pre ++ [b])).1.trace = s.trace := by
    intro hne
    rw [hfinal, if_neg hne]
    show (vdoMid (feed Tacho_VdoHandler s pre).1 b).trace = s.trace
    rw [hm.1, p1]
  refine ⟨⟨?_, ?_⟩, hbad, hfinal⟩
  · intro hacc
    by_contra hne
    rw [hbad hne] at hacc
    exact not_accepted_self _ hacc
  · intro heq
    rw [hfinal, if_pos heq]
    exact accepted_of_copy_notify _ _ (by rw [hm.1, p1])

/-- C4 witness: the minimal VDO frame with its correct checksum 0x4E. -/
theorem C4_vdo_checksum_rule_witness :
    exampleState.vdo = vdoInitial ∧
    (feed Tacho_VdoHandler exampleState (exampleVdoBody ++ [0x4E])).2
      = List.replicate exampleVdoBody.length false ++ [true] ∧
    (Accepted exampleState.trace
        (feed Tacho_VdoHandler exampleState (exampleVdoBody ++ [0x4E])).1.trace
      ↔ 0x4E = xorAll 0x49 exampleVdoBody) :=
  ⟨rfl, by decide, (C4_vdo_checksum_rule exampleState exampleVdoBody 0x4E rfl (by decide)).1⟩


/-- C5: VDO field extraction. For every VDO frame whose computed offsets do
not overflow 8 bits and whose checksum is valid, the handler reports
not-complete on every byte before the checksum position and complete on it,
the frame is accepted, and afterwards the serial-only record is
`[b14, b15, b16, b17, 0xFF, 0xFF, b18, b19]`. -/
theorem C5_vdo_field_extraction (s : Tacho_State) (frame : List Nat)
    (hinit : s.vdo = vdoInitial) (hlay : VdoLayout frame)
    (hcrc : vdoByte frame (vdoCrcPos frame)
      = xorAll 0x49 (frame.take (vdoCrcPos frame - 5))) :
    (feed Tacho_VdoHandler s frame).2
      = List.replicate (vdoCrcPos frame - 5) false ++ [true] ∧
    Accepted s.trace (feed Tacho_VdoHandler s frame).1.trace ∧
    (feed Tacho_VdoHandler s frame).1.Tacho_CachedData.tco1
      = [vdoByte frame 14, vdoByte frame 15, vdoByte frame 16, vdoByte frame 17,
         0xFF, 0xFF, vdoByte frame 18, vdoByte frame 19] := by
  obtain ⟨c1, c2, c3, _, c5⟩ := vdo_complete frame hlay s hinit
  rw [if_pos hcrc] at c2
  have hge : 38 ≤ vdoCrcPos frame := by
    simp only [vdoCrcPos, vdoDrv2Pos, vdoDrv1Pos, vdoCstrPos]; omega
  obtain ⟨f1, f2, f3, f4, f5, f6⟩ := c5
  refine ⟨c1, ?_, ?_⟩
  · rw [c2]
    exact accepted_of_copy_notify _ _ c3
  · rw [c2]
    show (Tacho_NotifyFrameReceived _ _).Tacho_CachedData.tco1 = _
    rw [(Tacho_NotifyFrameReceived_tco1 _ _).1]
    show [_, _, _, _, 0xFF, 0xFF, _, _] = _
    rw [f1 (by omega), f2 (by omega), f3 (by omega), f4 (by omega), f5 (by omega),
      f6 (by omega)]

/-- C5 witness: the minimal VDO frame, whose offsets 14..19 carry 1..6. -/
theorem C5_vdo_field_extraction_witness :
    exampleState.vdo = vdoInitial ∧ VdoLayout exampleVdoFrame ∧
    vdoByte exampleVdoFrame (vdoCrcPos exampleVdoFrame)
      = xorAll 0x49 (exampleVdoFrame.take (vdoCrcPos exampleVdoFrame - 5)) ∧
    (feed Tacho_VdoHandler exampleState exampleVdoFrame).1.Tacho_CachedData.tco1
      = [vdoByte exampleVdoFrame 14, vdoByte exampleVdoFrame 15, vdoByte exampleVdoFrame 16,
         vdoByte exampleVdoFrame 17, 0xFF, 0xFF, vdoByte exampleVdoFrame 18,
         vdoByte exampleVdoFrame 19] :=
  ⟨rfl, ⟨by decide, by decide⟩, by decide,
   (C5_vdo_field_extraction exampleState exampleVdoFrame rfl ⟨by decide, by decide⟩
      (by decide)).2.2⟩

/-- C6: VDO checksum mismatch is atomic for the cache. For every VDO frame
(offsets not overflowing 8 bits) whose byte at the checksum position differs
from the accumulated XOR value, the handler returns frame-complete at that
byte, the VDO run-state is back at its initial values, no routine was called
(no notification), and the whole cache (serial-only record, merged record,
driver-ID text) is unchanged. -/
theorem C6_vdo_checksum_mismatch_atomic (s : Tacho_State) (frame : List Nat)
    (hinit : s.vdo = vdoInitial) (hlay : VdoLayout frame)
    (hbad : vdoByte frame (vdoCrcPos frame)
      ≠ xorAll 0x49 (frame.take (vdoCrcPos frame - 5))) :
    (feed Tacho_VdoHandler s frame).2
      = List.replicate (vdoCrcPos frame - 5) false ++ [true] ∧
    (feed Tacho_VdoHandler s frame).1.vdo = vdoInitial ∧
    (feed Tacho_VdoHandler s frame).1.trace = s.trace ∧
    (feed Tacho_VdoHandler s frame).1.Tacho_CachedData = s.Tacho_CachedData := by
  obtain ⟨c1, c2, c3, c4, _⟩ := vdo_complete frame hlay s hinit
  rw [if_neg hbad] at c2
  refine ⟨c1, by rw [c2]; rfl, ?_, ?_⟩
  · rw [c2]; exact c3
  · rw [c2]; exact c4

/-- C6 witness: the minimal VDO frame with its checksum off by one (0x4F for 0x4E). -/
theorem C6_vdo_checksum_mismatch_atomic_witness :
    exampleState.vdo = vdoInitial ∧ VdoLayout exampleVdoBadFrame ∧
    vdoByte exampleVdoBadFrame (vdoCrcPos exampleVdoBadFrame)
      ≠ xorAll 0x49 (exampleVdoBadFrame.take (vdoCrcPos exampleVdoBadFrame - 5)) ∧
    (feed Tacho_VdoHandler exampleState exampleVdoBadFrame).1.Tacho_CachedData
      = exampleState.Tacho_CachedData :=
  ⟨rfl, ⟨by decide, by decide⟩, by decide,
   (C6_vdo_checksum_mismatch_atomic exampleState exampleVdoBadFrame rfl
      ⟨by decide, by decide⟩ (by decide)).2.2.2⟩

/-- C7 (as stated) fails: in a VDO frame with VIN length N = 0 at offset 34 and
a custom string of length 1 (length byte 1 at offset 35), once the byte at
offset 35 has been processed `vdo.drv1_pos` is 37, not 34 + N + 2 = 36; the
frame is well formed and is accepted at its checksum byte. -/
theorem C7_vdo_drv1_pos_counterexample :
    exampleState.vdo = vdoInitial ∧ VdoLayout exampleVdoCstrFrame ∧
    vdoByte exampleVdoCstrFrame 34 = 0 ∧
    (feed Tacho_VdoHandler exampleState (exampleVdoCstrFrame.take 31)).1.vdo.drv1_pos = 37 ∧
    (feed Tacho_VdoHandler exampleState (exampleVdoCstrFrame.take 31)).1.vdo.drv1_pos
      ≠ 34 + vdoByte exampleVdoCstrFrame 34 + 2 ∧
    (feed Tacho_VdoHandler exampleState exampleVdoCstrFrame).1.trace
      = [Tacho_Event.CopyToCache, Tacho_Event.NotifyFrameReceived,
         Tacho_Event.FMI_process_j1939_event_TCO1_AVAILABLE] := by
  refine ⟨rfl, ⟨by decide, by decide⟩, by decide, by decide, by decide, by decide⟩

/-- C7 (amended): in every VDO frame whose offsets do not overflow 8 bits,
with N the byte at offset 34 and M the byte at offset 35 + N (the length of
the custom string), `vdo.drv1_pos` equals 34 + N + 2 + M from the moment the
byte at offset 35 + N has been processed until the frame ends. -/
theorem C7_vdo_drv1_pos_amended (s : Tacho_State) (frame : List Nat) (k : Nat)
    (hinit : s.vdo = vdoInitial) (hlay : VdoLayout frame)
    (hk1 : 35 + vdoByte frame 34 < 5 + k) (hk2 : 5 + k ≤ vdoCrcPos frame) :
    (feed Tacho_VdoHandler s (frame.take k)).1.vdo.drv1_pos
      = 34 + vdoByte frame 34 + 2 + vdoByte frame (35 + vdoByte frame 34) := by
  obtain ⟨_, r2, _⟩ := vdo_run frame hlay s hinit k hk2
  rw [r2]
  have hc : vdoCstrPos frame = 35 + vdoByte frame 34 := by
    simp only [vdoCstrPos]; omega
  show (if vdoCstrPos frame < 5 + k then vdoDrv1Pos frame else 0xFF) = _
  rw [if_pos (by rw [hc]; exact hk1)]
  simp only [vdoDrv1Pos, hc]
  omega

/-- C7 witness (amended claim): the frame with a 1-byte custom string, after 31 bytes. -/
theorem C7_vdo_drv1_pos_amended_witness :
    exampleState.vdo = vdoInitial ∧ VdoLayout exampleVdoCstrFrame ∧
    35 + vdoByte exampleVdoCstrFrame 34 < 5 + 31 ∧ 5 + 31 ≤ vdoCrcPos exampleVdoCstrFrame ∧
    (feed Tacho_VdoHandler exampleState (exampleVdoCstrFrame.take 31)).1.vdo.drv1_pos
      = 34 + vdoByte exampleVdoCstrFrame 34 + 2
          + vdoByte exampleVdoCstrFrame (35 + vdoByte exampleVdoCstrFrame 34) :=
  ⟨rfl, ⟨by decide, by decide⟩, by decide, by decide,
   C7_vdo_drv1_pos_amended exampleState exampleVdoCstrFrame 31 rfl ⟨by decide, by decide⟩
     (by decide) (by decide)⟩

/-! ## Stoneridge state machine: lemmas and verified claims -/

theorem Tacho_StoneridgeCopyDIN_fields (s : Tacho_State) (pos b : Nat) (idx : Tacho_DriverIdx_t) :
    (Tacho_StoneridgeCopyDIN s pos b idx).sr.index = s.sr.index ∧
    (Tacho_StoneridgeCopyDIN s pos b idx).sr.crc8_pos = s.sr.crc8_pos ∧
    (Tacho_StoneridgeCopyDIN s pos b idx).sr.crc8_value = s.sr.crc8_value ∧
    (Tacho_StoneridgeCopyDIN s pos b idx).trace = s.trace ∧
    (Tacho_StoneridgeCopyDIN s pos b idx).Tacho_CachedData = s.Tacho_CachedData := by
  unfold Tacho_StoneridgeCopyDIN
  repeat' split
  all_goals exact ⟨rfl, rfl, rfl, rfl, rfl⟩

theorem Tacho_StoneridgeCheckDIN_fields (s : Tacho_State) (b : Nat) :
    (Tacho_StoneridgeCheckDIN s b).sr.index = s.sr.index ∧
    (Tacho_StoneridgeCheckDIN s b).sr.crc8_pos = s.sr.crc8_pos ∧
    (Tacho_StoneridgeCheckDIN s b).sr.crc8_value = s.sr.crc8_value ∧
    (Tacho_StoneridgeCheckDIN s b).trace = s.trace ∧
    (Tacho_StoneridgeCheckDIN s b).Tacho_CachedData = s.Tacho_CachedData := by
  unfold Tacho_StoneridgeCheckDIN
  repeat' split
  all_goals first | exact ⟨rfl, rfl, rfl, rfl, rfl⟩ | exact Tacho_StoneridgeCopyDIN_fields _ _ _ _

theorem Tacho_StoneridgeCheckDIN_idle (s : Tacho_State) (b : Nat)
    (h : (s.sr.drv1_pos = 0xFF ∧ s.sr.drv2_pos = 0xFF) ∨
         ((s.sr.index < s.sr.drv1_pos ∨ s.sr.crc8_pos - 1 ≤ s.sr.index) ∧
          (s.sr.index < s.sr.drv2_pos ∨ s.sr.crc8_pos - 1 ≤ s.sr.index))) :
    Tacho_StoneridgeCheckDIN s b = s := by
  unfold Tacho_StoneridgeCheckDIN
  by_cases h0 : s.sr.drv1_pos = 0xFF ∧ s.sr.drv2_pos = 0xFF
  · rw [if_pos h0]
  · rw [if_neg h0]
    have h' := h.resolve_left h0
    rw [if_neg (by omega), if_neg (by omega)]

theorem Tacho_StoneridgeMsgProcess_fields (s : Tacho_State) (b : Nat) :
    (Tacho_StoneridgeMsgProcess s b).1.sr.index = s.sr.index ∧
    (Tacho_StoneridgeMsgProcess s b).1.sr.crc8_pos = s.sr.crc8_pos ∧
    (Tacho_StoneridgeMsgProcess s b).1.sr.crc8_value = s.sr.crc8_value ∧
    (Tacho_StoneridgeMsgProcess s b).1.trace = s.trace ∧
    (Tacho_StoneridgeMsgProcess s b).1.Tacho_CachedData = s.Tacho_CachedData ∧
    (Tacho_StoneridgeMsgProcess s b).1.Tacho_Frame = s.Tacho_Frame := by
  unfold Tacho_StoneridgeMsgProcess
  repeat' split
  all_goals exact ⟨rfl, rfl, rfl, rfl, rfl, rfl⟩

theorem Tacho_StoneridgeMsgProcess_flag (s : Tacho_State) (b : Nat) :
    (Tacho_StoneridgeMsgProcess s b).2 = true ↔ (b = 1 ∨ b = 2 ∨ b = 4 ∨ b = 8) := by
  unfold Tacho_StoneridgeMsgProcess
  by_cases h2 : b = 2
  · simp [h2]
  by_cases h4 : b = 4
  · simp [h4]
  by_cases h18 : b = 1 ∨ b = 8
  · rw [if_neg h2, if_neg h4, if_pos h18]
    simp only [true_iff]
    omega
  · rw [if_neg h2, if_neg h4, if_neg h18]
    simp only [Bool.false_eq_true, false_iff]
    omega

theorem Tacho_StoneridgeHandler_switch_fields (s : Tacho_State) (b : Nat)
    (h : (Tacho_StoneridgeHandler_switch s b).2 = false) :
    (Tacho_StoneridgeHandler_switch s b).1.sr.index = s.sr.index ∧
    (Tacho_StoneridgeHandler_switch s b).1.sr.crc8_pos
      = (if s.sr.index = 3 then (3 + b - 1) % 256 else s.sr.crc8_pos) ∧
    (Tacho_StoneridgeHandler_switch s b).1.sr.crc8_value = s.sr.crc8_value ∧
    (Tacho_StoneridgeHandler_switch s b).1.trace = s.trace ∧
    (Tacho_StoneridgeHandler_switch s b).1.Tacho_CachedData = s.Tacho_CachedData := by
  unfold Tacho_StoneridgeHandler_switch at h ⊢
  by_cases h3 : s.sr.index = 3
  · simp only [h3, if_true] at h ⊢
    split at h
    · simp at h
    · next hv => simp only [if_neg hv]; exact ⟨trivial, trivial, trivial, trivial, trivial⟩
  · simp only [if_neg h3] at h ⊢
    by_cases h4 : s.sr.index = 4
    · simp only [if_pos h4] at h ⊢
      have hm := Tacho_StoneridgeMsgProcess_fields s b
      cases hf : (Tacho_StoneridgeMsgProcess s b).2 with
      | false => simp [hf] at h
      | true =>
        simp only [hf, Bool.true_eq_false, if_false]
        exact ⟨hm.1, hm.2.1, hm.2.2.1, hm.2.2.2.1, hm.2.2.2.2.1⟩
    · simp only [if_neg h4]
      repeat' split
      all_goals exact ⟨rfl, rfl, rfl, rfl, rfl⟩

theorem Tacho_StoneridgeHandler_switch_flag (s : Tacho_State) (b : Nat) :
    (Tacho_StoneridgeHandler_switch s b).2 = true ↔
      ((s.sr.index = 3 ∧ (b < 45 ∨ b > 48)) ∨
       (s.sr.index = 4 ∧ ¬ (b = 1 ∨ b = 2 ∨ b = 4 ∨ b = 8))) := by
  unfold Tacho_StoneridgeHandler_switch
  by_cases h3 : s.sr.index = 3
  · simp only [h3, if_true, TACHO_SR_MSG_LEN_MIN, TACHO_SR_MSG_LEN_MAX]
    by_cases hv : b < 45 ∨ b > 48
    · simp [hv]
    · simp [hv]
  · simp only [if_neg h3]
    by_cases h4 : s.sr.index = 4
    · simp only [if_pos h4]
      have hfl := Tacho_StoneridgeMsgProcess_flag s b
      cases hf : (Tacho_StoneridgeMsgProcess s b).2 with
      | false =>
        rw [hf] at hfl
        simp only [if_true, true_iff]
        right
        exact ⟨h4, fun hc => by simpa using hfl.mpr hc⟩
      | true =>
        rw [hf] at hfl
        simp only [Bool.true_eq_false, if_false, Bool.false_eq_true, false_iff]
        rintro (⟨h, _⟩ | ⟨_, h⟩)
        · exact h3 h
        · exact h (hfl.mp rfl)
    · simp only [if_neg h4]
      have : ¬ ((s.sr.index = 3 ∧ (b < 45 ∨ b > 48)) ∨
          (s.sr.index = 4 ∧ ¬ (b = 1 ∨ b = 2 ∨ b = 4 ∨ b = 8))) := by
        rintro (⟨h, _⟩ | ⟨h, _⟩)
        · exact h3 h
        · exact h4 h
      simp only [this, iff_false]
      repeat' split
      all_goals simp


theorem srMid_fields (s : Tacho_State) (b : Nat)
    (h : (Tacho_StoneridgeHandler_switch s b).2 = false) :
    (srMid s b).sr.index = s.sr.index ∧
    (srMid s b).sr.crc8_pos = (if s.sr.index = 3 then (3 + b - 1) % 256 else s.sr.crc8_pos) ∧
    (srMid s b).sr.crc8_value = s.sr.crc8_value ∧
    (srMid s b).trace = s.trace ∧
    (srMid s b).Tacho_CachedData = s.Tacho_CachedData := by
  obtain ⟨a1, a2, a3, a4, a5⟩ := Tacho_StoneridgeHandler_switch_fields s b h
  obtain ⟨c1, c2, c3, c4, c5⟩ :=
    Tacho_StoneridgeCheckDIN_fields (Tacho_StoneridgeHandler_switch s b).1 b
  unfold srMid
  exact ⟨c1.trans a1, c2.trans a2, c3.trans a3, c4.trans a4, c5.trans a5⟩

theorem Tacho_StoneridgeHandler_continue (s : Tacho_State) (b : Nat)
    (hsw : (Tacho_StoneridgeHandler_switch s b).2 = false)
    (hpos : (srMid s b).sr.crc8_pos ≠ (srMid s b).sr.index) :
    (Tacho_StoneridgeHandler s b).2 = false ∧
    (Tacho_StoneridgeHandler s b).1.sr.index = ((srMid s b).sr.index + 1) % 256 ∧
    (Tacho_StoneridgeHandler s b).1.sr.crc8_pos = (srMid s b).sr.crc8_pos ∧
    (Tacho_StoneridgeHandler s b).1.sr.crc8_value = ((srMid s b).sr.crc8_value + b) % 256 ∧
    (Tacho_StoneridgeHandler s b).1.trace = (srMid s b).trace ∧
    (Tacho_StoneridgeHandler s b).1.Tacho_CachedData = (srMid s b).Tacho_CachedData ∧
    (Tacho_StoneridgeHandler s b).1.Tacho_Frame = (srMid s b).Tacho_Frame := by
  unfold srMid at hpos ⊢
  unfold Tacho_StoneridgeHandler
  simp only [hsw, Bool.false_eq_true, if_false, if_neg hpos]
  exact ⟨trivial, trivial, trivial, trivial, trivial, trivial, trivial⟩

theorem Tacho_StoneridgeHandler_end (s : Tacho_State) (b : Nat)
    (hsw : (Tacho_StoneridgeHandler_switch s b).2 = false)
    (hpos : (srMid s b).sr.crc8_pos = (srMid s b).sr.index) :
    Tacho_StoneridgeHandler s b =
      (Tacho_StoneridgeInitHandler
        (if (256 - (srMid s b).sr.crc8_value % 256) % 256 = b then
          Tacho_NotifyFrameReceived (Tacho_CopyToCache (srNegate (srMid s b)))
            (some (Tacho_CopyToCache (srNegate (srMid s b))).Tacho_CachedData.tco1)
         else srNegate (srMid s b)), true) := by
  unfold srMid at hpos ⊢
  unfold Tacho_StoneridgeHandler
  simp only [hsw, Bool.false_eq_true, if_false, if_pos hpos]
  rfl

theorem Tacho_StoneridgeHandler_discard (s : Tacho_State) (b : Nat)
    (hsw : (Tacho_StoneridgeHandler_switch s b).2 = true) :
    Tacho_StoneridgeHandler s b = (Tacho_StoneridgeInitHandler s, true) := by
  have hfl := (Tacho_StoneridgeHandler_switch_flag s b).mp hsw
  unfold Tacho_StoneridgeHandler
  simp only [hsw, if_true]
  unfold Tacho_StoneridgeHandler_switch at hsw ⊢
  rcases hfl with ⟨h3, hv⟩ | ⟨h4, hv⟩
  · simp only [h3, if_true, TACHO_SR_MSG_LEN_MIN, TACHO_SR_MSG_LEN_MAX, if_pos hv]
  · have h3 : ¬ s.sr.index = 3 := by omega
    have hf : (Tacho_StoneridgeMsgProcess s b).2 = false := by
      cases hc : (Tacho_StoneridgeMsgProcess s b).2 with
      | false => rfl
      | true => exact absurd ((Tacho_StoneridgeMsgProcess_flag s b).mp hc) hv
    have hst : (Tacho_StoneridgeMsgProcess s b).1 = s := by
      unfold Tacho_StoneridgeMsgProcess
      rw [if_neg (by omega), if_neg (by omega), if_neg (by omega)]
    simp only [if_neg h3, if_pos h4, hf, if_true, hst]


theorem Tacho_StoneridgeInitHandler_of_initial (s : Tacho_State) (h : s.sr = srInitial) :
    Tacho_StoneridgeInitHandler s = s := by
  unfold Tacho_StoneridgeInitHandler
  rw [← h]

theorem Tacho_StoneridgeHandler_length_ok (s : Tacho_State) (v : Nat) (hinit : s.sr = srInitial)
    (h1 : 45 ≤ v) (h2 : v ≤ 48) :
    Tacho_StoneridgeHandler s v
      = ({ s with sr := { index := 4, drv1_pos := 0xFF, drv2_pos := 0xFF,
                          crc8_pos := 3 + v - 1, crc8_value := v } }, false) := by
  have e1 : (3 + v - 1) % 256 = 3 + v - 1 := by omega
  have e2 : ¬ (3 + v - 1 = 3) := by omega
  have e3 : ¬ (v < 45 ∨ v > 48) := by omega
  have e4 : v % 256 = v := by omega
  have e5 : (2 + v) % 256 = 2 + v := by omega
  have e6 : ¬ (v = 1) := by omega
  have e7 : ¬ (2 + v = 3) := by omega
  simp [Tacho_StoneridgeHandler, Tacho_StoneridgeHandler_switch, Tacho_StoneridgeCheckDIN,
    hinit, srInitial, TACHO_SR_SEQSZ, TACHO_SR_MSG_LEN_MIN, TACHO_SR_MSG_LEN_MAX, e1, e2, e3, e4,
    e5, e6, e7]

/-- C8: Stoneridge length check. For the first byte `v` after synchronisation
(run-state initial, frame offset 3): if `v < 45` or `v > 48` the handler
returns frame-complete at once, the run-state is (again) initial and frame
fields, cache and call log are unchanged; if `45 <= v <= 48` the handler
returns not-complete and the checksum position is `3 + v - 1`. -/
theorem C8_stoneridge_length_check (s : Tacho_State) (v : Nat) (hinit : s.sr = srInitial) :
    ((v < 45 ∨ v > 48) →
      (Tacho_StoneridgeHandler s v).2 = true ∧
      (Tacho_StoneridgeHandler s v).1.sr = srInitial ∧
      (Tacho_StoneridgeHandler s v).1.Tacho_Frame = s.Tacho_Frame ∧
      (Tacho_StoneridgeHandler s v).1.Tacho_CachedData = s.Tacho_CachedData ∧
      (Tacho_StoneridgeHandler s v).1.trace = s.trace) ∧
    ((45 ≤ v ∧ v ≤ 48) →
      (Tacho_StoneridgeHandler s v).2 = false ∧
      (Tacho_StoneridgeHandler s v).1.sr.crc8_pos = 3 + v - 1 ∧
      (Tacho_StoneridgeHandler s v).1.sr.index = 4 ∧
      (Tacho_StoneridgeHandler s v).1.Tacho_Frame = s.Tacho_Frame ∧
      (Tacho_StoneridgeHandler s v).1.Tacho_CachedData = s.Tacho_CachedData) := by
  constructor
  · intro hv
    have hsw : (Tacho_StoneridgeHandler_switch s v).2 = true :=
      (Tacho_StoneridgeHandler_switch_flag s v).mpr (Or.inl ⟨by rw [hinit]; rfl, hv⟩)
    rw [Tacho_StoneridgeHandler_discard s v hsw]
    exact ⟨rfl, rfl, rfl, rfl, rfl⟩
  · rintro ⟨h1, h2⟩
    rw [Tacho_StoneridgeHandler_length_ok s v hinit h1 h2]
    exact ⟨rfl, rfl, rfl, rfl, rfl⟩

/-- C8 witness: length byte 44 is rejected, length byte 45 is accepted with
checksum position 47. -/
theorem C8_stoneridge_length_check_witness :
    exampleState.sr = srInitial ∧
    Tacho_StoneridgeHandler exampleState 44 = (exampleState, true) ∧
    (Tacho_StoneridgeHandler exampleState 45).2 = false ∧
    (Tacho_StoneridgeHandler exampleState 45).1.sr.crc8_pos = 47 :=
  ⟨rfl, by decide,
   ((C8_stoneridge_length_check exampleState 45 rfl).2 ⟨by decide, by decide⟩).1,
   ((C8_stoneridge_length_check exampleState 45 rfl).2 ⟨by decide, by decide⟩).2.1⟩

theorem Tacho_StoneridgeHandler_type_ok (s : Tacho_State) (t p c : Nat)
    (hsr : s.sr = { index := 4, drv1_pos := 0xFF, drv2_pos := 0xFF, crc8_pos := p, crc8_value := c })
    (hp : 47 ≤ p) (ht : t = 1 ∨ t = 2 ∨ t = 4 ∨ t = 8) :
    Tacho_StoneridgeHandler s t
      = ({ s with sr := { index := 5,
                          drv1_pos := if t = 2 then 30 else 0xFF,
                          drv2_pos := if t = 4 then 30 else 0xFF,
                          crc8_pos := p, crc8_value := (c + t) % 256 } }, false) := by
  have e2 : ¬ (p = 4) := by omega
  have e3 : ¬ (p - 1 ≤ 4) := by omega
  rcases ht with h | h | h | h <;> subst h <;>
    simp [Tacho_StoneridgeHandler, Tacho_StoneridgeHandler_switch, Tacho_StoneridgeCheckDIN,
      Tacho_StoneridgeMsgProcess, hsr, e2, e3]


/-- C9: Stoneridge message-type check. After a valid length byte `L`, the byte
`t` at frame offset 4 is accepted (not-complete, index advances to 5, frame
fields and cache untouched) iff `t` is 0x01, 0x02, 0x04 or 0x08; any other
`t` gives frame-complete with the run-state reset and frame fields, cache and
call log unchanged. Type 0x02 sets only `drv1_pos` to 30, type 0x04 only
`drv2_pos` to 30, types 0x01 and 0x08 leave both at 0xFF. -/
theorem C9_stoneridge_message_type_check (s : Tacho_State) (L t : Nat)
    (hinit : s.sr = srInitial) (hL1 : 45 ≤ L) (hL2 : L ≤ 48) :
    ((Tacho_StoneridgeHandler (Tacho_StoneridgeHandler s L).1 t).2 = false
      ↔ (t = 1 ∨ t = 2 ∨ t = 4 ∨ t = 8)) ∧
    (¬ (t = 1 ∨ t = 2 ∨ t = 4 ∨ t = 8) →
      (Tacho_StoneridgeHandler (Tacho_StoneridgeHandler s L).1 t).1.sr = srInitial ∧
      (Tacho_StoneridgeHandler (Tacho_StoneridgeHandler s L).1 t).1.Tacho_Frame = s.Tacho_Frame ∧
      (Tacho_StoneridgeHandler (Tacho_StoneridgeHandler s L).1 t).1.Tacho_CachedData
        = s.Tacho_CachedData ∧
      (Tacho_StoneridgeHandler (Tacho_StoneridgeHandler s L).1 t).1.trace = s.trace) ∧
    ((t = 1 ∨ t = 2 ∨ t = 4 ∨ t = 8) →
      (Tacho_StoneridgeHandler (Tacho_StoneridgeHandler s L).1 t).1.sr.index = 5 ∧
      (Tacho_StoneridgeHandler (Tacho_StoneridgeHandler s L).1 t).1.sr.drv1_pos
        = (if t = 2 then 30 else 0xFF) ∧
      (Tacho_StoneridgeHandler (Tacho_StoneridgeHandler s L).1 t).1.sr.drv2_pos
        = (if t = 4 then 30 else 0xFF) ∧
      (Tacho_StoneridgeHandler (Tacho_StoneridgeHandler s L).1 t).1.Tacho_Frame = s.Tacho_Frame ∧
      (Tacho_StoneridgeHandler (Tacho_StoneridgeHandler s L).1 t).1.Tacho_CachedData
        = s.Tacho_CachedData) := by
  rw [Tacho_StoneridgeHandler_length_ok s L hinit hL1 hL2]
  have hok : (t = 1 ∨ t = 2 ∨ t = 4 ∨ t = 8) →
      Tacho_StoneridgeHandler
        { s with sr := { index := 4, drv1_pos := 0xFF, drv2_pos := 0xFF,
                         crc8_pos := 3 + L - 1, crc8_value := L } } t
      = ({ s with sr := { index := 5,
                          drv1_pos := if t = 2 then 30 else 0xFF,
                          drv2_pos := if t = 4 then 30 else 0xFF,
                          crc8_pos := 3 + L - 1, crc8_value := (L + t) % 256 } }, false) :=
    fun ht => Tacho_StoneridgeHandler_type_ok _ t (3 + L - 1) L rfl (by omega) ht
  have hbad : ¬ (t = 1 ∨ t = 2 ∨ t = 4 ∨ t = 8) →
      Tacho_StoneridgeHandler
        { s with sr := { index := 4, drv1_pos := 0xFF, drv2_pos := 0xFF,
                         crc8_pos := 3 + L - 1, crc8_value := L } } t
      = (Tacho_StoneridgeInitHandler
          { s with sr := { index := 4, drv1_pos := 0xFF, drv2_pos := 0xFF,
                           crc8_pos := 3 + L - 1, crc8_value := L } }, true) :=
    fun ht => Tacho_StoneridgeHandler_discard _ t
      ((Tacho_StoneridgeHandler_switch_flag _ t).mpr (Or.inr ⟨rfl, ht⟩))
  refine ⟨⟨?_, ?_⟩, ?_, ?_⟩
  · intro hf
    by_contra hne
    rw [hbad hne] at hf
    exact Bool.noConfusion hf
  · intro ht
    rw [hok ht]
  · intro hne
    rw [hbad hne]
    exact ⟨rfl, rfl, rfl, rfl⟩
  · intro ht
    rw [hok ht]
    exact ⟨rfl, rfl, rfl, rfl, rfl⟩

/-- C9 witness: after length byte 45, type 0x02 arms driver 1 only and type
0x03 discards the frame. -/
theorem C9_stoneridge_message_type_check_witness :
    exampleState.sr = srInitial ∧
    ((Tacho_StoneridgeHandler (Tacho_StoneridgeHandler exampleState 45).1 2).2 = false
      ↔ ((2 : Nat) = 1 ∨ (2 : Nat) = 2 ∨ (2 : Nat) = 4 ∨ (2 : Nat) = 8)) ∧
    (Tacho_StoneridgeHandler (Tacho_StoneridgeHandler exampleState 45).1 2).1.sr.drv1_pos = 30 ∧
    (Tacho_StoneridgeHandler (Tacho_StoneridgeHandler exampleState 45).1 2).1.sr.drv2_pos = 0xFF ∧
    Tacho_StoneridgeHandler (Tacho_StoneridgeHandler exampleState 45).1 3
      = (exampleState, true) :=
  ⟨rfl, (C9_stoneridge_message_type_check exampleState 45 2 rfl (by decide) (by decide)).1,
   by decide, by decide, by decide⟩

theorem sum_take_succ (frame : List Nat) (k : Nat) (hk : k < frame.length) :
    (frame.take (k + 1)).sum = (frame.take k).sum + frame.getD k 0 := by
  rw [take_succ_getD frame k hk, List.sum_append]
  simp

theorem sr_run (frame : List Nat) (hl : SrLayout frame) (s : Tacho_State)
    (hinit : s.sr = srInitial) :
    ∀ k, 2 ≤ k → k + 1 ≤ srByte frame 3 →
      (feed Tacho_StoneridgeHandler s (frame.take k)).2 = List.replicate k false ∧
      (feed Tacho_StoneridgeHandler s (frame.take k)).1.sr.index = 3 + k ∧
      (feed Tacho_StoneridgeHandler s (frame.take k)).1.sr.crc8_pos = srByte frame 3 + 2 ∧
      (feed Tacho_StoneridgeHandler s (frame.take k)).1.sr.crc8_value
        = (frame.take k).sum % 256 ∧
      (feed Tacho_StoneridgeHandler s (frame.take k)).1.trace = s.trace ∧
      (feed Tacho_StoneridgeHandler s (frame.take k)).1.Tacho_CachedData = s.Tacho_CachedData := by
  obtain ⟨l1, l2, l3, l4⟩ := hl
  intro k hk2
  induction k, hk2 using Nat.le_induction with
  | base =>
    intro _
    have h2 : frame.take 2 = [srByte frame 3, srByte frame 4] := by
      have e1 := take_succ_getD frame 1 (by omega)
      have e0 := take_succ_getD frame 0 (by omega)
      rw [e1, e0]
      rfl
    rw [h2]
    simp only [feed]
    rw [Tacho_StoneridgeHandler_length_ok s _ hinit l1 l2,
      Tacho_StoneridgeHandler_type_ok _ (srByte frame 4) (3 + srByte frame 3 - 1) (srByte frame 3)
        rfl (by omega) l3]
    refine ⟨rfl, rfl, ?_, ?_, rfl, rfl⟩
    · show 3 + srByte frame 3 - 1 = _
      omega
    · show (srByte frame 3 + srByte frame 4) % 256 = _
      simp
  | succ k hk2 ih =>
    intro hk
    obtain ⟨i1, i2, i3, i4, i5, i6⟩ := ih (by omega)
    have hklen : k < frame.length := by omega
    rw [take_succ_getD frame k hklen, feed_append]
    simp only [feed]
    have hsw : (Tacho_StoneridgeHandler_switch
        (feed Tacho_StoneridgeHandler s (frame.take k)).1 (frame.getD k 0)).2 = false := by
      cases hc : (Tacho_StoneridgeHandler_switch
        (feed Tacho_StoneridgeHandler s (frame.take k)).1 (frame.getD k 0)).2 with
      | false => rfl
      | true =>
        have := (Tacho_StoneridgeHandler_switch_flag _ _).mp hc
        omega
    obtain ⟨m1, m2, m3, m4, m5⟩ := srMid_fields _ _ hsw
    rw [if_neg (by omega)] at m2
    obtain ⟨c1, c2, c3, c4, c5, c6, _⟩ := Tacho_StoneridgeHandler_continue _ _ hsw
      (by rw [m1, m2, i2, i3]; omega)
    refine ⟨?_, ?_, ?_, ?_, ?_, ?_⟩
    · rw [i1, c1, List.replicate_succ']
    · rw [c2, m1, i2]; omega
    · rw [c3, m2, i3]
    · rw [c4, m3, i4, ← take_succ_getD frame k hklen, sum_take_succ frame k hklen]
      omega
    · rw [c5, m4, i5]
    · rw [c6, m5, i6]


theorem accepted_of_copy_notify_sr (s : Tacho_State) (t0 : List Tacho_Event) (h : s.trace = t0) :
    Accepted t0 (Tacho_StoneridgeInitHandler (Tacho_NotifyFrameReceived (Tacho_CopyToCache s)
      (some (Tacho_CopyToCache s).Tacho_CachedData.tco1))).trace :=
  accepted_of_copy_notify s t0 h

theorem sr_complete (frame : List Nat) (hl : SrLayout frame) (s : Tacho_State)
    (hinit : s.sr = srInitial) :
    (feed Tacho_StoneridgeHandler s frame).2
      = List.replicate (srByte frame 3 - 1) false ++ [true] ∧
    (feed Tacho_StoneridgeHandler s frame).1
      = Tacho_StoneridgeInitHandler
          (if (256 - (frame.take (srByte frame 3 - 1)).sum % 256) % 256
              = srByte frame (srByte frame 3 + 2) then
            Tacho_NotifyFrameReceived
              (Tacho_CopyToCache (srNegate
                (srMid (feed Tacho_StoneridgeHandler s (frame.take (srByte frame 3 - 1))).1
                  (srByte frame (srByte frame 3 + 2)))))
              (some (Tacho_CopyToCache (srNegate
                (srMid (feed Tacho_StoneridgeHandler s (frame.take (srByte frame 3 - 1))).1
                  (srByte frame (srByte frame 3 + 2))))).Tacho_CachedData.tco1)
           else srNegate
                (srMid (feed Tacho_StoneridgeHandler s (frame.take (srByte frame 3 - 1))).1
                  (srByte frame (srByte frame 3 + 2)))) ∧
    (srNegate (srMid (feed Tacho_StoneridgeHandler s (frame.take (srByte frame 3 - 1))).1
        (srByte frame (srByte frame 3 + 2)))).trace = s.trace ∧
    (srNegate (srMid (feed Tacho_StoneridgeHandler s (frame.take (srByte frame 3 - 1))).1
        (srByte frame (srByte frame 3 + 2)))).Tacho_CachedData = s.Tacho_CachedData := by
  have hl' := hl
  obtain ⟨l1, l2, l3, l4⟩ := hl'
  obtain ⟨r1, r2, r3, r4, r5, r6⟩ := sr_run frame hl s hinit (srByte frame 3 - 1)
    (by omega) (by omega)
  have hbyte : srByte frame (srByte frame 3 + 2) = frame.getD (srByte frame 3 - 1) 0 := by
    unfold srByte
    simp only [TACHO_SR_SEQSZ]
    congr 1
  have hsplit : frame = frame.take (srByte frame 3 - 1)
      ++ [frame.getD (srByte frame 3 - 1) 0] := by
    conv_lhs => rw [← List.take_length frame]
    rw [← take_succ_getD frame _ (by omega)]
    congr 1
    omega
  have hsw : (Tacho_StoneridgeHandler_switch
      (feed Tacho_StoneridgeHandler s (frame.take (srByte frame 3 - 1))).1
      (frame.getD (srByte frame 3 - 1) 0)).2 = false := by
    cases hc : (Tacho_StoneridgeHandler_switch
      (feed Tacho_StoneridgeHandler s (frame.take (srByte frame 3 - 1))).1
      (frame.getD (srByte frame 3 - 1) 0)).2 with
    | false => rfl
    | true =>
      have := (Tacho_StoneridgeHandler_switch_flag _ _).mp hc
      omega
  obtain ⟨m1, m2, m3, m4, m5⟩ := srMid_fields _ _ hsw
  rw [if_neg (by omega)] at m2
  have hend := Tacho_StoneridgeHandler_end _ _ hsw (by rw [m1, m2, r2, r3]; omega)
  rw [m3, r4] at hend
  rw [hbyte]
  refine ⟨?_, ?_, ?_, ?_⟩
  · conv_lhs => rw [hsplit, feed_append]
    simp only [feed]
    rw [r1, hend]
  · conv_lhs => rw [hsplit, feed_append]
    simp only [feed]
    rw [hend]
    simp only [Nat.mod_mod]
  · show (srMid _ _).trace = s.trace
    rw [m4, r5]
  · show (srMid _ _).Tacho_CachedData = s.Tacho_CachedData
    rw [m5, r6]

/-- C10: Stoneridge checksum rule. For every Stoneridge frame with length byte
`L` in [45, 48] and a recognised message type, the handler reports
not-complete for the bytes at offsets 3 .. L+1 and frame-complete at offset
L+2 (after exactly `L` bytes following the start sequence); the frame is
accepted iff the byte at offset L+2 is the two's-complement negation modulo
256 of the sum of the bytes at offsets 3 .. L+1, equivalently iff the sum of
all `L` bytes is 0 modulo 256; a frame that is not accepted leaves call log
and cache unchanged. -/
theorem C10_stoneridge_checksum_rule (s : Tacho_State) (frame : List Nat)
    (hinit : s.sr = srInitial) (hlay : SrLayout frame) (hbytes : ∀ b ∈ frame, b < 256) :
    (feed Tacho_StoneridgeHandler s frame).2
      = List.replicate (srByte frame 3 - 1) false ++ [true] ∧
    (Accepted s.trace (feed Tacho_StoneridgeHandler s frame).1.trace
      ↔ srByte frame (srByte frame 3 + 2)
          = (256 - (frame.take (srByte frame 3 - 1)).sum % 256) % 256) ∧
    (Accepted s.trace (feed Tacho_StoneridgeHandler s frame).1.trace
      ↔ frame.sum % 256 = 0) ∧
    (¬ Accepted s.trace (feed Tacho_StoneridgeHandler s frame).1.trace →
      (feed Tacho_StoneridgeHandler s frame).1.trace = s.trace ∧
      (feed Tacho_StoneridgeHandler s frame).1.Tacho_CachedData = s.Tacho_CachedData) := by
  obtain ⟨c1, c2, c3, c4⟩ := sr_complete frame hlay s hinit
  obtain ⟨l1, l2, l3, l4⟩ := hlay
  have hbyte : srByte frame (srByte frame 3 + 2) = frame.getD (srByte frame 3 - 1) 0 := by
    unfold srByte
    simp only [TACHO_SR_SEQSZ]
    congr 1
  have hlt : srByte frame (srByte frame 3 + 2) < 256 := by
    rw [hbyte, List.getD_eq_getElem?_getD, List.getElem?_eq_getElem (by omega)]
    exact hbytes _ (List.getElem_mem _)
  have hsum : frame.sum
      = (frame.take (srByte frame 3 - 1)).sum + srByte frame (srByte frame 3 + 2) := by
    rw [hbyte, ← sum_take_succ frame _ (by omega)]
    congr 1
    rw [List.take_of_length_le (by omega)]
  have hiff : Accepted s.trace (feed Tacho_StoneridgeHandler s frame).1.trace
      ↔ (256 - (frame.take (srByte frame 3 - 1)).sum % 256) % 256
          = srByte frame (srByte frame 3 + 2) := by
    constructor
    · intro hacc
      by_contra hne
      rw [c2, if_neg hne] at hacc
      have : (Tacho_StoneridgeInitHandler (srNegate (srMid
          (feed Tacho_StoneridgeHandler s (frame.take (srByte frame 3 - 1))).1
          (srByte frame (srByte frame 3 + 2))))).trace = s.trace := c3
      rw [this] at hacc
      exact not_accepted_self _ hacc
    · intro heq
      rw [c2, if_pos heq]
      exact accepted_of_copy_notify_sr _ _ c3
  refine ⟨c1, ?_, ?_, ?_⟩
  · rw [hiff]
    exact eq_comm
  · rw [hiff, hsum]
    omega
  · intro hna
    have hne := fun h => hna (hiff.mpr h)
    rw [c2, if_neg hne]
    exact ⟨c3, c4⟩

/-- C10 witness: a 45-byte VIN frame whose bytes sum to 256. -/
theorem C10_stoneridge_checksum_rule_witness :
    exampleState.sr = srInitial ∧ SrLayout exampleSrFrame ∧ (∀ b ∈ exampleSrFrame, b < 256) ∧
    (feed Tacho_StoneridgeHandler exampleState exampleSrFrame).2
      = List.replicate (srByte exampleSrFrame 3 - 1) false ++ [true] ∧
    (Accepted exampleState.trace (feed Tacho_StoneridgeHandler exampleState exampleSrFrame).1.trace
      ↔ exampleSrFrame.sum % 256 = 0) :=
  ⟨rfl, by unfold SrLayout; decide, by decide,
   (C10_stoneridge_checksum_rule exampleState exampleSrFrame rfl (by unfold SrLayout; decide)
      (by decide)).1,
   (C10_stoneridge_checksum_rule exampleState exampleSrFrame rfl (by unfold SrLayout; decide)
      (by decide)).2.2.1⟩

/-! ## Cache, orchestrator and driver identities: verified claims -/

theorem copy_fold_take (r : List Nat) :
    ∀ (k : Nat) (m : List Nat), k ≤ m.length → k ≤ r.length →
      (List.range k).foldl (fun c i => c.set i (r.getD i 0)) m = r.take k ++ m.drop k := by
  intro k
  induction k with
  | zero => intro m _ _; simp
  | succ k ih =>
    intro m hm hr
    rw [List.range_succ, List.foldl_append, ih m (by omega) (by omega)]
    simp only [List.foldl_cons, List.foldl_nil]
    have hlen : (r.take k).length = k := by simp; omega
    rw [List.set_append_right _ _ (by omega), hlen, Nat.sub_self]
    rw [List.drop_eq_getElem_cons (by omega : k < m.length)]
    simp only [List.set_cons_zero]
    rw [take_succ_getD r k (by omega), List.append_assoc]
    rfl

theorem copy_fold_eq (n : Nat) (m r : List Nat) (hm : m.length = n) (hr : r.length = n) :
    (List.range n).foldl (fun c i => c.set i (r.getD i 0)) m = r := by
  rw [copy_fold_take r n m (by omega) (by omega)]
  rw [List.take_of_length_le (by omega), List.drop_of_length_le (by omega)]
  simp

theorem range_map_getD (l : List Nat) (n : Nat) (h : l.length = n) :
    (List.range n).map (fun j => l.getD j 0) = l := by
  apply List.ext_getElem
  · simp [h]
  · intro i h1 h2
    simp [List.getD_eq_getElem?_getD, List.getElem?_eq_getElem h2]

theorem writeDi_append (bs : List Nat) :
    ∀ (pre old : List Nat), bs.length ≤ old.length → pre.length + bs.length < 256 →
      writeDi (pre ++ old, pre.length) bs
        = (pre ++ bs ++ old.drop bs.length, pre.length + bs.length) := by
  induction bs with
  | nil => intro pre old _ _; simp [writeDi]
  | cons b bs ih =>
    intro pre old h1 h2
    simp only [List.length_cons] at h1 h2
    cases old with
    | nil => simp at h1
    | cons o olds =>
      simp only [List.length_cons] at h1
      simp only [writeDi]
      have hmod : (pre.length + 1) % 256 = pre.length + 1 := by omega
      have hset : (pre ++ o :: olds).set pre.length b = (pre ++ [b]) ++ olds := by
        rw [List.set_append_right _ _ (Nat.le_refl _), Nat.sub_self]
        simp
      have hl : (pre ++ [b]).length = pre.length + 1 := by simp
      rw [hmod, hset, ← hl, ih (pre ++ [b]) olds (by omega) (by rw [hl]; omega)]
      simp only [List.length_cons, List.drop_succ_cons, Prod.mk.injEq, hl]
      refine ⟨by simp, by omega⟩

theorem writeDi_eq (bs : List Nat) (di : List Nat) (i : Nat)
    (h1 : i + bs.length ≤ di.length) (h2 : di.length < 256) :
    writeDi (di, i) bs = (di.take i ++ bs ++ di.drop (i + bs.length), i + bs.length) := by
  have hl : (di.take i).length = i := by simp; omega
  have h := writeDi_append bs (di.take i) (di.drop i) (by simp; omega) (by rw [hl]; omega)
  rw [List.take_append_drop, hl, List.drop_drop] at h
  rw [h]

theorem take_append_len (a b : List Nat) (n : Nat) (h : n = a.length) :
    (a ++ b).take n = a := by
  subst h; simp

theorem drop_append_len (a b : List Nat) (n k : Nat) (h : n = a.length + k) :
    (a ++ b).drop n = b.drop k := by
  subst h; simp [List.drop_append]

theorem Tacho_CopyToCache_driver_eq (d : Tacho_DriverID_t) (di : List Nat) (i : Nat)
    (hc : d.country.length = 3) (hn : d.cardnr.length = 16)
    (h1 : i + (driverText d).length + 1 ≤ di.length) (h2 : di.length < 256) :
    Tacho_CopyToCache_driver (di, i) d
      = (di.take i ++ (driverText d ++ [42]) ++ di.drop (i + ((driverText d).length + 1)),
         i + ((driverText d).length + 1)) := by
  unfold Tacho_CopyToCache_driver driverText at *
  simp only [TACHO_MAX_COUNTRY_CODE, TACHO_MAX_CARD_NR]
  rw [range_map_getD d.country 3 hc, range_map_getD d.cardnr 16 hn]
  have ht : (List.take i di).length = i := by simp; omega
  by_cases h0 : d.cardnr.getD 0 0 ≠ 0
  · simp only [if_pos h0, List.length_append] at h1 ⊢
    rw [writeDi_eq d.country di i (by omega) h2]
    have hl1 : (List.take i di ++ d.country ++ List.drop (i + d.country.length) di).length
        = di.length := by
      simp only [List.length_append, List.length_take, List.length_drop]; omega
    rw [writeDi_eq d.cardnr _ _ (by rw [hl1]; omega) (by rw [hl1]; exact h2)]
    rw [take_append_len _ _ _ (by simp only [List.length_append, ht]),
      drop_append_len _ _ _ d.cardnr.length (by simp only [List.length_append, ht]),
      List.drop_drop]
    have hl2 : (List.take i di ++ d.country ++ d.cardnr
        ++ List.drop (i + d.country.length + d.cardnr.length) di).length = di.length := by
      simp only [List.length_append, List.length_take, List.length_drop]; omega
    rw [writeDi_eq [42] _ _ (by rw [hl2]; simp; omega) (by rw [hl2]; exact h2)]
    rw [take_append_len _ _ _ (by simp only [List.length_append, ht]),
      drop_append_len _ _ _ [42].length (by simp only [List.length_append, ht]),
      List.drop_drop]
    simp only [Prod.mk.injEq, List.length_singleton]
    refine ⟨?_, by omega⟩
    have ha : i + d.country.length + d.cardnr.length + 1
        = i + (d.country.length + d.cardnr.length + 1) := by omega
    rw [ha]
    simp only [List.append_assoc]
  · simp only [if_neg h0, List.length_nil, Nat.add_zero] at h1 ⊢
    rw [writeDi_eq [42] di i (by simp; omega) h2]
    simp

theorem driverText_length (d : Tacho_DriverID_t)
    (hc : d.country.length = 3) (hn : d.cardnr.length = 16) :
    (driverText d).length = 0 ∨ (driverText d).length = 19 := by
  unfold driverText
  split
  · right; simp [hc, hn]
  · left; rfl

theorem Tacho_CopyToCache_di_eq (f : Tacho_Frame_t) (di : List Nat)
    (h1c : f.driver_DRIVER1.country.length = 3) (h1n : f.driver_DRIVER1.cardnr.length = 16)
    (h2c : f.driver_DRIVER2.country.length = 3) (h2n : f.driver_DRIVER2.cardnr.length = 16)
    (hdi : di.length = 41) :
    Tacho_CopyToCache_di f di = (diText f ++ di.drop (diText f).length, (diText f).length) := by
  have l1 := driverText_length f.driver_DRIVER1 h1c h1n
  have l2 := driverText_length f.driver_DRIVER2 h2c h2n
  unfold Tacho_CopyToCache_di
  simp only [Tacho_Frame_t.driver]
  rw [Tacho_CopyToCache_driver_eq f.driver_DRIVER1 di 0 h1c h1n (by omega) (by omega)]
  simp only [List.take_zero, List.nil_append, Nat.zero_add]
  have hA : (driverText f.driver_DRIVER1 ++ [42]
      ++ List.drop ((driverText f.driver_DRIVER1).length + 1) di).length = 41 := by
    simp only [List.length_append, List.length_drop, List.length_singleton]; omega
  rw [Tacho_CopyToCache_driver_eq f.driver_DRIVER2 _ _ h2c h2n (by rw [hA]; omega)
    (by rw [hA]; omega)]
  rw [take_append_len _ _ _ (by simp), drop_append_len _ _ _
    ((driverText f.driver_DRIVER2).length + 1) (by simp), List.drop_drop]
  have hB : (driverText f.driver_DRIVER1 ++ [42] ++ (driverText f.driver_DRIVER2 ++ [42])
      ++ List.drop ((driverText f.driver_DRIVER1).length + 1
          + ((driverText f.driver_DRIVER2).length + 1)) di).length = 41 := by
    simp only [List.length_append, List.length_drop, List.length_singleton]; omega
  rw [writeDi_eq [0] _ _ (by rw [hB]; simp; omega) (by rw [hB]; omega)]
  rw [take_append_len _ _ _ (by simp; omega), drop_append_len _ _ _ 1 (by simp; omega),
    List.drop_drop]
  unfold diText
  have hlen : (driverText f.driver_DRIVER1 ++ [42] ++ (driverText f.driver_DRIVER2 ++ [42])
      ++ [0]).length
      = (driverText f.driver_DRIVER1).length + 1 + ((driverText f.driver_DRIVER2).length + 1) + 1 := by
    simp only [List.length_append, List.length_singleton]
  rw [hlen]
  rfl

theorem Tacho_CopyToCache_di_view (s : Tacho_State) :
    (Tacho_CopyToCache s).Tacho_CachedData.di
      = (Tacho_CopyToCache_di s.Tacho_Frame s.Tacho_CachedData.di).1 := rfl

/-- C17: driver-ID text layout and bound. For every frame state whose identity
buffers have their declared sizes (3 and 16) and every 41-byte buffer,
`Tacho_CopyToCache` writes, from index 0 on, for driver 1 then driver 2 the
country and card-number bytes if the first card-number byte is non-zero
(nothing otherwise) followed by `*`, then one zero byte; the rest of the
buffer is untouched; the number of bytes written (the final `dindex`) is 3,
22 or 41, so it never exceeds the buffer and every write index is in bounds. -/
theorem C17_driver_id_text_layout (s : Tacho_State)
    (h1c : s.Tacho_Frame.driver_DRIVER1.country.length = 3)
    (h1n : s.Tacho_Frame.driver_DRIVER1.cardnr.length = 16)
    (h2c : s.Tacho_Frame.driver_DRIVER2.country.length = 3)
    (h2n : s.Tacho_Frame.driver_DRIVER2.cardnr.length = 16)
    (hdi : s.Tacho_CachedData.di.length = 41) :
    (Tacho_CopyToCache s).Tacho_CachedData.di
      = diText s.Tacho_Frame ++ s.Tacho_CachedData.di.drop (diText s.Tacho_Frame).length ∧
    (Tacho_CopyToCache_di s.Tacho_Frame s.Tacho_CachedData.di).2 = (diText s.Tacho_Frame).length ∧
    ((diText s.Tacho_Frame).length = 3 ∨ (diText s.Tacho_Frame).length = 22 ∨
      (diText s.Tacho_Frame).length = 41) ∧
    (diText s.Tacho_Frame).length ≤ TACHO_MAX_DI_MSG ∧
    (Tacho_CopyToCache s).Tacho_CachedData.di.length = TACHO_MAX_DI_MSG := by
  have h := Tacho_CopyToCache_di_eq s.Tacho_Frame s.Tacho_CachedData.di h1c h1n h2c h2n hdi
  have l1 := driverText_length s.Tacho_Frame.driver_DRIVER1 h1c h1n
  have l2 := driverText_length s.Tacho_Frame.driver_DRIVER2 h2c h2n
  have hlen : (diText s.Tacho_Frame).length
      = (driverText s.Tacho_Frame.driver_DRIVER1).length
        + (driverText s.Tacho_Frame.driver_DRIVER2).length + 3 := by
    unfold diText
    simp only [List.length_append, List.length_singleton]
    omega
  rw [Tacho_CopyToCache_di_view, h]
  refine ⟨rfl, rfl, by omega, by simp only [TACHO_MAX_DI_MSG, TACHO_MAX_DRIVER_ID]; omega, ?_⟩
  simp only [List.length_append, List.length_drop, TACHO_MAX_DI_MSG, TACHO_MAX_DRIVER_ID]
  omega

/-- C17 witness: driver 1 absent, driver 2 present gives 22 bytes. -/
theorem C17_driver_id_text_layout_witness :
    ({ exampleState with Tacho_Frame :=
        { exampleState.Tacho_Frame with
            driver_DRIVER2 := ⟨[68, 32, 32], List.replicate 16 49⟩ } } : Tacho_State).Tacho_CachedData.di.length
      = 41 ∧
    (diText ({ exampleState with Tacho_Frame :=
        { exampleState.Tacho_Frame with
            driver_DRIVER2 := ⟨[68, 32, 32], List.replicate 16 49⟩ } } : Tacho_State).Tacho_Frame).length
      = 22 ∧
    (Tacho_CopyToCache { exampleState with Tacho_Frame :=
        { exampleState.Tacho_Frame with
            driver_DRIVER2 := ⟨[68, 32, 32], List.replicate 16 49⟩ } }).Tacho_CachedData.di
      = diText ({ exampleState with Tacho_Frame :=
          { exampleState.Tacho_Frame with
              driver_DRIVER2 := ⟨[68, 32, 32], List.replicate 16 49⟩ } } : Tacho_State).Tacho_Frame
        ++ List.replicate 19 0 :=
  ⟨by decide, by decide,
   (C17_driver_id_text_layout _ (by decide) (by decide) (by decide) (by decide) (by decide)).1⟩

theorem dataChanged_iff (m r : List Nat) :
    ((List.range 4).any (fun i => m.getD i 0 != r.getD i 0)) = true
      ↔ ∃ i, i < 4 ∧ r.getD i 0 ≠ m.getD i 0 := by
  simp only [List.any_eq_true, List.mem_range, bne_iff_ne, ne_eq]
  constructor
  · rintro ⟨i, hi, hne⟩
    exact ⟨i, hi, fun h => hne h.symm⟩
  · rintro ⟨i, hi, hne⟩
    exact ⟨i, hi, fun h => hne h.symm⟩

theorem Tacho_NotifyFrameReceived_changed (s : Tacho_State) (r : List Nat)
    (hm : s.Tacho_CachedData.tco1_cmn.length = 8) (hr : r.length = 8)
    (h : ∃ i, i < 4 ∧ r.getD i 0 ≠ s.Tacho_CachedData.tco1_cmn.getD i 0) :
    Tacho_NotifyFrameReceived s (some r)
      = { s with Tacho_CachedData := { s.Tacho_CachedData with tco1_cmn := r },
                 trace := s.trace ++ [Tacho_Event.NotifyFrameReceived,
                                      Tacho_Event.FMI_process_j1939_event_TCO1_AVAILABLE] } := by
  have hc := (dataChanged_iff s.Tacho_CachedData.tco1_cmn r).mpr h
  unfold Tacho_NotifyFrameReceived
  simp only [hc, if_true, TACHO_TCO1_SIZE]
  rw [copy_fold_eq 8 _ r hm hr]
  simp

theorem Tacho_NotifyFrameReceived_same (s : Tacho_State) (r : List Nat)
    (h : ∀ i, i < 4 → r.getD i 0 = s.Tacho_CachedData.tco1_cmn.getD i 0) :
    Tacho_NotifyFrameReceived s (some r)
      = { s with trace := s.trace ++ [Tacho_Event.NotifyFrameReceived] } := by
  have hc : ¬ ((List.range 4).any
      (fun i => s.Tacho_CachedData.tco1_cmn.getD i 0 != r.getD i 0)) = true := by
    rw [dataChanged_iff]
    rintro ⟨i, hi, hne⟩
    exact hne (h i hi)
  unfold Tacho_NotifyFrameReceived
  simp only [hc, if_false]
  simp

/-- C13: change notification. For every merged record `m` (the 8 bytes of
`tco1_cmn`) and every 8-byte input record `r`, from the serial decoder or from
the bus, `Tacho_NotifyFrameReceived (r)` copies all 8 bytes of `r` into the
merged record and fires the external notification exactly once if some byte
among `r[0..3]` differs from `m[0..3]`; if `r[0..3] = m[0..3]` it fires no
notification and leaves the merged record unchanged, whatever `r[4..7]` is.
Presenting the same record twice in a row notifies at most once. The bus
entry point does the same with the record of the bus stack. -/
theorem C13_change_notification (s : Tacho_State) (r : List Nat) (E : Nat)
    (hm : s.Tacho_CachedData.tco1_cmn.length = 8) (hr : r.length = 8) :
    ((∃ i, i < 4 ∧ r.getD i 0 ≠ s.Tacho_CachedData.tco1_cmn.getD i 0) →
      (Tacho_NotifyFrameReceived s (some r)).Tacho_CachedData.tco1_cmn = r ∧
      (Tacho_NotifyFrameReceived s (some r)).trace
        = s.trace ++ [Tacho_Event.NotifyFrameReceived,
                      Tacho_Event.FMI_process_j1939_event_TCO1_AVAILABLE] ∧
      fmiCount (Tacho_NotifyFrameReceived s (some r)).trace = fmiCount s.trace + 1) ∧
    ((∀ i, i < 4 → r.getD i 0 = s.Tacho_CachedData.tco1_cmn.getD i 0) →
      (Tacho_NotifyFrameReceived s (some r)).Tacho_CachedData.tco1_cmn
        = s.Tacho_CachedData.tco1_cmn ∧
      (Tacho_NotifyFrameReceived s (some r)).trace
        = s.trace ++ [Tacho_Event.NotifyFrameReceived] ∧
      fmiCount (Tacho_NotifyFrameReceived s (some r)).trace = fmiCount s.trace) ∧
    (Tacho_NotifyFrameReceived s (some r)).Tacho_CachedData.tco1 = s.Tacho_CachedData.tco1 ∧
    (Tacho_NotifyFrameReceived s (some r)).Tacho_CachedData.di = s.Tacho_CachedData.di ∧
    fmiCount (Tacho_NotifyFrameReceived (Tacho_NotifyFrameReceived s (some r)) (some r)).trace
      ≤ fmiCount s.trace + 1 ∧
    Tacho_process_j1939_event E (some r) s E = Tacho_NotifyFrameReceived s (some r) := by
  have hch := Tacho_NotifyFrameReceived_changed s r hm hr
  have hsm := Tacho_NotifyFrameReceived_same s r
  have hfields := Tacho_NotifyFrameReceived_tco1 s (some r)
  refine ⟨?_, ?_, hfields.1, hfields.2.1, ?_, ?_⟩
  · intro h
    rw [hch h]
    refine ⟨rfl, rfl, ?_⟩
    simp [fmiCount, List.count_append]
  · intro h
    rw [hsm h]
    refine ⟨rfl, rfl, ?_⟩
    simp [fmiCount, List.count_append]
  · by_cases h : ∃ i, i < 4 ∧ r.getD i 0 ≠ s.Tacho_CachedData.tco1_cmn.getD i 0
    · rw [hch h, Tacho_NotifyFrameReceived_same _ r (fun i _ => rfl)]
      simp [fmiCount, List.count_append]
    · have h' : ∀ i, i < 4 → r.getD i 0 = s.Tacho_CachedData.tco1_cmn.getD i 0 := by
        intro i hi
        by_contra hne
        exact h ⟨i, hi, hne⟩
      rw [hsm h', Tacho_NotifyFrameReceived_same
        { s with trace := s.trace ++ [Tacho_Event.NotifyFrameReceived] } r h']
      simp [fmiCount, List.count_append]
  · simp [Tacho_process_j1939_event]

/-- C13 witness: a record that differs only in the speed bytes, then one that
differs in byte 0. -/
theorem C13_change_notification_witness :
    exampleState.Tacho_CachedData.tco1_cmn.length = 8 ∧
    ([0, 0, 0, 0, 255, 255, 7, 9] : List Nat).length = 8 ∧
    (Tacho_NotifyFrameReceived exampleState
        (some [0, 0, 0, 0, 255, 255, 7, 9])).Tacho_CachedData.tco1_cmn
      = exampleState.Tacho_CachedData.tco1_cmn ∧
    (Tacho_NotifyFrameReceived exampleState
        (some [1, 0, 0, 0, 255, 255, 7, 9])).Tacho_CachedData.tco1_cmn
      = [1, 0, 0, 0, 255, 255, 7, 9] :=
  ⟨by decide, by decide,
   ((C13_change_notification exampleState [0, 0, 0, 0, 255, 255, 7, 9] 0 (by decide)
      (by decide)).2.1 (by decide)).1,
   ((C13_change_notification exampleState [1, 0, 0, 0, 255, 255, 7, 9] 0 (by decide)
      (by decide)).1 ⟨0, by decide, by decide⟩).1⟩

theorem Tacho_VdoHandler_switch_setQ (s : Tacho_State) (q : Tacho_RxQueue_t) (b : Nat) :
    Tacho_VdoHandler_switch (setQ s q) b = setQ (Tacho_VdoHandler_switch s b) q := by
  unfold Tacho_VdoHandler_switch setQ
  simp only
  split_ifs <;> rfl

theorem Tacho_VdoCheckDIN_setQ (s : Tacho_State) (q : Tacho_RxQueue_t) (b : Nat) :
    Tacho_VdoCheckDIN (setQ s q) b = setQ (Tacho_VdoCheckDIN s b) q := by
  unfold Tacho_VdoCheckDIN setQ
  simp only
  split_ifs <;> rfl

theorem Tacho_VdoHandler_chain_setQ (s : Tacho_State) (q : Tacho_RxQueue_t) (b : Nat) :
    Tacho_VdoHandler_chain (setQ s q) b = (Tacho_VdoHandler_chain s b).map (fun t => setQ t q) := by
  unfold Tacho_VdoHandler_chain setQ
  simp only
  split_ifs <;> rfl

theorem Tacho_CopyToCache_setQ (s : Tacho_State) (q : Tacho_RxQueue_t) :
    Tacho_CopyToCache (setQ s q) = setQ (Tacho_CopyToCache s) q := rfl

theorem Tacho_NotifyFrameReceived_setQ (s : Tacho_State) (q : Tacho_RxQueue_t)
    (d : Option (List Nat)) :
    Tacho_NotifyFrameReceived (setQ s q) d = setQ (Tacho_NotifyFrameReceived s d) q := by
  unfold Tacho_NotifyFrameReceived setQ
  cases d with
  | none => rfl
  | some d =>
    simp only
    split_ifs <;> rfl

theorem setQ_vdo (s : Tacho_State) (q : Tacho_RxQueue_t) : (setQ s q).vdo = s.vdo := rfl

theorem setQ_sr (s : Tacho_State) (q : Tacho_RxQueue_t) : (setQ s q).sr = s.sr := rfl

theorem Tacho_VdoHandler_setQ (s : Tacho_State) (q : Tacho_RxQueue_t) (b : Nat) :
    Tacho_VdoHandler (setQ s q) b
      = (setQ (Tacho_VdoHandler s b).1 q, (Tacho_VdoHandler s b).2) := by
  unfold Tacho_VdoHandler
  simp only [Tacho_VdoHandler_switch_setQ, Tacho_VdoCheckDIN_setQ, Tacho_VdoHandler_chain_setQ,
    setQ_vdo]
  cases hc : Tacho_VdoHandler_chain (Tacho_VdoCheckDIN (Tacho_VdoHandler_switch s b) b) b with
  | none =>
    simp only [Option.map_none']
    by_cases hb : b = (Tacho_VdoCheckDIN (Tacho_VdoHandler_switch s b) b).vdo.crc8_value
    · simp only [if_pos hb, Tacho_CopyToCache_setQ, Tacho_NotifyFrameReceived_setQ]
      rfl
    · simp only [if_neg hb]
      rfl
  | some s3 =>
    simp only [Option.map_some']
    rfl

theorem Tacho_StoneridgeCopyDIN_setQ (s : Tacho_State) (q : Tacho_RxQueue_t) (pos b : Nat)
    (idx : Tacho_DriverIdx_t) :
    Tacho_StoneridgeCopyDIN (setQ s q) pos b idx = setQ (Tacho_StoneridgeCopyDIN s pos b idx) q := by
  unfold Tacho_StoneridgeCopyDIN setQ
  simp only
  split_ifs <;> rfl

theorem Tacho_StoneridgeCheckDIN_setQ (s : Tacho_State) (q : Tacho_RxQueue_t) (b : Nat) :
    Tacho_StoneridgeCheckDIN (setQ s q) b = setQ (Tacho_StoneridgeCheckDIN s b) q := by
  unfold Tacho_StoneridgeCheckDIN
  simp only [setQ_sr, Tacho_StoneridgeCopyDIN_setQ]
  split_ifs <;> rfl

theorem Tacho_StoneridgeMsgProcess_setQ (s : Tacho_State) (q : Tacho_RxQueue_t) (b : Nat) :
    Tacho_StoneridgeMsgProcess (setQ s q) b
      = (setQ (Tacho_StoneridgeMsgProcess s b).1 q, (Tacho_StoneridgeMsgProcess s b).2) := by
  unfold Tacho_StoneridgeMsgProcess setQ
  simp only
  split_ifs <;> rfl

theorem Tacho_StoneridgeHandler_switch_setQ (s : Tacho_State) (q : Tacho_RxQueue_t) (b : Nat) :
    Tacho_StoneridgeHandler_switch (setQ s q) b
      = (setQ (Tacho_StoneridgeHandler_switch s b).1 q, (Tacho_StoneridgeHandler_switch s b).2) := by
  unfold Tacho_StoneridgeHandler_switch
  simp only [setQ_sr, Tacho_StoneridgeMsgProcess_setQ]
  split_ifs <;> rfl

theorem Tacho_StoneridgeHandler_setQ (s : Tacho_State) (q : Tacho_RxQueue_t) (b : Nat) :
    Tacho_StoneridgeHandler (setQ s q) b
      = (setQ (Tacho_StoneridgeHandler s b).1 q, (Tacho_StoneridgeHandler s b).2) := by
  unfold Tacho_StoneridgeHandler
  simp only [Tacho_StoneridgeHandler_switch_setQ, Tacho_StoneridgeCheckDIN_setQ, setQ_sr]
  by_cases h1 : (Tacho_StoneridgeHandler_switch s b).2 = true
  · simp only [h1, if_true]
  · have h1' : (Tacho_StoneridgeHandler_switch s b).2 = false := by
      cases hc : (Tacho_StoneridgeHandler_switch s b).2 with
      | false => rfl
      | true => exact absurd hc h1
    simp only [h1', Bool.false_eq_true, if_false]
    generalize Tacho_StoneridgeCheckDIN (Tacho_StoneridgeHandler_switch s b).1 b = X
    by_cases h2 : X.sr.crc8_pos = X.sr.index
    · simp only [if_pos h2]
      by_cases h3 : (256 - X.sr.crc8_value % 256) % 256 = b
      · simp only [if_pos h3]
        show (Tacho_StoneridgeInitHandler (Tacho_NotifyFrameReceived
            (Tacho_CopyToCache (setQ (srNegate X) q))
            (some (Tacho_CopyToCache (setQ (srNegate X) q)).Tacho_CachedData.tco1)), true) = _
        rw [Tacho_CopyToCache_setQ, Tacho_NotifyFrameReceived_setQ]
        rfl
      · simp only [if_neg h3]
        rfl
    · simp only [if_neg h2]
      rfl

theorem Tacho_Task_body_sync (s : Tacho_State) (b : Nat) (hp : s.perform_sync = true) :
    Tacho_Task_body s b =
      match s.Tacho_Proto with
      | none => s
      | some proto =>
        match proto.start_seq[s.index]? with
        | none =>
          { s with index := 0,
                   trace := s.trace ++ [Tacho_Event.start_seq_read_past_end s.index] }
        | some expected =>
          if expected = b then
            if proto.start_sz ≤ (s.index + 1) % 256 then
              { s with index := (s.index + 1) % 256, perform_sync := false }
            else { s with index := (s.index + 1) % 256 }
          else { s with index := 0 } := by
  unfold Tacho_Task_body
  rw [if_pos hp]

theorem Tacho_Task_body_handler (s : Tacho_State) (b : Nat) (hp : s.perform_sync = false) :
    Tacho_Task_body s b =
      match s.Tacho_Handler with
      | none => s
      | some h =>
        if (Tacho_Handler_call h s b).2 then
          { (Tacho_Handler_call h s b).1 with perform_sync := true, index := 0 }
        else (Tacho_Handler_call h s b).1 := by
  unfold Tacho_Task_body
  rw [if_neg (by rw [hp]; exact Bool.false_ne_true)]

theorem Tacho_Task_body_setQ (s : Tacho_State) (q : Tacho_RxQueue_t) (b : Nat) :
    Tacho_Task_body (setQ s q) b = setQ (Tacho_Task_body s b) q := by
  cases hp : s.perform_sync with
  | true =>
    rw [Tacho_Task_body_sync s b hp, Tacho_Task_body_sync (setQ s q) b hp]
    have hP : (setQ s q).Tacho_Proto = s.Tacho_Proto := rfl
    have hI : (setQ s q).index = s.index := rfl
    rw [hP, hI]
    cases s.Tacho_Proto with
    | none => rfl
    | some proto =>
      simp only
      cases proto.start_seq[s.index]? with
      | none => rfl
      | some e =>
        simp only
        split_ifs <;> rfl
  | false =>
    rw [Tacho_Task_body_handler s b hp, Tacho_Task_body_handler (setQ s q) b hp]
    have hH : (setQ s q).Tacho_Handler = s.Tacho_Handler := rfl
    rw [hH]
    cases s.Tacho_Handler with
    | none => rfl
    | some h =>
      simp only
      cases h with
      | Tacho_VdoHandler =>
        simp only [Tacho_Handler_call, Tacho_VdoHandler_setQ]
        split_ifs <;> rfl
      | Tacho_StoneridgeHandler =>
        simp only [Tacho_Handler_call, Tacho_StoneridgeHandler_setQ]
        split_ifs <;> rfl

theorem ctl_Tacho_NotifyFrameReceived (s : Tacho_State) (d : Option (List Nat)) :
    ctl (Tacho_NotifyFrameReceived s d) = ctl s := by
  unfold Tacho_NotifyFrameReceived
  cases d with
  | none => rfl
  | some d =>
    simp only
    split_ifs <;> rfl

theorem ctl_Tacho_VdoHandler (s : Tacho_State) (b : Nat) :
    ctl (Tacho_VdoHandler s b).1 = ctl s ∧ (Tacho_VdoHandler s b).1.sr = s.sr := by
  have hmid : ctl (vdoMid s b) = ctl s ∧ (vdoMid s b).sr = s.sr := by
    rw [vdoMid_eq]; exact ⟨rfl, rfl⟩
  cases hf : (Tacho_VdoHandler s b).2 with
  | true =>
    rw [Tacho_VdoHandler_true s b hf]
    split_ifs
    · constructor
      · show ctl (Tacho_NotifyFrameReceived _ _) = _
        rw [ctl_Tacho_NotifyFrameReceived]
        exact hmid.1
      · show (Tacho_NotifyFrameReceived _ _).sr = _
        rw [(Tacho_NotifyFrameReceived_tco1 _ _).2.2.2.2]
        exact hmid.2
    · exact hmid
  | false =>
    unfold vdoMid at hmid
    unfold Tacho_VdoHandler at hf ⊢
    cases hc : Tacho_VdoHandler_chain (Tacho_VdoCheckDIN (Tacho_VdoHandler_switch s b) b) b with
    | none => simp [hc] at hf
    | some s3 =>
      simp only [hc]
      have h3 : ctl s3 = ctl (Tacho_VdoCheckDIN (Tacho_VdoHandler_switch s b) b) ∧
          s3.sr = (Tacho_VdoCheckDIN (Tacho_VdoHandler_switch s b) b).sr := by
        unfold Tacho_VdoHandler_chain at hc
        split_ifs at hc <;> cases hc <;> exact ⟨rfl, rfl⟩
      exact ⟨h3.1.trans hmid.1, h3.2.trans hmid.2⟩

theorem ctl_Tacho_StoneridgeCopyDIN (s : Tacho_State) (pos b : Nat) (idx : Tacho_DriverIdx_t) :
    ctl (Tacho_StoneridgeCopyDIN s pos b idx) = ctl s ∧
    (Tacho_StoneridgeCopyDIN s pos b idx).vdo = s.vdo := by
  unfold Tacho_StoneridgeCopyDIN
  split_ifs <;> exact ⟨rfl, rfl⟩

theorem ctl_Tacho_StoneridgeCheckDIN (s : Tacho_State) (b : Nat) :
    ctl (Tacho_StoneridgeCheckDIN s b) = ctl s ∧ (Tacho_StoneridgeCheckDIN s b).vdo = s.vdo := by
  unfold Tacho_StoneridgeCheckDIN
  split_ifs
  · exact ⟨rfl, rfl⟩
  · exact ctl_Tacho_StoneridgeCopyDIN _ _ _ _
  · exact ctl_Tacho_StoneridgeCopyDIN _ _ _ _
  · exact ⟨rfl, rfl⟩

theorem ctl_Tacho_StoneridgeHandler_switch (s : Tacho_State) (b : Nat) :
    ctl (Tacho_StoneridgeHandler_switch s b).1 = ctl s ∧
    (Tacho_StoneridgeHandler_switch s b).1.vdo = s.vdo := by
  unfold Tacho_StoneridgeHandler_switch Tacho_StoneridgeMsgProcess
  split_ifs <;> exact ⟨rfl, rfl⟩

theorem ctl_Tacho_StoneridgeHandler (s : Tacho_State) (b : Nat) :
    ctl (Tacho_StoneridgeHandler s b).1 = ctl s ∧ (Tacho_StoneridgeHandler s b).1.vdo = s.vdo := by
  have hsw := ctl_Tacho_StoneridgeHandler_switch s b
  have hck := ctl_Tacho_StoneridgeCheckDIN (Tacho_StoneridgeHandler_switch s b).1 b
  have hmid : ctl (srMid s b) = ctl s ∧ (srMid s b).vdo = s.vdo :=
    ⟨hck.1.trans hsw.1, hck.2.trans hsw.2⟩
  cases hf : (Tacho_StoneridgeHandler_switch s b).2 with
  | true =>
    rw [Tacho_StoneridgeHandler_discard s b hf]
    exact ⟨rfl, rfl⟩
  | false =>
    by_cases hpos : (srMid s b).sr.crc8_pos = (srMid s b).sr.index
    · rw [Tacho_StoneridgeHandler_end s b hf hpos]
      split_ifs
      · constructor
        · show ctl (Tacho_NotifyFrameReceived _ _) = _
          rw [ctl_Tacho_NotifyFrameReceived]
          exact hmid.1
        · show (Tacho_NotifyFrameReceived _ _).vdo = _
          rw [(Tacho_NotifyFrameReceived_tco1 _ _).2.2.2.1]
          exact hmid.2
      · exact hmid
    · unfold srMid at hpos hmid
      unfold Tacho_StoneridgeHandler
      simp only [hf, Bool.false_eq_true, if_false, if_neg hpos]
      exact hmid

theorem foldl_body_setQ (bs : List Nat) :
    ∀ (s : Tacho_State) (q : Tacho_RxQueue_t),
      bs.foldl Tacho_Task_body (setQ s q) = setQ (bs.foldl Tacho_Task_body s) q := by
  induction bs with
  | nil => intro s q; rfl
  | cons b bs ih =>
    intro s q
    simp only [List.foldl_cons]
    rw [Tacho_Task_body_setQ, ih]

theorem drainQ_of_empty (q : Tacho_RxQueue_t) (h : QueueInv q) (hc : q.count = 0) :
    drainQ q = q := by
  obtain ⟨_, h2, _, _⟩ := h
  simp only [TACHO_RX_QUEUE_SIZE] at h2
  cases q with
  | mk data head tail count ec fa =>
    simp only at hc h2
    subst hc
    simp only [drainQ, TACHO_RX_QUEUE_SIZE, Nat.add_zero, Nat.mod_eq_of_lt h2]

theorem drainQ_fetch (q : Tacho_RxQueue_t) (h : QueueInv q) (hc : 0 < q.count) :
    drainQ (Tacho_FetchByte q).1 = drainQ q := by
  obtain ⟨_, h2, h3, _⟩ := h
  simp only [TACHO_RX_QUEUE_SIZE] at h2 h3
  simp only [Tacho_FetchByte, if_pos hc, drainQ, TACHO_RX_QUEUE_SIZE, buffer_end, buffer_start]
  congr 1
  split <;> omega

theorem Tacho_Task_loop_eq (fuel : Nat) :
    ∀ s : Tacho_State, QueueInv s.Tacho_RxQueue → s.Tacho_RxQueue.count < fuel →
      Tacho_Task_loop fuel s
        = setQ ((queueContents s.Tacho_RxQueue).foldl Tacho_Task_body s)
            (drainQ s.Tacho_RxQueue) := by
  induction fuel with
  | zero => intro s _ h; omega
  | succ fuel ih =>
    intro s hinv hfuel
    rcases Nat.eq_zero_or_pos s.Tacho_RxQueue.count with hc | hc
    · have hfetch : Tacho_FetchByte s.Tacho_RxQueue = (s.Tacho_RxQueue, none) := by
        simp [Tacho_FetchByte, hc]
      have hcont : queueContents s.Tacho_RxQueue = [] := by
        simp [queueContents, hc]
      simp only [Tacho_Task_loop, hfetch, hcont, List.foldl_nil]
      rw [drainQ_of_empty _ hinv hc]
      rfl
    · have hne : queueContents s.Tacho_RxQueue ≠ [] := by
        intro he
        have := congrArg List.length he
        simp [queueContents] at this
        omega
      obtain ⟨x, xs, hx⟩ := List.exists_cons_of_ne_nil hne
      have h1 := pop_result s.Tacho_RxQueue hinv
      have h2 := pop_contents s.Tacho_RxQueue hinv
      rw [hx] at h1 h2
      simp only [specPop] at h1 h2
      have hcnt : (Tacho_FetchByte s.Tacho_RxQueue).1.count = s.Tacho_RxQueue.count - 1 := by
        simp [Tacho_FetchByte, hc]
      have hfetch : Tacho_FetchByte s.Tacho_RxQueue
          = ((Tacho_FetchByte s.Tacho_RxQueue).1, some x) := by
        rw [← h1]
      rw [Tacho_Task_loop, hfetch]
      simp only
      have hbody : Tacho_Task_body
          { s with Tacho_RxQueue := (Tacho_FetchByte s.Tacho_RxQueue).1 } x
          = setQ (Tacho_Task_body s x) (Tacho_FetchByte s.Tacho_RxQueue).1 :=
        Tacho_Task_body_setQ s _ x
      rw [hbody, ih _ (pop_inv _ hinv) (by show (Tacho_FetchByte s.Tacho_RxQueue).1.count < fuel; omega)]
      show setQ (List.foldl Tacho_Task_body (setQ (Tacho_Task_body s x) _)
        (queueContents (Tacho_FetchByte s.Tacho_RxQueue).1))
        (drainQ (Tacho_FetchByte s.Tacho_RxQueue).1) = _
      rw [h2, foldl_body_setQ, drainQ_fetch _ hinv hc, hx]
      rfl

theorem selection_of_ctl (s t : Tacho_State) (h : ctl s = ctl t) : selection s = selection t := by
  simp only [ctl, Prod.mk.injEq] at h
  simp only [selection, h.2.1, h.2.2.1, h.2.2.2.1]

theorem body_selection (s : Tacho_State) (b : Nat) :
    selection (Tacho_Task_body s b) = selection s := by
  cases hp : s.perform_sync with
  | true =>
    rw [Tacho_Task_body_sync s b hp]
    cases hP : s.Tacho_Proto with
    | none => simp only [selection, hP]
    | some proto =>
      simp only
      cases proto.start_seq[s.index]? with
      | none => simp only [selection, hP]
      | some e =>
        simp only
        split_ifs <;> simp only [selection, hP]
  | false =>
    rw [Tacho_Task_body_handler s b hp]
    cases hH : s.Tacho_Handler with
    | none => simp only [selection, hH]
    | some h =>
      simp only
      have hc : ctl (Tacho_Handler_call h s b).1 = ctl s := by
        cases h with
        | Tacho_VdoHandler => exact (ctl_Tacho_VdoHandler s b).1
        | Tacho_StoneridgeHandler => exact (ctl_Tacho_StoneridgeHandler s b).1
      have hs := selection_of_ctl _ _ hc
      split_ifs
      · exact hs
      · exact hs

theorem foldl_body_selection (bs : List Nat) :
    ∀ s : Tacho_State, selection (bs.foldl Tacho_Task_body s) = selection s := by
  induction bs with
  | nil => intro s; rfl
  | cons b bs ih =>
    intro s
    simp only [List.foldl_cons]
    rw [ih, body_selection]

theorem Tacho_Task_drain_eq (s : Tacho_State) (hinv : QueueInv s.Tacho_RxQueue) :
    Tacho_Task_drain s
      = setQ ((queueContents s.Tacho_RxQueue).foldl Tacho_Task_body s)
          (drainQ { s.Tacho_RxQueue with error_counter := 0 }) := by
  unfold Tacho_Task_drain
  have hinv' : QueueInv ({ s with Tacho_RxQueue :=
      { s.Tacho_RxQueue with error_counter := 0 } } : Tacho_State).Tacho_RxQueue := hinv
  rw [Tacho_Task_loop_eq _ _ hinv' (Nat.lt_succ_self _)]
  show setQ (List.foldl Tacho_Task_body (setQ s _) (queueContents s.Tacho_RxQueue)) _ = _
  rw [foldl_body_setQ]
  rfl

theorem Tacho_SelectStandard_vdo (s : Tacho_State) (um : Bool) :
    Tacho_SelectStandard s Tacho_Standard_t.TACHO_STANDARD_VDO um
      = { s with Tacho_RxQueue := Tacho_ClearRxQueue s.Tacho_RxQueue,
                 Tacho_SelectedStandard := Tacho_Standard_t.TACHO_STANDARD_VDO,
                 Tacho_Proto := some ⟨[0x55, 0x44, 0x54, 0x43, 0x4F], 5, 10400⟩,
                 Tacho_Handler := some Tacho_Handler_t.Tacho_VdoHandler,
                 vdo := vdoInitial,
                 trace := s.trace ++ (Tacho_Event.USART2_set_baudrate 10400 ::
                   (if um then [Tacho_Event.FRAM_WriteByte_TACHO_PROTO 0] else [])) } := by
  cases um <;> simp [Tacho_SelectStandard, Tacho_VdoInitHandler, Tacho_Protocol, Tacho_SetMemory,
    Tacho_Standard_t.toNat, TACHO_VDO_SEQSZ]

theorem Tacho_SelectStandard_stoneridge (s : Tacho_State) (um : Bool) :
    Tacho_SelectStandard s Tacho_Standard_t.TACHO_STANDARD_STONERIDGE um
      = { s with Tacho_RxQueue := Tacho_ClearRxQueue s.Tacho_RxQueue,
                 Tacho_SelectedStandard := Tacho_Standard_t.TACHO_STANDARD_STONERIDGE,
                 Tacho_Proto := some ⟨[0xFF, 0xFF, 0xFF], 3, 1200⟩,
                 Tacho_Handler := some Tacho_Handler_t.Tacho_StoneridgeHandler,
                 sr := srInitial,
                 trace := s.trace ++ (Tacho_Event.USART2_set_baudrate 1200 ::
                   (if um then [Tacho_Event.FRAM_WriteByte_TACHO_PROTO 1] else [])) } := by
  cases um <;> simp [Tacho_SelectStandard, Tacho_StoneridgeInitHandler, Tacho_Protocol,
    Tacho_SetMemory, Tacho_Standard_t.toNat, TACHO_SR_SEQSZ]

theorem arrive_eq (evs : List IsrEvent) :
    ∀ s : Tacho_State, arrive s evs = setQ s (arriveQ s.Tacho_RxQueue evs) := by
  induction evs with
  | nil => intro s; rfl
  | cons e evs ih =>
    intro s
    have h1 : arrive s (e :: evs) = arrive (deliver s e) evs := rfl
    rw [h1, ih (deliver s e)]
    cases e <;> rfl

theorem arriveQ_fields (evs : List IsrEvent) :
    ∀ q : Tacho_RxQueue_t, QueueInv q → q.error_counter < 65536 →
      QueueInv (arriveQ q evs) ∧
      (arriveQ q evs).failed_attempts = q.failed_attempts ∧
      (arriveQ q evs).error_counter = (q.error_counter + faultCount evs) % 65536 := by
  induction evs with
  | nil =>
    intro q h hlt
    exact ⟨h, rfl, by simp [arriveQ, faultCount, Nat.mod_eq_of_lt hlt]⟩
  | cons e evs ih =>
    intro q h hlt
    have h1 : arriveQ q (e :: evs) = arriveQ (deliverQ q e) evs := rfl
    rw [h1]
    cases e with
    | rx b =>
      have hq : QueueInv (deliverQ q (IsrEvent.rx b)) := push_inv q b h
      have hfa : (deliverQ q (IsrEvent.rx b)).failed_attempts = q.failed_attempts := by
        simp only [deliverQ, Tacho_QueueAddByte]
        split <;> rfl
      have hec : (deliverQ q (IsrEvent.rx b)).error_counter = q.error_counter := by
        simp only [deliverQ, Tacho_QueueAddByte]
        split <;> rfl
      obtain ⟨i1, i2, i3⟩ := ih _ hq (by rw [hec]; exact hlt)
      refine ⟨i1, i2.trans hfa, ?_⟩
      rw [i3, hec]
      simp [faultCount, List.count_cons]
    | fault =>
      have hq : QueueInv (deliverQ q IsrEvent.fault) := h
      obtain ⟨i1, i2, i3⟩ := ih _ hq (Nat.mod_lt _ (by decide))
      refine ⟨i1, i2, ?_⟩
      rw [i3]
      simp only [deliverQ, faultCount, List.count_cons_self]
      omega

theorem Tacho_Task_below (s : Tacho_State) (h : s.Tacho_RxQueue.error_counter < 5) :
    Tacho_Task s = Tacho_Task_drain s := by
  unfold Tacho_Task
  rw [if_neg (by simp only [TACHO_MAX_FRAMING_ERRORS]; omega)]

theorem Tacho_Task_attempt (s : Tacho_State) (h : 5 ≤ s.Tacho_RxQueue.error_counter)
    (hfa : (s.Tacho_RxQueue.failed_attempts + 1) % 256 < 2) :
    Tacho_Task s = Tacho_Task_drain { s with Tacho_RxQueue :=
      { s.Tacho_RxQueue with failed_attempts := (s.Tacho_RxQueue.failed_attempts + 1) % 256 } } := by
  unfold Tacho_Task
  rw [if_pos (by simp only [TACHO_MAX_FRAMING_ERRORS]; omega)]
  simp only
  rw [if_neg (by simp only [TACHO_MAX_FAILED_ATTEMPTS]; omega)]

theorem Tacho_Task_switch (s : Tacho_State) (h : 5 ≤ s.Tacho_RxQueue.error_counter)
    (hfa : 2 ≤ (s.Tacho_RxQueue.failed_attempts + 1) % 256) :
    Tacho_Task s = Tacho_SelectStandard { s with Tacho_RxQueue :=
      { s.Tacho_RxQueue with failed_attempts := (s.Tacho_RxQueue.failed_attempts + 1) % 256 } }
      (otherStandard s.Tacho_SelectedStandard) true := by
  unfold Tacho_Task
  rw [if_pos (by simp only [TACHO_MAX_FRAMING_ERRORS]; omega)]
  simp only
  rw [if_pos (by simp only [TACHO_MAX_FAILED_ATTEMPTS]; omega)]
  unfold otherStandard
  split_ifs <;> rfl

theorem storageWrites_append (a b : List Tacho_Event) :
    storageWrites (a ++ b) = storageWrites a ++ storageWrites b := by
  simp [storageWrites, List.filterMap_append]

theorem storageWrites_notify (s : Tacho_State) (d : Option (List Nat)) :
    storageWrites (Tacho_NotifyFrameReceived s d).trace = storageWrites s.trace := by
  unfold Tacho_NotifyFrameReceived
  cases d with
  | none => simp [storageWrites_append, storageWrites]
  | some d =>
    simp only
    split_ifs <;> simp [storageWrites_append, storageWrites]

theorem storageWrites_copy_notify (s : Tacho_State) :
    storageWrites (Tacho_NotifyFrameReceived (Tacho_CopyToCache s)
      (some (Tacho_CopyToCache s).Tacho_CachedData.tco1)).trace = storageWrites s.trace := by
  rw [storageWrites_notify]
  show storageWrites (s.trace ++ [Tacho_Event.CopyToCache]) = _
  simp [storageWrites_append, storageWrites]

theorem storageWrites_VdoHandler (s : Tacho_State) (b : Nat) :
    storageWrites (Tacho_VdoHandler s b).1.trace = storageWrites s.trace := by
  cases hf : (Tacho_VdoHandler s b).2 with
  | false => rw [(Tacho_VdoHandler_false s b hf).1]
  | true =>
    rw [Tacho_VdoHandler_true s b hf]
    have hm := (vdoMid_fields s b).1
    split_ifs
    · show storageWrites (Tacho_NotifyFrameReceived _ _).trace = _
      rw [storageWrites_copy_notify, hm]
    · show storageWrites (vdoMid s b).trace = _
      rw [hm]

theorem storageWrites_StoneridgeHandler (s : Tacho_State) (b : Nat) :
    storageWrites (Tacho_StoneridgeHandler s b).1.trace = storageWrites s.trace := by
  cases hf : (Tacho_StoneridgeHandler_switch s b).2 with
  | true =>
    rw [Tacho_StoneridgeHandler_discard s b hf]
    rfl
  | false =>
    have hm := (srMid_fields s b hf).2.2.2.1
    by_cases hpos : (srMid s b).sr.crc8_pos = (srMid s b).sr.index
    · rw [Tacho_StoneridgeHandler_end s b hf hpos]
      split_ifs
      · show storageWrites (Tacho_NotifyFrameReceived _ _).trace = _
        rw [storageWrites_copy_notify]
        show storageWrites (srMid s b).trace = _
        rw [hm]
      · show storageWrites (srMid s b).trace = _
        rw [hm]
    · rw [(Tacho_StoneridgeHandler_continue s b hf hpos).2.2.2.2.1, hm]

theorem storageWrites_body (s : Tacho_State) (b : Nat) :
    storageWrites (Tacho_Task_body s b).trace = storageWrites s.trace := by
  cases hp : s.perform_sync with
  | true =>
    rw [Tacho_Task_body_sync s b hp]
    cases s.Tacho_Proto with
    | none => rfl
    | some proto =>
      simp only
      cases proto.start_seq[s.index]? with
      | none => simp [storageWrites_append, storageWrites]
      | some e =>
        simp only
        split_ifs <;> rfl
  | false =>
    rw [Tacho_Task_body_handler s b hp]
    cases s.Tacho_Handler with
    | none => rfl
    | some h =>
      simp only
      have hc : storageWrites (Tacho_Handler_call h s b).1.trace = storageWrites s.trace := by
        cases h with
        | Tacho_VdoHandler => exact storageWrites_VdoHandler s b
        | Tacho_StoneridgeHandler => exact storageWrites_StoneridgeHandler s b
      split_ifs
      · exact hc
      · exact hc

theorem foldl_body_storageWrites (bs : List Nat) :
    ∀ s : Tacho_State,
      storageWrites (bs.foldl Tacho_Task_body s).trace = storageWrites s.trace := by
  induction bs with
  | nil => intro s; rfl
  | cons b bs ih =>
    intro s
    simp only [List.foldl_cons]
    rw [ih, storageWrites_body]

theorem queueInv_drainQ (q : Tacho_RxQueue_t) (h : QueueInv q) : QueueInv (drainQ q) := by
  obtain ⟨h1, h2, h3, h4⟩ := h
  simp only [TACHO_RX_QUEUE_SIZE] at h1 h2 h3 h4
  simp only [QueueInv, drainQ, TACHO_RX_QUEUE_SIZE]
  refine ⟨h1, by omega, by omega, by omega⟩

theorem task_first_attempt (a : Tacho_State) (hinv : QueueInv a.Tacho_RxQueue)
    (hec : 5 ≤ a.Tacho_RxQueue.error_counter) (hfa : a.Tacho_RxQueue.failed_attempts = 0) :
    selection (Tacho_Task a) = selection a ∧
    storageWrites (Tacho_Task a).trace = storageWrites a.trace ∧
    (Tacho_Task a).Tacho_RxQueue.failed_attempts = 1 ∧
    (Tacho_Task a).Tacho_RxQueue.error_counter = 0 ∧
    (Tacho_Task a).Tacho_RxQueue.count = 0 ∧
    QueueInv (Tacho_Task a).Tacho_RxQueue := by
  rw [Tacho_Task_attempt a hec (by rw [hfa]; decide)]
  have hinv' : QueueInv ({ a with Tacho_RxQueue := { a.Tacho_RxQueue with
      failed_attempts := (a.Tacho_RxQueue.failed_attempts + 1) % 256 } } :
      Tacho_State).Tacho_RxQueue := hinv
  rw [Tacho_Task_drain_eq _ hinv']
  refine ⟨?_, ?_, ?_, rfl, rfl, ?_⟩
  · show selection (List.foldl Tacho_Task_body _ _) = _
    rw [foldl_body_selection]
    rfl
  · show storageWrites (List.foldl Tacho_Task_body _ _).trace = _
    rw [foldl_body_storageWrites]
  · show (a.Tacho_RxQueue.failed_attempts + 1) % 256 = 1
    rw [hfa]
  · exact queueInv_drainQ _ hinv

theorem arriveQ_faults (n : Nat) :
    ∀ q : Tacho_RxQueue_t, q.error_counter < 65536 →
      arriveQ q (List.replicate n IsrEvent.fault)
        = { q with error_counter := (q.error_counter + n) % 65536 } := by
  induction n with
  | zero =>
    intro q h
    simp [arriveQ, Nat.mod_eq_of_lt h]
  | succ n ih =>
    intro q _
    have h1 : arriveQ q (List.replicate (n + 1) IsrEvent.fault)
        = arriveQ (deliverQ q IsrEvent.fault) (List.replicate n IsrEvent.fault) := rfl
    rw [h1, ih _ (Nat.mod_lt _ (by decide))]
    simp only [deliverQ]
    congr 1
    omega

theorem fallback_first (s : Tacho_State) (std : Tacho_Standard_t) (um : Bool)
    (ev1 : List IsrEvent)
    (hstd : std = Tacho_Standard_t.TACHO_STANDARD_VDO
      ∨ std = Tacho_Standard_t.TACHO_STANDARD_STONERIDGE)
    (hlen : s.Tacho_RxQueue.data.length = TACHO_RX_QUEUE_SIZE)
    (h1 : 5 ≤ faultCount ev1 % 65536) :
    selection (fallbackT1 s std um ev1) = selection (Tacho_SelectStandard s std um) ∧
    (fallbackT1 s std um ev1).Tacho_SelectedStandard = std ∧
    storageWrites (fallbackT1 s std um ev1).trace
      = storageWrites (Tacho_SelectStandard s std um).trace ∧
    (fallbackT1 s std um ev1).Tacho_RxQueue.failed_attempts = 1 ∧
    (fallbackT1 s std um ev1).Tacho_RxQueue.error_counter = 0 ∧
    (fallbackT1 s std um ev1).Tacho_RxQueue.count = 0 ∧
    QueueInv (fallbackT1 s std um ev1).Tacho_RxQueue := by
  have hq0 : (Tacho_SelectStandard s std um).Tacho_RxQueue = Tacho_ClearRxQueue s.Tacho_RxQueue := by
    rcases hstd with h | h <;> subst h
    · rw [Tacho_SelectStandard_vdo]
    · rw [Tacho_SelectStandard_stoneridge]
  have hsel0 : (Tacho_SelectStandard s std um).Tacho_SelectedStandard = std := by
    rcases hstd with h | h <;> subst h
    · rw [Tacho_SelectStandard_vdo]
    · rw [Tacho_SelectStandard_stoneridge]
  have hinv0 : QueueInv (Tacho_SelectStandard s std um).Tacho_RxQueue := by
    rw [hq0]; exact queueInv_clear _ hlen
  have hec0 : (Tacho_SelectStandard s std um).Tacho_RxQueue.error_counter = 0 := by rw [hq0]; rfl
  obtain ⟨a1, a2, a3⟩ := arriveQ_fields ev1 _ hinv0 (by rw [hec0]; decide)
  have harr := arrive_eq ev1 (Tacho_SelectStandard s std um)
  have hfa0 : (Tacho_SelectStandard s std um).Tacho_RxQueue.failed_attempts = 0 := by rw [hq0]; rfl
  rw [hec0, Nat.zero_add] at a3
  rw [hfa0] at a2
  obtain ⟨t1, t2, t3, t4, t5, t6⟩ := task_first_attempt
    (arrive (Tacho_SelectStandard s std um) ev1)
    (by rw [harr]; exact a1) (by rw [harr]; show 5 ≤ (arriveQ _ _).error_counter; rw [a3]; exact h1)
    (by rw [harr]; exact a2)
  have hselA : selection (arrive (Tacho_SelectStandard s std um) ev1)
      = selection (Tacho_SelectStandard s std um) := by rw [harr]; rfl
  have htrA : (arrive (Tacho_SelectStandard s std um) ev1).trace
      = (Tacho_SelectStandard s std um).trace := by rw [harr]; rfl
  unfold fallbackT1
  refine ⟨t1.trans hselA, ?_, by rw [t2, htrA], t3, t4, t5, t6⟩
  have := t1.trans hselA
  simp only [selection, Prod.mk.injEq] at this
  rw [this.1, hsel0]

theorem fallback_second (s : Tacho_State) (std : Tacho_Standard_t) (um : Bool)
    (ev1 ev2 : List IsrEvent)
    (hstd : std = Tacho_Standard_t.TACHO_STANDARD_VDO
      ∨ std = Tacho_Standard_t.TACHO_STANDARD_STONERIDGE)
    (hlen : s.Tacho_RxQueue.data.length = TACHO_RX_QUEUE_SIZE)
    (h1 : 5 ≤ faultCount ev1 % 65536) (h2 : 5 ≤ faultCount ev2 % 65536) :
    fallbackT2 s std um ev1 ev2
      = Tacho_SelectStandard
          { fallbackA2 s std um ev1 ev2 with Tacho_RxQueue :=
              { (fallbackA2 s std um ev1 ev2).Tacho_RxQueue with failed_attempts := 2 } }
          (otherStandard std) true := by
  obtain ⟨_, f2, _, f4, f5, _, f7⟩ := fallback_first s std um ev1 hstd hlen h1
  obtain ⟨a1, a2, a3⟩ := arriveQ_fields ev2 _ f7 (by rw [f5]; decide)
  rw [f5, Nat.zero_add] at a3
  rw [f4] at a2
  have harr := arrive_eq ev2 (fallbackT1 s std um ev1)
  have hsw := Tacho_Task_switch (fallbackA2 s std um ev1 ev2)
    (by unfold fallbackA2; rw [harr]; show 5 ≤ (arriveQ _ _).error_counter; rw [a3]; exact h2)
    (by unfold fallbackA2; rw [harr]
        show 2 ≤ ((arriveQ _ _).failed_attempts + 1) % 256
        rw [a2])
  have hfa : ((fallbackA2 s std um ev1 ev2).Tacho_RxQueue.failed_attempts + 1) % 256 = 2 := by
    unfold fallbackA2; rw [harr]
    show ((arriveQ _ _).failed_attempts + 1) % 256 = 2
    rw [a2]
  have hsel : (fallbackA2 s std um ev1 ev2).Tacho_SelectedStandard = std := by
    unfold fallbackA2; rw [harr]; exact f2
  unfold fallbackT2
  rw [hsw, hfa]
  exact congrArg (fun x => Tacho_SelectStandard _ (otherStandard x) true) hsel

/-- C14 (amended): protocol fallback. A protocol `std` (VDO or Stoneridge) is
freshly selected, so the failed-attempts counter is 0. Bytes and framing faults
`ev1` arrive, `Tacho_Task` runs, bytes and faults `ev2` arrive, `Tacho_Task`
runs again. If the number of faults in `ev1` and in `ev2`, each taken modulo
65536 (the fault counter is 16 bits wide), is at least 5, then the first call
does not switch: the selection (protocol, configuration, state machine) and the
storage writes are as after the selection, failed attempts is 1, the fault
counter is 0 and the queue is empty. The second call switches to the other
protocol, requests one storage write of that protocol, leaves the queue empty
with both counters 0, and feeds no byte to the detector or a state machine:
sync flag, match-index, frame record, cache and the run-state of the protocol
switched away from are as the first call left them. The result of the storage
write is not looked at. -/
theorem C14_protocol_fallback_amended (s : Tacho_State) (std : Tacho_Standard_t) (um : Bool)
    (ev1 ev2 : List IsrEvent)
    (hstd : std = Tacho_Standard_t.TACHO_STANDARD_VDO
      ∨ std = Tacho_Standard_t.TACHO_STANDARD_STONERIDGE)
    (hlen : s.Tacho_RxQueue.data.length = TACHO_RX_QUEUE_SIZE)
    (h1 : 5 ≤ faultCount ev1 % 65536) (h2 : 5 ≤ faultCount ev2 % 65536) :
    (Tacho_SelectStandard s std um).Tacho_SelectedStandard = std ∧
    (Tacho_SelectStandard s std um).Tacho_RxQueue.failed_attempts = 0 ∧
    ((fallbackT1 s std um ev1).Tacho_SelectedStandard = std ∧
     selection (fallbackT1 s std um ev1) = selection (Tacho_SelectStandard s std um) ∧
     storageWrites (fallbackT1 s std um ev1).trace
       = storageWrites (Tacho_SelectStandard s std um).trace ∧
     (fallbackT1 s std um ev1).Tacho_RxQueue.failed_attempts = 1 ∧
     (fallbackT1 s std um ev1).Tacho_RxQueue.error_counter = 0 ∧
     (fallbackT1 s std um ev1).Tacho_RxQueue.count = 0) ∧
    ((fallbackT2 s std um ev1 ev2).Tacho_SelectedStandard = otherStandard std ∧
     storageWrites (fallbackT2 s std um ev1 ev2).trace
       = storageWrites (fallbackT1 s std um ev1).trace ++ [(otherStandard std).toNat] ∧
     (fallbackT2 s std um ev1 ev2).Tacho_RxQueue.count = 0 ∧
     (fallbackT2 s std um ev1 ev2).Tacho_RxQueue.error_counter = 0 ∧
     (fallbackT2 s std um ev1 ev2).Tacho_RxQueue.failed_attempts = 0 ∧
     (fallbackT2 s std um ev1 ev2).perform_sync = (fallbackT1 s std um ev1).perform_sync ∧
     (fallbackT2 s std um ev1 ev2).index = (fallbackT1 s std um ev1).index ∧
     (fallbackT2 s std um ev1 ev2).Tacho_Frame = (fallbackT1 s std um ev1).Tacho_Frame ∧
     (fallbackT2 s std um ev1 ev2).Tacho_CachedData
       = (fallbackT1 s std um ev1).Tacho_CachedData ∧
     (std = Tacho_Standard_t.TACHO_STANDARD_VDO →
       (fallbackT2 s std um ev1 ev2).vdo = (fallbackT1 s std um ev1).vdo) ∧
     (std = Tacho_Standard_t.TACHO_STANDARD_STONERIDGE →
       (fallbackT2 s std um ev1 ev2).sr = (fallbackT1 s std um ev1).sr)) := by
  obtain ⟨f1, f2, f3, f4, f5, f6, _⟩ := fallback_first s std um ev1 hstd hlen h1
  have hT2 := fallback_second s std um ev1 ev2 hstd hlen h1 h2
  have hA2 : fallbackA2 s std um ev1 ev2
      = setQ (fallbackT1 s std um ev1) (arriveQ (fallbackT1 s std um ev1).Tacho_RxQueue ev2) :=
    arrive_eq ev2 _
  have hsel0 : (Tacho_SelectStandard s std um).Tacho_SelectedStandard = std := by
    rcases hstd with h | h <;> subst h
    · rw [Tacho_SelectStandard_vdo]
    · rw [Tacho_SelectStandard_stoneridge]
  have hfa0 : (Tacho_SelectStandard s std um).Tacho_RxQueue.failed_attempts = 0 := by
    rcases hstd with h | h <;> subst h
    · rw [Tacho_SelectStandard_vdo]; rfl
    · rw [Tacho_SelectStandard_stoneridge]; rfl
  refine ⟨hsel0, hfa0, ⟨f2, f1, f3, f4, f5, f6⟩, ?_⟩
  rw [hT2, hA2]
  rcases hstd with h | h <;> subst h
  · have ho : otherStandard Tacho_Standard_t.TACHO_STANDARD_VDO
        = Tacho_Standard_t.TACHO_STANDARD_STONERIDGE := by decide
    rw [ho, Tacho_SelectStandard_stoneridge]
    refine ⟨rfl, ?_, rfl, rfl, rfl, rfl, rfl, rfl, rfl, fun _ => rfl, fun h => by cases h⟩
    simp [storageWrites, setQ, Tacho_Standard_t.toNat]
  · have ho : otherStandard Tacho_Standard_t.TACHO_STANDARD_STONERIDGE
        = Tacho_Standard_t.TACHO_STANDARD_VDO := by decide
    rw [ho, Tacho_SelectStandard_vdo]
    refine ⟨rfl, ?_, rfl, rfl, rfl, rfl, rfl, rfl, rfl, (fun h => by cases h), fun _ => rfl⟩
    simp [storageWrites, setQ, Tacho_Standard_t.toNat]

/-- C14 witness: 5 faults, then a byte and 6 faults, from VDO. -/
theorem C14_protocol_fallback_amended_witness :
    5 ≤ faultCount (List.replicate 5 IsrEvent.fault) % 65536 ∧
    5 ≤ faultCount (IsrEvent.rx 0x55 :: List.replicate 6 IsrEvent.fault) % 65536 ∧
    (fallbackT2 exampleState Tacho_Standard_t.TACHO_STANDARD_VDO false
      (List.replicate 5 IsrEvent.fault)
      (IsrEvent.rx 0x55 :: List.replicate 6 IsrEvent.fault)).Tacho_SelectedStandard
      = otherStandard Tacho_Standard_t.TACHO_STANDARD_VDO :=
  ⟨by decide, by decide,
   (C14_protocol_fallback_amended exampleState Tacho_Standard_t.TACHO_STANDARD_VDO false
      (List.replicate 5 IsrEvent.fault) (IsrEvent.rx 0x55 :: List.replicate 6 IsrEvent.fault)
      (Or.inl rfl) (by decide) (by decide) (by decide)).2.2.2.1⟩

/-- C14 counterexample: 65536 framing-fault notifications (at least 5) arrive
before the first task call after a fresh selection of VDO; the 16-bit fault
counter has wrapped to 0, so the first call counts no failed attempt, and after
5 more faults the second call does not switch: the protocol is still VDO. -/
theorem C14_protocol_fallback_counterexample :
    5 ≤ faultCount (List.replicate 65536 IsrEvent.fault) ∧
    5 ≤ faultCount (List.replicate 5 IsrEvent.fault) ∧
    (Tacho_SelectStandard exampleState Tacho_Standard_t.TACHO_STANDARD_VDO
      false).Tacho_RxQueue.failed_attempts = 0 ∧
    (fallbackT1 exampleState Tacho_Standard_t.TACHO_STANDARD_VDO false
      (List.replicate 65536 IsrEvent.fault)).Tacho_RxQueue.failed_attempts = 0 ∧
    (fallbackT2 exampleState Tacho_Standard_t.TACHO_STANDARD_VDO false
      (List.replicate 65536 IsrEvent.fault)
      (List.replicate 5 IsrEvent.fault)).Tacho_SelectedStandard
      = Tacho_Standard_t.TACHO_STANDARD_VDO := by
  have hA : arrive (Tacho_SelectStandard exampleState Tacho_Standard_t.TACHO_STANDARD_VDO false)
      (List.replicate 65536 IsrEvent.fault)
      = Tacho_SelectStandard exampleState Tacho_Standard_t.TACHO_STANDARD_VDO false := by
    rw [arrive_eq, arriveQ_faults 65536 _ (by decide)]
    rfl
  have hc : faultCount (List.replicate 65536 IsrEvent.fault) = 65536 := by
    unfold faultCount
    exact List.count_replicate_self _ _
  refine ⟨by rw [hc]; decide, by decide, by decide, ?_, ?_⟩
  · unfold fallbackT1
    rw [hA]
    decide
  · unfold fallbackT2 fallbackA2 fallbackT1
    rw [hA]
    decide

/-- C15 (amended): a protocol switch performed by `Tacho_Task` puts the run-state
of the newly selected protocol in its initial state (VDO: index 5, accumulator
0x49, all offsets 0xFF; Stoneridge: index 3, accumulator 0, all offsets 0xFF)
and leaves the run-state of the protocol switched away from as it was. -/
theorem C15_switch_run_state_amended (s : Tacho_State)
    (hec : 5 ≤ s.Tacho_RxQueue.error_counter)
    (hfa : 2 ≤ (s.Tacho_RxQueue.failed_attempts + 1) % 256) :
    (s.Tacho_SelectedStandard = Tacho_Standard_t.TACHO_STANDARD_VDO →
      (Tacho_Task s).Tacho_SelectedStandard = Tacho_Standard_t.TACHO_STANDARD_STONERIDGE ∧
      (Tacho_Task s).sr = { index := 3, crc8_value := 0, drv1_pos := 0xFF, drv2_pos := 0xFF,
                            crc8_pos := 0xFF } ∧
      (Tacho_Task s).vdo = s.vdo) ∧
    (s.Tacho_SelectedStandard ≠ Tacho_Standard_t.TACHO_STANDARD_VDO →
      (Tacho_Task s).Tacho_SelectedStandard = Tacho_Standard_t.TACHO_STANDARD_VDO ∧
      (Tacho_Task s).vdo = { index := 5, crc8_value := 0x49, cstr_pos := 0xFF, drv1_pos := 0xFF,
                             drv2_pos := 0xFF, crc8_pos := 0xFF } ∧
      (Tacho_Task s).sr = s.sr) := by
  rw [Tacho_Task_switch s hec hfa]
  constructor
  · intro h
    rw [h]
    have ho : otherStandard Tacho_Standard_t.TACHO_STANDARD_VDO
        = Tacho_Standard_t.TACHO_STANDARD_STONERIDGE := by decide
    rw [ho, Tacho_SelectStandard_stoneridge]
    exact ⟨rfl, rfl, rfl⟩
  · intro h
    have ho : otherStandard s.Tacho_SelectedStandard = Tacho_Standard_t.TACHO_STANDARD_VDO := by
      unfold otherStandard
      rw [if_neg h]
    rw [ho, Tacho_SelectStandard_vdo]
    exact ⟨rfl, rfl, rfl⟩

/-- C15 witness: the switch in the middle of a VDO frame. -/
theorem C15_switch_run_state_amended_witness :
    5 ≤ exampleMidFrame.Tacho_RxQueue.error_counter ∧
    2 ≤ (exampleMidFrame.Tacho_RxQueue.failed_attempts + 1) % 256 ∧
    exampleMidFrame.Tacho_SelectedStandard = Tacho_Standard_t.TACHO_STANDARD_VDO ∧
    (Tacho_Task exampleMidFrame).Tacho_SelectedStandard
      = Tacho_Standard_t.TACHO_STANDARD_STONERIDGE ∧
    (Tacho_Task exampleMidFrame).sr = srInitial ∧
    (Tacho_Task exampleMidFrame).vdo = exampleMidFrame.vdo :=
  ⟨by decide, by decide, by decide,
   (C15_switch_run_state_amended exampleMidFrame (by decide) (by decide)).1 (by decide)⟩

/-- C15 counterexample: in a reachable run, `Tacho_Task` switches from VDO to
Stoneridge while the VDO state machine is at frame offset 20; right after the
switch the VDO run-state still has index 20 and a non-initial accumulator. -/
theorem C15_switch_run_state_counterexample :
    exampleMidFrame.Tacho_SelectedStandard = Tacho_Standard_t.TACHO_STANDARD_VDO ∧
    exampleMidFrameSwitch = Tacho_Task exampleMidFrame ∧
    exampleMidFrameSwitch.Tacho_SelectedStandard = Tacho_Standard_t.TACHO_STANDARD_STONERIDGE ∧
    exampleMidFrameSwitch.vdo.index = 20 ∧
    exampleMidFrameSwitch.vdo ≠ vdoInitial := by
  refine ⟨by decide, rfl, by decide, by decide, by decide⟩

theorem sync_progress (s : Tacho_State) (proto : Tacho_Protocol_t)
    (hP : s.Tacho_Proto = some proto) (hs : s.perform_sync = true) (hi : s.index = 0)
    (hsz : proto.start_sz = proto.start_seq.length) (h256 : proto.start_sz < 256) :
    ∀ k, k < proto.start_sz →
      (proto.start_seq.take k).foldl Tacho_Task_body s = { s with index := k } ∧
      (proto.start_seq.take (k + 1)).foldl Tacho_Task_body s
        = if k + 1 = proto.start_sz then { s with index := k + 1, perform_sync := false }
          else { s with index := k + 1 } := by
  intro k
  induction k with
  | zero =>
    intro hk
    have h0 : proto.start_seq.take 0 = [] := rfl
    have hg : proto.start_seq[0]? = some (proto.start_seq.getD 0 0) := by
      rw [List.getD_eq_getElem?_getD, List.getElem?_eq_getElem (by omega)]; rfl
    have h1 : proto.start_seq.take 1 = [proto.start_seq.getD 0 0] := by
      have := take_succ_getD proto.start_seq 0 (by omega)
      simpa using this
    refine ⟨by rw [h0, ← hi]; rfl, ?_⟩
    rw [h1]
    simp only [List.foldl_cons, List.foldl_nil]
    rw [Tacho_Task_body_sync s _ hs, hP]
    simp only [hi, hg, if_true]
    by_cases h : 0 + 1 = proto.start_sz
    · rw [if_pos h, if_pos (by omega)]
    · rw [if_neg h, if_neg (by omega)]
  | succ k ih =>
    intro hk
    obtain ⟨_, ih2⟩ := ih (by omega)
    rw [if_neg (by omega)] at ih2
    refine ⟨ih2, ?_⟩
    have hg : proto.start_seq[k + 1]? = some (proto.start_seq.getD (k + 1) 0) := by
      rw [List.getD_eq_getElem?_getD, List.getElem?_eq_getElem (by omega)]; rfl
    rw [take_succ_getD proto.start_seq (k + 1) (by omega), List.foldl_append, ih2]
    simp only [List.foldl_cons, List.foldl_nil]
    rw [Tacho_Task_body_sync { s with index := k + 1 } _ hs]
    simp only [hP, hg, if_true]
    by_cases h : k + 1 + 1 = proto.start_sz
    · rw [if_pos h, if_pos (by omega)]
      have : (k + 1 + 1) % 256 = k + 1 + 1 := by omega
      rw [this]
    · rw [if_neg h, if_neg (by omega)]
      have : (k + 1 + 1) % 256 = k + 1 + 1 := by omega
      rw [this]

theorem Tacho_Task_run (s : Tacho_State) (hinv : QueueInv s.Tacho_RxQueue)
    (hec : s.Tacho_RxQueue.error_counter < 5) :
    Tacho_Task s
      = setQ ((queueContents s.Tacho_RxQueue).foldl Tacho_Task_body s)
          (drainQ { s.Tacho_RxQueue with error_counter := 0 }) := by
  rw [Tacho_Task_below s hec, Tacho_Task_drain_eq s hinv]

theorem sync_full (s : Tacho_State) (proto : Tacho_Protocol_t)
    (hP : s.Tacho_Proto = some proto) (hs : s.perform_sync = true) (hi : s.index = 0)
    (hsz : proto.start_sz = proto.start_seq.length) (h256 : proto.start_sz < 256)
    (hpos : 0 < proto.start_sz) :
    proto.start_seq.foldl Tacho_Task_body s
      = { s with index := proto.start_seq.length, perform_sync := false } := by
  have h := (sync_progress s proto hP hs hi hsz h256 (proto.start_sz - 1) (by omega)).2
  have h1 : proto.start_sz - 1 + 1 = proto.start_seq.length := by omega
  rw [h1, List.take_of_length_le (Nat.le_refl _), if_pos hsz.symm] at h
  exact h

theorem unsynced_proto (s : Tacho_State) (std : Tacho_Standard_t)
    (hstd : std = Tacho_Standard_t.TACHO_STANDARD_VDO
      ∨ std = Tacho_Standard_t.TACHO_STANDARD_STONERIDGE)
    (hu : Unsynced s std) :
    ∃ proto, s.Tacho_Proto = some proto ∧ proto.start_seq = startSeq std ∧
      proto.start_sz = proto.start_seq.length ∧ proto.start_sz < 256 ∧ 0 < proto.start_sz := by
  obtain ⟨hP, _⟩ := hu
  rcases hstd with h | h <;> subst h
  · exact ⟨_, hP, rfl, rfl, by decide, by decide⟩
  · exact ⟨_, hP, rfl, rfl, by decide, by decide⟩

/-- C18: sync acquisition and hand-over. For either protocol, from a state whose
detector is unsynchronised with match-index 0, feeding the protocol's start
sequence (55 44 54 43 4F for VDO, FF FF FF for Stoneridge) to the loop body of
`Tacho_Task` leaves, after every proper prefix, the detector unsynchronised and
everything but the match-index unchanged, so no byte reached the state machine;
after the last byte the detector is synchronised; the next byte is handed to the
active state machine, which interprets it at frame offset 5 (VDO) or 3
(Stoneridge), the length of the start sequence; and whenever the state machine
reports frame-complete the detector is unsynchronised with match-index 0. The
same holds for `Tacho_Task` itself when the queue holds the start sequence. -/
theorem C18_sync_acquisition_handover (s : Tacho_State) (std : Tacho_Standard_t) (b : Nat)
    (hstd : std = Tacho_Standard_t.TACHO_STANDARD_VDO
      ∨ std = Tacho_Standard_t.TACHO_STANDARD_STONERIDGE)
    (hu : Unsynced s std) :
    startSeq std = (if std = Tacho_Standard_t.TACHO_STANDARD_VDO
      then [0x55, 0x44, 0x54, 0x43, 0x4F] else [0xFF, 0xFF, 0xFF]) ∧
    (∀ k, k < (startSeq std).length →
      ((startSeq std).take k).foldl Tacho_Task_body s = { s with index := k } ∧
      (((startSeq std).take k).foldl Tacho_Task_body s).perform_sync = true) ∧
    (startSeq std).foldl Tacho_Task_body s
      = { s with index := (startSeq std).length, perform_sync := false } ∧
    frameOffset ((startSeq std).foldl Tacho_Task_body s) = (startSeq std).length ∧
    Tacho_Task_body ((startSeq std).foldl Tacho_Task_body s) b
      = (if (Tacho_Handler_call (handlerOf std)
              { s with index := (startSeq std).length, perform_sync := false } b).2
         then { (Tacho_Handler_call (handlerOf std)
                  { s with index := (startSeq std).length, perform_sync := false } b).1
                with perform_sync := true, index := 0 }
         else (Tacho_Handler_call (handlerOf std)
                  { s with index := (startSeq std).length, perform_sync := false } b).1) ∧
    (∀ (t : Tacho_State) (h : Tacho_Handler_t) (c : Nat), t.perform_sync = false →
      t.Tacho_Handler = some h → (Tacho_Handler_call h t c).2 = true →
      (Tacho_Task_body t c).perform_sync = true ∧ (Tacho_Task_body t c).index = 0) ∧
    (QueueInv s.Tacho_RxQueue → s.Tacho_RxQueue.error_counter < 5 →
      queueContents s.Tacho_RxQueue = startSeq std →
      Tacho_Task s = setQ { s with index := (startSeq std).length, perform_sync := false }
        (drainQ { s.Tacho_RxQueue with error_counter := 0 })) := by
  obtain ⟨proto, hP, hseq, hsz, h256, hpos⟩ := unsynced_proto s std hstd hu
  obtain ⟨_, hH, hs, hi, hv, hr⟩ := hu
  have hfull := sync_full s proto hP hs hi hsz h256 hpos
  rw [hseq] at hfull
  refine ⟨?_, ?_, hfull, ?_, ?_, ?_, ?_⟩
  · rcases hstd with h | h <;> subst h <;> rfl
  · intro k hk
    have h := (sync_progress s proto hP hs hi hsz h256 k (by rw [hsz, hseq]; exact hk)).1
    rw [hseq] at h
    rw [h]
    exact ⟨rfl, hs⟩
  · rw [hfull]
    rcases hstd with h | h <;> subst h
    · simp only [frameOffset, hH, handlerOf]
      rw [hv rfl]; rfl
    · simp only [frameOffset, hH, handlerOf]
      rw [hr rfl]; rfl
  · rw [hfull, Tacho_Task_body_handler _ _ rfl]
    simp only [hH]
  · intro t h c ht hh hc
    rw [Tacho_Task_body_handler t c ht]
    simp only [hh]
    rw [if_pos hc]
    exact ⟨rfl, rfl⟩
  · intro hinv hec hq
    rw [Tacho_Task_run s hinv hec, hq, hfull]

/-- C18 witness: VDO, from the example state. -/
theorem C18_sync_acquisition_handover_witness :
    Unsynced exampleState Tacho_Standard_t.TACHO_STANDARD_VDO ∧
    (startSeq Tacho_Standard_t.TACHO_STANDARD_VDO).foldl Tacho_Task_body exampleState
      = { exampleState with index := 5, perform_sync := false } :=
  ⟨⟨rfl, rfl, rfl, rfl, fun _ => rfl, fun h => by cases h⟩,
   (C18_sync_acquisition_handover exampleState Tacho_Standard_t.TACHO_STANDARD_VDO 0
      (Or.inl rfl) ⟨rfl, rfl, rfl, rfl, fun _ => rfl, fun h => by cases h⟩).2.2.1⟩

/-- C19: evaluation at the failing input. Under VDO, from the unsynchronised
state with match-index 0, the stream 55 55 44 54 43 4F contains the complete
start sequence contiguously (after its first byte), yet after its last byte the
detector is still unsynchronised with match-index 0, both for the loop body of
`Tacho_Task` applied to the six bytes and for `Tacho_Task` run on a queue
holding them: the second 55 mismatches position 1, resets the match-index and is
consumed without being compared with position 0. -/
theorem C19_start_sequence_missed_after_mismatch :
    Unsynced exampleState Tacho_Standard_t.TACHO_STANDARD_VDO ∧
    [0x55, 0x55, 0x44, 0x54, 0x43, 0x4F] = [0x55] ++ startSeq Tacho_Standard_t.TACHO_STANDARD_VDO ∧
    ([0x55, 0x55, 0x44, 0x54, 0x43, 0x4F].foldl Tacho_Task_body exampleState).perform_sync = true ∧
    ([0x55, 0x55, 0x44, 0x54, 0x43, 0x4F].foldl Tacho_Task_body exampleState).index = 0 ∧
    [0x55, 0x55, 0x44, 0x54, 0x43, 0x4F].foldl Tacho_Task_body exampleState = exampleState ∧
    (Tacho_Task (arrive exampleState
      ([0x55, 0x55, 0x44, 0x54, 0x43, 0x4F].map IsrEvent.rx))).perform_sync = true ∧
    (Tacho_Task (arrive exampleState
      ([0x55, 0x55, 0x44, 0x54, 0x43, 0x4F].map IsrEvent.rx))).index = 0 := by
  refine ⟨⟨rfl, rfl, rfl, rfl, fun _ => rfl, fun h => by cases h⟩, by decide, by decide,
    by decide, by decide, by decide, by decide⟩

/-- C20: startup protocol selection. When the storage read succeeds with byte 0
(VDO) or 1 (Stoneridge), `Tacho_Init` selects that protocol and issues no storage
write; when the read fails or the byte is 2 or greater it selects VDO and
requests a write of VDO (0). In every case the queue is empty with both counters
zero and the selected protocol's run-state is initial. -/
theorem C20_startup_protocol_selection (s : Tacho_State) (d : Nat) (fram : Option Nat) :
    ((Tacho_Init s (some 0)).Tacho_SelectedStandard = Tacho_Standard_t.TACHO_STANDARD_VDO ∧
     (Tacho_Init s (some 0)).Tacho_Proto = Tacho_Protocol[0]? ∧
     (Tacho_Init s (some 0)).Tacho_Handler = some Tacho_Handler_t.Tacho_VdoHandler ∧
     (Tacho_Init s (some 0)).vdo = vdoInitial ∧
     (Tacho_Init s (some 0)).trace
       = s.trace ++ [Tacho_Event.USART2_init, Tacho_Event.USART2_set_baudrate 10400] ∧
     storageWrites (Tacho_Init s (some 0)).trace = storageWrites s.trace) ∧
    ((Tacho_Init s (some 1)).Tacho_SelectedStandard
       = Tacho_Standard_t.TACHO_STANDARD_STONERIDGE ∧
     (Tacho_Init s (some 1)).Tacho_Proto = Tacho_Protocol[1]? ∧
     (Tacho_Init s (some 1)).Tacho_Handler = some Tacho_Handler_t.Tacho_StoneridgeHandler ∧
     (Tacho_Init s (some 1)).sr = srInitial ∧
     (Tacho_Init s (some 1)).trace
       = s.trace ++ [Tacho_Event.USART2_init, Tacho_Event.USART2_set_baudrate 1200] ∧
     storageWrites (Tacho_Init s (some 1)).trace = storageWrites s.trace) ∧
    (Tacho_Init s (some (d + 2)) = Tacho_Init s none ∧
     (Tacho_Init s none).Tacho_SelectedStandard = Tacho_Standard_t.TACHO_STANDARD_VDO ∧
     (Tacho_Init s none).Tacho_Proto = Tacho_Protocol[0]? ∧
     (Tacho_Init s none).Tacho_Handler = some Tacho_Handler_t.Tacho_VdoHandler ∧
     (Tacho_Init s none).vdo = vdoInitial ∧
     (Tacho_Init s none).trace
       = s.trace ++ [Tacho_Event.USART2_init, Tacho_Event.USART2_set_baudrate 10400,
                     Tacho_Event.FRAM_WriteByte_TACHO_PROTO 0] ∧
     storageWrites (Tacho_Init s none).trace = storageWrites s.trace ++ [0]) ∧
    ((Tacho_Init s fram).Tacho_RxQueue.count = 0 ∧
     (Tacho_Init s fram).Tacho_RxQueue.error_counter = 0 ∧
     (Tacho_Init s fram).Tacho_RxQueue.failed_attempts = 0 ∧
     queueContents (Tacho_Init s fram).Tacho_RxQueue = []) := by
  have h0 : Tacho_Init s (some 0) = Tacho_SelectStandard
      { s with trace := s.trace ++ [Tacho_Event.USART2_init] }
      Tacho_Standard_t.TACHO_STANDARD_VDO false := rfl
  have h1 : Tacho_Init s (some 1) = Tacho_SelectStandard
      { s with trace := s.trace ++ [Tacho_Event.USART2_init] }
      Tacho_Standard_t.TACHO_STANDARD_STONERIDGE false := rfl
  have hn : Tacho_Init s none = Tacho_SelectStandard
      { s with trace := s.trace ++ [Tacho_Event.USART2_init] }
      Tacho_Standard_t.TACHO_STANDARD_VDO true := rfl
  have hd : Tacho_Init s (some (d + 2)) = Tacho_Init s none := by
    simp [Tacho_Init, Tacho_ReadMemory]
  refine ⟨?_, ?_, ?_, ?_⟩
  · rw [h0, Tacho_SelectStandard_vdo]
    refine ⟨rfl, rfl, rfl, rfl, by simp, by simp [storageWrites]⟩
  · rw [h1, Tacho_SelectStandard_stoneridge]
    refine ⟨rfl, rfl, rfl, rfl, by simp, by simp [storageWrites]⟩
  · rw [hd, hn, Tacho_SelectStandard_vdo]
    refine ⟨rfl, rfl, rfl, rfl, rfl, by simp, by simp [storageWrites]⟩
  · have hq : (Tacho_Init s fram).Tacho_RxQueue = Tacho_ClearRxQueue s.Tacho_RxQueue := by
      rcases fram with _ | x
      · rw [hn, Tacho_SelectStandard_vdo]
      · rcases x with _ | _ | x
        · rw [h0, Tacho_SelectStandard_vdo]
        · rw [h1, Tacho_SelectStandard_stoneridge]
        · rw [show Tacho_Init s (some (x + 1 + 1)) = Tacho_Init s none by
            simp [Tacho_Init, Tacho_ReadMemory]]
          rw [hn, Tacho_SelectStandard_vdo]
    rw [hq]
    exact ⟨rfl, rfl, rfl, rfl⟩

theorem getD_set_eq (l : List Nat) (i j a : Nat) :
    (l.set i a).getD j 0 = if i = j ∧ i < l.length then a else l.getD j 0 := by
  rw [List.getD_eq_getElem?_getD, List.getD_eq_getElem?_getD, List.getElem?_set]
  by_cases h : i = j
  · subst h
    by_cases h2 : i < l.length
    · simp [h2]
    · simp [h2, List.getElem?_eq_none (Nat.le_of_not_lt h2)]
  · simp [h]

theorem Tacho_StoneridgeHandler_switch_scalar (s : Tacho_State) (b : Nat)
    (h3 : s.sr.index ≠ 3) (h4 : s.sr.index ≠ 4) :
    Tacho_StoneridgeHandler_switch s b
      = ({ s with Tacho_Frame := srScalar s.Tacho_Frame s.sr.index b }, false) := by
  unfold Tacho_StoneridgeHandler_switch srScalar
  rw [if_neg h3, if_neg h4]
  repeat' split
  all_goals rfl

theorem srScalar_driver (f : Tacho_Frame_t) (i b : Nat) (idx : Tacho_DriverIdx_t) :
    (srScalar f i b).driver idx = f.driver idx := by
  unfold srScalar
  repeat' split
  all_goals cases idx <;> rfl

theorem driver_setDriver (f : Tacho_Frame_t) (idx : Tacho_DriverIdx_t) (d : Tacho_DriverID_t) :
    (f.setDriver idx d).driver idx = d ∧
    (f.setDriver idx d).driver (otherDriver idx) = f.driver (otherDriver idx) := by
  cases idx <;> exact ⟨rfl, rfl⟩

theorem Tacho_StoneridgeCopyDIN_scalars (s : Tacho_State) (pos b : Nat)
    (idx : Tacho_DriverIdx_t) :
    (Tacho_StoneridgeCopyDIN s pos b idx).Tacho_Frame.working_state
      = s.Tacho_Frame.working_state ∧
    (Tacho_StoneridgeCopyDIN s pos b idx).Tacho_Frame.driver1_state
      = s.Tacho_Frame.driver1_state ∧
    (Tacho_StoneridgeCopyDIN s pos b idx).Tacho_Frame.driver2_state
      = s.Tacho_Frame.driver2_state ∧
    (Tacho_StoneridgeCopyDIN s pos b idx).Tacho_Frame.tacho_status
      = s.Tacho_Frame.tacho_status ∧
    (Tacho_StoneridgeCopyDIN s pos b idx).Tacho_Frame.speed_msb = s.Tacho_Frame.speed_msb ∧
    (Tacho_StoneridgeCopyDIN s pos b idx).Tacho_Frame.speed_lsb = s.Tacho_Frame.speed_lsb := by
  unfold Tacho_StoneridgeCopyDIN
  repeat' split
  all_goals cases idx <;> exact ⟨rfl, rfl, rfl, rfl, rfl, rfl⟩

theorem Tacho_StoneridgeCheckDIN_scalars (s : Tacho_State) (b : Nat) :
    (Tacho_StoneridgeCheckDIN s b).Tacho_Frame.working_state = s.Tacho_Frame.working_state ∧
    (Tacho_StoneridgeCheckDIN s b).Tacho_Frame.driver1_state = s.Tacho_Frame.driver1_state ∧
    (Tacho_StoneridgeCheckDIN s b).Tacho_Frame.driver2_state = s.Tacho_Frame.driver2_state ∧
    (Tacho_StoneridgeCheckDIN s b).Tacho_Frame.tacho_status = s.Tacho_Frame.tacho_status ∧
    (Tacho_StoneridgeCheckDIN s b).Tacho_Frame.speed_msb = s.Tacho_Frame.speed_msb ∧
    (Tacho_StoneridgeCheckDIN s b).Tacho_Frame.speed_lsb = s.Tacho_Frame.speed_lsb := by
  unfold Tacho_StoneridgeCheckDIN
  repeat' split
  all_goals first
    | exact ⟨rfl, rfl, rfl, rfl, rfl, rfl⟩
    | exact Tacho_StoneridgeCopyDIN_scalars _ _ _ _

theorem Tacho_StoneridgeCheckDIN_copy (s : Tacho_State) (b : Nat) (idx : Tacho_DriverIdx_t)
    (hp : srPos s.sr idx = 30) (ho : srPos s.sr (otherDriver idx) = 0xFF)
    (h1 : 30 ≤ s.sr.index) (h2 : s.sr.index < s.sr.crc8_pos - 1) (h3 : s.sr.index < 255) :
    Tacho_StoneridgeCheckDIN s b = Tacho_StoneridgeCopyDIN s (s.sr.index - 30) b idx := by
  unfold Tacho_StoneridgeCheckDIN
  cases idx with
  | TACHO_DRIVER1 =>
    have hp' : s.sr.drv1_pos = 30 := hp
    rw [if_neg (by omega), if_pos (by omega), hp']
  | TACHO_DRIVER2 =>
    have hp' : s.sr.drv2_pos = 30 := hp
    have ho' : s.sr.drv1_pos = 0xFF := ho
    rw [if_neg (by omega), if_neg (by omega), if_pos (by omega), hp']

theorem Tacho_StoneridgeCopyDIN_view (s : Tacho_State) (pos b : Nat) (idx : Tacho_DriverIdx_t) :
    (Tacho_StoneridgeCopyDIN s pos b idx).Tacho_Frame.driver (otherDriver idx)
      = s.Tacho_Frame.driver (otherDriver idx) ∧
    (b = 0xFF ∧ pos = 0 →
      (Tacho_StoneridgeCopyDIN s pos b idx).Tacho_Frame.driver idx
        = { s.Tacho_Frame.driver idx with cardnr := (s.Tacho_Frame.driver idx).cardnr.set 0 0 } ∧
      (Tacho_StoneridgeCopyDIN s pos b idx).sr.drv1_pos = 0xFF ∧
      (Tacho_StoneridgeCopyDIN s pos b idx).sr.drv2_pos = 0xFF) ∧
    (¬ (b = 0xFF ∧ pos = 0) → pos < 3 →
      (Tacho_StoneridgeCopyDIN s pos b idx).Tacho_Frame.driver idx
        = { s.Tacho_Frame.driver idx with
              country := (s.Tacho_Frame.driver idx).country.set pos b } ∧
      (Tacho_StoneridgeCopyDIN s pos b idx).sr = s.sr) ∧
    (¬ (b = 0xFF ∧ pos = 0) → 3 ≤ pos →
      (Tacho_StoneridgeCopyDIN s pos b idx).Tacho_Frame.driver idx
        = { s.Tacho_Frame.driver idx with
              cardnr := (s.Tacho_Frame.driver idx).cardnr.set (pos - 3) b } ∧
      (Tacho_StoneridgeCopyDIN s pos b idx).sr = s.sr) := by
  unfold Tacho_StoneridgeCopyDIN
  simp only [TACHO_MAX_COUNTRY_CODE]
  by_cases h0 : b = 0xFF ∧ pos = 0
  · rw [if_pos h0]
    refine ⟨(driver_setDriver _ _ _).2, fun _ => ⟨(driver_setDriver _ _ _).1, rfl, rfl⟩,
      fun h => absurd h0 h, fun h => absurd h0 h⟩
  · rw [if_neg h0]
    by_cases h3 : pos < 3
    · rw [if_pos h3]
      refine ⟨(driver_setDriver _ _ _).2, fun h => absurd h h0,
        fun _ _ => ⟨(driver_setDriver _ _ _).1, rfl⟩, fun _ h => by omega⟩
    · rw [if_neg h3]
      refine ⟨(driver_setDriver _ _ _).2, fun h => absurd h h0,
        fun _ h => absurd h h3, fun _ _ => ⟨(driver_setDriver _ _ _).1, rfl⟩⟩

theorem Tacho_StoneridgeHandler_step (s : Tacho_State) (b : Nat)
    (h3 : s.sr.index ≠ 3) (h4 : s.sr.index ≠ 4) (hpos : s.sr.crc8_pos ≠ s.sr.index) :
    (Tacho_StoneridgeHandler s b).1.Tacho_Frame
      = (Tacho_StoneridgeCheckDIN
          { s with Tacho_Frame := srScalar s.Tacho_Frame s.sr.index b } b).Tacho_Frame ∧
    (Tacho_StoneridgeHandler s b).1.sr.drv1_pos
      = (Tacho_StoneridgeCheckDIN
          { s with Tacho_Frame := srScalar s.Tacho_Frame s.sr.index b } b).sr.drv1_pos ∧
    (Tacho_StoneridgeHandler s b).1.sr.drv2_pos
      = (Tacho_StoneridgeCheckDIN
          { s with Tacho_Frame := srScalar s.Tacho_Frame s.sr.index b } b).sr.drv2_pos := by
  have hf := Tacho_StoneridgeCheckDIN_fields
    { s with Tacho_Frame := srScalar s.Tacho_Frame s.sr.index b } b
  unfold Tacho_StoneridgeHandler
  rw [Tacho_StoneridgeHandler_switch_scalar s b h3 h4]
  simp only [Bool.false_eq_true, if_false]
  rw [if_neg (by rw [hf.1, hf.2.1]; exact hpos)]
  exact ⟨rfl, rfl, rfl⟩

theorem srScalars_step (frame : List Nat) (n : Nat) (s : Tacho_State)
    (hi : s.sr.index = n) (hf : SrScalars frame n s.Tacho_Frame) :
    SrScalars frame (n + 1) (Tacho_StoneridgeCheckDIN
      { s with Tacho_Frame := srScalar s.Tacho_Frame s.sr.index (srByte frame n) }
      (srByte frame n)).Tacho_Frame := by
  obtain ⟨h1, h2, h3, h4, h5, h6⟩ := hf
  obtain ⟨m1, m2, m3, m4, m5, m6⟩ := Tacho_StoneridgeCheckDIN_scalars
    { s with Tacho_Frame := srScalar s.Tacho_Frame s.sr.index (srByte frame n) } (srByte frame n)
  unfold SrScalars
  rw [m1, m2, m3, m4, m5, m6, hi]
  simp only [srScalar]
  refine ⟨?_, ?_, ?_, ?_, ?_, ?_⟩
  all_goals
    intro hlt
    split_ifs with c1 c2 c3 c4 c5 c6
    all_goals first
      | exact h1 (by omega) | exact h2 (by omega) | exact h3 (by omega)
      | exact h4 (by omega) | exact h5 (by omega) | exact h6 (by omega)
      | (show srByte frame n = _; congr 1)

theorem srDin_idle (frame : List Nat) (d0 d : Tacho_DriverID_t) (n pos : Nat)
    (hL : 45 ≤ srByte frame 3)
    (h : n < 30 ∨ (30 < n ∧ srByte frame 30 = 0xFF) ∨ n = srByte frame 3 + 1)
    (hinv : SrDin frame d0 n pos d) : SrDin frame d0 (n + 1) pos d := by
  obtain ⟨d1, d2, d3⟩ := hinv
  refine ⟨fun hn => d1 (by omega), ?_, ?_⟩
  · intro hn hff
    rcases h with h | h | h
    · omega
    · exact d2 h.1 hff
    · exact d2 (by omega) hff
  · intro hn hff
    rcases h with h | h | h
    · omega
    · exact absurd h.2 hff
    · obtain ⟨e1, e2, e3, e4, e5⟩ := d3 (by omega) hff
      refine ⟨e1, e2, e3, ?_, ?_⟩
      · intro j
        rw [e4 j]
        split_ifs <;> first | rfl | (exfalso; omega)
      · intro j
        rw [e5 j]
        split_ifs <;> first | rfl | (exfalso; omega)

theorem srDin_first (frame : List Nat) (d0 d : Tacho_DriverID_t) (pos : Nat)
    (hc : d0.country.length = 3)
    (hinv : SrDin frame d0 30 pos d) :
    (srByte frame 30 = 0xFF →
      SrDin frame d0 31 0xFF { d with cardnr := d.cardnr.set 0 0 }) ∧
    (srByte frame 30 ≠ 0xFF →
      SrDin frame d0 31 pos { d with country := d.country.set 0 (srByte frame 30) }) := by
  obtain ⟨d1, _, _⟩ := hinv
  obtain ⟨hp, hd⟩ := d1 (Nat.le_refl _)
  subst hd
  constructor
  · intro hff
    exact ⟨fun h => by omega, fun _ _ => ⟨rfl, rfl⟩, fun _ h => absurd hff h⟩
  · intro hff
    refine ⟨fun h => by omega, fun _ h => absurd h hff, fun _ _ => ⟨hp, ?_, rfl, ?_, ?_⟩⟩
    · simp
    · intro j
      show (d.country.set 0 (srByte frame 30)).getD j 0 = _
      rw [getD_set_eq]
      split_ifs with c1 c2 c2
      · obtain ⟨c1, _⟩ := c1
        subst c1
        rfl
      · exfalso; omega
      · exfalso; omega
      · rfl
    · intro j
      rw [if_neg (by omega)]

theorem srDin_next (frame : List Nat) (d0 d : Tacho_DriverID_t) (n pos : Nat)
    (hc : d0.country.length = 3) (hn : d0.cardnr.length = 16)
    (hL2 : srByte frame 3 ≤ 48)
    (h30 : 30 < n) (hle : n ≤ srByte frame 3) (hff : srByte frame 30 ≠ 0xFF)
    (hinv : SrDin frame d0 n pos d) :
    (n - 30 < 3 →
      SrDin frame d0 (n + 1) pos { d with country := d.country.set (n - 30) (srByte frame n) }) ∧
    (3 ≤ n - 30 →
      SrDin frame d0 (n + 1) pos
        { d with cardnr := d.cardnr.set (n - 30 - 3) (srByte frame n) }) := by
  obtain ⟨_, _, d3⟩ := hinv
  obtain ⟨e1, e2, e3, e4, e5⟩ := d3 h30 hff
  constructor
  · intro hlt
    refine ⟨fun h => by omega, fun _ h => absurd h hff, fun _ _ => ⟨e1, ?_, e3, ?_, ?_⟩⟩
    · simp [e2]
    · intro j
      show (d.country.set (n - 30) (srByte frame n)).getD j 0 = _
      rw [getD_set_eq, e4 j]
      split_ifs with c1 c2 c3 c4 c5
      all_goals first
        | rfl
        | (exfalso; omega)
        | (congr 1; omega)
    · intro j
      show d.cardnr.getD j 0 = _
      rw [e5 j]
      split_ifs <;> first | rfl | (exfalso; omega)
  · intro hge
    refine ⟨fun h => by omega, fun _ h => absurd h hff, fun _ _ => ⟨e1, e2, ?_, ?_, ?_⟩⟩
    · simp [e3]
    · intro j
      show d.country.getD j 0 = _
      rw [e4 j]
      split_ifs <;> first | rfl | (exfalso; omega)
    · intro j
      show (d.cardnr.set (n - 30 - 3) (srByte frame n)).getD j 0 = _
      rw [getD_set_eq, e5 j]
      split_ifs with c1 c2 c3 c4 c5
      all_goals first
        | rfl
        | (exfalso; omega)
        | (congr 1; omega)

theorem srDinCase_step (frame : List Nat) (f0 : Tacho_Frame_t) (n : Nat)
    (idx : Tacho_DriverIdx_t) (s : Tacho_State)
    (hL1 : 45 ≤ srByte frame 3) (hL2 : srByte frame 3 ≤ 48)
    (hc : (f0.driver idx).country.length = 3) (hn : (f0.driver idx).cardnr.length = 16)
    (hi : s.sr.index = n) (h5 : 5 ≤ n) (hle : n ≤ srByte frame 3 + 1)
    (hcrc : s.sr.crc8_pos = srByte frame 3 + 2)
    (hinv : SrDinCase frame f0 n idx s.sr s.Tacho_Frame) :
    SrDinCase frame f0 (n + 1) idx
      (Tacho_StoneridgeCheckDIN
        { s with Tacho_Frame := srScalar s.Tacho_Frame s.sr.index (srByte frame n) }
        (srByte frame n)).sr
      (Tacho_StoneridgeCheckDIN
        { s with Tacho_Frame := srScalar s.Tacho_Frame s.sr.index (srByte frame n) }
        (srByte frame n)).Tacho_Frame := by
  obtain ⟨hd, ho, hoth⟩ := hinv
  generalize hs' : ({ s with Tacho_Frame := srScalar s.Tacho_Frame s.sr.index (srByte frame n) }
    : Tacho_State) = s'
  have hsr : s'.sr = s.sr := by rw [← hs']
  have hdr : ∀ x, s'.Tacho_Frame.driver x = s.Tacho_Frame.driver x := by
    intro x; rw [← hs']; exact srScalar_driver _ _ _ _
  have hidle : Tacho_StoneridgeCheckDIN s' (srByte frame n) = s' →
      (n < 30 ∨ (30 < n ∧ srByte frame 30 = 0xFF) ∨ n = srByte frame 3 + 1) →
      SrDinCase frame f0 (n + 1) idx (Tacho_StoneridgeCheckDIN s' (srByte frame n)).sr
        (Tacho_StoneridgeCheckDIN s' (srByte frame n)).Tacho_Frame := by
    intro he hcase
    rw [he, hsr]
    refine ⟨?_, ho, ?_⟩
    · rw [hdr]; exact srDin_idle frame _ _ _ _ hL1 hcase hd
    · rw [hdr]; exact hoth
  have hpos12 : ∀ p, srPos s.sr idx = p → srPos s.sr (otherDriver idx) = 0xFF →
      (s'.sr.drv1_pos = p ∧ s'.sr.drv2_pos = 0xFF) ∨ (s'.sr.drv1_pos = 0xFF ∧ s'.sr.drv2_pos = p) := by
    intro p h1 h2
    rw [hsr]
    cases idx
    · exact Or.inl ⟨h1, h2⟩
    · exact Or.inr ⟨h2, h1⟩
  by_cases hlt : n < 30
  · -- before the field
    have hp := (hd.1 (by omega)).1
    apply hidle _ (Or.inl hlt)
    apply Tacho_StoneridgeCheckDIN_idle
    right
    rw [hsr, hi]
    rcases hpos12 30 hp ho with ⟨a, b⟩ | ⟨a, b⟩ <;> rw [hsr] at a b <;> rw [a, b] <;> omega
  by_cases hend : n = srByte frame 3 + 1
  · apply hidle _ (Or.inr (Or.inr hend))
    apply Tacho_StoneridgeCheckDIN_idle
    right
    rw [hsr, hi, hcrc]
    omega
  by_cases h30 : n = 30
  · -- first byte of the field
    subst h30
    have hp := (hd.1 (Nat.le_refl _)).1
    have hcopy := Tacho_StoneridgeCheckDIN_copy s' (srByte frame 30) idx
      (by rw [hsr]; exact hp) (by rw [hsr]; exact ho) (by rw [hsr, hi])
      (by rw [hsr, hi, hcrc]; omega) (by rw [hsr, hi]; omega)
    rw [hsr, hi] at hcopy
    obtain ⟨v1, v2, v3, _⟩ := Tacho_StoneridgeCopyDIN_view s' (30 - 30) (srByte frame 30) idx
    obtain ⟨f1, f2⟩ := srDin_first frame _ _ _ hc hd
    rw [hcopy]
    by_cases hff : srByte frame 30 = 0xFF
    · obtain ⟨w1, w2, w3⟩ := v2 ⟨hff, rfl⟩
      refine ⟨?_, ?_, ?_⟩
      · rw [w1, hdr]
        have : srPos (Tacho_StoneridgeCopyDIN s' (30 - 30) (srByte frame 30) idx).sr idx = 0xFF := by
          cases idx
          · exact w2
          · exact w3
        rw [this]
        exact f1 hff
      · cases idx
        · exact w3
        · exact w2
      · rw [v1, hdr]; exact hoth
    · obtain ⟨w1, w2⟩ := v3 (fun h => hff h.1) (by omega)
      refine ⟨?_, ?_, ?_⟩
      · rw [w1, w2, hdr, hsr]
        exact f2 hff
      · rw [w2, hsr]; exact ho
      · rw [v1, hdr]; exact hoth
  · -- inside the field
    have hgt : 30 < n := by omega
    by_cases hff : srByte frame 30 = 0xFF
    · have hp := (hd.2.1 hgt hff).1
      apply hidle _ (Or.inr (Or.inl ⟨hgt, hff⟩))
      apply Tacho_StoneridgeCheckDIN_idle
      left
      rcases hpos12 0xFF hp ho with ⟨a, b⟩ | ⟨a, b⟩ <;> exact ⟨a, b⟩
    · have hp := (hd.2.2 hgt hff).1
      have hcopy := Tacho_StoneridgeCheckDIN_copy s' (srByte frame n) idx
        (by rw [hsr]; exact hp) (by rw [hsr]; exact ho) (by rw [hsr, hi]; omega)
        (by rw [hsr, hi, hcrc]; omega) (by rw [hsr, hi]; omega)
      rw [hsr, hi] at hcopy
      obtain ⟨v1, _, v3, v4⟩ := Tacho_StoneridgeCopyDIN_view s' (n - 30) (srByte frame n) idx
      obtain ⟨f1, f2⟩ := srDin_next frame _ _ n _ hc hn hL2 hgt (by omega) hff hd
      rw [hcopy]
      by_cases h3 : n - 30 < 3
      · obtain ⟨w1, w2⟩ := v3 (fun h => by omega) h3
        refine ⟨?_, ?_, ?_⟩
        · rw [w1, w2, hdr, hsr]
          exact f1 h3
        · rw [w2, hsr]; exact ho
        · rw [v1, hdr]; exact hoth
      · obtain ⟨w1, w2⟩ := v4 (fun h => by omega) (by omega)
        refine ⟨?_, ?_, ?_⟩
        · rw [w1, w2, hdr, hsr]
          exact f2 (by omega)
        · rw [w2, hsr]; exact ho
        · rw [v1, hdr]; exact hoth

theorem srNoDin_step (f0 : Tacho_Frame_t) (s : Tacho_State) (b : Nat)
    (hinv : SrNoDin f0 s.sr s.Tacho_Frame) :
    SrNoDin f0
      (Tacho_StoneridgeCheckDIN
        { s with Tacho_Frame := srScalar s.Tacho_Frame s.sr.index b } b).sr
      (Tacho_StoneridgeCheckDIN
        { s with Tacho_Frame := srScalar s.Tacho_Frame s.sr.index b } b).Tacho_Frame := by
  obtain ⟨h1, h2, h3, h4⟩ := hinv
  rw [Tacho_StoneridgeCheckDIN_idle
    { s with Tacho_Frame := srScalar s.Tacho_Frame s.sr.index b } b (Or.inl ⟨h1, h2⟩)]
  refine ⟨h1, h2, ?_, ?_⟩
  · exact (srScalar_driver _ _ _ Tacho_DriverIdx_t.TACHO_DRIVER1).trans h3
  · exact (srScalar_driver _ _ _ Tacho_DriverIdx_t.TACHO_DRIVER2).trans h4

theorem srDinCase_congr (frame : List Nat) (f0 : Tacho_Frame_t) (n : Nat)
    (idx : Tacho_DriverIdx_t) (r r' : Tacho_SrData_t) (f f' : Tacho_Frame_t)
    (h1 : r'.drv1_pos = r.drv1_pos) (h2 : r'.drv2_pos = r.drv2_pos) (hf : f' = f)
    (h : SrDinCase frame f0 n idx r f) : SrDinCase frame f0 n idx r' f' := by
  subst hf
  unfold SrDinCase at h ⊢
  cases idx
  · simp only [srPos, otherDriver] at h ⊢
    rw [h1, h2]; exact h
  · simp only [srPos, otherDriver] at h ⊢
    rw [h1, h2]; exact h

theorem srByte_add (frame : List Nat) (k : Nat) : srByte frame (3 + k) = frame.getD k 0 := by
  simp [srByte, TACHO_SR_SEQSZ]

theorem srScalar_high (f : Tacho_Frame_t) (n b : Nat) (h : 15 ≤ n) : srScalar f n b = f := by
  unfold srScalar
  rw [if_neg (by omega), if_neg (by omega), if_neg (by omega), if_neg (by omega),
    if_neg (by omega), if_neg (by omega)]

theorem sr_run_frame (frame : List Nat) (hl : SrLayout frame) (s : Tacho_State)
    (hinit : s.sr = srInitial)
    (h1c : s.Tacho_Frame.driver_DRIVER1.country.length = 3)
    (h1n : s.Tacho_Frame.driver_DRIVER1.cardnr.length = 16)
    (h2c : s.Tacho_Frame.driver_DRIVER2.country.length = 3)
    (h2n : s.Tacho_Frame.driver_DRIVER2.cardnr.length = 16) :
    ∀ k, 2 ≤ k → k + 1 ≤ srByte frame 3 →
      SrFrameInv frame s.Tacho_Frame (3 + k)
        (feed Tacho_StoneridgeHandler s (frame.take k)).1.sr
        (feed Tacho_StoneridgeHandler s (frame.take k)).1.Tacho_Frame := by
  have hl' := hl
  obtain ⟨l1, l2, l3, l4⟩ := hl'
  intro k hk2
  induction k, hk2 using Nat.le_induction with
  | base =>
    intro _
    have h2 : frame.take 2 = [srByte frame 3, srByte frame 4] := by
      have e1 := take_succ_getD frame 1 (by omega)
      have e0 := take_succ_getD frame 0 (by omega)
      rw [e1, e0]
      rfl
    rw [h2]
    simp only [feed]
    rw [Tacho_StoneridgeHandler_length_ok s _ hinit l1 l2,
      Tacho_StoneridgeHandler_type_ok _ (srByte frame 4) (3 + srByte frame 3 - 1) (srByte frame 3)
        rfl (by omega) l3]
    refine ⟨?_, ?_, ?_⟩
    · intro ht
      refine ⟨⟨fun _ => ⟨?_, rfl⟩, fun h => by omega, fun h => by omega⟩, ?_, rfl⟩
      · show (if srByte frame 4 = 2 then 30 else 0xFF) = 30
        rw [if_pos ht]
      · show (if srByte frame 4 = 4 then 30 else 0xFF) = 0xFF
        rw [if_neg (by omega)]
    · intro ht
      refine ⟨⟨fun _ => ⟨?_, rfl⟩, fun h => by omega, fun h => by omega⟩, ?_, rfl⟩
      · show (if srByte frame 4 = 4 then 30 else 0xFF) = 30
        rw [if_pos ht]
      · show (if srByte frame 4 = 2 then 30 else 0xFF) = 0xFF
        rw [if_neg (by omega)]
    · intro ht
      refine ⟨?_, ?_, rfl, rfl⟩
      · show (if srByte frame 4 = 2 then 30 else 0xFF) = 0xFF
        rw [if_neg (by omega)]
      · show (if srByte frame 4 = 4 then 30 else 0xFF) = 0xFF
        rw [if_neg (by omega)]
  | succ k hk2 ih =>
    intro hk
    obtain ⟨i2, i3, i4⟩ := ih (by omega)
    obtain ⟨_, r2, r3, _, _, _⟩ := sr_run frame hl s hinit k hk2 (by omega)
    have hklen : k < frame.length := by omega
    rw [take_succ_getD frame k hklen, feed_append]
    simp only [feed]
    generalize hS : (feed Tacho_StoneridgeHandler s (frame.take k)).1 = S at i2 i3 i4 r2 r3
    obtain ⟨e1, e2, e3⟩ := Tacho_StoneridgeHandler_step S (frame.getD k 0)
      (by omega) (by omega) (by omega)
    rw [← srByte_add] at e1 e2 e3 ⊢
    have hn : 3 + (k + 1) = 3 + k + 1 := by omega
    rw [hn]
    refine ⟨?_, ?_, ?_⟩
    · intro ht
      exact srDinCase_congr _ _ _ _ _ _ _ _ e2 e3 e1
        (srDinCase_step frame s.Tacho_Frame (3 + k) _ S l1 l2 h1c h1n r2 (by omega) (by omega)
          r3 (i2 ht))
    · intro ht
      exact srDinCase_congr _ _ _ _ _ _ _ _ e2 e3 e1
        (srDinCase_step frame s.Tacho_Frame (3 + k) _ S l1 l2 h2c h2n r2 (by omega) (by omega)
          r3 (i3 ht))
    · intro ht
      have := srNoDin_step s.Tacho_Frame S (srByte frame (3 + k)) (i4 ht)
      unfold SrNoDin at this ⊢
      rw [e1, e2, e3]
      exact this

theorem sr_run_scalars (frame : List Nat) (hl : SrLayout frame) (s : Tacho_State)
    (hinit : s.sr = srInitial) :
    ∀ k, 2 ≤ k → k + 1 ≤ srByte frame 3 →
      SrScalars frame (3 + k) (feed Tacho_StoneridgeHandler s (frame.take k)).1.Tacho_Frame := by
  have hl' := hl
  obtain ⟨l1, l2, l3, l4⟩ := hl'
  intro k hk2
  induction k, hk2 using Nat.le_induction with
  | base =>
    intro _
    exact ⟨fun h => by omega, fun h => by omega, fun h => by omega, fun h => by omega,
      fun h => by omega, fun h => by omega⟩
  | succ k hk2 ih =>
    intro hk
    have i1 := ih (by omega)
    obtain ⟨_, r2, r3, _, _, _⟩ := sr_run frame hl s hinit k hk2 (by omega)
    have hklen : k < frame.length := by omega
    rw [take_succ_getD frame k hklen, feed_append]
    simp only [feed]
    generalize hS : (feed Tacho_StoneridgeHandler s (frame.take k)).1 = S at i1 r2 r3
    obtain ⟨e1, _, _⟩ := Tacho_StoneridgeHandler_step S (frame.getD k 0)
      (by omega) (by omega) (by omega)
    rw [← srByte_add] at e1 ⊢
    have hn : 3 + (k + 1) = 3 + k + 1 := by omega
    rw [hn, e1]
    exact srScalars_step frame (3 + k) S r2 i1

theorem sr_complete_frame (frame : List Nat) (hl : SrLayout frame) (s : Tacho_State)
    (hinit : s.sr = srInitial) :
    (feed Tacho_StoneridgeHandler s frame).1.Tacho_Frame
      = (feed Tacho_StoneridgeHandler s (frame.take (srByte frame 3 - 1))).1.Tacho_Frame ∧
    ((256 - (frame.take (srByte frame 3 - 1)).sum % 256) % 256
        = srByte frame (srByte frame 3 + 2) →
      (feed Tacho_StoneridgeHandler s frame).1.Tacho_CachedData.tco1
        = [(feed Tacho_StoneridgeHandler s frame).1.Tacho_Frame.working_state,
           (feed Tacho_StoneridgeHandler s frame).1.Tacho_Frame.driver1_state,
           (feed Tacho_StoneridgeHandler s frame).1.Tacho_Frame.driver2_state,
           (feed Tacho_StoneridgeHandler s frame).1.Tacho_Frame.tacho_status,
           0xFF, 0xFF,
           (feed Tacho_StoneridgeHandler s frame).1.Tacho_Frame.speed_lsb,
           (feed Tacho_StoneridgeHandler s frame).1.Tacho_Frame.speed_msb]) := by
  have hl' := hl
  obtain ⟨l1, l2, l3, l4⟩ := hl'
  obtain ⟨_, c2, _, _⟩ := sr_complete frame hl s hinit
  obtain ⟨_, r2, r3, _, _, _⟩ := sr_run frame hl s hinit (srByte frame 3 - 1)
    (by omega) (by omega)
  generalize hS : (feed Tacho_StoneridgeHandler s (frame.take (srByte frame 3 - 1))).1 = S
    at c2 r2 r3
  have hn : 3 + (srByte frame 3 - 1) = srByte frame 3 + 2 := by omega
  rw [hn] at r2
  have hmid : srMid S (srByte frame (srByte frame 3 + 2)) = S := by
    unfold srMid
    rw [Tacho_StoneridgeHandler_switch_scalar S _ (by omega) (by omega)]
    simp only
    rw [srScalar_high _ _ _ (by omega)]
    exact Tacho_StoneridgeCheckDIN_idle _ _ (Or.inr ⟨Or.inr (by rw [r2, r3]; omega),
      Or.inr (by rw [r2, r3]; omega)⟩)
  rw [hmid] at c2
  have hframe : (feed Tacho_StoneridgeHandler s frame).1.Tacho_Frame = S.Tacho_Frame := by
    rw [c2]
    split
    · show (Tacho_NotifyFrameReceived _ _).Tacho_Frame = _
      rw [(Tacho_NotifyFrameReceived_tco1 _ _).2.2.1]
      rfl
    · rfl
  refine ⟨hframe, ?_⟩
  intro hok
  rw [hframe, c2, if_pos hok]
  show (Tacho_NotifyFrameReceived _ _).Tacho_CachedData.tco1 = _
  rw [(Tacho_NotifyFrameReceived_tco1 _ _).1]
  rfl

/-- C11: Stoneridge field extraction. For every Stoneridge frame with valid
length, recognised type and valid checksum, the handler reports frame-complete
exactly at the checksum byte, the frame is accepted, and afterwards the
serial-only record is `[b9, b10, b11, b12, 0xFF, 0xFF, b14, b13]`: the byte at
offset 13 is the speed MSB (record byte 7), the byte at offset 14 the speed LSB
(record byte 6). -/
theorem C11_stoneridge_field_extraction (s : Tacho_State) (frame : List Nat)
    (hinit : s.sr = srInitial) (hlay : SrLayout frame)
    (hcrc : srByte frame (srByte frame 3 + 2)
      = (256 - (frame.take (srByte frame 3 - 1)).sum % 256) % 256) :
    (feed Tacho_StoneridgeHandler s frame).2
      = List.replicate (srByte frame 3 - 1) false ++ [true] ∧
    Accepted s.trace (feed Tacho_StoneridgeHandler s frame).1.trace ∧
    (feed Tacho_StoneridgeHandler s frame).1.Tacho_CachedData.tco1
      = [srByte frame 9, srByte frame 10, srByte frame 11, srByte frame 12,
         0xFF, 0xFF, srByte frame 14, srByte frame 13] ∧
    (feed Tacho_StoneridgeHandler s frame).1.Tacho_Frame.speed_msb = srByte frame 13 ∧
    (feed Tacho_StoneridgeHandler s frame).1.Tacho_Frame.speed_lsb = srByte frame 14 := by
  have hl' := hlay
  obtain ⟨l1, l2, l3, l4⟩ := hl'
  obtain ⟨c1, c2, c3, _⟩ := sr_complete frame hlay s hinit
  obtain ⟨f1, f2⟩ := sr_complete_frame frame hlay s hinit
  have hsc := sr_run_scalars frame hlay s hinit (srByte frame 3 - 1) (by omega) (by omega)
  rw [← f1] at hsc
  obtain ⟨s1, s2, s3, s4, s5, s6⟩ := hsc
  refine ⟨c1, ?_, ?_, s5 (by omega), s6 (by omega)⟩
  · rw [c2, if_pos hcrc.symm]
    exact accepted_of_copy_notify_sr _ _ c3
  · rw [f2 hcrc.symm, s1 (by omega), s2 (by omega), s3 (by omega), s4 (by omega),
      s5 (by omega), s6 (by omega)]

/-- C11 witness: the 45-byte VIN frame whose offsets 9..14 carry 1..6. -/
theorem C11_stoneridge_field_extraction_witness :
    exampleState.sr = srInitial ∧ SrLayout exampleSrFrame ∧
    srByte exampleSrFrame (srByte exampleSrFrame 3 + 2)
      = (256 - (exampleSrFrame.take (srByte exampleSrFrame 3 - 1)).sum % 256) % 256 ∧
    (feed Tacho_StoneridgeHandler exampleState exampleSrFrame).1.Tacho_CachedData.tco1
      = [1, 2, 3, 4, 0xFF, 0xFF, 6, 5] :=
  ⟨rfl, by unfold SrLayout; decide, by decide,
   (C11_stoneridge_field_extraction exampleState exampleSrFrame rfl
      (by unfold SrLayout; decide) (by decide)).2.2.1⟩

theorem sr_din_final (frame : List Nat) (f0 f : Tacho_Frame_t) (r : Tacho_SrData_t)
    (idx : Tacho_DriverIdx_t) (hL : 45 ≤ srByte frame 3)
    (hc : (f0.driver idx).country.length = 3)
    (h : SrDinCase frame f0 (srByte frame 3 + 2) idx r f) :
    f.driver (otherDriver idx) = f0.driver (otherDriver idx) ∧
    (srByte frame 30 = 0xFF →
      f.driver idx = { f0.driver idx with cardnr := (f0.driver idx).cardnr.set 0 0 }) ∧
    (srByte frame 30 ≠ 0xFF →
      (f.driver idx).country = [srByte frame 30, srByte frame 31, srByte frame 32] ∧
      (f.driver idx).cardnr.length = (f0.driver idx).cardnr.length ∧
      (∀ k, 33 + k ≤ srByte frame 3 →
        (f.driver idx).cardnr.getD k 0 = srByte frame (33 + k)) ∧
      (∀ k, srByte frame 3 < 33 + k →
        (f.driver idx).cardnr.getD k 0 = (f0.driver idx).cardnr.getD k 0)) := by
  obtain ⟨⟨_, d2, d3⟩, _, hoth⟩ := h
  refine ⟨hoth, fun hff => (d2 (by omega) hff).2, ?_⟩
  intro hff
  obtain ⟨_, e2, e3, e4, e5⟩ := d3 (by omega) hff
  refine ⟨?_, e3, ?_, ?_⟩
  · obtain ⟨a, b, c, habc⟩ := List.length_eq_three.mp (e2.trans hc)
    have h0 := e4 0
    have h1 := e4 1
    have h2 := e4 2
    rw [if_pos (by omega)] at h0 h1 h2
    rw [habc] at h0 h1 h2 ⊢
    simp only [List.getD_cons_zero, List.getD_cons_succ] at h0 h1 h2
    rw [h0, h1, h2]
  · intro k hk
    rw [e5 k, if_pos (by omega)]
  · intro k hk
    rw [e5 k, if_neg (by omega)]

/-- C12: Stoneridge driver-ID extraction. For every complete Stoneridge frame
with valid length `L` and type DIN1 (0x02): driver 2's identity is untouched;
if the byte at offset 30 is 0xFF, driver 1's identity is what it was with the
first card-number byte set to 0; otherwise driver 1's country code is the bytes
at offsets 30..32, card-number byte `k` is the byte at offset `33 + k` for every
`k` with `33 + k ≤ L`, and the remaining card-number bytes are unchanged. The
same holds with the drivers exchanged for type DIN2 (0x04); frames of type VIN
(0x01) or VRN (0x08) leave both identities unchanged. -/
theorem C12_stoneridge_driver_id_extraction (s : Tacho_State) (frame : List Nat)
    (hinit : s.sr = srInitial) (hlay : SrLayout frame)
    (h1c : s.Tacho_Frame.driver_DRIVER1.country.length = 3)
    (h1n : s.Tacho_Frame.driver_DRIVER1.cardnr.length = 16)
    (h2c : s.Tacho_Frame.driver_DRIVER2.country.length = 3)
    (h2n : s.Tacho_Frame.driver_DRIVER2.cardnr.length = 16) :
    (srByte frame 4 = 2 →
      (feed Tacho_StoneridgeHandler s frame).1.Tacho_Frame.driver_DRIVER2
        = s.Tacho_Frame.driver_DRIVER2 ∧
      (srByte frame 30 = 0xFF →
        (feed Tacho_StoneridgeHandler s frame).1.Tacho_Frame.driver_DRIVER1
          = { s.Tacho_Frame.driver_DRIVER1 with
                cardnr := s.Tacho_Frame.driver_DRIVER1.cardnr.set 0 0 }) ∧
      (srByte frame 30 ≠ 0xFF →
        (feed Tacho_StoneridgeHandler s frame).1.Tacho_Frame.driver_DRIVER1.country
          = [srByte frame 30, srByte frame 31, srByte frame 32] ∧
        (feed Tacho_StoneridgeHandler s frame).1.Tacho_Frame.driver_DRIVER1.cardnr.length = 16 ∧
        (∀ k, 33 + k ≤ srByte frame 3 →
          (feed Tacho_StoneridgeHandler s frame).1.Tacho_Frame.driver_DRIVER1.cardnr.getD k 0
            = srByte frame (33 + k)) ∧
        (∀ k, srByte frame 3 < 33 + k →
          (feed Tacho_StoneridgeHandler s frame).1.Tacho_Frame.driver_DRIVER1.cardnr.getD k 0
            = s.Tacho_Frame.driver_DRIVER1.cardnr.getD k 0))) ∧
    (srByte frame 4 = 4 →
      (feed Tacho_StoneridgeHandler s frame).1.Tacho_Frame.driver_DRIVER1
        = s.Tacho_Frame.driver_DRIVER1 ∧
      (srByte frame 30 = 0xFF →
        (feed Tacho_StoneridgeHandler s frame).1.Tacho_Frame.driver_DRIVER2
          = { s.Tacho_Frame.driver_DRIVER2 with
                cardnr := s.Tacho_Frame.driver_DRIVER2.cardnr.set 0 0 }) ∧
      (srByte frame 30 ≠ 0xFF →
        (feed Tacho_StoneridgeHandler s frame).1.Tacho_Frame.driver_DRIVER2.country
          = [srByte frame 30, srByte frame 31, srByte frame 32] ∧
        (feed Tacho_StoneridgeHandler s frame).1.Tacho_Frame.driver_DRIVER2.cardnr.length = 16 ∧
        (∀ k, 33 + k ≤ srByte frame 3 →
          (feed Tacho_StoneridgeHandler s frame).1.Tacho_Frame.driver_DRIVER2.cardnr.getD k 0
            = srByte frame (33 + k)) ∧
        (∀ k, srByte frame 3 < 33 + k →
          (feed Tacho_StoneridgeHandler s frame).1.Tacho_Frame.driver_DRIVER2.cardnr.getD k 0
            = s.Tacho_Frame.driver_DRIVER2.cardnr.getD k 0))) ∧
    (srByte frame 4 = 1 ∨ srByte frame 4 = 8 →
      (feed Tacho_StoneridgeHandler s frame).1.Tacho_Frame.driver_DRIVER1
        = s.Tacho_Frame.driver_DRIVER1 ∧
      (feed Tacho_StoneridgeHandler s frame).1.Tacho_Frame.driver_DRIVER2
        = s.Tacho_Frame.driver_DRIVER2) := by
  have hl' := hlay
  obtain ⟨l1, l2, l3, l4⟩ := hl'
  obtain ⟨f1, _⟩ := sr_complete_frame frame hlay s hinit
  obtain ⟨i1, i2, i3⟩ := sr_run_frame frame hlay s hinit h1c h1n h2c h2n (srByte frame 3 - 1)
    (by omega) (by omega)
  have hn : 3 + (srByte frame 3 - 1) = srByte frame 3 + 2 := by omega
  rw [hn, ← f1] at i1 i2
  rw [← f1] at i3
  refine ⟨?_, ?_, ?_⟩
  · intro ht
    obtain ⟨a, b, c⟩ := sr_din_final frame _ _ _ Tacho_DriverIdx_t.TACHO_DRIVER1 l1 h1c (i1 ht)
    refine ⟨a, b, fun hff => ?_⟩
    obtain ⟨c1, c2, c3, c4⟩ := c hff
    exact ⟨c1, c2.trans h1n, c3, c4⟩
  · intro ht
    obtain ⟨a, b, c⟩ := sr_din_final frame _ _ _ Tacho_DriverIdx_t.TACHO_DRIVER2 l1 h2c (i2 ht)
    refine ⟨a, b, fun hff => ?_⟩
    obtain ⟨c1, c2, c3, c4⟩ := c hff
    exact ⟨c1, c2.trans h2n, c3, c4⟩
  · intro ht
    obtain ⟨_, _, a, b⟩ := i3 ht
    exact ⟨a, b⟩

/-- C12 witness: a DIN1 frame with country "D  " and ten card-number digits. -/
theorem C12_stoneridge_driver_id_extraction_witness :
    exampleState.sr = srInitial ∧ SrLayout exampleSrDinFrame ∧
    srByte exampleSrDinFrame 4 = 2 ∧ srByte exampleSrDinFrame 30 ≠ 0xFF ∧
    (feed Tacho_StoneridgeHandler exampleState exampleSrDinFrame).1.Tacho_Frame.driver_DRIVER1.country
      = [68, 32, 32] ∧
    (feed Tacho_StoneridgeHandler exampleState exampleSrDinFrame).1.Tacho_Frame.driver_DRIVER2
      = exampleState.Tacho_Frame.driver_DRIVER2 :=
  ⟨rfl, by unfold SrLayout; decide, by decide, by decide,
   (((C12_stoneridge_driver_id_extraction exampleState exampleSrDinFrame rfl
      (by unfold SrLayout; decide) (by decide) (by decide) (by decide) (by decide)).1
      (by decide)).2.2 (by decide)).1,
   ((C12_stoneridge_driver_id_extraction exampleState exampleSrDinFrame rfl
      (by unfold SrLayout; decide) (by decide) (by decide) (by decide) (by decide)).1
      (by decide)).1⟩

theorem queueContents_length (q : Tacho_RxQueue_t) : (queueContents q).length = q.count := by
  simp [queueContents]

theorem arriveQ_rx (c : List Nat) :
    ∀ q : Tacho_RxQueue_t, QueueInv q → q.count + c.length ≤ 128 →
      QueueInv (arriveQ q (c.map IsrEvent.rx)) ∧
      queueContents (arriveQ q (c.map IsrEvent.rx)) = queueContents q ++ c ∧
      (arriveQ q (c.map IsrEvent.rx)).error_counter = q.error_counter := by
  induction c with
  | nil => intro q h _; exact ⟨h, by simp [arriveQ], rfl⟩
  | cons b c ih =>
    intro q h hlen
    simp only [List.length_cons] at hlen
    have h1 : arriveQ q ((b :: c).map IsrEvent.rx)
        = arriveQ (Tacho_QueueAddByte q b).1 (c.map IsrEvent.rx) := rfl
    have hc := push_contents q b h
    have hl : (queueContents q).length < 128 := by rw [queueContents_length]; omega
    simp only [specPush, if_pos hl] at hc
    have hcount : (Tacho_QueueAddByte q b).1.count = q.count + 1 := by
      rw [← queueContents_length, hc, List.length_append, queueContents_length]
      rfl
    have hec : (Tacho_QueueAddByte q b).1.error_counter = q.error_counter := by
      unfold Tacho_QueueAddByte
      split <;> rfl
    obtain ⟨a1, a2, a3⟩ := ih _ (push_inv q b h) (by rw [hcount]; omega)
    rw [h1]
    refine ⟨a1, ?_, by rw [a3, hec]⟩
    rw [a2, hc, List.append_assoc]
    rfl

theorem core_setQ (s : Tacho_State) (q : Tacho_RxQueue_t) : core (setQ s q) = core s := rfl

theorem task_chunk (s : Tacho_State) (c : List Nat)
    (hinv : QueueInv s.Tacho_RxQueue) (hcnt : s.Tacho_RxQueue.count = 0)
    (hec : s.Tacho_RxQueue.error_counter = 0) (hlen : c.length ≤ 128) :
    core (Tacho_Task (arrive s (c.map IsrEvent.rx))) = core (c.foldl Tacho_Task_body s) ∧
    QueueInv (Tacho_Task (arrive s (c.map IsrEvent.rx))).Tacho_RxQueue ∧
    (Tacho_Task (arrive s (c.map IsrEvent.rx))).Tacho_RxQueue.count = 0 ∧
    (Tacho_Task (arrive s (c.map IsrEvent.rx))).Tacho_RxQueue.error_counter = 0 := by
  obtain ⟨a1, a2, a3⟩ := arriveQ_rx c _ hinv (by omega)
  have hq0 : queueContents s.Tacho_RxQueue = [] := by
    simp [queueContents, hcnt]
  rw [hq0, List.nil_append] at a2
  rw [arrive_eq]
  have hrun := Tacho_Task_run (setQ s (arriveQ s.Tacho_RxQueue (c.map IsrEvent.rx))) a1
    (by show (arriveQ _ _).error_counter < 5; rw [a3, hec]; decide)
  rw [hrun]
  have hq : (setQ s (arriveQ s.Tacho_RxQueue (c.map IsrEvent.rx))).Tacho_RxQueue
      = arriveQ s.Tacho_RxQueue (c.map IsrEvent.rx) := rfl
  rw [hq, a2, foldl_body_setQ]
  refine ⟨rfl, ?_, rfl, rfl⟩
  exact queueInv_drainQ _ a1

theorem runChunks_core (chunks : List (List Nat)) :
    ∀ s : Tacho_State, QueueInv s.Tacho_RxQueue → s.Tacho_RxQueue.count = 0 →
      s.Tacho_RxQueue.error_counter = 0 → (∀ c ∈ chunks, c.length ≤ 128) →
      core (runChunks s chunks) = core (chunks.flatten.foldl Tacho_Task_body s) := by
  induction chunks with
  | nil => intro s _ _ _ _; rfl
  | cons c cs ih =>
    intro s hinv hcnt hec hlen
    obtain ⟨t1, t2, t3, t4⟩ := task_chunk s c hinv hcnt hec (hlen c (List.mem_cons_self _ _))
    have h1 : runChunks s (c :: cs) = runChunks (Tacho_Task (arrive s (c.map IsrEvent.rx))) cs :=
      rfl
    rw [h1, ih _ t2 t3 t4 (fun x hx => hlen x (List.mem_cons_of_mem _ hx))]
    simp only [List.flatten_cons, List.foldl_append]
    have e1 : ∀ (bs : List Nat) (a : Tacho_State),
        core (bs.foldl Tacho_Task_body a) = core (bs.foldl Tacho_Task_body (core a)) := by
      intro bs a
      unfold core
      rw [foldl_body_setQ]
      rfl
    rw [e1 cs.flatten (Tacho_Task _), t1, ← e1]

theorem Tacho_GetCountryCode_loop_length (code : Nat) :
    ∀ (t : List (Nat × List Nat)) (c : List Nat), (∀ e ∈ t, e.2.length = 3) →
      Tacho_GetCountryCode_loop code t = some c → c.length = 3 := by
  intro t
  induction t with
  | nil => intro c _ h; simp [Tacho_GetCountryCode_loop] at h
  | cons e rest ih =>
    intro c hall h
    simp only [Tacho_GetCountryCode_loop] at h
    split at h
    · cases h
      exact hall e (List.mem_cons_self _ _)
    · exact ih c (fun x hx => hall x (List.mem_cons_of_mem _ hx)) h

theorem Tacho_GetCountryCode_length (code : Nat) : (Tacho_GetCountryCode code).length = 3 := by
  unfold Tacho_GetCountryCode
  cases h : Tacho_GetCountryCode_loop code Tacho_Countries with
  | none => decide
  | some c => exact Tacho_GetCountryCode_loop_length code _ c (by decide) h

theorem Tacho_VdoCopyDIN_eq (pos b : Nat) (d : Tacho_DriverID_t) (hc : d.country.length = 3) :
    Tacho_VdoCopyDIN pos b d
      = if pos = 1 then { d with country := Tacho_GetCountryCode b }
        else if 1 < pos ∧ pos - 2 < 16 then { d with cardnr := d.cardnr.set (pos - 2) b }
        else d := by
  unfold Tacho_VdoCopyDIN
  simp only [TACHO_VDO_CC_POS, TACHO_MAX_COUNTRY_CODE, TACHO_MAX_CARD_NR]
  by_cases h1 : pos = 1
  · rw [if_pos h1, if_pos h1, copy_fold_eq 3 _ _ hc (Tacho_GetCountryCode_length b)]
  · rw [if_neg h1, if_neg h1]
    by_cases h2 : pos > 1
    · rw [if_pos h2]
      by_cases h3 : pos - 2 < 16
      · rw [if_pos h3, if_pos ⟨h2, h3⟩]
      · rw [if_neg h3, if_neg (fun h => h3 h.2)]
    · rw [if_neg h2, if_neg (fun h => h2 h.1)]

theorem Tacho_VdoHandler_switch_drivers (s : Tacho_State) (b : Nat) :
    (Tacho_VdoHandler_switch s b).Tacho_Frame.driver_DRIVER1 = s.Tacho_Frame.driver_DRIVER1 ∧
    (Tacho_VdoHandler_switch s b).Tacho_Frame.driver_DRIVER2 = s.Tacho_Frame.driver_DRIVER2 ∧
    (Tacho_VdoHandler_switch s b).vdo.index = s.vdo.index ∧
    (Tacho_VdoHandler_switch s b).vdo.drv1_pos = s.vdo.drv1_pos ∧
    (Tacho_VdoHandler_switch s b).vdo.drv2_pos = s.vdo.drv2_pos ∧
    (Tacho_VdoHandler_switch s b).vdo.crc8_pos = s.vdo.crc8_pos := by
  unfold Tacho_VdoHandler_switch
  repeat' split
  all_goals exact ⟨rfl, rfl, rfl, rfl, rfl, rfl⟩

theorem Tacho_VdoCheckDIN_drivers (s : Tacho_State) (b : Nat) :
    (Tacho_VdoCheckDIN s b).Tacho_Frame.driver_DRIVER1
      = (if s.vdo.drv1_pos = s.vdo.index then
           (if b = 0 then { s.Tacho_Frame.driver_DRIVER1 with
                              cardnr := s.Tacho_Frame.driver_DRIVER1.cardnr.set 0 0 }
            else s.Tacho_Frame.driver_DRIVER1)
         else if s.vdo.drv1_pos < s.vdo.index ∧ s.vdo.index < s.vdo.drv2_pos then
           Tacho_VdoCopyDIN (s.vdo.index - s.vdo.drv1_pos - 1) b s.Tacho_Frame.driver_DRIVER1
         else s.Tacho_Frame.driver_DRIVER1) ∧
    (Tacho_VdoCheckDIN s b).Tacho_Frame.driver_DRIVER2
      = (if s.vdo.drv1_pos = s.vdo.index then s.Tacho_Frame.driver_DRIVER2
         else if s.vdo.drv1_pos < s.vdo.index ∧ s.vdo.index < s.vdo.drv2_pos then
           s.Tacho_Frame.driver_DRIVER2
         else if s.vdo.drv2_pos = s.vdo.index then
           (if b = 0 then { s.Tacho_Frame.driver_DRIVER2 with
                              cardnr := s.Tacho_Frame.driver_DRIVER2.cardnr.set 0 0 }
            else s.Tacho_Frame.driver_DRIVER2)
         else if s.vdo.drv2_pos < s.vdo.index ∧ s.vdo.index < s.vdo.crc8_pos then
           Tacho_VdoCopyDIN (s.vdo.index - s.vdo.drv2_pos - 1) b s.Tacho_Frame.driver_DRIVER2
         else s.Tacho_Frame.driver_DRIVER2) := by
  unfold Tacho_VdoCheckDIN
  simp only [Tacho_Frame_t.driver, Tacho_Frame_t.setDriver]
  split_ifs <;> exact ⟨rfl, rfl⟩

theorem vdoMid_drivers (frame : List Nat) (k : Nat) (S : Tacho_State) (b : Nat)
    (hv : S.vdo = vdoAt frame k) :
    (vdoMid S b).Tacho_Frame.driver_DRIVER1
      = (if (if vdoCstrPos frame < 5 + k then vdoDrv1Pos frame else 0xFF) = 5 + k then
           (if b = 0 then { S.Tacho_Frame.driver_DRIVER1 with
                              cardnr := S.Tacho_Frame.driver_DRIVER1.cardnr.set 0 0 }
            else S.Tacho_Frame.driver_DRIVER1)
         else if (if vdoCstrPos frame < 5 + k then vdoDrv1Pos frame else 0xFF) < 5 + k ∧
             5 + k < (if vdoDrv1Pos frame < 5 + k then vdoDrv2Pos frame else 0xFF) then
           Tacho_VdoCopyDIN
             (5 + k - (if vdoCstrPos frame < 5 + k then vdoDrv1Pos frame else 0xFF) - 1) b
             S.Tacho_Frame.driver_DRIVER1
         else S.Tacho_Frame.driver_DRIVER1) ∧
    (vdoMid S b).Tacho_Frame.driver_DRIVER2
      = (if (if vdoCstrPos frame < 5 + k then vdoDrv1Pos frame else 0xFF) = 5 + k then
           S.Tacho_Frame.driver_DRIVER2
         else if (if vdoCstrPos frame < 5 + k then vdoDrv1Pos frame else 0xFF) < 5 + k ∧
             5 + k < (if vdoDrv1Pos frame < 5 + k then vdoDrv2Pos frame else 0xFF) then
           S.Tacho_Frame.driver_DRIVER2
         else if (if vdoDrv1Pos frame < 5 + k then vdoDrv2Pos frame else 0xFF) = 5 + k then
           (if b = 0 then { S.Tacho_Frame.driver_DRIVER2 with
                              cardnr := S.Tacho_Frame.driver_DRIVER2.cardnr.set 0 0 }
            else S.Tacho_Frame.driver_DRIVER2)
         else if (if vdoDrv1Pos frame < 5 + k then vdoDrv2Pos frame else 0xFF) < 5 + k ∧
             5 + k < (if vdoDrv2Pos frame < 5 + k then vdoCrcPos frame else 0xFF) then
           Tacho_VdoCopyDIN
             (5 + k - (if vdoDrv1Pos frame < 5 + k then vdoDrv2Pos frame else 0xFF) - 1) b
             S.Tacho_Frame.driver_DRIVER2
         else S.Tacho_Frame.driver_DRIVER2) := by
  obtain ⟨w1, w2, w3, w4, w5, w6⟩ := Tacho_VdoHandler_switch_drivers S b
  obtain ⟨c1, c2⟩ := Tacho_VdoCheckDIN_drivers (Tacho_VdoHandler_switch S b) b
  rw [w1, w3, w4, w5, hv] at c1
  rw [w2, w3, w4, w5, w6, hv] at c2
  unfold vdoMid
  exact ⟨c1, c2⟩

theorem vdoByte_add (frame : List Nat) (k : Nat) : vdoByte frame (5 + k) = frame.getD k 0 := by
  simp [vdoByte, TACHO_VDO_SEQSZ]

theorem vdoDin2_step (frame : List Nat) (hl : VdoDin2Layout frame) (k : Nat) (S : Tacho_State)
    (hv : S.vdo = vdoAt frame k) (hk : 5 + k ≤ vdoCrcPos frame)
    (hinv : VdoDin2 frame k S.Tacho_Frame) :
    VdoDin2 frame (k + 1) (vdoMid S (frame.getD k 0)).Tacho_Frame := by
  obtain ⟨⟨hl1, _⟩, hN, hL1, hL2, _⟩ := hl
  obtain ⟨i1, i2, i3, i4, i5, i6, i7⟩ := hinv
  obtain ⟨e1, e2⟩ := vdoMid_drivers frame k S (frame.getD k 0) hv
  have hb := vdoByte_add frame k
  have hP1 : vdoCstrPos frame < vdoDrv1Pos frame := by
    show vdoCstrPos frame < vdoCstrPos frame + _ + 1
    omega
  have hP2 : vdoDrv2Pos frame = vdoDrv1Pos frame + 1 := by
    show vdoDrv1Pos frame + vdoByte frame (vdoDrv1Pos frame) + 1 = _
    rw [hL1]
  have hPC : vdoCrcPos frame = vdoDrv2Pos frame + vdoByte frame (vdoDrv2Pos frame) + 1 := rfl
  generalize vdoCstrPos frame = C at *
  generalize hp1 : vdoDrv1Pos frame = P1 at *
  generalize hp2 : vdoDrv2Pos frame = P2 at *
  generalize hpc : vdoCrcPos frame = PC at *
  generalize hl2 : vdoByte frame P2 = L2 at *
  unfold VdoDin2
  rw [hp1, hp2]
  have hcase : 5 + k < P1 ∨ 5 + k = P1 ∨ 5 + k = P2 ∨ (P2 < 5 + k ∧ 5 + k < PC) ∨ 5 + k = PC := by
    omega
  rcases hcase with h | h | h | h | h
  · -- before the driver-1 field
    simp (disch := omega) only [if_pos, if_neg] at e1 e2
    have e1' : (vdoMid S (frame.getD k 0)).Tacho_Frame.driver_DRIVER1
        = S.Tacho_Frame.driver_DRIVER1 := by
      rw [e1]; split_ifs <;> first | rfl | (exfalso; omega)
    have e2' : (vdoMid S (frame.getD k 0)).Tacho_Frame.driver_DRIVER2
        = S.Tacho_Frame.driver_DRIVER2 := by
      rw [e2]; split_ifs <;> rfl
    rw [e1', e2']
    exact ⟨i1, i2, i3, i4, fun _ => by omega, fun _ => by omega, fun j _ _ => by omega⟩
  · -- length byte of the driver-1 field
    have hb0 : frame.getD k 0 = 0 := by rw [← hb, h, ← hL1]
    simp (disch := omega) only [if_pos, if_neg] at e1 e2
    rw [e1, e2]
    refine ⟨i1, by simp [i2], i3, i4, fun _ => ?_, fun _ => by omega, fun j _ _ => by omega⟩
    show (S.Tacho_Frame.driver_DRIVER1.cardnr.set 0 0).getD 0 0 = 0
    rw [getD_set_eq, if_pos ⟨rfl, by omega⟩]
  · -- length byte of the driver-2 field
    have hb0 : frame.getD k 0 ≠ 0 := by rw [← hb, h, hl2]; omega
    simp (disch := omega) only [if_pos, if_neg] at e1 e2
    rw [e1, e2]
    exact ⟨i1, i2, i3, i4, fun _ => i5 (by omega), fun _ => by omega, fun j _ _ => by omega⟩
  · -- inside the driver-2 field
    simp (disch := omega) only [if_pos, if_neg] at e1 e2
    rw [e1, e2, Tacho_VdoCopyDIN_eq _ _ _ i3]
    by_cases hp : 5 + k - P2 - 1 = 1
    · rw [if_pos hp]
      refine ⟨i1, i2, Tacho_GetCountryCode_length _, i4, fun _ => i5 (by omega), fun _ => ?_,
        fun j hj hlt => ?_⟩
      · show Tacho_GetCountryCode (frame.getD k 0) = _
        rw [← hb]
        congr 2
        omega
      · exact i7 j hj (by omega)
    · rw [if_neg hp]
      by_cases hc : 1 < 5 + k - P2 - 1 ∧ 5 + k - P2 - 1 - 2 < 16
      · rw [if_pos hc]
        refine ⟨i1, i2, i3, by simp [i4], fun _ => i5 (by omega), fun _ => i6 (by omega),
          fun j hj hlt => ?_⟩
        show (S.Tacho_Frame.driver_DRIVER2.cardnr.set (5 + k - P2 - 1 - 2) (frame.getD k 0)).getD j 0
          = _
        rw [getD_set_eq]
        split_ifs with c1
        · rw [← hb]
          congr 1
          omega
        · exact i7 j hj (by omega)
      · rw [if_neg hc]
        exact ⟨i1, i2, i3, i4, fun _ => i5 (by omega), fun _ => i6 (by omega),
          fun j hj hlt => i7 j hj (by omega)⟩
  · -- checksum byte
    simp (disch := omega) only [if_pos, if_neg] at e1 e2
    rw [e1, e2]
    exact ⟨i1, i2, i3, i4, fun _ => i5 (by omega), fun _ => i6 (by omega),
      fun j hj _ => i7 j hj (by omega)⟩

theorem vdo_run_din2 (frame : List Nat) (hl : VdoDin2Layout frame) (s : Tacho_State)
    (hinit : s.vdo = vdoInitial)
    (h1c : s.Tacho_Frame.driver_DRIVER1.country.length = 3)
    (h1n : s.Tacho_Frame.driver_DRIVER1.cardnr.length = 16)
    (h2c : s.Tacho_Frame.driver_DRIVER2.country.length = 3)
    (h2n : s.Tacho_Frame.driver_DRIVER2.cardnr.length = 16) :
    ∀ k, 5 + k ≤ vdoCrcPos frame →
      VdoDin2 frame k (feed Tacho_VdoHandler s (frame.take k)).1.Tacho_Frame := by
  have hlay := hl.1
  intro k
  induction k with
  | zero =>
    intro _
    have hP1 : 5 ≤ vdoDrv1Pos frame := by
      simp only [vdoDrv1Pos, vdoCstrPos]; omega
    have hP2 : 5 ≤ vdoDrv2Pos frame := by
      simp only [vdoDrv2Pos, vdoDrv1Pos, vdoCstrPos]; omega
    exact ⟨h1c, h1n, h2c, h2n, fun h => by omega, fun h => by omega, fun j _ h => by omega⟩
  | succ k ih =>
    intro hk
    have ihk := ih (by omega)
    obtain ⟨_, r2, _⟩ := vdo_run frame hlay s hinit k (by omega)
    obtain ⟨q1, _, _⟩ := vdo_run frame hlay s hinit (k + 1) hk
    have hklen : k < frame.length := by
      rw [hlay.2]; simp only [TACHO_VDO_SEQSZ]; omega
    rw [take_succ_getD frame k hklen] at q1 ⊢
    rw [List.replicate_succ'] at q1
    obtain ⟨_, f2, f3⟩ := feed_snoc_flags _ _ _ _ _ _ q1
    rw [f3, Tacho_VdoHandler_false_frame _ _ f2]
    exact vdoDin2_step frame hl k _ r2 (by omega) ihk

theorem vdo_din2_text (frame : List Nat) (hl : VdoDin2Layout frame) (s : Tacho_State)
    (hinit : s.vdo = vdoInitial)
    (h1c : s.Tacho_Frame.driver_DRIVER1.country.length = 3)
    (h1n : s.Tacho_Frame.driver_DRIVER1.cardnr.length = 16)
    (h2c : s.Tacho_Frame.driver_DRIVER2.country.length = 3)
    (h2n : s.Tacho_Frame.driver_DRIVER2.cardnr.length = 16)
    (hdi : s.Tacho_CachedData.di.length = 41)
    (hcrc : vdoByte frame (vdoCrcPos frame)
      = xorAll 0x49 (frame.take (vdoCrcPos frame - 5))) :
    (feed Tacho_VdoHandler s frame).2
      = List.replicate (vdoCrcPos frame - 5) false ++ [true] ∧
    (feed Tacho_VdoHandler s frame).1.Tacho_CachedData.di
      = [42] ++ Tacho_GetCountryCode (vdoByte frame (vdoDrv2Pos frame + 2))
          ++ (List.range 16).map (fun j => vdoByte frame (vdoDrv2Pos frame + 3 + j))
          ++ [42, 0] ++ s.Tacho_CachedData.di.drop 22 := by
  have hlay := hl.1
  have hne := hl.2.2.2.2
  obtain ⟨c1, c2, _, c4, _⟩ := vdo_complete frame hlay s hinit
  have hge : 38 ≤ vdoCrcPos frame := by
    simp only [vdoCrcPos, vdoDrv2Pos, vdoDrv1Pos, vdoCstrPos]; omega
  obtain ⟨_, r2, _⟩ := vdo_run frame hlay s hinit (vdoCrcPos frame - 5) (by omega)
  have hinv := vdoDin2_step frame hl (vdoCrcPos frame - 5) _ r2 (by omega)
    (vdo_run_din2 frame hl s hinit h1c h1n h2c h2n (vdoCrcPos frame - 5) (by omega))
  have hbyte : frame.getD (vdoCrcPos frame - 5) 0 = vdoByte frame (vdoCrcPos frame) := rfl
  rw [hbyte] at hinv
  refine ⟨c1, ?_⟩
  rw [c2, if_pos hcrc]
  generalize vdoMid (feed Tacho_VdoHandler s (frame.take (vdoCrcPos frame - 5))).1
    (vdoByte frame (vdoCrcPos frame)) = M at c4 hinv ⊢
  obtain ⟨i1, i2, i3, i4, i5, i6, i7⟩ := hinv
  have hL2 := hl.2.2.2.1
  have hlt : vdoDrv2Pos frame + 18 < vdoCrcPos frame := by
    show _ < vdoDrv2Pos frame + vdoByte frame (vdoDrv2Pos frame) + 1
    omega
  have hP12 : vdoDrv1Pos frame < vdoDrv2Pos frame := by
    show _ < vdoDrv1Pos frame + _ + 1
    omega
  have hd1 : driverText M.Tacho_Frame.driver_DRIVER1 = [] := by
    unfold driverText
    rw [if_neg (by rw [i5 (by omega)]; simp)]
  have hcard : M.Tacho_Frame.driver_DRIVER2.cardnr
      = (List.range 16).map (fun j => vdoByte frame (vdoDrv2Pos frame + 3 + j)) := by
    rw [← range_map_getD M.Tacho_Frame.driver_DRIVER2.cardnr 16 i4]
    apply List.map_congr_left
    intro j hj
    exact i7 j (List.mem_range.mp hj) (by have := List.mem_range.mp hj; omega)
  have hd2 : driverText M.Tacho_Frame.driver_DRIVER2
      = Tacho_GetCountryCode (vdoByte frame (vdoDrv2Pos frame + 2))
          ++ (List.range 16).map (fun j => vdoByte frame (vdoDrv2Pos frame + 3 + j)) := by
    unfold driverText
    rw [if_pos (by rw [i7 0 (by omega) (by omega)]; exact hne), i6 (by omega), hcard]
  have htext : diText M.Tacho_Frame
      = [42] ++ Tacho_GetCountryCode (vdoByte frame (vdoDrv2Pos frame + 2))
          ++ (List.range 16).map (fun j => vdoByte frame (vdoDrv2Pos frame + 3 + j))
          ++ [42, 0] := by
    unfold diText
    rw [hd1, hd2]
    simp
  have hlen : (diText M.Tacho_Frame).length = 22 := by
    rw [htext]
    simp [Tacho_GetCountryCode_length]
  show (Tacho_NotifyFrameReceived _ _).Tacho_CachedData.di = _
  rw [(Tacho_NotifyFrameReceived_tco1 _ _).2.1, Tacho_CopyToCache_di_view,
    Tacho_CopyToCache_di_eq _ _ i1 i2 i3 i4 (by rw [c4]; exact hdi)]
  show diText M.Tacho_Frame ++ _ = _
  rw [hlen, c4, htext]

theorem foldl_body_vdo_false (bs : List Nat) :
    ∀ s : Tacho_State, s.perform_sync = false →
      s.Tacho_Handler = some Tacho_Handler_t.Tacho_VdoHandler →
      (feed Tacho_VdoHandler s bs).2 = List.replicate bs.length false →
      bs.foldl Tacho_Task_body s = (feed Tacho_VdoHandler s bs).1 := by
  induction bs with
  | nil => intro s _ _ _; rfl
  | cons b bs ih =>
    intro s hp hh hf
    simp only [feed, List.length_cons, List.replicate_succ, List.cons.injEq] at hf
    have hctl := (ctl_Tacho_VdoHandler s b).1
    simp only [ctl, Prod.mk.injEq] at hctl
    have hbody : Tacho_Task_body s b = (Tacho_VdoHandler s b).1 := by
      rw [Tacho_Task_body_handler s b hp]
      simp only [hh, Tacho_Handler_call]
      rw [if_neg (by rw [hf.1]; exact Bool.false_ne_true)]
    simp only [List.foldl_cons, feed]
    rw [hbody]
    exact ih _ (hctl.2.2.2.2.1.trans hp) (hctl.2.2.2.1.trans hh) hf.2

theorem feed_vdo_ctl (bs : List Nat) :
    ∀ s : Tacho_State, ctl (feed Tacho_VdoHandler s bs).1 = ctl s := by
  induction bs with
  | nil => intro s; rfl
  | cons b bs ih =>
    intro s
    simp only [feed]
    rw [ih, (ctl_Tacho_VdoHandler s b).1]

theorem foldl_body_vdo_frame (s : Tacho_State) (pre : List Nat) (b : Nat)
    (hp : s.perform_sync = false)
    (hh : s.Tacho_Handler = some Tacho_Handler_t.Tacho_VdoHandler)
    (hf : (feed Tacho_VdoHandler s (pre ++ [b])).2 = List.replicate pre.length false ++ [true]) :
    (pre ++ [b]).foldl Tacho_Task_body s
      = { (feed Tacho_VdoHandler s (pre ++ [b])).1 with perform_sync := true, index := 0 } := by
  obtain ⟨f1, f2, f3⟩ := feed_snoc_flags _ _ _ _ _ _ hf
  have hpre := foldl_body_vdo_false pre s hp hh f1
  rw [List.foldl_append, hpre, f3]
  simp only [List.foldl_cons, List.foldl_nil]
  have hctl := feed_vdo_ctl pre s
  simp only [ctl, Prod.mk.injEq] at hctl
  rw [Tacho_Task_body_handler _ b (hctl.2.2.2.2.1.trans hp)]
  simp only [hctl.2.2.2.1.trans hh, Tacho_Handler_call]
  rw [if_pos f2]

theorem Tacho_Init_vdo (s0 : Tacho_State) (fram : Option Nat)
    (hvdo : (Tacho_Init s0 fram).Tacho_SelectedStandard = Tacho_Standard_t.TACHO_STANDARD_VDO) :
    ∃ um, Tacho_Init s0 fram
      = Tacho_SelectStandard { s0 with trace := s0.trace ++ [Tacho_Event.USART2_init] }
          Tacho_Standard_t.TACHO_STANDARD_VDO um := by
  rcases fram with _ | x
  · exact ⟨true, rfl⟩
  · rcases x with _ | _ | x
    · exact ⟨false, rfl⟩
    · have h1 : Tacho_Init s0 (some 1) = Tacho_SelectStandard
          { s0 with trace := s0.trace ++ [Tacho_Event.USART2_init] }
          Tacho_Standard_t.TACHO_STANDARD_STONERIDGE false := rfl
      rw [show (0 + 1 : Nat) = 1 from rfl, h1, Tacho_SelectStandard_stoneridge] at hvdo
      cases hvdo
    · exact ⟨true, by simp [Tacho_Init, Tacho_ReadMemory]⟩

/-- C16: end-to-end VDO driver-ID text. A decoder freshly initialised by
`Tacho_Init` with VDO selected receives, in chunks of at most 128 bytes each
followed by a call of `Tacho_Task`, the VDO start sequence 55 44 54 43 4F and a
frame with VIN length 17 at offset 34, an empty driver-1 field (byte 0 at its
offset), a driver-2 field of at least 18 bytes whose first card-number byte is
not 0, and a correct XOR checksum. Afterwards the driver-ID text buffer holds
`*`, the 3-byte country code looked up from driver 2's country selector, its 16
card-number bytes, `*` and a zero byte; the 19 bytes after the terminator are
what they were. -/
theorem C16_vdo_end_to_end_driver_id_text (s0 : Tacho_State) (fram : Option Nat)
    (frame : List Nat) (chunks : List (List Nat))
    (hq : s0.Tacho_RxQueue.data.length = TACHO_RX_QUEUE_SIZE)
    (h1c : s0.Tacho_Frame.driver_DRIVER1.country.length = 3)
    (h1n : s0.Tacho_Frame.driver_DRIVER1.cardnr.length = 16)
    (h2c : s0.Tacho_Frame.driver_DRIVER2.country.length = 3)
    (h2n : s0.Tacho_Frame.driver_DRIVER2.cardnr.length = 16)
    (hdi : s0.Tacho_CachedData.di.length = TACHO_MAX_DI_MSG)
    (hsync : s0.perform_sync = true) (hidx : s0.index = 0)
    (hvdo : (Tacho_Init s0 fram).Tacho_SelectedStandard = Tacho_Standard_t.TACHO_STANDARD_VDO)
    (hlay : VdoDin2Layout frame)
    (hcrc : vdoByte frame (vdoCrcPos frame)
      = xorAll 0x49 (frame.take (vdoCrcPos frame - 5)))
    (hch : chunks.flatten = [0x55, 0x44, 0x54, 0x43, 0x4F] ++ frame)
    (hlen : ∀ c ∈ chunks, c.length ≤ TACHO_RX_QUEUE_SIZE) :
    (runChunks (Tacho_Init s0 fram) chunks).Tacho_CachedData.di
      = [42] ++ Tacho_GetCountryCode (vdoByte frame (vdoDrv2Pos frame + 2))
          ++ (List.range 16).map (fun j => vdoByte frame (vdoDrv2Pos frame + 3 + j))
          ++ [42, 0] ++ s0.Tacho_CachedData.di.drop 22 ∧
    (runChunks (Tacho_Init s0 fram) chunks).perform_sync = true ∧
    (runChunks (Tacho_Init s0 fram) chunks).index = 0 := by
  obtain ⟨um, hI⟩ := Tacho_Init_vdo s0 fram hvdo
  rw [Tacho_SelectStandard_vdo] at hI
  generalize Tacho_Init s0 fram = I at hI ⊢
  have hIq : I.Tacho_RxQueue = Tacho_ClearRxQueue s0.Tacho_RxQueue := by rw [hI]
  have hcore := runChunks_core chunks I (by rw [hIq]; exact queueInv_clear _ hq)
    (by rw [hIq]; rfl) (by rw [hIq]; rfl) hlen
  rw [hch, List.foldl_append] at hcore
  have hfull := sync_full I ⟨[0x55, 0x44, 0x54, 0x43, 0x4F], 5, 10400⟩ (by rw [hI])
    (by rw [hI]; exact hsync) (by rw [hI]; exact hidx) rfl (by decide) (by decide)
  simp only [List.length_cons, List.length_nil] at hfull
  rw [hfull] at hcore
  generalize hI5 : ({ I with index := 0 + 1 + 1 + 1 + 1 + 1, perform_sync := false }
    : Tacho_State) = I5 at hcore
  have hge : 38 ≤ vdoCrcPos frame := by
    simp only [vdoCrcPos, vdoDrv2Pos, vdoDrv1Pos, vdoCstrPos]; omega
  obtain ⟨t1, t2⟩ := vdo_din2_text frame hlay I5 (by rw [← hI5, hI])
    (by rw [← hI5, hI]; exact h1c) (by rw [← hI5, hI]; exact h1n)
    (by rw [← hI5, hI]; exact h2c) (by rw [← hI5, hI]; exact h2n)
    (by rw [← hI5, hI]; exact hdi) hcrc
  have hflen : frame.length = (vdoCrcPos frame - 5) + 1 := by
    rw [hlay.1.2]; simp only [TACHO_VDO_SEQSZ]
  have hsplit : frame = frame.take (vdoCrcPos frame - 5)
      ++ [frame.getD (vdoCrcPos frame - 5) 0] := by
    rw [← take_succ_getD frame _ (by omega), ← hflen, List.take_length]
  have htl : (frame.take (vdoCrcPos frame - 5)).length = vdoCrcPos frame - 5 := by
    rw [List.length_take]; omega
  have hfold := foldl_body_vdo_frame I5 (frame.take (vdoCrcPos frame - 5))
    (frame.getD (vdoCrcPos frame - 5) 0) (by rw [← hI5]) (by rw [← hI5, hI])
    (by rw [← hsplit, htl]; exact t1)
  rw [← hsplit] at hfold
  rw [hfold] at hcore
  have hcd := congrArg (fun x : Tacho_State => x.Tacho_CachedData.di) hcore
  have hps := congrArg (fun x : Tacho_State => x.perform_sync) hcore
  have hix := congrArg (fun x : Tacho_State => x.index) hcore
  simp only [core, setQ] at hcd hps hix
  refine ⟨?_, hps, hix⟩
  rw [hcd, t2, ← hI5, hI]

/-- C16 witness: the power-on state, a failing storage read (VDO by default),
and the example frame delivered in two chunks. -/
theorem C16_vdo_end_to_end_driver_id_text_witness :
    (Tacho_Init Tacho_State.startup none).Tacho_SelectedStandard
      = Tacho_Standard_t.TACHO_STANDARD_VDO ∧
    VdoDin2Layout exampleVdoDinFrame ∧
    (runChunks (Tacho_Init Tacho_State.startup none)
        [[0x55, 0x44, 0x54, 0x43, 0x4F] ++ exampleVdoDinFrame.take 30,
         exampleVdoDinFrame.drop 30]).Tacho_CachedData.di
      = [42] ++ [68, 32, 32]
          ++ [49, 50, 51, 52, 53, 54, 55, 56, 57, 48, 49, 50, 51, 52, 53, 54]
          ++ [42, 0] ++ List.replicate 19 0 :=
  ⟨by decide, ⟨⟨by decide, by decide⟩, by decide, by decide, by decide, by decide⟩,
   (C16_vdo_end_to_end_driver_id_text Tacho_State.startup none exampleVdoDinFrame
      [[0x55, 0x44, 0x54, 0x43, 0x4F] ++ exampleVdoDinFrame.take 30,
       exampleVdoDinFrame.drop 30]
      (by decide) (by decide) (by decide) (by decide) (by decide) (by decide) rfl rfl
      (by decide) ⟨⟨by decide, by decide⟩, by decide, by decide, by decide, by decide⟩
      (by decide) (by decide) (by decide)).1⟩

/-! ## Lookup, bus text, fault windows and identity writes: verified claims -/

/-- C21: country-code lookup. For every byte `code`, `Tacho_GetCountryCode`
returns a string of exactly 3 bytes; when `code` is in 0x00..0x38 or 0xFD..0xFF
the table has exactly one entry with that code and the result is its string (0x0D
gives "D  ", 0xFF gives "WLD"); for every other code (0x39..0xFC) the table has no
entry and the result is the default "RFU". -/
theorem C21_country_code_lookup (code : Nat) (h : code < 256) :
    (Tacho_GetCountryCode code).length = 3 ∧
    ((code ≤ 0x38 ∨ 0xFD ≤ code) →
      Tacho_Countries.filter (fun e => e.1 == code) = [(code, Tacho_GetCountryCode code)]) ∧
    (0x39 ≤ code ∧ code ≤ 0xFC →
      Tacho_Countries.filter (fun e => e.1 == code) = [] ∧
      Tacho_GetCountryCode code = [82, 70, 85]) ∧
    Tacho_GetCountryCode 0x0D = [68, 32, 32] ∧
    Tacho_GetCountryCode 0xFF = [87, 76, 68] := by
  have hall : ∀ c, c < 256 →
      (Tacho_GetCountryCode c).length = 3 ∧
      ((c ≤ 0x38 ∨ 0xFD ≤ c) →
        Tacho_Countries.filter (fun e => e.1 == c) = [(c, Tacho_GetCountryCode c)]) ∧
      (0x39 ≤ c ∧ c ≤ 0xFC →
        Tacho_Countries.filter (fun e => e.1 == c) = [] ∧
        Tacho_GetCountryCode c = [82, 70, 85]) := by
    decide
  obtain ⟨h1, h2, h3⟩ := hall code h
  exact ⟨h1, h2, h3, by decide, by decide⟩

/-- C21 witness: code 0x0D ("D  ", Germany). -/
theorem C21_country_code_lookup_witness :
    (0x0D : Nat) < 256 ∧ (Tacho_GetCountryCode 0x0D).length = 3 :=
  ⟨by decide, (C21_country_code_lookup 0x0D (by decide)).1⟩

theorem takeWhile_getD_zero (di : List Nat) (i : Nat) (h : di.getD i 0 = 0) :
    (di.drop i).takeWhile (fun b => b != 0) = [] := by
  by_cases hi : i < di.length
  · rw [List.drop_eq_getElem_cons hi]
    rw [List.getD_eq_getElem?_getD, List.getElem?_eq_getElem hi] at h
    simp only [Option.getD_some] at h
    simp [List.takeWhile_cons, h]
  · rw [List.drop_of_length_le (by omega)]
    rfl

theorem takeWhile_getD_ne (di : List Nat) (i : Nat) (h : di.getD i 0 ≠ 0) :
    i < di.length ∧
    (di.drop i).takeWhile (fun b => b != 0)
      = di.getD i 0 :: (di.drop (i + 1)).takeWhile (fun b => b != 0) := by
  have hi : i < di.length := by
    by_contra hc
    apply h
    rw [List.getD_eq_getElem?_getD, List.getElem?_eq_none (by omega)]
    rfl
  refine ⟨hi, ?_⟩
  rw [List.getD_eq_getElem?_getD, List.getElem?_eq_getElem hi] at h ⊢
  simp only [Option.getD_some] at h ⊢
  rw [List.drop_eq_getElem_cons hi, List.takeWhile_cons, if_pos (by simpa using h)]

theorem Tacho_process_j1939_di_loop_eq (di : List Nat) :
    ∀ (fuel i : Nat) (cached : List Nat), i ≤ 41 → cached.length = 41 → 41 - i < fuel →
      Tacho_process_j1939_di_loop fuel di i cached
        = cached.take i ++ ((di.drop i).takeWhile (fun b => b != 0)).take (41 - i)
            ++ cached.drop
                (i + min ((di.drop i).takeWhile (fun b => b != 0)).length (41 - i)) := by
  intro fuel
  induction fuel with
  | zero => intro i cached _ _ h; omega
  | succ fuel ih =>
    intro i cached hi hlen hfuel
    simp only [Tacho_process_j1939_di_loop, TACHO_MAX_DI_MSG, TACHO_MAX_DRIVER_ID]
    by_cases hc : di.getD i 0 ≠ 0 ∧ i < 41
    · rw [if_pos hc]
      obtain ⟨hlt, htw⟩ := takeWhile_getD_ne di i hc.1
      have hmod : (i + 1) % 256 = i + 1 := by omega
      rw [hmod, ih (i + 1) _ (by omega) (by simp [hlen]) (by omega), htw]
      have h41 : 41 - i = (41 - (i + 1)) + 1 := by omega
      rw [h41, List.take_succ_cons, List.length_cons]
      have hmin : i + min (((di.drop (i + 1)).takeWhile (fun b => b != 0)).length + 1)
            (41 - (i + 1) + 1)
          = i + 1 + min ((di.drop (i + 1)).takeWhile (fun b => b != 0)).length
            (41 - (i + 1)) := by omega
      rw [hmin]
      have htake : (cached.set i (di.getD i 0)).take (i + 1) = cached.take i ++ [di.getD i 0] := by
        rw [take_succ_getD _ i (by simp [hlen]; exact hc.2), List.set_take,
          List.set_eq_of_length_le (by simp), getD_set_eq, if_pos ⟨rfl, by omega⟩]
      have hdrop : ∀ m, (cached.set i (di.getD i 0)).drop (i + 1 + m) = cached.drop (i + 1 + m) := by
        intro m
        rw [List.drop_set_of_lt _ _ (by omega)]
      rw [htake, hdrop]
      simp
    · rw [if_neg hc]
      by_cases h0 : di.getD i 0 = 0
      · rw [takeWhile_getD_zero di i h0]
        simp
      · have h41 : 41 - i = 0 := by
          have : ¬ i < 41 := fun h => hc ⟨h0, h⟩
          omega
        rw [h41]
        simp

theorem diNonZeroPrefix_take (di : List Nat) :
    (diNonZeroPrefix di).take 41 = di.take (diPrefixLen di) ∧
    (di.take (diPrefixLen di)).length = diPrefixLen di ∧
    (∀ b ∈ di.take (diPrefixLen di), b ≠ 0) := by
  have hp : diNonZeroPrefix di <+: di := List.takeWhile_prefix _
  have he := List.prefix_iff_eq_take.mp hp
  have h1 : (diNonZeroPrefix di).take 41 = di.take (diPrefixLen di) := by
    conv_lhs => rw [he]
    rw [List.take_take]
    unfold diPrefixLen
    simp only [TACHO_MAX_DI_MSG, TACHO_MAX_DRIVER_ID]
    congr 1
    omega
  refine ⟨h1, ?_, ?_⟩
  · rw [← h1, List.length_take]
    unfold diPrefixLen
    simp only [TACHO_MAX_DI_MSG, TACHO_MAX_DRIVER_ID]
    omega
  · intro b hb
    rw [← h1] at hb
    have hb2 := List.mem_of_mem_take hb
    have := List.mem_takeWhile_imp hb2
    simpa using this

/-- C29: bus driver-ID ingestion is a prefix overwrite. For every bus text `di`
and every prior content of the 41-byte driver-ID buffer, with `k` the length of
the longest prefix of non-zero bytes of `di` capped at 41,
`Tacho_process_j1939_di` leaves the buffer holding the first `k` bytes of `di`
followed by the old bytes from index `k` on: every copied byte is non-zero (no
terminator is written), every byte at index `k` or above is unchanged, and
nothing else of the state changes. -/
theorem C29_bus_driver_id_prefix_overwrite (s : Tacho_State) (di : List Nat)
    (hlen : s.Tacho_CachedData.di.length = TACHO_MAX_DI_MSG) :
    (Tacho_process_j1939_di s di).Tacho_CachedData.di
      = di.take (diPrefixLen di) ++ s.Tacho_CachedData.di.drop (diPrefixLen di) ∧
    (di.take (diPrefixLen di)).length = diPrefixLen di ∧
    diPrefixLen di ≤ TACHO_MAX_DI_MSG ∧
    (∀ b ∈ di.take (diPrefixLen di), b ≠ 0) ∧
    (∀ j, j < diPrefixLen di →
      (Tacho_process_j1939_di s di).Tacho_CachedData.di.getD j 0 = di.getD j 0) ∧
    (∀ j, diPrefixLen di ≤ j →
      (Tacho_process_j1939_di s di).Tacho_CachedData.di.getD j 0
        = s.Tacho_CachedData.di.getD j 0) ∧
    (Tacho_process_j1939_di s di).Tacho_CachedData.di.length = TACHO_MAX_DI_MSG ∧
    Tacho_process_j1939_di s di
      = { s with Tacho_CachedData :=
            { s.Tacho_CachedData with
                di := (Tacho_process_j1939_di s di).Tacho_CachedData.di } } := by
  obtain ⟨t1, t2, t3⟩ := diNonZeroPrefix_take di
  have hlen41 : s.Tacho_CachedData.di.length = 41 := hlen
  have hk : diPrefixLen di ≤ 41 := by
    unfold diPrefixLen
    simp only [TACHO_MAX_DI_MSG, TACHO_MAX_DRIVER_ID]
    omega
  have hmain : (Tacho_process_j1939_di s di).Tacho_CachedData.di
      = di.take (diPrefixLen di) ++ s.Tacho_CachedData.di.drop (diPrefixLen di) := by
    show Tacho_process_j1939_di_loop (TACHO_MAX_DI_MSG + 1) di 0 s.Tacho_CachedData.di = _
    rw [Tacho_process_j1939_di_loop_eq di _ 0 _ (by omega) hlen41
      (by simp only [TACHO_MAX_DI_MSG, TACHO_MAX_DRIVER_ID]; omega)]
    simp only [List.drop_zero, List.take_zero, List.nil_append, Nat.sub_zero, Nat.zero_add]
    have ht := t1
    unfold diNonZeroPrefix at ht
    rw [ht]
    rfl
  refine ⟨hmain, t2, hk, t3, ?_, ?_, ?_, rfl⟩
  · intro j hj
    rw [hmain, List.getD_eq_getElem?_getD, List.getD_eq_getElem?_getD,
      List.getElem?_append_left (by rw [t2]; exact hj), List.getElem?_take_of_lt hj]
  · intro j hj
    rw [hmain, List.getD_eq_getElem?_getD, List.getD_eq_getElem?_getD,
      List.getElem?_append_right (by rw [t2]; exact hj), t2, List.getElem?_drop]
    congr 2
    omega
  · rw [hmain, List.length_append, t2, List.length_drop, hlen41]
    simp only [TACHO_MAX_DI_MSG, TACHO_MAX_DRIVER_ID]
    omega

/-- C29 witness: the text "AB" over a buffer holding "WXYZ": the result is "ABYZ". -/
theorem C29_bus_driver_id_prefix_overwrite_witness :
    ({ exampleState with Tacho_CachedData :=
        { exampleState.Tacho_CachedData with
            di := [87, 88, 89, 90] ++ List.replicate 37 0 } } : Tacho_State).Tacho_CachedData.di.length
      = TACHO_MAX_DI_MSG ∧
    (Tacho_process_j1939_di
        { exampleState with Tacho_CachedData :=
            { exampleState.Tacho_CachedData with
                di := [87, 88, 89, 90] ++ List.replicate 37 0 } }
        [65, 66, 0]).Tacho_CachedData.di
      = [65, 66] ++ ([89, 90] ++ List.replicate 37 0) :=
  ⟨by decide,
   (C29_bus_driver_id_prefix_overwrite
      { exampleState with Tacho_CachedData :=
          { exampleState.Tacho_CachedData with
              di := [87, 88, 89, 90] ++ List.replicate 37 0 } }
      [65, 66, 0] (by decide)).1⟩

theorem Tacho_Task_body_queue (s : Tacho_State) (b : Nat) :
    (Tacho_Task_body s b).Tacho_RxQueue = s.Tacho_RxQueue := by
  have h := Tacho_Task_body_setQ s s.Tacho_RxQueue b
  have hs : setQ s s.Tacho_RxQueue = s := rfl
  rw [hs] at h
  rw [h]
  rfl

theorem Tacho_FetchByte_counters (q : Tacho_RxQueue_t) :
    (Tacho_FetchByte q).1.error_counter = q.error_counter ∧
    (Tacho_FetchByte q).1.failed_attempts = q.failed_attempts := by
  unfold Tacho_FetchByte
  split <;> exact ⟨rfl, rfl⟩

theorem Tacho_Task_loop_keeps (fuel : Nat) :
    ∀ s : Tacho_State,
      selection (Tacho_Task_loop fuel s) = selection s ∧
      storageWrites (Tacho_Task_loop fuel s).trace = storageWrites s.trace ∧
      (Tacho_Task_loop fuel s).Tacho_RxQueue.error_counter = s.Tacho_RxQueue.error_counter ∧
      (Tacho_Task_loop fuel s).Tacho_RxQueue.failed_attempts
        = s.Tacho_RxQueue.failed_attempts := by
  induction fuel with
  | zero => intro s; exact ⟨rfl, rfl, rfl, rfl⟩
  | succ fuel ih =>
    intro s
    obtain ⟨c1, c2⟩ := Tacho_FetchByte_counters s.Tacho_RxQueue
    simp only [Tacho_Task_loop]
    cases hf : Tacho_FetchByte s.Tacho_RxQueue with
    | mk q r =>
      rw [hf] at c1 c2
      cases r with
      | none => exact ⟨rfl, rfl, rfl, rfl⟩
      | some b =>
        simp only
        obtain ⟨i1, i2, i3, i4⟩ := ih (Tacho_Task_body { s with Tacho_RxQueue := q } b)
        rw [i1, i2, i3, i4, body_selection, storageWrites_body, Tacho_Task_body_queue]
        exact ⟨rfl, rfl, c1, c2⟩

theorem Tacho_Task_quiet (s : Tacho_State) (h : s.Tacho_RxQueue.error_counter < 5) :
    selection (Tacho_Task s) = selection s ∧
    storageWrites (Tacho_Task s).trace = storageWrites s.trace ∧
    (Tacho_Task s).Tacho_RxQueue.error_counter = 0 ∧
    (Tacho_Task s).Tacho_RxQueue.failed_attempts = s.Tacho_RxQueue.failed_attempts := by
  rw [Tacho_Task_below s h]
  unfold Tacho_Task_drain
  obtain ⟨i1, i2, i3, i4⟩ := Tacho_Task_loop_keeps (s.Tacho_RxQueue.count + 1)
    { s with Tacho_RxQueue := { s.Tacho_RxQueue with error_counter := 0 } }
  exact ⟨i1, i2, i3, i4⟩

theorem runTicks_quiet (evs : List (List IsrEvent)) :
    ∀ t : Tacho_State, QueueInv t.Tacho_RxQueue → t.Tacho_RxQueue.error_counter = 0 →
      (∀ ev ∈ evs, faultCount ev % 65536 < 5) →
      QueueInv (runTicks t evs).Tacho_RxQueue ∧
      (runTicks t evs).Tacho_RxQueue.error_counter = 0 ∧
      (runTicks t evs).Tacho_RxQueue.failed_attempts = t.Tacho_RxQueue.failed_attempts ∧
      selection (runTicks t evs) = selection t ∧
      storageWrites (runTicks t evs).trace = storageWrites t.trace := by
  induction evs with
  | nil => intro t h1 h2 _; exact ⟨h1, h2, rfl, rfl, rfl⟩
  | cons ev evs ih =>
    intro t hinv hec hq
    have hstep : runTicks t (ev :: evs) = runTicks (Tacho_Task (arrive t ev)) evs := rfl
    obtain ⟨a1, a2, a3⟩ := arriveQ_fields ev _ hinv (by rw [hec]; decide)
    rw [hec, Nat.zero_add] at a3
    have harr := arrive_eq ev t
    have hlt : (arrive t ev).Tacho_RxQueue.error_counter < 5 := by
      rw [harr]
      show (arriveQ _ _).error_counter < 5
      rw [a3]
      exact hq ev (List.mem_cons_self _ _)
    obtain ⟨q1, q2, q3, q4⟩ := Tacho_Task_quiet (arrive t ev) hlt
    have hinv' : QueueInv (Tacho_Task (arrive t ev)).Tacho_RxQueue := by
      rw [Tacho_Task_run (arrive t ev) (by rw [harr]; exact a1) hlt]
      exact queueInv_drainQ _ (by rw [harr]; exact a1)
    obtain ⟨r1, r2, r3, r4, r5⟩ := ih _ hinv' q3
      (fun x hx => hq x (List.mem_cons_of_mem _ hx))
    rw [hstep]
    refine ⟨r1, r2, ?_, ?_, ?_⟩
    · rw [r3, q4, harr]; exact a2
    · rw [r4, q1, harr]; rfl
    · rw [r5, q2, harr]; rfl

theorem fallback_after_quiet (s : Tacho_State) (std : Tacho_Standard_t) (um : Bool)
    (ev1 ev2 : List IsrEvent) (evs : List (List IsrEvent))
    (hstd : std = Tacho_Standard_t.TACHO_STANDARD_VDO
      ∨ std = Tacho_Standard_t.TACHO_STANDARD_STONERIDGE)
    (hlen : s.Tacho_RxQueue.data.length = TACHO_RX_QUEUE_SIZE)
    (h1 : 5 ≤ faultCount ev1 % 65536)
    (hq : ∀ ev ∈ evs, faultCount ev % 65536 < 5)
    (h2 : 5 ≤ faultCount ev2 % 65536) :
    (runTicks (fallbackT1 s std um ev1) evs).Tacho_SelectedStandard = std ∧
    (runTicks (fallbackT1 s std um ev1) evs).Tacho_RxQueue.failed_attempts = 1 ∧
    (Tacho_Task (arrive (runTicks (fallbackT1 s std um ev1) evs) ev2)).Tacho_SelectedStandard
      = otherStandard std ∧
    storageWrites (Tacho_Task (arrive (runTicks (fallbackT1 s std um ev1) evs) ev2)).trace
      = storageWrites (fallbackT1 s std um ev1).trace ++ [(otherStandard std).toNat] := by
  obtain ⟨f1, f2, _, f4, f5, _, f7⟩ := fallback_first s std um ev1 hstd hlen h1
  obtain ⟨r1, r2, r3, r4, r5⟩ := runTicks_quiet evs _ f7 f5 hq
  generalize runTicks (fallbackT1 s std um ev1) evs = Q at r1 r2 r3 r4 r5 ⊢
  have hsel : Q.Tacho_SelectedStandard = std := by
    have := r4
    simp only [selection, Prod.mk.injEq] at this
    rw [this.1, f2]
  obtain ⟨a1, a2, a3⟩ := arriveQ_fields ev2 _ r1 (by rw [r2]; decide)
  rw [r2, Nat.zero_add] at a3
  rw [r3, f4] at a2
  have harr := arrive_eq ev2 Q
  have hsw := Tacho_Task_switch (arrive Q ev2)
    (by rw [harr]; show 5 ≤ (arriveQ _ _).error_counter; rw [a3]; exact h2)
    (by rw [harr]; show 2 ≤ ((arriveQ _ _).failed_attempts + 1) % 256; rw [a2])
  have hselA : (arrive Q ev2).Tacho_SelectedStandard = std := by rw [harr]; exact hsel
  refine ⟨hsel, by rw [r3, f4], ?_, ?_⟩
  · rw [hsw, hselA]
    rcases hstd with h | h <;> subst h
    · rw [show otherStandard Tacho_Standard_t.TACHO_STANDARD_VDO
          = Tacho_Standard_t.TACHO_STANDARD_STONERIDGE by decide, Tacho_SelectStandard_stoneridge]
    · rw [show otherStandard Tacho_Standard_t.TACHO_STANDARD_STONERIDGE
          = Tacho_Standard_t.TACHO_STANDARD_VDO by decide, Tacho_SelectStandard_vdo]
  · rw [hsw, hselA]
    have htr : (arrive Q ev2).trace = Q.trace := by rw [harr]; rfl
    rcases hstd with h | h <;> subst h
    · rw [show otherStandard Tacho_Standard_t.TACHO_STANDARD_VDO
          = Tacho_Standard_t.TACHO_STANDARD_STONERIDGE by decide, Tacho_SelectStandard_stoneridge]
      show storageWrites ((arrive Q ev2).trace ++ _) = _
      rw [htr, storageWrites_append, r5]
      rfl
    · rw [show otherStandard Tacho_Standard_t.TACHO_STANDARD_STONERIDGE
          = Tacho_Standard_t.TACHO_STANDARD_VDO by decide, Tacho_SelectStandard_vdo]
      show storageWrites ((arrive Q ev2).trace ++ _) = _
      rw [htr, storageWrites_append, r5]
      rfl

/-- C25: below-threshold tick. For every decoder state whose framing-fault
counter is below 5 when `Tacho_Task` is called, the call leaves the active
protocol (selector, configuration and state machine) unchanged, issues no
storage write, sets the framing-fault counter to 0 and leaves the
failed-attempts counter as it was. Hence, after a fresh selection, an
above-threshold tick followed by any number of below-threshold ticks and one
more above-threshold tick still switches the protocol (fault counts are taken
modulo 65536, the width of the counter). -/
theorem C25_below_threshold_tick (s : Tacho_State) (h : s.Tacho_RxQueue.error_counter < 5) :
    (Tacho_Task s).Tacho_SelectedStandard = s.Tacho_SelectedStandard ∧
    (Tacho_Task s).Tacho_Proto = s.Tacho_Proto ∧
    (Tacho_Task s).Tacho_Handler = s.Tacho_Handler ∧
    storageWrites (Tacho_Task s).trace = storageWrites s.trace ∧
    (Tacho_Task s).Tacho_RxQueue.error_counter = 0 ∧
    (Tacho_Task s).Tacho_RxQueue.failed_attempts = s.Tacho_RxQueue.failed_attempts ∧
    (∀ (s0 : Tacho_State) (std : Tacho_Standard_t) (um : Bool) (ev1 ev2 : List IsrEvent)
        (evs : List (List IsrEvent)),
      (std = Tacho_Standard_t.TACHO_STANDARD_VDO
        ∨ std = Tacho_Standard_t.TACHO_STANDARD_STONERIDGE) →
      s0.Tacho_RxQueue.data.length = TACHO_RX_QUEUE_SIZE →
      5 ≤ faultCount ev1 % 65536 →
      (∀ ev ∈ evs, faultCount ev % 65536 < 5) →
      5 ≤ faultCount ev2 % 65536 →
      (runTicks (fallbackT1 s0 std um ev1) evs).Tacho_SelectedStandard = std ∧
      (runTicks (fallbackT1 s0 std um ev1) evs).Tacho_RxQueue.failed_attempts = 1 ∧
      (Tacho_Task (arrive (runTicks (fallbackT1 s0 std um ev1) evs) ev2)).Tacho_SelectedStandard
        = otherStandard std) := by
  obtain ⟨q1, q2, q3, q4⟩ := Tacho_Task_quiet s h
  simp only [selection, Prod.mk.injEq] at q1
  refine ⟨q1.1, q1.2.1, q1.2.2, q2, q3, q4, ?_⟩
  intro s0 std um ev1 ev2 evs hstd hlen h1 hq h2
  obtain ⟨a, b, c, _⟩ := fallback_after_quiet s0 std um ev1 ev2 evs hstd hlen h1 hq h2
  exact ⟨a, b, c⟩

/-- C25 witness: one earlier failed attempt, 4 pending faults and a queued byte. -/
theorem C25_below_threshold_tick_witness :
    ({ exampleState with Tacho_RxQueue := ⟨0x55 :: List.replicate 127 0, 0, 1, 1, 4, 1⟩ }
      : Tacho_State).Tacho_RxQueue.error_counter < 5 ∧
    (Tacho_Task { exampleState with
        Tacho_RxQueue := ⟨0x55 :: List.replicate 127 0, 0, 1, 1, 4, 1⟩ }).Tacho_RxQueue.failed_attempts
      = 1 ∧
    (Tacho_Task { exampleState with
        Tacho_RxQueue := ⟨0x55 :: List.replicate 127 0, 0, 1, 1, 4, 1⟩ }).Tacho_RxQueue.error_counter
      = 0 :=
  ⟨by decide,
   (C25_below_threshold_tick
      { exampleState with Tacho_RxQueue := ⟨0x55 :: List.replicate 127 0, 0, 1, 1, 4, 1⟩ }
      (by decide)).2.2.2.2.2.1,
   (C25_below_threshold_tick
      { exampleState with Tacho_RxQueue := ⟨0x55 :: List.replicate 127 0, 0, 1, 1, 4, 1⟩ }
      (by decide)).2.2.2.2.1⟩

/-- C26: evaluation at the failing input. After start-up (VDO), the bytes
55 44 54 43 and two above-threshold ticks, the active protocol is Stoneridge,
whose start sequence has 3 bytes, while the detector is still unsynchronised
with match-index 4. When the next byte arrives, `Tacho_Task` compares it with
`start_seq[4]`: the lookup reads past the end of the sequence. -/
theorem C26_sync_index_out_of_bounds_after_switch :
    exampleStaleIndex.Tacho_SelectedStandard = Tacho_Standard_t.TACHO_STANDARD_STONERIDGE ∧
    exampleStaleIndex.Tacho_Proto = some ⟨[0xFF, 0xFF, 0xFF], 3, 1200⟩ ∧
    exampleStaleIndex.perform_sync = true ∧
    exampleStaleIndex.index = 4 ∧
    (Tacho_Task (arrive exampleStaleIndex [IsrEvent.rx 0xFF])).trace
      = exampleStaleIndex.trace ++ [Tacho_Event.start_seq_read_past_end 4] := by
  decide

/-- C22: evaluation at the failing input. From the Stoneridge decoder as
`Tacho_Init` leaves it, two streams are processed that are identical except for
one byte inside their first frame. That frame is discarded in both (checksum
mismatch: after it the call log and the cache are what they were), the second
frame is validated in both, and yet the driver-ID text published afterwards
differs: it carries the card-number byte of the discarded frame. -/
theorem C22_discarded_frame_reaches_cache :
    exampleStreamA.take 33 = exampleStreamB.take 33 ∧
    exampleStreamA.drop 34 = exampleStreamB.drop 34 ∧
    (runChunks (Tacho_Init Tacho_State.startup (some 1)) [exampleStreamA.take 48]).trace
      = (Tacho_Init Tacho_State.startup (some 1)).trace ∧
    (runChunks (Tacho_Init Tacho_State.startup (some 1)) [exampleStreamB.take 48]).trace
      = (Tacho_Init Tacho_State.startup (some 1)).trace ∧
    (runChunks (Tacho_Init Tacho_State.startup (some 1)) [exampleStreamA.take 48]).Tacho_CachedData
      = (Tacho_Init Tacho_State.startup (some 1)).Tacho_CachedData ∧
    (runChunks (Tacho_Init Tacho_State.startup (some 1)) [exampleStreamB.take 48]).Tacho_CachedData
      = (Tacho_Init Tacho_State.startup (some 1)).Tacho_CachedData ∧
    (runChunks (Tacho_Init Tacho_State.startup (some 1)) [exampleStreamA.take 48]).perform_sync
      = true ∧
    (runChunks (Tacho_Init Tacho_State.startup (some 1)) [exampleStreamB.take 48]).perform_sync
      = true ∧
    (runChunks (Tacho_Init Tacho_State.startup (some 1)) [exampleStreamA]).trace
      = (Tacho_Init Tacho_State.startup (some 1)).trace
          ++ [Tacho_Event.CopyToCache, Tacho_Event.NotifyFrameReceived,
              Tacho_Event.FMI_process_j1939_event_TCO1_AVAILABLE] ∧
    (runChunks (Tacho_Init Tacho_State.startup (some 1)) [exampleStreamB]).trace
      = (Tacho_Init Tacho_State.startup (some 1)).trace
          ++ [Tacho_Event.CopyToCache, Tacho_Event.NotifyFrameReceived,
              Tacho_Event.FMI_process_j1939_event_TCO1_AVAILABLE] ∧
    (runChunks (Tacho_Init Tacho_State.startup (some 1)) [exampleStreamA]).Tacho_CachedData.di
      = [68, 32, 32, 49, 50, 51, 52, 53, 54, 55, 56, 57, 48, 0, 0, 0, 0, 0, 0, 42, 42, 0]
          ++ List.replicate 19 0 ∧
    (runChunks (Tacho_Init Tacho_State.startup (some 1)) [exampleStreamB]).Tacho_CachedData.di
      = [68, 32, 32, 50, 50, 51, 52, 53, 54, 55, 56, 57, 48, 0, 0, 0, 0, 0, 0, 42, 42, 0]
          ++ List.replicate 19 0 ∧
    (runChunks (Tacho_Init Tacho_State.startup (some 1)) [exampleStreamA]).Tacho_CachedData.di
      ≠ (runChunks (Tacho_Init Tacho_State.startup (some 1)) [exampleStreamB]).Tacho_CachedData.di := by
  refine ⟨by decide, by decide, by decide, by decide, by decide, by decide, by decide, by decide,
    by decide, by decide, by decide, by decide, by decide⟩

theorem vdoByte_take (bs : List Nat) (n i : Nat) (h : i - 5 < n) :
    vdoByte (bs.take n) i = vdoByte bs i := by
  unfold vdoByte
  simp only [TACHO_VDO_SEQSZ]
  rw [List.getD_eq_getElem?_getD, List.getD_eq_getElem?_getD, List.getElem?_take_of_lt h]

theorem vdoPos_take (bs : List Nat) (n : Nat) (h : vdoCrcPos bs - 5 < n) :
    vdoCstrPos (bs.take n) = vdoCstrPos bs ∧ vdoDrv1Pos (bs.take n) = vdoDrv1Pos bs ∧
    vdoDrv2Pos (bs.take n) = vdoDrv2Pos bs ∧ vdoCrcPos (bs.take n) = vdoCrcPos bs := by
  have hc : vdoCrcPos bs = vdoDrv2Pos bs + vdoByte bs (vdoDrv2Pos bs) + 1 := rfl
  have h2 : vdoDrv2Pos bs = vdoDrv1Pos bs + vdoByte bs (vdoDrv1Pos bs) + 1 := rfl
  have h1 : vdoDrv1Pos bs = vdoCstrPos bs + vdoByte bs (vdoCstrPos bs) + 1 := rfl
  have h0 : vdoCstrPos bs = 34 + vdoByte bs 34 + 1 := rfl
  have e0 : vdoCstrPos (bs.take n) = vdoCstrPos bs := by
    show 34 + vdoByte (bs.take n) 34 + 1 = _
    rw [vdoByte_take bs n 34 (by omega), h0]
  have e1 : vdoDrv1Pos (bs.take n) = vdoDrv1Pos bs := by
    show vdoCstrPos (bs.take n) + vdoByte (bs.take n) (vdoCstrPos (bs.take n)) + 1 = _
    rw [e0, vdoByte_take bs n _ (by omega), ← h1]
  have e2 : vdoDrv2Pos (bs.take n) = vdoDrv2Pos bs := by
    show vdoDrv1Pos (bs.take n) + vdoByte (bs.take n) (vdoDrv1Pos (bs.take n)) + 1 = _
    rw [e1, vdoByte_take bs n _ (by omega), ← h2]
  have e3 : vdoCrcPos (bs.take n) = vdoCrcPos bs := by
    show vdoDrv2Pos (bs.take n) + vdoByte (bs.take n) (vdoDrv2Pos (bs.take n)) + 1 = _
    rw [e2, vdoByte_take bs n _ (by omega), ← hc]
  exact ⟨e0, e1, e2, e3⟩

theorem vdoLayout_take (bs : List Nat) (hno : vdoCrcPos bs ≤ 255)
    (hlong : vdoCrcPos bs - 5 < bs.length) :
    VdoLayout (bs.take (vdoCrcPos bs - 5 + 1)) := by
  obtain ⟨_, _, _, e3⟩ := vdoPos_take bs (vdoCrcPos bs - 5 + 1) (by omega)
  refine ⟨by rw [e3]; exact hno, ?_⟩
  rw [e3, List.length_take]
  simp only [TACHO_VDO_SEQSZ]
  omega

/-- C24: VDO chained boundaries and frame end. For every byte sequence fed to
`Tacho_VdoHandler` from the initial run-state, with `N` the byte at offset 34,
`M` the byte at offset 35+N, `L1` the byte at offset 36+N+M and `L2` the byte at
offset 37+N+M+L1: if 38+N+M+L1+L2 is at most 255 and the sequence reaches that
offset, then the driver-1 field starts at 36+N+M, the driver-2 field at driver-1
start + L1 + 1 and the checksum position is driver-2 start + L2 + 1 =
38+N+M+L1+L2; these are the values the run-state holds once the byte that
determines them has been processed; the handler reports not-complete for every
byte before the checksum position and frame-complete exactly there. -/
theorem C24_vdo_chained_boundaries (s : Tacho_State) (bs : List Nat)
    (hinit : s.vdo = vdoInitial)
    (hno : 38 + vdoByte bs 34 + vdoByte bs (35 + vdoByte bs 34)
        + vdoByte bs (36 + vdoByte bs 34 + vdoByte bs (35 + vdoByte bs 34))
        + vdoByte bs (37 + vdoByte bs 34 + vdoByte bs (35 + vdoByte bs 34)
            + vdoByte bs (36 + vdoByte bs 34 + vdoByte bs (35 + vdoByte bs 34))) ≤ 255)
    (hlong : vdoCrcPos bs - 5 < bs.length) :
    vdoDrv1Pos bs = 36 + vdoByte bs 34 + vdoByte bs (35 + vdoByte bs 34) ∧
    vdoDrv2Pos bs = vdoDrv1Pos bs + vdoByte bs (vdoDrv1Pos bs) + 1 ∧
    vdoCrcPos bs = vdoDrv2Pos bs + vdoByte bs (vdoDrv2Pos bs) + 1 ∧
    vdoCrcPos bs = 38 + vdoByte bs 34 + vdoByte bs (35 + vdoByte bs 34)
        + vdoByte bs (36 + vdoByte bs 34 + vdoByte bs (35 + vdoByte bs 34))
        + vdoByte bs (37 + vdoByte bs 34 + vdoByte bs (35 + vdoByte bs 34)
            + vdoByte bs (36 + vdoByte bs 34 + vdoByte bs (35 + vdoByte bs 34))) ∧
    (feed Tacho_VdoHandler s (bs.take (vdoDrv1Pos bs - 5 + 1))).1.vdo.drv2_pos = vdoDrv2Pos bs ∧
    (feed Tacho_VdoHandler s (bs.take (vdoDrv2Pos bs - 5 + 1))).1.vdo.crc8_pos = vdoCrcPos bs ∧
    (∀ k, k ≤ vdoCrcPos bs - 5 →
      (feed Tacho_VdoHandler s (bs.take k)).2 = List.replicate k false) ∧
    (feed Tacho_VdoHandler s (bs.take (vdoCrcPos bs - 5 + 1))).2
      = List.replicate (vdoCrcPos bs - 5) false ++ [true] := by
  have hP1 : vdoDrv1Pos bs = 36 + vdoByte bs 34 + vdoByte bs (35 + vdoByte bs 34) := by
    show 34 + vdoByte bs 34 + 1 + vdoByte bs (34 + vdoByte bs 34 + 1) + 1 = _
    have e : 34 + vdoByte bs 34 + 1 = 35 + vdoByte bs 34 := by omega
    rw [e]
    omega
  have hP2 : vdoDrv2Pos bs = vdoDrv1Pos bs + vdoByte bs (vdoDrv1Pos bs) + 1 := rfl
  have hPC : vdoCrcPos bs = vdoDrv2Pos bs + vdoByte bs (vdoDrv2Pos bs) + 1 := rfl
  have hP2' : vdoDrv2Pos bs = 37 + vdoByte bs 34 + vdoByte bs (35 + vdoByte bs 34)
      + vdoByte bs (36 + vdoByte bs 34 + vdoByte bs (35 + vdoByte bs 34)) := by
    rw [hP2, hP1]
    omega
  have hPC' : vdoCrcPos bs = 38 + vdoByte bs 34 + vdoByte bs (35 + vdoByte bs 34)
      + vdoByte bs (36 + vdoByte bs 34 + vdoByte bs (35 + vdoByte bs 34))
      + vdoByte bs (37 + vdoByte bs 34 + vdoByte bs (35 + vdoByte bs 34)
          + vdoByte bs (36 + vdoByte bs 34 + vdoByte bs (35 + vdoByte bs 34))) := by
    rw [hPC, hP2']
    omega
  have hno' : vdoCrcPos bs ≤ 255 := by rw [hPC']; exact hno
  have hlay := vdoLayout_take bs hno' hlong
  obtain ⟨_, e1, e2, e3⟩ := vdoPos_take bs (vdoCrcPos bs - 5 + 1) (by omega)
  have htake : ∀ k, k ≤ vdoCrcPos bs - 5 + 1 →
      (bs.take (vdoCrcPos bs - 5 + 1)).take k = bs.take k := by
    intro k hk
    rw [List.take_take, Nat.min_eq_left hk]
  have hrun := vdo_run _ hlay s hinit
  rw [e3] at hrun
  obtain ⟨c1, _⟩ := vdo_complete _ hlay s hinit
  rw [e3] at c1
  refine ⟨hP1, hP2, hPC, hPC', ?_, ?_, ?_, c1⟩
  · obtain ⟨_, r2, _⟩ := hrun (vdoDrv1Pos bs - 5 + 1) (by omega)
    rw [htake _ (by omega)] at r2
    rw [r2]
    simp only [vdoAt, e1, e2]
    rw [if_pos (by omega)]
  · obtain ⟨_, r2, _⟩ := hrun (vdoDrv2Pos bs - 5 + 1) (by omega)
    rw [htake _ (by omega)] at r2
    rw [r2]
    simp only [vdoAt, e2, e3]
    rw [if_pos (by omega)]
  · intro k hk
    obtain ⟨r1, _, _⟩ := hrun k (by omega)
    rw [htake _ (by omega)] at r1
    exact r1

/-- C24 witness: the minimal VDO frame (N = M = L1 = L2 = 0), followed by two more bytes. -/
theorem C24_vdo_chained_boundaries_witness :
    exampleState.vdo = vdoInitial ∧
    vdoCrcPos (exampleVdoFrame ++ [7, 7]) - 5 < (exampleVdoFrame ++ [7, 7]).length ∧
    vdoCrcPos (exampleVdoFrame ++ [7, 7]) = 38 ∧
    (feed Tacho_VdoHandler exampleState
        ((exampleVdoFrame ++ [7, 7]).take (vdoCrcPos (exampleVdoFrame ++ [7, 7]) - 5 + 1))).2
      = List.replicate (vdoCrcPos (exampleVdoFrame ++ [7, 7]) - 5) false ++ [true] :=
  ⟨rfl, by decide, by decide,
   (C24_vdo_chained_boundaries exampleState (exampleVdoFrame ++ [7, 7]) rfl (by decide)
      (by decide)).2.2.2.2.2.2.2⟩

theorem srByte_take (bs : List Nat) (n i : Nat) (h : i - 3 < n) :
    srByte (bs.take n) i = srByte bs i := by
  unfold srByte
  simp only [TACHO_SR_SEQSZ]
  rw [List.getD_eq_getElem?_getD, List.getD_eq_getElem?_getD, List.getElem?_take_of_lt h]

theorem sr_bad_length (s : Tacho_State) (bs : List Nat) (hinit : s.sr = srInitial)
    (hlen : 1 ≤ bs.length) (hbad : srByte bs 3 < 45 ∨ 48 < srByte bs 3) :
    feed Tacho_StoneridgeHandler s (bs.take 1) = (s, [true]) := by
  have h1 : bs.take 1 = [srByte bs 3] := by
    have := take_succ_getD bs 0 (by omega)
    simpa [srByte, TACHO_SR_SEQSZ] using this
  have hsw : (Tacho_StoneridgeHandler_switch s (srByte bs 3)).2 = true :=
    (Tacho_StoneridgeHandler_switch_flag s _).mpr (Or.inl ⟨by rw [hinit]; rfl, by omega⟩)
  rw [h1]
  simp only [feed]
  rw [Tacho_StoneridgeHandler_discard s _ hsw, Tacho_StoneridgeInitHandler_of_initial s hinit]

theorem sr_bad_type (s : Tacho_State) (bs : List Nat) (hinit : s.sr = srInitial)
    (hlen : 2 ≤ bs.length) (h1 : 45 ≤ srByte bs 3) (h2 : srByte bs 3 ≤ 48)
    (hbad : ¬ (srByte bs 4 = 1 ∨ srByte bs 4 = 2 ∨ srByte bs 4 = 4 ∨ srByte bs 4 = 8)) :
    feed Tacho_StoneridgeHandler s (bs.take 2) = (s, [false, true]) ∧
    (feed Tacho_StoneridgeHandler s (bs.take 1)).2 = [false] ∧
    (feed Tacho_StoneridgeHandler s (bs.take 1)).1.sr.index = 4 ∧
    (feed Tacho_StoneridgeHandler s (bs.take 1)).1.sr.crc8_pos = srByte bs 3 + 2 := by
  have ht1 : bs.take 1 = [srByte bs 3] := by
    have := take_succ_getD bs 0 (by omega)
    simpa [srByte, TACHO_SR_SEQSZ] using this
  have ht2 : bs.take 2 = [srByte bs 3, srByte bs 4] := by
    have e1 := take_succ_getD bs 1 (by omega)
    rw [e1, ht1]
    rfl
  have hok := Tacho_StoneridgeHandler_length_ok s _ hinit h1 h2
  have hsw : (Tacho_StoneridgeHandler_switch (Tacho_StoneridgeHandler s (srByte bs 3)).1
      (srByte bs 4)).2 = true :=
    (Tacho_StoneridgeHandler_switch_flag _ _).mpr (Or.inr ⟨by rw [hok], hbad⟩)
  refine ⟨?_, ?_, ?_, ?_⟩
  · rw [ht2]
    simp only [feed]
    rw [Tacho_StoneridgeHandler_discard _ _ hsw, hok]
    simp only [Tacho_StoneridgeInitHandler, Prod.mk.injEq, and_true]
    rw [← hinit]
  · rw [ht1]; simp only [feed]; rw [hok]
  · rw [ht1]; simp only [feed]; rw [hok]
  · rw [ht1]; simp only [feed]; rw [hok]
    show 3 + srByte bs 3 - 1 = _
    omega

theorem srLayout_take (bs : List Nat) (h1 : 45 ≤ srByte bs 3) (h2 : srByte bs 3 ≤ 48)
    (ht : srByte bs 4 = 1 ∨ srByte bs 4 = 2 ∨ srByte bs 4 = 4 ∨ srByte bs 4 = 8)
    (hlen : srByte bs 3 ≤ bs.length) :
    SrLayout (bs.take (srByte bs 3)) ∧ srByte (bs.take (srByte bs 3)) 3 = srByte bs 3 := by
  have e3 := srByte_take bs (srByte bs 3) 3 (by omega)
  have e4 := srByte_take bs (srByte bs 3) 4 (by omega)
  refine ⟨⟨by rw [e3]; exact h1, by rw [e3]; exact h2, by rw [e4]; exact ht, ?_⟩, e3⟩
  rw [e3, List.length_take]
  omega

theorem sr_after_length (s : Tacho_State) (bs : List Nat) (hinit : s.sr = srInitial)
    (hlen : 1 ≤ bs.length) (h1 : 45 ≤ srByte bs 3) (h2 : srByte bs 3 ≤ 48) :
    (feed Tacho_StoneridgeHandler s (bs.take 1)).2 = [false] ∧
    (feed Tacho_StoneridgeHandler s (bs.take 1)).1.sr.index = 4 ∧
    (feed Tacho_StoneridgeHandler s (bs.take 1)).1.sr.crc8_pos = srByte bs 3 + 2 := by
  have ht1 : bs.take 1 = [srByte bs 3] := by
    have := take_succ_getD bs 0 (by omega)
    simpa [srByte, TACHO_SR_SEQSZ] using this
  have hok := Tacho_StoneridgeHandler_length_ok s _ hinit h1 h2
  rw [ht1]
  simp only [feed]
  rw [hok]
  refine ⟨rfl, rfl, ?_⟩
  show 3 + srByte bs 3 - 1 = _
  omega

/-- C28: Stoneridge frames always end. For every byte sequence fed to
`Tacho_StoneridgeHandler` from the initial run-state, the handler reports
frame-complete after `srFrameLen` bytes, which is 1 on a bad length byte, 2 on
a bad message type and otherwise the length byte `L`, hence at most 48, and
not before; the run-state is then initial again, and after every shorter
prefix the index does not exceed the checksum position. -/
theorem C28_stoneridge_frames_always_end (s : Tacho_State) (bs : List Nat)
    (hinit : s.sr = srInitial) (hlen : srFrameLen bs ≤ bs.length) :
    1 ≤ srFrameLen bs ∧ srFrameLen bs ≤ 48 ∧
    ((srByte bs 3 < 45 ∨ 48 < srByte bs 3) → srFrameLen bs = 1) ∧
    (45 ≤ srByte bs 3 → srByte bs 3 ≤ 48 →
      ¬ (srByte bs 4 = 1 ∨ srByte bs 4 = 2 ∨ srByte bs 4 = 4 ∨ srByte bs 4 = 8) →
      srFrameLen bs = 2) ∧
    (45 ≤ srByte bs 3 → srByte bs 3 ≤ 48 →
      (srByte bs 4 = 1 ∨ srByte bs 4 = 2 ∨ srByte bs 4 = 4 ∨ srByte bs 4 = 8) →
      srFrameLen bs = srByte bs 3) ∧
    (feed Tacho_StoneridgeHandler s (bs.take (srFrameLen bs))).2
      = List.replicate (srFrameLen bs - 1) false ++ [true] ∧
    (feed Tacho_StoneridgeHandler s (bs.take (srFrameLen bs))).1.sr = srInitial ∧
    (∀ k, k < srFrameLen bs →
      (feed Tacho_StoneridgeHandler s (bs.take k)).2 = List.replicate k false ∧
      (feed Tacho_StoneridgeHandler s (bs.take k)).1.sr.index
        ≤ (feed Tacho_StoneridgeHandler s (bs.take k)).1.sr.crc8_pos) := by
  have hk0 : (feed Tacho_StoneridgeHandler s (bs.take 0)).2 = List.replicate 0 false ∧
      (feed Tacho_StoneridgeHandler s (bs.take 0)).1.sr.index
        ≤ (feed Tacho_StoneridgeHandler s (bs.take 0)).1.sr.crc8_pos := by
    refine ⟨rfl, ?_⟩
    show s.sr.index ≤ s.sr.crc8_pos
    rw [hinit]
    decide
  by_cases hb : srByte bs 3 < 45 ∨ 48 < srByte bs 3
  · have hn : srFrameLen bs = 1 := by unfold srFrameLen; rw [if_pos hb]
    rw [hn] at hlen ⊢
    have h := sr_bad_length s bs hinit hlen hb
    refine ⟨by omega, by omega, fun _ => rfl, fun h1 h2 => by omega, fun h1 h2 => by omega,
      by rw [h]; rfl, by rw [h]; exact hinit, ?_⟩
    intro k hk
    have : k = 0 := by omega
    subst this
    exact hk0
  · have h1 : 45 ≤ srByte bs 3 := by omega
    have h2 : srByte bs 3 ≤ 48 := by omega
    by_cases ht : srByte bs 4 = 1 ∨ srByte bs 4 = 2 ∨ srByte bs 4 = 4 ∨ srByte bs 4 = 8
    · have hn : srFrameLen bs = srByte bs 3 := by
        unfold srFrameLen
        rw [if_neg hb, if_neg (not_not.mpr ht)]
      rw [hn] at hlen ⊢
      obtain ⟨hlay, e3⟩ := srLayout_take bs h1 h2 ht hlen
      obtain ⟨c1, c2, _, _⟩ := sr_complete _ hlay s hinit
      rw [e3] at c1
      have htake : ∀ k, k ≤ srByte bs 3 → (bs.take (srByte bs 3)).take k = bs.take k := by
        intro k hk
        rw [List.take_take, Nat.min_eq_left hk]
      refine ⟨by omega, h2, fun h => absurd h hb, fun _ _ h => absurd ht h, fun _ _ _ => rfl,
        c1, by rw [c2]; rfl, ?_⟩
      intro k hk
      rcases Nat.lt_or_ge k 2 with hk2 | hk2
      · rcases Nat.eq_zero_or_pos k with h0 | hpos
        · subst h0; exact hk0
        · have hk1 : k = 1 := by omega
          subst hk1
          obtain ⟨a1, a2, a3⟩ := sr_after_length s bs hinit (by omega) h1 h2
          exact ⟨a1, by rw [a2, a3]; omega⟩
      · obtain ⟨r1, r2, r3, _⟩ := sr_run _ hlay s hinit k hk2 (by rw [e3]; omega)
        rw [htake k (by omega)] at r1 r2 r3
        rw [e3] at r3
        exact ⟨r1, by rw [r2, r3]; omega⟩
    · have hn : srFrameLen bs = 2 := by
        unfold srFrameLen
        rw [if_neg hb, if_pos ht]
      rw [hn] at hlen ⊢
      obtain ⟨b1, _⟩ := sr_bad_type s bs hinit hlen h1 h2 ht
      refine ⟨by omega, by omega, fun h => absurd h hb, fun _ _ _ => rfl,
        fun _ _ h => absurd h ht, by rw [b1]; rfl, by rw [b1]; exact hinit, ?_⟩
      intro k hk
      rcases Nat.eq_zero_or_pos k with h0 | hpos
      · subst h0; exact hk0
      · have hk1 : k = 1 := by omega
        subst hk1
        obtain ⟨a1, a2, a3⟩ := sr_after_length s bs hinit (by omega) h1 h2
        exact ⟨a1, by rw [a2, a3]; omega⟩

/-- C28 witness: the 45-byte VIN frame followed by three more bytes. -/
theorem C28_stoneridge_frames_always_end_witness :
    exampleState.sr = srInitial ∧
    srFrameLen (exampleSrFrame ++ [1, 2, 3]) ≤ (exampleSrFrame ++ [1, 2, 3]).length ∧
    srFrameLen (exampleSrFrame ++ [1, 2, 3]) = 45 ∧
    (feed Tacho_StoneridgeHandler exampleState
        ((exampleSrFrame ++ [1, 2, 3]).take (srFrameLen (exampleSrFrame ++ [1, 2, 3])))).2
      = List.replicate (srFrameLen (exampleSrFrame ++ [1, 2, 3]) - 1) false ++ [true] :=
  ⟨rfl, by decide, by decide,
   (C28_stoneridge_frames_always_end exampleState (exampleSrFrame ++ [1, 2, 3]) rfl
      (by decide)).2.2.2.2.2.1⟩

theorem Tacho_StoneridgeCheckDIN_eq_call (s : Tacho_State) (b : Nat) :
    Tacho_StoneridgeCheckDIN s b
      = match Tacho_StoneridgeCheckDIN_call s with
        | none => s
        | some (idx, pos) => Tacho_StoneridgeCopyDIN s pos b idx := by
  unfold Tacho_StoneridgeCheckDIN Tacho_StoneridgeCheckDIN_call
  split_ifs <;> rfl

theorem Tacho_StoneridgeCopyDIN_eq_write (s : Tacho_State) (pos b : Nat)
    (idx : Tacho_DriverIdx_t) :
    (Tacho_StoneridgeCopyDIN s pos b idx).Tacho_Frame
      = s.Tacho_Frame.setDriver idx
          { country :=
              match Tacho_StoneridgeCopyDIN_countryIndex pos b with
              | some i => (s.Tacho_Frame.driver idx).country.set i b
              | none => (s.Tacho_Frame.driver idx).country,
            cardnr :=
              match Tacho_StoneridgeCopyDIN_cardIndex pos b with
              | some i => (s.Tacho_Frame.driver idx).cardnr.set i
                            (if b = 0xFF ∧ pos = 0 then 0 else b)
              | none => (s.Tacho_Frame.driver idx).cardnr } := by
  unfold Tacho_StoneridgeCopyDIN Tacho_StoneridgeCopyDIN_countryIndex
    Tacho_StoneridgeCopyDIN_cardIndex
  split_ifs <;> rfl

theorem Tacho_StoneridgeCopyDIN_positions (s : Tacho_State) (pos b : Nat)
    (idx : Tacho_DriverIdx_t)
    (h1 : s.sr.drv1_pos = 30 ∨ s.sr.drv1_pos = 0xFF)
    (h2 : s.sr.drv2_pos = 30 ∨ s.sr.drv2_pos = 0xFF) :
    ((Tacho_StoneridgeCopyDIN s pos b idx).sr.drv1_pos = 30
      ∨ (Tacho_StoneridgeCopyDIN s pos b idx).sr.drv1_pos = 0xFF) ∧
    ((Tacho_StoneridgeCopyDIN s pos b idx).sr.drv2_pos = 30
      ∨ (Tacho_StoneridgeCopyDIN s pos b idx).sr.drv2_pos = 0xFF) := by
  unfold Tacho_StoneridgeCopyDIN
  split_ifs
  · exact ⟨Or.inr rfl, Or.inr rfl⟩
  · exact ⟨h1, h2⟩
  · exact ⟨h1, h2⟩

theorem Tacho_StoneridgeCheckDIN_positions (s : Tacho_State) (b : Nat)
    (h1 : s.sr.drv1_pos = 30 ∨ s.sr.drv1_pos = 0xFF)
    (h2 : s.sr.drv2_pos = 30 ∨ s.sr.drv2_pos = 0xFF) :
    ((Tacho_StoneridgeCheckDIN s b).sr.drv1_pos = 30
      ∨ (Tacho_StoneridgeCheckDIN s b).sr.drv1_pos = 0xFF) ∧
    ((Tacho_StoneridgeCheckDIN s b).sr.drv2_pos = 30
      ∨ (Tacho_StoneridgeCheckDIN s b).sr.drv2_pos = 0xFF) := by
  unfold Tacho_StoneridgeCheckDIN
  split_ifs
  · exact ⟨h1, h2⟩
  · exact Tacho_StoneridgeCopyDIN_positions _ _ _ _ h1 h2
  · exact Tacho_StoneridgeCopyDIN_positions _ _ _ _ h1 h2
  · exact ⟨h1, h2⟩

theorem Tacho_StoneridgeHandler_switch_positions (s : Tacho_State) (b : Nat)
    (h1 : s.sr.drv1_pos = 30 ∨ s.sr.drv1_pos = 0xFF)
    (h2 : s.sr.drv2_pos = 30 ∨ s.sr.drv2_pos = 0xFF) :
    ((Tacho_StoneridgeHandler_switch s b).1.sr.drv1_pos = 30
      ∨ (Tacho_StoneridgeHandler_switch s b).1.sr.drv1_pos = 0xFF) ∧
    ((Tacho_StoneridgeHandler_switch s b).1.sr.drv2_pos = 30
      ∨ (Tacho_StoneridgeHandler_switch s b).1.sr.drv2_pos = 0xFF) := by
  unfold Tacho_StoneridgeHandler_switch Tacho_StoneridgeMsgProcess Tacho_StoneridgeInitHandler
  split_ifs <;> first
    | exact ⟨h1, h2⟩
    | exact ⟨Or.inr rfl, Or.inr rfl⟩
    | exact ⟨Or.inl rfl, h2⟩
    | exact ⟨h1, Or.inl rfl⟩

theorem Tacho_StoneridgeHandler_continue_positions (s : Tacho_State) (b : Nat)
    (hsw : (Tacho_StoneridgeHandler_switch s b).2 = false)
    (hpos : (srMid s b).sr.crc8_pos ≠ (srMid s b).sr.index) :
    (Tacho_StoneridgeHandler s b).1.sr.drv1_pos = (srMid s b).sr.drv1_pos ∧
    (Tacho_StoneridgeHandler s b).1.sr.drv2_pos = (srMid s b).sr.drv2_pos := by
  unfold srMid at hpos ⊢
  unfold Tacho_StoneridgeHandler
  simp only [hsw, Bool.false_eq_true, if_false, if_neg hpos]
  exact ⟨trivial, trivial⟩

theorem srReach_mid (s : Tacho_State) (b : Nat) (h : SrReach s.sr)
    (hsw : (Tacho_StoneridgeHandler_switch s b).2 = false) :
    ((Tacho_StoneridgeHandler_switch s b).1.sr.drv1_pos = 30
      ∨ (Tacho_StoneridgeHandler_switch s b).1.sr.drv1_pos = 0xFF) ∧
    ((Tacho_StoneridgeHandler_switch s b).1.sr.drv2_pos = 30
      ∨ (Tacho_StoneridgeHandler_switch s b).1.sr.drv2_pos = 0xFF) ∧
    (Tacho_StoneridgeHandler_switch s b).1.sr.index = s.sr.index ∧
    (Tacho_StoneridgeHandler_switch s b).1.sr.index
      ≤ (Tacho_StoneridgeHandler_switch s b).1.sr.crc8_pos ∧
    (Tacho_StoneridgeHandler_switch s b).1.sr.crc8_pos ≤ 50 ∧
    (s.sr.index = 3 → 47 ≤ (Tacho_StoneridgeHandler_switch s b).1.sr.crc8_pos) := by
  obtain ⟨h1, h2, h3⟩ := h
  obtain ⟨p1, p2⟩ := Tacho_StoneridgeHandler_switch_positions s b h1 h2
  obtain ⟨f1, f2, _, _, _⟩ := Tacho_StoneridgeHandler_switch_fields s b hsw
  have hfl : ¬ (s.sr.index = 3 ∧ (b < 45 ∨ b > 48)) := by
    intro hc
    have := (Tacho_StoneridgeHandler_switch_flag s b).mpr (Or.inl hc)
    rw [hsw] at this
    exact Bool.false_ne_true this
  refine ⟨p1, p2, f1, ?_, ?_, ?_⟩
  · rw [f1, f2]
    split_ifs with h3'
    · omega
    · omega
  · rw [f2]
    split_ifs with h3'
    · omega
    · omega
  · intro h3'
    rw [f2, if_pos h3']
    omega

theorem srReach_step (s : Tacho_State) (b : Nat) (h : SrReach s.sr) :
    SrReach (Tacho_StoneridgeHandler s b).1.sr := by
  have hinit : SrReach srInitial := ⟨Or.inr rfl, Or.inr rfl, Or.inl rfl⟩
  cases hsw : (Tacho_StoneridgeHandler_switch s b).2 with
  | true =>
    rw [Tacho_StoneridgeHandler_discard s b hsw]
    exact hinit
  | false =>
    obtain ⟨m1, m2, m3, m4, m5, m6⟩ := srReach_mid s b h hsw
    obtain ⟨c1, c2, _, _, _⟩ :=
      Tacho_StoneridgeCheckDIN_fields (Tacho_StoneridgeHandler_switch s b).1 b
    obtain ⟨p1, p2⟩ :=
      Tacho_StoneridgeCheckDIN_positions (Tacho_StoneridgeHandler_switch s b).1 b m1 m2
    by_cases hpos : (srMid s b).sr.crc8_pos = (srMid s b).sr.index
    · rw [Tacho_StoneridgeHandler_end s b hsw hpos]
      exact hinit
    · obtain ⟨k1, k2, k3, _⟩ := Tacho_StoneridgeHandler_continue s b hsw hpos
      obtain ⟨q1, q2⟩ := Tacho_StoneridgeHandler_continue_positions s b hsw hpos
      have e1 : (srMid s b).sr.index = s.sr.index := c1.trans m3
      have e2 : (srMid s b).sr.crc8_pos = (Tacho_StoneridgeHandler_switch s b).1.sr.crc8_pos := c2
      refine ⟨by rw [q1]; exact p1, by rw [q2]; exact p2, Or.inr ?_⟩
      rw [k2, k3, e2]
      rw [e2, e1] at hpos
      rw [m3] at m4
      obtain ⟨_, _, h3⟩ := h
      rw [e1]
      rcases h3 with h3 | h3
      · have := m6 h3
        omega
      · omega

theorem srReach_feed (bs : List Nat) :
    ∀ s : Tacho_State, SrReach s.sr → SrReach (feed Tacho_StoneridgeHandler s bs).1.sr := by
  induction bs with
  | nil => intro s h; exact h
  | cons b bs ih =>
    intro s h
    simp only [feed]
    exact ih _ (srReach_step s b h)

/-- C27: Stoneridge identity writes stay in bounds. After any byte sequence
`bs` fed to `Tacho_StoneridgeHandler` from the initial run-state, when the next
byte `b` is processed (and the `switch` does not discard the frame) every call
of `Tacho_StoneridgeCopyDIN` made by `Tacho_StoneridgeCheckDIN` is for field
position 30 with `pos` at most 18, so the element of `country[3]` it writes has
an index below 3 and the element of `cardnr[16]` it writes has an index below
16 (at most 15); `Tacho_StoneridgeCheckDIN` is exactly that call, and the call
writes exactly those elements. -/
theorem C27_stoneridge_identity_writes_in_bounds (s : Tacho_State) (bs : List Nat) (b : Nat)
    (hinit : s.sr = srInitial)
    (hsw : (Tacho_StoneridgeHandler_switch (feed Tacho_StoneridgeHandler s bs).1 b).2 = false) :
    (∀ idx pos,
      Tacho_StoneridgeCheckDIN_call
          (Tacho_StoneridgeHandler_switch (feed Tacho_StoneridgeHandler s bs).1 b).1
        = some (idx, pos) →
      pos ≤ 18 ∧
      pos = (feed Tacho_StoneridgeHandler s bs).1.sr.index - 30 ∧
      (∀ i, Tacho_StoneridgeCopyDIN_countryIndex pos b = some i → i < TACHO_MAX_COUNTRY_CODE) ∧
      (∀ i, Tacho_StoneridgeCopyDIN_cardIndex pos b = some i → i < TACHO_MAX_CARD_NR)) ∧
    (∀ (t : Tacho_State) (c : Nat),
      Tacho_StoneridgeCheckDIN t c
        = match Tacho_StoneridgeCheckDIN_call t with
          | none => t
          | some (idx, pos) => Tacho_StoneridgeCopyDIN t pos c idx) ∧
    (∀ (t : Tacho_State) (pos c : Nat) (idx : Tacho_DriverIdx_t),
      (Tacho_StoneridgeCopyDIN t pos c idx).Tacho_Frame
        = t.Tacho_Frame.setDriver idx
            { country :=
                match Tacho_StoneridgeCopyDIN_countryIndex pos c with
                | some i => (t.Tacho_Frame.driver idx).country.set i c
                | none => (t.Tacho_Frame.driver idx).country,
              cardnr :=
                match Tacho_StoneridgeCopyDIN_cardIndex pos c with
                | some i => (t.Tacho_Frame.driver idx).cardnr.set i
                              (if c = 0xFF ∧ pos = 0 then 0 else c)
                | none => (t.Tacho_Frame.driver idx).cardnr }) := by
  have hreach := srReach_feed bs s (by rw [hinit]; exact ⟨Or.inr rfl, Or.inr rfl, Or.inl rfl⟩)
  obtain ⟨m1, m2, m3, m4, m5, _⟩ := srReach_mid _ b hreach hsw
  refine ⟨?_, Tacho_StoneridgeCheckDIN_eq_call, Tacho_StoneridgeCopyDIN_eq_write⟩
  intro idx pos hcall
  have hpos : pos ≤ 18 ∧ pos = (feed Tacho_StoneridgeHandler s bs).1.sr.index - 30 := by
    rw [← m3]
    unfold Tacho_StoneridgeCheckDIN_call at hcall
    split_ifs at hcall with c1 c2 c3
    · simp only [Option.some.injEq, Prod.mk.injEq] at hcall
      omega
    · simp only [Option.some.injEq, Prod.mk.injEq] at hcall
      omega
  refine ⟨hpos.1, hpos.2, ?_, ?_⟩
  · intro i hi
    unfold Tacho_StoneridgeCopyDIN_countryIndex at hi
    split_ifs at hi with c1 c2
    simp only [Option.some.injEq] at hi
    omega
  · intro i hi
    unfold Tacho_StoneridgeCopyDIN_cardIndex at hi
    simp only [TACHO_MAX_COUNTRY_CODE, TACHO_MAX_CARD_NR] at hi ⊢
    split_ifs at hi with c1 c2
    · simp only [Option.some.injEq] at hi
      omega
    · simp only [Option.some.injEq] at hi
      omega

/-- C27 witness: the last card-number byte of a 48-byte DIN1 frame (offset 48,
`pos` 18, `cardnr[15]`). -/
theorem C27_stoneridge_identity_writes_in_bounds_witness :
    exampleState.sr = srInitial ∧
    Tacho_StoneridgeCheckDIN_call
        (Tacho_StoneridgeHandler_switch
          (feed Tacho_StoneridgeHandler exampleState ([48, 2] ++ List.replicate 43 1)).1 1).1
      = some (Tacho_DriverIdx_t.TACHO_DRIVER1, 18) ∧
    Tacho_StoneridgeCopyDIN_cardIndex 18 1 = some 15 ∧
    ((18 : Nat) ≤ 18 ∧
      18 = (feed Tacho_StoneridgeHandler exampleState ([48, 2] ++ List.replicate 43 1)).1.sr.index
            - 30 ∧
      (∀ i, Tacho_StoneridgeCopyDIN_countryIndex 18 1 = some i → i < TACHO_MAX_COUNTRY_CODE) ∧
      (∀ i, Tacho_StoneridgeCopyDIN_cardIndex 18 1 = some i → i < TACHO_MAX_CARD_NR)) :=
  ⟨rfl, by decide, by decide,
   (C27_stoneridge_identity_writes_in_bounds exampleState ([48, 2] ++ List.replicate 43 1) 1
      rfl (by decide)).1 Tacho_DriverIdx_t.TACHO_DRIVER1 18 (by decide)⟩

theorem vdoDrv_step (frame : List Nat) (P n : Nat) (d0 d : Tacho_DriverID_t)
    (h : VdoDrv frame P n d0 d) :
    VdoDrv frame P (n + 1) d0
      (vdoDriverStep P (P + vdoByte frame P + 1) n (vdoByte frame n) d) := by
  obtain ⟨i1, i2, i3, i4, i5⟩ := h
  unfold vdoDriverStep VdoDrv
  generalize hL : vdoByte frame P = L at *
  have hcase : n < P ∨ n = P ∨ (P < n ∧ n < P + L + 1) ∨ P + L + 1 ≤ n := by omega
  rcases hcase with hc | hc | hc | hc
  · rw [if_neg (by omega), if_neg (by omega)]
    exact ⟨i1, i2, fun _ => i3 (by omega), fun _ => by omega, fun _ => by omega⟩
  · rw [if_pos hc]
    have hd := i3 (by omega)
    subst hc
    rw [hL]
    by_cases hb : L = 0
    · rw [if_pos hb, hd]
      refine ⟨by rw [← hd]; exact i1, by simp [← hd, i2], fun _ => by omega, fun _ _ => rfl,
        fun _ hne => absurd hb hne⟩
    · rw [if_neg hb, hd]
      refine ⟨by rw [← hd]; exact i1, by rw [← hd]; exact i2, fun _ => by omega,
        fun _ h0 => absurd h0 hb, fun _ _ => ⟨?_, fun j => ?_⟩⟩
      · rw [if_neg (by omega)]
      · rw [if_neg (by omega)]
  · rw [if_neg (by omega), if_pos hc, Tacho_VdoCopyDIN_eq _ _ _ i1]
    have hne : L ≠ 0 := by omega
    obtain ⟨j1, j2⟩ := i5 (by omega) hne
    by_cases hp : n - P - 1 = 1
    · rw [if_pos hp]
      refine ⟨Tacho_GetCountryCode_length _, i2, fun _ => by omega, fun _ h0 => absurd h0 hne,
        fun _ _ => ⟨?_, fun j => ?_⟩⟩
      · show Tacho_GetCountryCode (vdoByte frame n) = _
        rw [if_pos (by omega)]
        congr 2
        omega
      · show d.cardnr.getD j 0 = _
        rw [j2 j]
        split_ifs <;> first | rfl | (exfalso; omega)
    · rw [if_neg hp]
      by_cases hq : 1 < n - P - 1 ∧ n - P - 1 - 2 < 16
      · rw [if_pos hq]
        refine ⟨i1, by simp [i2], fun _ => by omega, fun _ h0 => absurd h0 hne,
          fun _ _ => ⟨?_, fun j => ?_⟩⟩
        · show d.country = _
          rw [j1]
          split_ifs <;> first | rfl | (exfalso; omega)
        · show (d.cardnr.set (n - P - 1 - 2) (vdoByte frame n)).getD j 0 = _
          rw [getD_set_eq, j2 j]
          split_ifs <;> first | rfl | (exfalso; omega) | (congr 1; omega)
      · rw [if_neg hq]
        refine ⟨i1, i2, fun _ => by omega, fun _ h0 => absurd h0 hne,
          fun _ _ => ⟨?_, fun j => ?_⟩⟩
        · rw [j1]
          split_ifs <;> first | rfl | (exfalso; omega)
        · rw [j2 j]
          split_ifs <;> first | rfl | (exfalso; omega)
  · rw [if_neg (by omega), if_neg (by omega)]
    refine ⟨i1, i2, fun _ => by omega, fun _ h0 => i4 (by omega) h0,
      fun _ hne => ⟨?_, fun j => ?_⟩⟩
    · rw [(i5 (by omega) hne).1]
      split_ifs <;> first | rfl | (exfalso; omega)
    · rw [(i5 (by omega) hne).2 j]
      split_ifs <;> first | rfl | (exfalso; omega)

theorem vdoMid_driverStep (frame : List Nat) (hl : VdoLayout frame) (k : Nat) (S : Tacho_State)
    (b : Nat) (hv : S.vdo = vdoAt frame k) (hk : 5 + k ≤ vdoCrcPos frame) :
    (vdoMid S b).Tacho_Frame.driver_DRIVER1
      = vdoDriverStep (vdoDrv1Pos frame) (vdoDrv1Pos frame + vdoByte frame (vdoDrv1Pos frame) + 1)
          (5 + k) b S.Tacho_Frame.driver_DRIVER1 ∧
    (vdoMid S b).Tacho_Frame.driver_DRIVER2
      = vdoDriverStep (vdoDrv2Pos frame) (vdoDrv2Pos frame + vdoByte frame (vdoDrv2Pos frame) + 1)
          (5 + k) b S.Tacho_Frame.driver_DRIVER2 := by
  obtain ⟨e1, e2⟩ := vdoMid_drivers frame k S b hv
  have hl1 := hl.1
  have hP1 : vdoCstrPos frame < vdoDrv1Pos frame := by
    show vdoCstrPos frame < vdoCstrPos frame + _ + 1
    omega
  have hP2 : vdoDrv2Pos frame = vdoDrv1Pos frame + vdoByte frame (vdoDrv1Pos frame) + 1 := rfl
  have hPC : vdoCrcPos frame = vdoDrv2Pos frame + vdoByte frame (vdoDrv2Pos frame) + 1 := rfl
  rw [← hP2, ← hPC]
  generalize vdoCstrPos frame = C at *
  generalize vdoByte frame (vdoDrv1Pos frame) = L1 at *
  generalize vdoByte frame (vdoDrv2Pos frame) = L2 at *
  generalize vdoDrv1Pos frame = P1 at *
  generalize vdoDrv2Pos frame = P2 at *
  generalize vdoCrcPos frame = PC at *
  unfold vdoDriverStep
  rw [e1, e2]
  constructor
  · split_ifs <;> first | (exfalso; omega) | (with_reducible rfl)
  · split_ifs <;> first | (exfalso; omega) | (with_reducible rfl)

theorem vdo_run_drivers (frame : List Nat) (hl : VdoLayout frame) (s : Tacho_State)
    (hinit : s.vdo = vdoInitial)
    (h1c : s.Tacho_Frame.driver_DRIVER1.country.length = 3)
    (h1n : s.Tacho_Frame.driver_DRIVER1.cardnr.length = 16)
    (h2c : s.Tacho_Frame.driver_DRIVER2.country.length = 3)
    (h2n : s.Tacho_Frame.driver_DRIVER2.cardnr.length = 16) :
    ∀ k, 5 + k ≤ vdoCrcPos frame →
      VdoDrv frame (vdoDrv1Pos frame) (5 + k) s.Tacho_Frame.driver_DRIVER1
        (feed Tacho_VdoHandler s (frame.take k)).1.Tacho_Frame.driver_DRIVER1 ∧
      VdoDrv frame (vdoDrv2Pos frame) (5 + k) s.Tacho_Frame.driver_DRIVER2
        (feed Tacho_VdoHandler s (frame.take k)).1.Tacho_Frame.driver_DRIVER2 := by
  intro k
  induction k with
  | zero =>
    intro _
    have hP1 : 5 ≤ vdoDrv1Pos frame := by
      simp only [vdoDrv1Pos, vdoCstrPos]; omega
    have hP2 : 5 ≤ vdoDrv2Pos frame := by
      simp only [vdoDrv2Pos, vdoDrv1Pos, vdoCstrPos]; omega
    exact ⟨⟨h1c, h1n, fun _ => rfl, fun h => by omega, fun h => by omega⟩,
      ⟨h2c, h2n, fun _ => rfl, fun h => by omega, fun h => by omega⟩⟩
  | succ k ih =>
    intro hk
    obtain ⟨ih1, ih2⟩ := ih (by omega)
    obtain ⟨_, r2, _⟩ := vdo_run frame hl s hinit k (by omega)
    obtain ⟨q1, _, _⟩ := vdo_run frame hl s hinit (k + 1) hk
    have hklen : k < frame.length := by
      rw [hl.2]; simp only [TACHO_VDO_SEQSZ]; omega
    rw [take_succ_getD frame k hklen] at q1 ⊢
    rw [List.replicate_succ'] at q1
    obtain ⟨_, f2, f3⟩ := feed_snoc_flags _ _ _ _ _ _ q1
    obtain ⟨m1, m2⟩ := vdoMid_driverStep frame hl k _ (frame.getD k 0) r2 (by omega)
    rw [f3, Tacho_VdoHandler_false_frame _ _ f2, m1, m2, ← vdoByte_add frame k]
    exact ⟨vdoDrv_step frame _ _ _ _ ih1, vdoDrv_step frame _ _ _ _ ih2⟩

theorem Tacho_VdoInitHandler_frame (s : Tacho_State) :
    (Tacho_VdoInitHandler s).Tacho_Frame = s.Tacho_Frame := rfl

theorem Tacho_CopyToCache_frame (s : Tacho_State) :
    (Tacho_CopyToCache s).Tacho_Frame = s.Tacho_Frame := rfl

theorem vdo_complete_drivers (frame : List Nat) (hl : VdoLayout frame) (s : Tacho_State)
    (hinit : s.vdo = vdoInitial)
    (h1c : s.Tacho_Frame.driver_DRIVER1.country.length = 3)
    (h1n : s.Tacho_Frame.driver_DRIVER1.cardnr.length = 16)
    (h2c : s.Tacho_Frame.driver_DRIVER2.country.length = 3)
    (h2n : s.Tacho_Frame.driver_DRIVER2.cardnr.length = 16) :
    VdoDrv frame (vdoDrv1Pos frame) (vdoCrcPos frame + 1) s.Tacho_Frame.driver_DRIVER1
      (feed Tacho_VdoHandler s frame).1.Tacho_Frame.driver_DRIVER1 ∧
    VdoDrv frame (vdoDrv2Pos frame) (vdoCrcPos frame + 1) s.Tacho_Frame.driver_DRIVER2
      (feed Tacho_VdoHandler s frame).1.Tacho_Frame.driver_DRIVER2 := by
  have hge : 38 ≤ vdoCrcPos frame := by
    simp only [vdoCrcPos, vdoDrv2Pos, vdoDrv1Pos, vdoCstrPos]; omega
  obtain ⟨_, c2, _⟩ := vdo_complete frame hl s hinit
  obtain ⟨_, r2, _⟩ := vdo_run frame hl s hinit (vdoCrcPos frame - 5) (by omega)
  obtain ⟨ih1, ih2⟩ := vdo_run_drivers frame hl s hinit h1c h1n h2c h2n (vdoCrcPos frame - 5)
    (by omega)
  obtain ⟨m1, m2⟩ := vdoMid_driverStep frame hl (vdoCrcPos frame - 5) _
    (vdoByte frame (vdoCrcPos frame)) r2 (by omega)
  have hfr : (feed Tacho_VdoHandler s frame).1.Tacho_Frame
      = (vdoMid (feed Tacho_VdoHandler s (frame.take (vdoCrcPos frame - 5))).1
          (vdoByte frame (vdoCrcPos frame))).Tacho_Frame := by
    rw [c2]
    generalize vdoMid (feed Tacho_VdoHandler s (frame.take (vdoCrcPos frame - 5))).1
      (vdoByte frame (vdoCrcPos frame)) = M
    rw [Tacho_VdoInitHandler_frame]
    split_ifs
    · rw [(Tacho_NotifyFrameReceived_tco1 _ _).2.2.1, Tacho_CopyToCache_frame]
    · rfl
  have hidx : 5 + (vdoCrcPos frame - 5) = vdoCrcPos frame := by omega
  rw [hidx] at m1 m2 ih1 ih2
  rw [hfr, m1, m2]
  exact ⟨vdoDrv_step frame _ _ _ _ ih1, vdoDrv_step frame _ _ _ _ ih2⟩

/-- C23 (amended): VDO driver-field content. In a VDO frame (offsets within
8 bits, run-state initial, identity buffers of sizes 3 and 16), for each driver
the first byte of the driver field, at the field start `P`, is the length byte
of the field. If it is 0, that driver's card number is cleared to empty (its
first byte is set to 0, nothing else changes) as soon as the byte is processed,
and the identity stays so to the end of the frame. Otherwise the byte at
`P + 1` is not used, the byte at `P + 2` (when the field has at least 2 bytes)
is the country-code selector and the decoded country code equals the lookup of
that byte, and the bytes from `P + 3` on that lie inside the field, up to 16,
are stored in order as the card number (bytes beyond the 16th are ignored, and
card-number bytes the field does not reach keep their previous value). -/
theorem C23_vdo_driver_field_content_amended (frame : List Nat) (hl : VdoLayout frame)
    (s : Tacho_State) (hinit : s.vdo = vdoInitial)
    (h1c : s.Tacho_Frame.driver_DRIVER1.country.length = 3)
    (h1n : s.Tacho_Frame.driver_DRIVER1.cardnr.length = 16)
    (h2c : s.Tacho_Frame.driver_DRIVER2.country.length = 3)
    (h2n : s.Tacho_Frame.driver_DRIVER2.cardnr.length = 16)
    (idx : Tacho_DriverIdx_t) :
    (vdoByte frame (vdoFieldStart frame idx) = 0 →
      (feed Tacho_VdoHandler s
          (frame.take (vdoFieldStart frame idx - 5 + 1))).1.Tacho_Frame.driver idx
        = { s.Tacho_Frame.driver idx with
              cardnr := (s.Tacho_Frame.driver idx).cardnr.set 0 0 } ∧
      (feed Tacho_VdoHandler s frame).1.Tacho_Frame.driver idx
        = { s.Tacho_Frame.driver idx with
              cardnr := (s.Tacho_Frame.driver idx).cardnr.set 0 0 } ∧
      ((feed Tacho_VdoHandler s frame).1.Tacho_Frame.driver idx).cardnr.getD 0 0 = 0) ∧
    (vdoByte frame (vdoFieldStart frame idx) ≠ 0 →
      ((feed Tacho_VdoHandler s frame).1.Tacho_Frame.driver idx).country
        = (if 2 ≤ vdoByte frame (vdoFieldStart frame idx)
            then Tacho_GetCountryCode (vdoByte frame (vdoFieldStart frame idx + 2))
            else (s.Tacho_Frame.driver idx).country) ∧
      ∀ j, ((feed Tacho_VdoHandler s frame).1.Tacho_Frame.driver idx).cardnr.getD j 0
            = if j < 16 ∧ j + 3 ≤ vdoByte frame (vdoFieldStart frame idx)
                then vdoByte frame (vdoFieldStart frame idx + 3 + j)
                else (s.Tacho_Frame.driver idx).cardnr.getD j 0) := by
  have hC : 35 ≤ vdoCstrPos frame := by
    simp only [vdoCstrPos]; omega
  have hP1 : vdoDrv1Pos frame = vdoCstrPos frame + vdoByte frame (vdoCstrPos frame) + 1 := rfl
  have hP2 : vdoDrv2Pos frame = vdoDrv1Pos frame + vdoByte frame (vdoDrv1Pos frame) + 1 := rfl
  have hPC : vdoCrcPos frame = vdoDrv2Pos frame + vdoByte frame (vdoDrv2Pos frame) + 1 := rfl
  obtain ⟨e1, e2⟩ := vdo_complete_drivers frame hl s hinit h1c h1n h2c h2n
  obtain ⟨a1, _⟩ := vdo_run_drivers frame hl s hinit h1c h1n h2c h2n
    (vdoDrv1Pos frame - 5 + 1) (by omega)
  obtain ⟨_, a2⟩ := vdo_run_drivers frame hl s hinit h1c h1n h2c h2n
    (vdoDrv2Pos frame - 5 + 1) (by omega)
  have key : ∀ (P : Nat) (d0 dm df : Tacho_DriverID_t), d0.cardnr.length = 16 →
      P + vdoByte frame P + 1 ≤ vdoCrcPos frame → 5 ≤ P →
      VdoDrv frame P (5 + (P - 5 + 1)) d0 dm → VdoDrv frame P (vdoCrcPos frame + 1) d0 df →
      (vdoByte frame P = 0 →
        dm = { d0 with cardnr := d0.cardnr.set 0 0 } ∧
        df = { d0 with cardnr := d0.cardnr.set 0 0 } ∧ df.cardnr.getD 0 0 = 0) ∧
      (vdoByte frame P ≠ 0 →
        df.country = (if 2 ≤ vdoByte frame P then Tacho_GetCountryCode (vdoByte frame (P + 2))
                      else d0.country) ∧
        ∀ j, df.cardnr.getD j 0
              = if j < 16 ∧ j + 3 ≤ vdoByte frame P then vdoByte frame (P + 3 + j)
                  else d0.cardnr.getD j 0) := by
    intro P d0 dm df hn hE hP ⟨_, _, _, m4, _⟩ ⟨_, _, _, f4, f5⟩
    generalize vdoCrcPos frame = PC at *
    generalize vdoByte frame P = L at *
    refine ⟨fun h0 => ⟨m4 (by omega) h0, f4 (by omega) h0, ?_⟩, fun hne => ⟨?_, fun j => ?_⟩⟩
    · rw [f4 (by omega) h0]
      show (d0.cardnr.set 0 0).getD 0 0 = 0
      rw [getD_set_eq, if_pos ⟨rfl, by omega⟩]
    · rw [(f5 (by omega) hne).1]
      split_ifs <;> first | rfl | (exfalso; omega)
    · rw [(f5 (by omega) hne).2 j]
      split_ifs <;> first | rfl | (exfalso; omega)
  cases idx with
  | TACHO_DRIVER1 =>
    exact key (vdoDrv1Pos frame) _ _ _ h1n (by omega) (by omega) a1 e1
  | TACHO_DRIVER2 =>
    exact key (vdoDrv2Pos frame) _ _ _ h2n (by omega) (by omega) a2 e2

/-- C23 witness: the driver-2 field of the example frame (length byte 18, an
unused byte, selector 0x0D, 16 card-number bytes). -/
theorem C23_vdo_driver_field_content_amended_witness :
    VdoLayout exampleVdoDinFrame ∧ exampleState.vdo = vdoInitial ∧
    vdoByte exampleVdoDinFrame (vdoFieldStart exampleVdoDinFrame Tacho_DriverIdx_t.TACHO_DRIVER2)
      ≠ 0 ∧
    ((feed Tacho_VdoHandler exampleState exampleVdoDinFrame).1.Tacho_Frame.driver
        Tacho_DriverIdx_t.TACHO_DRIVER2).country
      = (if 2 ≤ vdoByte exampleVdoDinFrame
                  (vdoFieldStart exampleVdoDinFrame Tacho_DriverIdx_t.TACHO_DRIVER2)
          then Tacho_GetCountryCode (vdoByte exampleVdoDinFrame
                  (vdoFieldStart exampleVdoDinFrame Tacho_DriverIdx_t.TACHO_DRIVER2 + 2))
          else (exampleState.Tacho_Frame.driver Tacho_DriverIdx_t.TACHO_DRIVER2).country) :=
  ⟨⟨by decide, by decide⟩, rfl, by decide,
   ((C23_vdo_driver_field_content_amended exampleVdoDinFrame ⟨by decide, by decide⟩ exampleState
      rfl rfl rfl rfl rfl Tacho_DriverIdx_t.TACHO_DRIVER2).2 (by decide)).1⟩

/-- C23 counterexample: in the example frame (valid checksum) the first byte
of the driver-2 field, at offset 54, is 18 (not 0); the lookup of 18 is "FIN",
yet the decoded country code of driver 2 is "D  ", the lookup of the byte 0x0D
at offset 56; and the card number starts with the byte at offset 57, not with
the bytes that follow the first byte of the field (0 and 0x0D). -/
theorem C23_vdo_driver_field_content_counterexample :
    VdoLayout exampleVdoDinFrame ∧ exampleState.vdo = vdoInitial ∧
    (feed Tacho_VdoHandler exampleState exampleVdoDinFrame).2
      = List.replicate 68 false ++ [true] ∧
    (feed Tacho_VdoHandler exampleState exampleVdoDinFrame).1.trace
      = [Tacho_Event.CopyToCache, Tacho_Event.NotifyFrameReceived,
         Tacho_Event.FMI_process_j1939_event_TCO1_AVAILABLE] ∧
    vdoFieldStart exampleVdoDinFrame Tacho_DriverIdx_t.TACHO_DRIVER2 = 54 ∧
    vdoByte exampleVdoDinFrame 54 = 18 ∧
    Tacho_GetCountryCode 18 = [70, 73, 78] ∧
    ((feed Tacho_VdoHandler exampleState exampleVdoDinFrame).1.Tacho_Frame.driver
        Tacho_DriverIdx_t.TACHO_DRIVER2).country = [68, 32, 32] ∧
    ((feed Tacho_VdoHandler exampleState exampleVdoDinFrame).1.Tacho_Frame.driver
        Tacho_DriverIdx_t.TACHO_DRIVER2).country
      ≠ Tacho_GetCountryCode (vdoByte exampleVdoDinFrame
          (vdoFieldStart exampleVdoDinFrame Tacho_DriverIdx_t.TACHO_DRIVER2)) ∧
    vdoByte exampleVdoDinFrame 55 = 0 ∧ vdoByte exampleVdoDinFrame 56 = 0x0D ∧
    ((feed Tacho_VdoHandler exampleState exampleVdoDinFrame).1.Tacho_Frame.driver
        Tacho_DriverIdx_t.TACHO_DRIVER2).cardnr
      = [49, 50, 51, 52, 53, 54, 55, 56, 57, 48, 49, 50, 51, 52, 53, 54] ∧
    ((feed Tacho_VdoHandler exampleState exampleVdoDinFrame).1.Tacho_Frame.driver
        Tacho_DriverIdx_t.TACHO_DRIVER2).cardnr.getD 0 0
      ≠ vdoByte exampleVdoDinFrame
          (vdoFieldStart exampleVdoDinFrame Tacho_DriverIdx_t.TACHO_DRIVER2 + 1) :=
  ⟨⟨by decide, by decide⟩, rfl, by decide, by decide, by decide, by decide, by decide, by decide,
   by decide, by decide, by decide, by decide, by decide⟩

end Tacho
